import Mathlib

/-!
# Verification of the `turg.c` instrument-link protocol

A shallow embedding of the frame codec (`fcstab`, `pppfcs`, `_Load`, `_Parse`), of the
command processor (`_GetSet`, `_Process`), of the polling loop (`_Poll`), of the commander
(`_Command`, `_SAvg`, `_SCal`) and of the responder (`_Child`) of `src/turg.c`, followed by
theorems about them.

Conventions of the embedding:
* a byte is a `Nat` below 256, a `uint16_t` a `Nat` below 65536; every store into a narrower
  C type is written with an explicit `%`;
* `size_t` arithmetic wraps modulo `2 ^ 64`;
* a C function that returns `rc` and mutates `*io` becomes a function returning the pair
  `(rc, io)`;
* memory reached through a pointer is a function from the offset to the byte stored there,
  so that a read outside the received bytes yields whatever the surrounding memory holds.
-/

namespace Turg

/-! ## Constants -/

/-- The start/stop flag `'~'`. -/
def TWIDDLE : Nat := 126

/-- Number of addressable entries of each register array. -/
def _CMD_NDEVS : Nat := 32

/-- Size of every message buffer. -/
def MSGBUFLEN : Nat := 256

/-- Number of sensor records. -/
def _NSENSORS : Nat := 8

/-- Number of named digital flags. -/
def _NFLAGS : Nat := 13

def TID_A2D : Nat := 65
def TID_D2A : Nat := 68
def TID_DIO : Nat := 70
def TID_GLOBAL : Nat := 71
def TID_PRES : Nat := 80
def TID_STEP : Nat := 83
def TID_TEMP : Nat := 84

def CMD_NDEVS : Nat := _CMD_NDEVS
def CMD_QUIT : Nat := 113
def CMD_NAK : Nat := 0x80

/-- Modulus of `size_t` arithmetic, `2 ^ 64`. -/
def SIZE_MOD : Nat := 18446744073709551616

/-- The `size_t` difference `a - b`, which wraps around below zero. -/
def szsub (a b : Nat) : Nat :=
  if b % SIZE_MOD ≤ a % SIZE_MOD then a % SIZE_MOD - b % SIZE_MOD
  else SIZE_MOD - (b % SIZE_MOD - a % SIZE_MOD)

/-! ## X25/FCS/PPP CRC-16 -/

/-- The table `fcstab[256]`. -/
def fcstab : List Nat := [
   0x0000, 0x1189, 0x2312, 0x329b, 0x4624, 0x57ad, 0x6536, 0x74bf,
   0x8c48, 0x9dc1, 0xaf5a, 0xbed3, 0xca6c, 0xdbe5, 0xe97e, 0xf8f7,
   0x1081, 0x0108, 0x3393, 0x221a, 0x56a5, 0x472c, 0x75b7, 0x643e,
   0x9cc9, 0x8d40, 0xbfdb, 0xae52, 0xdaed, 0xcb64, 0xf9ff, 0xe876,
   0x2102, 0x308b, 0x0210, 0x1399, 0x6726, 0x76af, 0x4434, 0x55bd,
   0xad4a, 0xbcc3, 0x8e58, 0x9fd1, 0xeb6e, 0xfae7, 0xc87c, 0xd9f5,
   0x3183, 0x200a, 0x1291, 0x0318, 0x77a7, 0x662e, 0x54b5, 0x453c,
   0xbdcb, 0xac42, 0x9ed9, 0x8f50, 0xfbef, 0xea66, 0xd8fd, 0xc974,
   0x4204, 0x538d, 0x6116, 0x709f, 0x0420, 0x15a9, 0x2732, 0x36bb,
   0xce4c, 0xdfc5, 0xed5e, 0xfcd7, 0x8868, 0x99e1, 0xab7a, 0xbaf3,
   0x5285, 0x430c, 0x7197, 0x601e, 0x14a1, 0x0528, 0x37b3, 0x263a,
   0xdecd, 0xcf44, 0xfddf, 0xec56, 0x98e9, 0x8960, 0xbbfb, 0xaa72,
   0x6306, 0x728f, 0x4014, 0x519d, 0x2522, 0x34ab, 0x0630, 0x17b9,
   0xef4e, 0xfec7, 0xcc5c, 0xddd5, 0xa96a, 0xb8e3, 0x8a78, 0x9bf1,
   0x7387, 0x620e, 0x5095, 0x411c, 0x35a3, 0x242a, 0x16b1, 0x0738,
   0xffcf, 0xee46, 0xdcdd, 0xcd54, 0xb9eb, 0xa862, 0x9af9, 0x8b70,
   0x8408, 0x9581, 0xa71a, 0xb693, 0xc22c, 0xd3a5, 0xe13e, 0xf0b7,
   0x0840, 0x19c9, 0x2b52, 0x3adb, 0x4e64, 0x5fed, 0x6d76, 0x7cff,
   0x9489, 0x8500, 0xb79b, 0xa612, 0xd2ad, 0xc324, 0xf1bf, 0xe036,
   0x18c1, 0x0948, 0x3bd3, 0x2a5a, 0x5ee5, 0x4f6c, 0x7df7, 0x6c7e,
   0xa50a, 0xb483, 0x8618, 0x9791, 0xe32e, 0xf2a7, 0xc03c, 0xd1b5,
   0x2942, 0x38cb, 0x0a50, 0x1bd9, 0x6f66, 0x7eef, 0x4c74, 0x5dfd,
   0xb58b, 0xa402, 0x9699, 0x8710, 0xf3af, 0xe226, 0xd0bd, 0xc134,
   0x39c3, 0x284a, 0x1ad1, 0x0b58, 0x7fe7, 0x6e6e, 0x5cf5, 0x4d7c,
   0xc60c, 0xd785, 0xe51e, 0xf497, 0x8028, 0x91a1, 0xa33a, 0xb2b3,
   0x4a44, 0x5bcd, 0x6956, 0x78df, 0x0c60, 0x1de9, 0x2f72, 0x3efb,
   0xd68d, 0xc704, 0xf59f, 0xe416, 0x90a9, 0x8120, 0xb3bb, 0xa232,
   0x5ac5, 0x4b4c, 0x79d7, 0x685e, 0x1ce1, 0x0d68, 0x3ff3, 0x2e7a,
   0xe70e, 0xf687, 0xc41c, 0xd595, 0xa12a, 0xb0a3, 0x8238, 0x93b1,
   0x6b46, 0x7acf, 0x4854, 0x59dd, 0x2d62, 0x3ceb, 0x0e70, 0x1ff9,
   0xf78f, 0xe606, 0xd49d, 0xc514, 0xb1ab, 0xa022, 0x92b9, 0x8330,
   0x7bc7, 0x6a4e, 0x58d5, 0x495c, 0x3de3, 0x2c6a, 0x1ef1, 0x0f78]

/-- The function `pppfcs(fcs, b, nb)`, the `nb` bytes at `b` given as a list:
`while (nb--) fcs = (fcs >> 8) ^ fcstab[(fcs ^ *b++) & 0xff];`.
The index `(fcs ^ b) & 0xff` is below 256, so the table read is always in range. -/
def pppfcs (fcs : Nat) : List Nat → Nat
  | [] => fcs
  | b :: bs => pppfcs ((fcs >>> 8) ^^^ fcstab.getD ((fcs ^^^ b) &&& 0xff) 0) bs

/-! ## Encoding: `_Load` -/

/-- The function `_Load(io, tid, cmd, s, ns, iov)`: the bytes left in `iov` (`iov_len` of them).
The payload `s` is the list of its `ns` bytes (`s == NULL` or `ns == 0` is the empty list).
The frame is assembled in the local `uint8_t b[MSGBUFLEN]`; nothing in the function checks
that it fits, and a frame longer than `MSGBUFLEN` writes past the end of `b`, which has no
defined result: the embedding returns `none` there. -/
def _Load (msgfmt : Int) (tid cmd : Nat) (s : List Nat) : Option (List Nat) :=
  if msgfmt = 0 then
    -- case 0: ascii/hex with CR/LF
    let b := [tid % 256, cmd % 256] ++ s.map (fun x => x % 256) ++ [13, 10]
    if b.length ≤ MSGBUFLEN then some b else none
  else
    -- default, case 2, case 1: binary, with start/stop flags when msgfmt == 2
    let start := if msgfmt = 2 then [TWIDDLE] else []
    -- count placeholder, target id, target cmd, payload
    let body := [0, tid % 256, cmd % 256] ++ s.map (fun x => x % 256)
    -- *bs = (be - bs);
    let body := (body.length % 256) :: body.tail
    let crc := pppfcs 0xffff body
    let b := start ++ body ++ [(crc >>> 8) &&& 0xFF, crc &&& 0xFF]
      ++ (if msgfmt = 2 then [TWIDDLE] else [])
    if b.length ≤ MSGBUFLEN then some b else none

/-! ## Channel state and decoding: `_Parse` -/

/-- The C `struct iovec`: `iov_base` gives the byte stored at each offset from the base
pointer (offsets taken modulo `2 ^ 64`), `iov_len` is the number of received bytes. -/
structure iovec where
  iov_base : Nat → Nat
  iov_len : Nat

/-- The fields of `struct IO_s` used by the codec and the command processor. The pointers
`bs` and `be` are kept as offsets from `b`; `rtv`/`wtv` are the read/write time stamps. -/
structure IO_s where
  role : String
  msgfmt : Int
  ntimeout : Int
  maxtimeouts : Int
  nretry : Int
  maxretrys : Int
  rtv : Nat
  wtv : Nat
  nb : Nat
  b : Nat → Nat
  bs : Nat
  be : Nat
  val : Nat
  retval : Nat
  tid : Nat
  cmd : Nat
  valid : Bool
  retvalid : Bool
  ADvals : Nat → Nat
  Fvals : Nat → Nat
  Tvals : Nat → Nat
  Pvals : Nat → Nat
  Spos : Nat

/-- The byte `io->b[i]`. -/
def IO_s.rdb (io : IO_s) (i : Nat) : Nat := io.b (i % SIZE_MOD) % 256

/-- The byte `io->bs[i]`. -/
def IO_s.rdbs (io : IO_s) (i : Nat) : Nat := io.b ((io.bs + i) % SIZE_MOD) % 256

/-- The `n` bytes starting at `io->bs`. -/
def IO_s.bytes (io : IO_s) (n : Nat) : List Nat := (List.range n).map io.rdbs

/-- The libc predicate `isxdigit` (in the "C" locale). -/
def isxdigit (c : Nat) : Bool :=
  (48 ≤ c && c ≤ 57) || (65 ≤ c && c ≤ 70) || (97 ≤ c && c ≤ 102)

/-- The loop `for (int i = 0; i < 4; i++)` of `_Parse`, started at `i` with `k` iterations
left. The flag is `false` when the loop left through `goto exit`. -/
def parseHex (io : IO_s) : Nat → Nat → Bool × IO_s
  | _, 0 => (true, io)
  | i, k + 1 =>
    let c := io.rdbs (2 + i)
    if ¬ isxdigit c then (false, io)
    else
      -- io->val <<= 4;
      let io := { io with val := (io.val <<< 4) % 65536 }
      let io :=
        if 48 ≤ c ∧ c ≤ 57 then { io with val := (io.val + (c - 48)) % 65536 }
        else if 65 ≤ c ∧ c ≤ 70 then { io with val := (io.val + (c - 65)) % 65536 }
        else if 97 ≤ c ∧ c ≤ 102 then { io with val := (io.val + (c - 97)) % 65536 }
        else io
      parseHex io (i + 1) k

/-- The `case 1` arm of `_Parse`, up to its `break`. -/
def parseBinary (io : IO_s) : Bool × IO_s :=
  if io.rdbs 0 ≠ szsub io.nb 2 then (false, io)
  else
    let crc := pppfcs 0xffff (io.bytes (szsub io.nb 2))
    if io.rdbs (szsub io.nb 2) ≠ (crc >>> 8) &&& 0xFF
        ∨ io.rdbs (szsub io.nb 1) ≠ crc &&& 0xFF then (false, io)
    else
      let io := { io with tid := io.rdbs 1 }
      let io := { io with cmd := io.rdbs 2 }
      if szsub io.nb 2 ≥ 5 then
        (true, { io with valid := true, val := (io.rdbs 3 <<< 8) ||| io.rdbs 4 })
      else (true, io)

/-- The `case 0` arm of `_Parse`, up to its `break`. -/
def parseAscii (io : IO_s) : Bool × IO_s :=
  if ¬ (io.rdb (szsub io.nb 2) = 13 ∧ io.rdb (szsub io.nb 1) = 10) then (false, io)
  else
    let io := { io with tid := io.rdbs 0 }
    let io := { io with cmd := io.rdbs 1 }
    if szsub io.nb 2 ≥ 6 then
      parseHex { io with valid := true, val := 0 } 0 4
    else (true, io)

/-- The assignments of `_Parse` before its `switch`. -/
def parseEntry (io : IO_s) (iov : iovec) : IO_s :=
  let io := { io with b := iov.iov_base, nb := iov.iov_len % SIZE_MOD, bs := 0 }
  { io with valid := false, val := 0xffff, retvalid := false, retval := 0xffff }

/-- The statements `io->bs++; io->nb -= 2;` of `_Parse`. -/
def parseStrip (io : IO_s) : IO_s :=
  { io with bs := (io.bs + 1) % SIZE_MOD, nb := szsub io.nb 2 }

/-- The `switch (io->msgfmt)` of `_Parse`. The flag is `false` when it left through
`goto exit`. -/
def parseSwitch (io : IO_s) : Bool × IO_s :=
  if io.msgfmt = 0 then parseAscii io
  else if io.msgfmt = 1 then parseBinary io
  else
    -- default, case 2, falling through to case 1
    if ¬ (io.rdb 0 = TWIDDLE ∧ io.rdb (szsub io.nb 1) = TWIDDLE) then (false, io)
    else parseBinary (parseStrip io)

/-- The function `_Parse(io, iov)`: the return code and the channel state it leaves. -/
def _Parse (io : IO_s) (iov : iovec) : Int × IO_s :=
  let r := parseSwitch (parseEntry io iov)
  if r.1 then
    -- io->be = io->bs + io->nb - 2; rc = 0;
    (0, { r.2 with be := szsub ((r.2.bs + r.2.nb) % SIZE_MOD) 2 })
  else (-1, r.2)

/-- The buffer holding the bytes `l`, lying in memory whose other bytes are given by `mem`. -/
def iovOf (mem : Nat → Nat) (l : List Nat) : iovec :=
  { iov_base := fun i => if i < l.length then l.getD i 0 else mem i
    iov_len := l.length }

/-! ## Device register model -/

/-- The C `struct SENSOR_s`; `FLOAT_t` is `int32_t`, time stamps are abstract. -/
structure SENSOR_s where
  name : String
  pts : Nat
  rval : Nat
  rmax : Nat
  gain : Int
  off : Int
  sys : Int
  ref : Int
  avg : Int
  max : Int
  min : Int
  temp : Int
  pres : Int
  tstamp : Nat
  sum : Int
  npts : Nat

/-- The C `struct FLAGS_s`: thirteen consecutive `uint8_t`, in this order. -/
structure FLAGS_s where
  power_fail : Nat
  field_blank : Nat
  event_executing : Nat
  event_paused : Nat
  event_expired : Nat
  event_aborted : Nat
  duration_error : Nat
  filter_temp_error : Nat
  inactive_temp_error : Nat
  flow_variation_error : Nat
  out_of_range_error : Nat
  filter_load_error : Nat
  door_open : Nat

/-- The read `flag[i]`, where `flag = &flags->power_fail`. -/
def FLAGS_s.get (f : FLAGS_s) (i : Nat) : Nat :=
  match i with
  | 0 => f.power_fail
  | 1 => f.field_blank
  | 2 => f.event_executing
  | 3 => f.event_paused
  | 4 => f.event_expired
  | 5 => f.event_aborted
  | 6 => f.duration_error
  | 7 => f.filter_temp_error
  | 8 => f.inactive_temp_error
  | 9 => f.flow_variation_error
  | 10 => f.out_of_range_error
  | 11 => f.filter_load_error
  | 12 => f.door_open
  | _ => 0

/-- The store `flag[i] = v`, where `flag = &flags->power_fail` and `i < _NFLAGS`. -/
def FLAGS_s.set (f : FLAGS_s) (i : Nat) (v : Nat) : FLAGS_s :=
  match i with
  | 0 => { f with power_fail := v }
  | 1 => { f with field_blank := v }
  | 2 => { f with event_executing := v }
  | 3 => { f with event_paused := v }
  | 4 => { f with event_expired := v }
  | 5 => { f with event_aborted := v }
  | 6 => { f with duration_error := v }
  | 7 => { f with filter_temp_error := v }
  | 8 => { f with inactive_temp_error := v }
  | 9 => { f with flow_variation_error := v }
  | 10 => { f with out_of_range_error := v }
  | 11 => { f with filter_load_error := v }
  | 12 => { f with door_open := v }
  | _ => f

/-- The members of `struct URG_s` reached by the command processor: the eight consecutive
sensor records `A2D[0..7]`, the flags, and the ambient temperature and pressure. -/
structure URG_s where
  sensor : SENSOR_s
  ambient : SENSOR_s
  filter : SENSOR_s
  meter : SENSOR_s
  inactive : SENSOR_s
  barometer : SENSOR_s
  meter_drop : SENSOR_s
  flow_sensor : SENSOR_s
  flags : FLAGS_s
  temp : Int
  pres : Int

/-- The record `sensors[ix]`, where `sensors = &urg->sensor` and `ix < _NSENSORS`. -/
def URG_s.getSensor (u : URG_s) (ix : Nat) : SENSOR_s :=
  match ix with
  | 0 => u.sensor
  | 1 => u.ambient
  | 2 => u.filter
  | 3 => u.meter
  | 4 => u.inactive
  | 5 => u.barometer
  | 6 => u.meter_drop
  | _ => u.flow_sensor

/-- Storing the record `sensors[ix]`, where `ix < _NSENSORS`. -/
def URG_s.setSensor (u : URG_s) (ix : Nat) (x : SENSOR_s) : URG_s :=
  match ix with
  | 0 => { u with sensor := x }
  | 1 => { u with ambient := x }
  | 2 => { u with filter := x }
  | 3 => { u with meter := x }
  | 4 => { u with inactive := x }
  | 5 => { u with barometer := x }
  | 6 => { u with meter_drop := x }
  | _ => { u with flow_sensor := x }

/-- The file-scope variables written by the command processor. -/
structure Globals where
  urg : URG_s
  exit_request : Int

/-- The value of a 16-bit pattern read as `int16_t`. -/
def toInt16 (x : Int) : Int := (x + 32768) % 65536 - 32768

/-- The value of a 32-bit pattern read as `int32_t` (signed arithmetic wraps). -/
def toInt32 (x : Int) : Int := (x + 2147483648) % 4294967296 - 2147483648

/-! ## Command processor: `_GetSet` and `_Process` -/

/-- The function `_GetSet(io, valname, vals)`: the return code, the channel state and the
array `vals` it leaves. `rnd` is the value returned by `random()`. The index `io->cmd` is a
received byte (possibly with `CMD_NAK` or-ed in), so `int ix = io->cmd` keeps its value. -/
def _GetSet (io : IO_s) (rnd : Nat) (vals : Nat → Nat) : Int × IO_s × (Nat → Nat) :=
  let ix := io.cmd
  if ix ≥ CMD_NDEVS then (-1, io, vals)
  else if io.valid then
    -- Set/Save input value, return value in ACK msg.
    let vals := Function.update vals io.cmd io.val
    let io := { io with retvalid := true }
    let io := { io with retval := vals ix }
    (0, io, vals)
  else
    -- Return current value.
    let io := { io with retvalid := true }
    let io := { io with retval := vals ix }
    let io :=
      if io.role = "avr" ∧ io.tid = TID_A2D then
        let retval : Int := toInt16 io.retval
        let jval : Int := toInt16 ((rnd % (2 * 2 + 1) : Nat) - 2)
        let retval := toInt16 (retval + jval)
        let retval := if retval < 0 then 0 else if retval > 0x0fff then 0x0fff else retval
        { io with retval := (retval % 65536).toNat }
      else io
    (0, io, vals)

/-- The loop `for (int i = 0; i < _NFLAGS; i++) { flag[i] = (retval & mask) ? 1 : 0;
mask <<= 1; }` of `_Process`, started at `i` with `k` iterations left. -/
def setFlags (retval : Nat) (f : FLAGS_s) (mask : Nat) : Nat → Nat → FLAGS_s
  | _, 0 => f
  | i, k + 1 =>
    setFlags retval (f.set i (if retval &&& mask ≠ 0 then 1 else 0)) ((mask <<< 1) % 65536)
      (i + 1) k

/-- The block "Scale and save a measurement" of `_Process` for `sensors[ix]`. The division
`sensor->sum / sensor->npts` traps when the 16-bit count has wrapped to 0: `none`. -/
def saveMeasurement (io : IO_s) (u : URG_s) (ix : Nat) : Option URG_s :=
  let sensor := u.getSensor ix
  let tv := if io.role ≠ "avr" then io.wtv else io.rtv
  let sensor := { sensor with tstamp := tv }
  if io.retvalid then
    let rval := io.retval
    let sensor := { sensor with rval := rval }
    let sval := toInt32 (toInt32 (sensor.gain * rval) + sensor.off)
    let sensor := { sensor with npts := (sensor.npts + 1) % 65536 }
    let sensor := { sensor with sum := toInt32 (sensor.sum + sval) }
    if sensor.npts = 0 then none
    else
      let sensor := { sensor with avg := Int.tdiv sensor.sum sensor.npts }
      let sensor := if sval > sensor.max then { sensor with max := sval } else sensor
      let sensor := if sval < sensor.min then { sensor with min := sval } else sensor
      let u := u.setSensor ix sensor
      let u := if ix = 1 then { u with temp := sensor.avg } else u
      let u := if ix = 5 then { u with pres := sensor.avg } else u
      some u
  else some (u.setSensor ix sensor)

/-- The function `_Process(io)`: the return code, the channel state and the file-scope
variables it leaves; `none` when the integer division traps. `rnd` is the value returned by
`random()`. -/
def _Process (io : IO_s) (g : Globals) (rnd : Nat) : Option (Int × IO_s × Globals) :=
  if io.tid = TID_A2D then
    let r := _GetSet io rnd io.ADvals
    if r.1 ≠ 0 then some (-1, { r.2.1 with ADvals := r.2.2 }, g)
    else
      let io := { r.2.1 with ADvals := r.2.2 }
      let ix := io.cmd
      if ix < _NSENSORS ∧ io.role = "nuc" then
        (saveMeasurement io g.urg ix).map fun u => (0, io, { g with urg := u })
      else some (0, io, g)
  else if io.tid = TID_D2A then
    let r := _GetSet io rnd io.ADvals
    if r.1 ≠ 0 then some (-1, { r.2.1 with ADvals := r.2.2 }, g)
    else some (0, { r.2.1 with ADvals := r.2.2 }, g)
  else if io.tid = TID_DIO then
    let r := _GetSet io rnd io.Fvals
    if r.1 ≠ 0 then some (-1, { r.2.1 with Fvals := r.2.2 }, g)
    else
      let io := { r.2.1 with Fvals := r.2.2 }
      let io := { io with retvalid := true }
      let ix := io.cmd
      if ix < _NFLAGS then
        if io.retvalid then
          some (0, io, { g with urg := { g.urg with
            flags := setFlags io.retval g.urg.flags 1 0 _NFLAGS } })
        else some (0, io, g)
      else some (0, io, g)
  else if io.tid = TID_PRES then
    let r := _GetSet io rnd io.Pvals
    if r.1 ≠ 0 then some (-1, { r.2.1 with Pvals := r.2.2 }, g)
    else some (0, { r.2.1 with Pvals := r.2.2 }, g)
  else if io.tid = TID_STEP then
    if io.valid then
      let sval : Int := toInt16 io.val
      some (0, { io with Spos := ((io.Spos + sval) % 65536).toNat }, g)
    else
      let io := { io with retvalid := true }
      some (0, { io with retval := io.Spos }, g)
  else if io.tid = TID_TEMP then
    let r := _GetSet io rnd io.Tvals
    if r.1 ≠ 0 then some (-1, { r.2.1 with Tvals := r.2.2 }, g)
    else some (0, { r.2.1 with Tvals := r.2.2 }, g)
  else if io.tid = TID_GLOBAL then
    if io.cmd = CMD_QUIT then some (0, io, { g with exit_request := 1 })
    else some (-1, io, g)
  else some (-1, io, g)

/-! ## The responder loop: `_Child` -/

/-- One pass of the loop of `_Child`, from the call of `_Parse` to the call of `io->Set`.
The buffer `iov` is the message that `io->Chk` left in `io->riov`. The result is the frame
that `_Load` leaves in `io->wiov` for `io->Set` to send (`none` when it does not fit the local
buffer of `_Load`), the channel state and the file-scope variables; `none` when `_Process`
traps. `rnd` is the value returned by `random()`. -/
def _Child_body (io : IO_s) (g : Globals) (rnd : Nat) (iov : iovec) :
    Option (Option (List Nat) × IO_s × Globals) :=
  -- Process input msg.
  let p := _Parse io iov
  let r := if p.1 ≠ 0 then some (p.1, p.2, g) else _Process p.2 g rnd
  r.map fun r =>
    let rc := r.1
    let io := r.2.1
    -- Prepare the ACK/NAK response.
    let io := if rc ≠ 0 then { io with cmd := io.cmd ||| CMD_NAK, retvalid := false } else io
    let reply :=
      if io.retvalid then
        _Load io.msgfmt io.tid io.cmd [(io.retval >>> 8) &&& 0xFF, io.retval &&& 0xFF]
      else _Load io.msgfmt io.tid io.cmd []
    (reply, io, r.2.2)

/-! ## Polling, the commander, calibration and the responder: `_Poll`, `_Command`, `_SAvg`,
`_SCal`, `_Child` -/

/-- The outcome of one call of `pselect` in `_Poll`, and of the read `io->Get(io)` that
follows it when it is made: the value `pselect` returns, whether `errno` is `EINTR`, whether
`SIGTERM` was delivered during the call (the handler `hdl` sets `exit_request = 1`), whether
`FD_ISSET(io->fdno, &rfds)` holds afterwards, and what `io->Get` returns and leaves in
`io->riov` and `io->rtv`. -/
structure Wait where
  rc : Int
  eintr : Bool
  sig : Bool
  isset : Bool
  get_rc : Int
  get_iov : iovec
  get_rtv : Nat

/-- What a call of `_Poll` returns and leaves: the return value, the buffer and time stamp
that `io->Get` left (`none` when `io->Get` was not called), `exit_request`, the number of
calls of `pselect` made, and the waits not yet consumed. -/
structure PollResult where
  rc : Int
  read : Option (iovec × Nat)
  exit_request : Int
  nwaits : Nat
  rest : List Wait

/-- The loop `while (!exit_request)` of `_Poll`, from its test, with the current values of
`exit_request`, `ntimeouts` and `rc` and the number of waits made so far. The list gives the
outcomes of the calls of `pselect` to come; the result is `none` when the loop is still
running after the last of them. -/
def pollLoop (maxtimeouts : Int) : Int → Int → Int → Nat → List Wait → Option PollResult
  | ex, _, rc, n, [] => if ex ≠ 0 then some ⟨rc, none, ex, n, []⟩ else none
  | ex, nt, rc, n, w :: ws =>
    if ex ≠ 0 then some ⟨rc, none, ex, n, w :: ws⟩
    else
      let ex := if w.sig then 1 else ex
      let rc := w.rc
      if rc < 0 ∧ w.eintr = false then
        -- perror("pselect"); exit_request = 1;
        pollLoop maxtimeouts 1 nt rc (n + 1) ws
      else if ex ≠ 0 then pollLoop maxtimeouts ex nt rc (n + 1) ws
      else if rc = 0 then
        let nt := toInt32 (nt + 1)
        if maxtimeouts > 0 ∧ nt ≥ maxtimeouts then some ⟨rc, none, ex, n + 1, ws⟩
        else pollLoop maxtimeouts ex nt rc (n + 1) ws
      else if w.isset then
        -- rc = io->Get(io); break;
        some ⟨w.get_rc, some (w.get_iov, w.get_rtv), ex, n + 1, ws⟩
      else pollLoop maxtimeouts ex nt rc (n + 1) ws

/-- The function `_Poll(io)`. -/
def _Poll (io : IO_s) (g : Globals) (ws : List Wait) : Option PollResult :=
  pollLoop io.maxtimeouts g.exit_request 0 (-1) 0 ws

/-- What a call `io->Chk(io)` returns and leaves: the return value, the buffer in `io->riov`
(`none` when nothing was read: `io->riov` is still the empty `ziov`, whose `iov_base` is
`NULL`), the time stamp in `io->rtv`, and whether `exit_request` was set to 1 during the
call. -/
structure Chk_s where
  rc : Int
  riov : Option iovec
  rtv : Nat
  exit : Bool

/-- What the call `_Poll(io)` with result `r` returned and left, `_Poll` being the value that
`newIO` gives to `io->Chk`. -/
def Chk_s.ofPoll (io : IO_s) (g : Globals) (r : PollResult) : Chk_s :=
  { rc := r.rc
    riov := r.read.map fun x => x.1
    rtv := match r.read with
      | some x => x.2
      | none => io.rtv
    exit := decide (g.exit_request = 0 ∧ r.exit_request ≠ 0) }

/-- One exchange with the peer: the time stamp that `io->Set(io)` leaves in `io->wtv`, what
`io->Chk(io)` returns and leaves, and the value that `random()` returns if it is called while
the received message is processed. -/
structure Exchange where
  wtv : Nat
  chk : Chk_s
  rnd : Nat

/-- The channel, the file-scope variables, the frames handed to `io->Set` so far (each as
`_Load` left it) and the exchanges still to come. -/
structure Sys where
  io : IO_s
  g : Globals
  sent : List (Option (List Nat))
  env : List Exchange

/-- The call `io->Chk(io)` with outcome `c`, as seen in the channel and the file-scope
variables. -/
def Sys.afterChk (w : Sys) (c : Chk_s) : Sys :=
  { w with io := { w.io with rtv := c.rtv }
           g := if c.exit then { w.g with exit_request := 1 } else w.g }

/-- The statements `rc = _Parse(io, iov); if (rc) ... else rc = _Process(io);` on the buffer
that `io->Chk` left. Every arm of the `switch` of `_Parse` begins by reading a byte through
`io->b`, so on the empty `ziov` (`iov_base == NULL`) the call has no defined result. -/
def receive (w : Sys) (riov : Option iovec) (rnd : Nat) : Option (Int × Sys) :=
  match riov with
  | none => none
  | some iov =>
    let p := _Parse w.io iov
    if p.1 ≠ 0 then some (p.1, { w with io := p.2 })
    else (_Process p.2 w.g rnd).map fun r => (r.1, { w with io := r.2.1, g := r.2.2 })

/-- The function `_Command(io, tid, cmd, s, ns, &retval)` from the label `resend`. The
result is the return code, the value stored through `retvalp` (`none` when nothing is
stored), and the state left; `none` when the exchanges run out before the function returns
or a call has no defined result. -/
def commandLoop (tid cmd : Nat) (s : List Nat) :
    IO_s → Globals → List (Option (List Nat)) → List Exchange → Option (Int × Option Nat × Sys)
  | _, _, _, [] => none
  | io, g, sent, e :: es =>
    -- rc = _Load(io, tid, cmd, s, ns, iov); rc = io->Set(io);
    let w : Sys :=
      { io := { io with wtv := e.wtv }, g := g, sent := sent ++ [_Load io.msgfmt tid cmd s],
        env := es }
    -- rc = io->Chk(io);
    let w := w.afterChk e.chk
    match receive w e.chk.riov e.rnd with
    | none => none
    | some r =>
      if r.1 ≠ 0 then
        -- Retry on NAK (or IO error).
        let io := { r.2.io with nretry := toInt32 (r.2.io.nretry + 1) }
        if io.maxretrys ≤ 0 ∨ io.nretry < io.maxretrys then
          commandLoop tid cmd s io r.2.g r.2.sent es
        else some (r.1, none, { r.2 with io := io })
      else
        let io := { r.2.io with nretry := 0 }
        -- Return a valid measurement.
        some (0, some io.retval, { r.2 with io := io })

/-- The function `_Command(io, tid, cmd, s, ns, &retval)`. -/
def _Command (w : Sys) (tid cmd : Nat) (s : List Nat) : Option (Int × Option Nat × Sys) :=
  commandLoop tid cmd s { w.io with nretry := 0 } w.g w.sent w.env

/-- The loop `for (int i = 0; i < navg; i++) rc = _Command(io, TID_A2D, cmd, NULL, 0, &retval);`
of `_SAvg` with `k` iterations left. -/
def savgLoop (cmd : Nat) : Nat → Sys → Option Sys
  | 0, w => some w
  | k + 1, w =>
    match _Command w TID_A2D cmd [] with
    | none => none
    | some r => savgLoop cmd k r.2.2

/-- The function `_SAvg(io, cmd, val)`, called with `cmd < _NSENSORS`: the value returned and
the state left. -/
def _SAvg (w : Sys) (cmd val : Nat) : Option (Int × Sys) :=
  let ix := cmd
  let navg := 5
  -- XXX Set the measurement point.
  match _Command w TID_D2A cmd [(val >>> 8) &&& 0xFF, val &&& 0xFF] with
  | none => none
  | some r =>
    -- Read the measurement.
    match savgLoop cmd navg r.2.2 with
    | none => none
    | some w => some ((w.g.urg.getSensor ix).avg, w)

/-- The C `struct RANGE_s` (the array `ref` is not used). -/
structure RANGE_s where
  min : Int
  val : Int
  max : Int
  units : Nat
  npts : Nat

/-- The quotient `a / b` of two `int` values: no defined result for `b == 0` and for
`INT_MIN / -1`, otherwise the quotient truncated toward zero. -/
def cdiv (a b : Int) : Option Int :=
  if b = 0 then none
  else if a = -2147483648 ∧ b = -1 then none
  else some (Int.tdiv a b)

/-- The state with the sensor record `sensors[ix]` replaced. -/
def Sys.setSensor (w : Sys) (ix : Nat) (x : SENSOR_s) : Sys :=
  { w with g := { w.g with urg := w.g.urg.setSensor ix x } }

/-- The function `_SCal(io, cmd, range)`: the return code and the state left. The pointer
`sensors + ix` lies in the array of sensor records only for `ix < _NSENSORS`. -/
def _SCal (w : Sys) (cmd : Nat) (range : RANGE_s) : Option (Int × Sys) :=
  let ix := cmd
  if ¬ ix < _NSENSORS then none
  else
    let sensor := w.g.urg.getSensor ix
    match cdiv (toInt32 (range.max - range.min)) sensor.rmax with
    | none => none
    | some gain =>
      let sensor := { sensor with gain := gain }
      let sensor := { sensor with off := range.min }
      let sensor := { sensor with min := range.max }
      let sensor := { sensor with max := range.min }
      -- Calibrate offset.
      let sensor := { sensor with npts := 0, sum := 0 }
      match _SAvg (w.setSensor ix sensor) cmd 0 with
      | none => none
      | some (loval, w) =>
        let sensor := { w.g.urg.getSensor ix with off := loval }
        -- Calibrate gain.
        let sensor := { sensor with npts := 0, sum := 0 }
        let val := sensor.rmax
        match _SAvg (w.setSensor ix sensor) cmd val with
        | none => none
        | some (hival, w) =>
          let sensor := w.g.urg.getSensor ix
          match cdiv (toInt32 (hival - loval)) sensor.rmax with
          | none => none
          | some gain =>
            let sensor := { sensor with gain := gain }
            -- Calibrate reference point.
            let sensor := { sensor with npts := 0, sum := 0 }
            match cdiv (toInt32 (range.val - range.min)) sensor.gain with
            | none => none
            | some q =>
              let val := (q % 65536).toNat
              match _SAvg (w.setSensor ix sensor) cmd val with
              | none => none
              | some (sval, w) =>
                -- Save reference point.
                let sensor := { w.g.urg.getSensor ix with sys := sval, ref := range.val }
                -- Reset the measurement.
                let sensor := { sensor with npts := 0, sum := 0 }
                some (0, w.setSensor ix sensor)

/-- The loop of `_Child`, from the call `io->Chk(io)`: the return code of `_Child` and the
state left; `none` when the exchanges run out before the loop ends or a call has no defined
result. In each exchange the call of `io->Chk` comes first and the call of `io->Set` last. -/
def childLoop : IO_s → Globals → List (Option (List Nat)) → List Exchange → Option (Int × Sys)
  | _, _, _, [] => none
  | io, g, sent, e :: es =>
    -- Read message.
    let w : Sys := ({ io := io, g := g, sent := sent, env := es } : Sys).afterChk e.chk
    if e.chk.rc < 0 then some (e.chk.rc, w)
    else
      -- Process input msg, prepare the ACK/NAK response.
      match e.chk.riov with
      | none => none
      | some iov =>
        match _Child_body w.io w.g e.rnd iov with
        | none => none
        | some r =>
          -- Send response.
          let io := { r.2.1 with wtv := e.wtv }
          if r.2.2.exit_request ≠ 0 then
            some (0, { io := io, g := r.2.2, sent := sent ++ [r.1], env := es })
          else childLoop io r.2.2 (sent ++ [r.1]) es

/-- The function `_Child(io)`. -/
def _Child (w : Sys) : Option (Int × Sys) := childLoop w.io w.g w.sent w.env

/-! ## Definitions used to state the properties -/

/-- One bit of the reflected CRC-16/X.25 update: shift right by one and xor `0x8408` when the
shifted-out bit was 1. -/
def crcBit (x : Nat) : Nat := (x >>> 1) ^^^ (if x &&& 1 = 1 then 0x8408 else 0)

/-- The bitwise update for one byte: xor the byte into the low 8 bits, then 8 bit steps. -/
def crcByte (fcs b : Nat) : Nat := crcBit^[8] (fcs ^^^ b)

/-- The bitwise CRC over a byte sequence, with no final complement. -/
def crcRef (fcs : Nat) (bs : List Nat) : Nat := bs.foldl crcByte fcs

/-- One step of the loop of `pppfcs`. -/
def fcsStep (fcs b : Nat) : Nat := (fcs >>> 8) ^^^ fcstab.getD ((fcs ^^^ b) &&& 0xff) 0

/-- Acceptance condition of a binary frame `w` (count byte, data, two CRC bytes). -/
def accept1 (w : List Nat) : Prop :=
  2 ≤ w.length ∧ w.getD 0 0 = w.length - 2
    ∧ w.getD (w.length - 2) 0 = (pppfcs 0xffff (w.take (w.length - 2)) >>> 8) &&& 0xFF
    ∧ w.getD (w.length - 1) 0 = pppfcs 0xffff (w.take (w.length - 2)) &&& 0xFF

instance (w : List Nat) : Decidable (accept1 w) := by unfold accept1; infer_instance

/-- The channel's last-decoded-frame fields: target id, command, value-valid flag, value,
response-valid flag, response value. -/
def IO_s.frame (io : IO_s) : Nat × Nat × Bool × Nat × Bool × Nat :=
  (io.tid, io.cmd, io.valid, io.val, io.retvalid, io.retval)

/-- The return code of a call together with the frame fields it leaves. -/
def outcome (r : Int × IO_s) : Int × Nat × Nat × Bool × Nat × Bool × Nat := (r.1, r.2.frame)

/-- The bytes between the first and the last byte of `b`. -/
def strip (b : List Nat) : List Nat := (b.drop 1).take (b.length - 2)

/-- The bytes covered by the checksum of a binary frame: count, target id, command, payload. -/
def frameData (tid cmd : Nat) (s : List Nat) : List Nat := [s.length + 3, tid, cmd] ++ s

/-- The format-1 frame: the data followed by the high and the low byte of its checksum. -/
def frame1 (tid cmd : Nat) (s : List Nat) : List Nat :=
  frameData tid cmd s
    ++ [pppfcs 0xffff (frameData tid cmd s) >>> 8, pppfcs 0xffff (frameData tid cmd s) &&& 0xFF]

/-- The buffer `f` with bit `p % 8` of byte `p / 8` inverted. -/
def flipBit (f : List Nat) (p : Nat) : List Nat :=
  f.set (p / 8) (f.getD (p / 8) 0 ^^^ (1 <<< (p % 8)))

/-- The value that one iteration of the hex loop of `_Parse` leaves in `io->val`, from the
value `v` before it and the character `c`. -/
def hexAcc (v c : Nat) : Nat :=
  if 48 ≤ c ∧ c ≤ 57 then ((v <<< 4) % 65536 + (c - 48)) % 65536
  else if 65 ≤ c ∧ c ≤ 70 then ((v <<< 4) % 65536 + (c - 65)) % 65536
  else if 97 ≤ c ∧ c ≤ 102 then ((v <<< 4) % 65536 + (c - 97)) % 65536
  else (v <<< 4) % 65536

/-- The channel state that `newIO` leaves: zeroed by `calloc`, then role `"new"`, format 1,
both ceilings 4 and `ADvals` filled with `0xff` bytes (the time stamps are left at 0). -/
def newIO : IO_s :=
  { role := "new", msgfmt := 1, ntimeout := 0, maxtimeouts := 4, nretry := 0, maxretrys := 4,
    rtv := 0, wtv := 0, nb := 0, b := fun _ => 0, bs := 0, be := 0, val := 0, retval := 0,
    tid := 0, cmd := 0, valid := false, retvalid := false,
    ADvals := fun _ => 0xffff, Fvals := fun _ => 0, Tvals := fun _ => 0, Pvals := fun _ => 0,
    Spos := 0 }

/-- The initializer of a sensor record in `_urg`: name, points, raw value, raw maximum, then
gain, offset, system and reference value, average, maximum, minimum, temperature and
pressure, each already scaled by `_F2I` (times 10000, truncated); the rest is zero. -/
def mkSensor (name : String) (pts rval rmax : Nat)
    (gain off sys ref avg max min temp pres : Int) : SENSOR_s :=
  { name := name, pts := pts, rval := rval, rmax := rmax, gain := gain, off := off, sys := sys,
    ref := ref, avg := avg, max := max, min := min, temp := temp, pres := pres,
    tstamp := 0, sum := 0, npts := 0 }

/-- The initial value of the members of `_urg` that the command processor reaches. The gain
of the flow sensor, `_F2I(6.27)`, is 62699: the `double` product `6.27 * 10000.` is
`62699.99999999999` and the conversion to `int32_t` truncates. -/
def _urg : URG_s :=
  { sensor := mkSensor "Sensor" 0 0 0 0 0 0 0 0 0 0 0 0
    ambient := mkSensor "Ambient" 3 0 0x03ff 15000 (-20190000) 210000 210000 210000 213000
      208000 250000 7600000
    filter := mkSensor "Filter" 3 0 0x03ff 14900 (-20600000) 210000 210000 213000 216000
      210000 250000 7600000
    meter := mkSensor "Meter" 3 0 0x03ff 14900 (-20600000) 220000 220000 220000 221000
      218000 250000 7600000
    inactive := mkSensor "Inactive" 2 0 0x03ff 14900 (-20600000) 210000 210000 213000 215000
      210000 250000 7600000
    barometer := mkSensor "Barometer" 4 0 0x03ff 344200 (-16570000) 7600000 7600000 7360000
      7370000 7340000 250000 7600000
    meter_drop := mkSensor "MeterDrop" 4 0 0x03ff 103500 (-42380000) 100000 100000 194000
      199000 188000 250000 7600000
    flow_sensor := mkSensor "FlowSensor" 4 0 0x03ff 62699 0 167000 167000 167000 167000
      167000 250000 7600000
    flags :=
      { power_fail := 0, field_blank := 0, event_executing := 0, event_paused := 0,
        event_expired := 0, event_aborted := 1, duration_error := 0, filter_temp_error := 0,
        inactive_temp_error := 0, flow_variation_error := 0, out_of_range_error := 0,
        filter_load_error := 0, door_open := 0 }
    temp := 250000
    pres := 7600000 }

/-- The file-scope variables at process start. -/
def initGlobals : Globals := { urg := _urg, exit_request := 0 }

/-- The clamp of `_GetSet`: below 0 gives 0, above `0x0fff` gives `0x0fff`. -/
def clamp12 (x : Int) : Int := if x < 0 then 0 else if x > 0x0fff then 0x0fff else x

/-- Bit `k` of the word `w`, as 0 or 1. -/
def bitOf (w k : Nat) : Nat := (w >>> k) % 2

/-- The thirteen flags whose values are bits 0..12 of the word `w`. -/
def flagsOf (w : Nat) : FLAGS_s :=
  { power_fail := bitOf w 0, field_blank := bitOf w 1, event_executing := bitOf w 2,
    event_paused := bitOf w 3, event_expired := bitOf w 4, event_aborted := bitOf w 5,
    duration_error := bitOf w 6, filter_temp_error := bitOf w 7,
    inactive_temp_error := bitOf w 8, flow_variation_error := bitOf w 9,
    out_of_range_error := bitOf w 10, filter_load_error := bitOf w 11,
    door_open := bitOf w 12 }

/-- The fields of the channel state that `_Parse` writes: the buffer pointers and the frame
fields. -/
structure Parsed where
  nb : Nat
  b : Nat → Nat
  bs : Nat
  be : Nat
  val : Nat
  retval : Nat
  tid : Nat
  cmd : Nat
  valid : Bool
  retvalid : Bool

/-- The channel state with the fields that `_Parse` writes replaced by those of `d`. -/
def IO_s.setParsed (io : IO_s) (d : Parsed) : IO_s :=
  { io with nb := d.nb, b := d.b, bs := d.bs, be := d.be, val := d.val, retval := d.retval,
            tid := d.tid, cmd := d.cmd, valid := d.valid, retvalid := d.retvalid }

/-- The fields that `_Parse` writes, read off a channel state. -/
def IO_s.parsed (io : IO_s) : Parsed :=
  { nb := io.nb, b := io.b, bs := io.bs, be := io.be, val := io.val, retval := io.retval,
    tid := io.tid, cmd := io.cmd, valid := io.valid, retvalid := io.retvalid }

/-- Frames processed one after the other: `_Process` is called once per frame, each time
after the fields that `_Parse` writes have taken the values decoded for that frame; the
second component is the value `random()` returns during that call. The result is the channel
state and the file-scope variables after the last call, `none` if a call traps. -/
def processAll (io : IO_s) (g : Globals) : List (Parsed × Nat) → Option (IO_s × Globals)
  | [] => some (io, g)
  | w :: ws =>
    match _Process (io.setParsed w.1) g w.2 with
    | some r => processAll r.2.1 r.2.2 ws
    | none => none

/-- The value `gain × raw + offset` of the description, over the integers. -/
def scaled (gain off : Int) (r : Nat) : Int := gain * r + off

/-- The values held by `int32_t`. -/
def inInt32 (x : Int) : Bool := decide (-2147483648 ≤ x) && decide (x ≤ 2147483647)

/-- Every product `gain × r`, every scaled value and every running sum, started at `s`, is
a value of `int32_t`. -/
def fitsInt32 (gain off : Int) : Int → List Nat → Bool
  | _, [] => true
  | s, r :: rs =>
    inInt32 (gain * r) && inInt32 (scaled gain off r) && inInt32 (s + scaled gain off r)
      && fitsInt32 gain off (s + scaled gain off r) rs

/-- Two states of the system that differ at most in what an attempt of `_Command` with a
failing reply changes: the time stamps, the fields that `_Parse` writes, the retry counter,
`exit_request`, the frames sent and the exchanges to come. -/
def Sys.sameDevice (w w2 : Sys) : Prop :=
  w2.io.role = w.io.role ∧ w2.io.msgfmt = w.io.msgfmt ∧ w2.io.maxretrys = w.io.maxretrys
    ∧ w2.io.ADvals = w.io.ADvals ∧ w2.io.Fvals = w.io.Fvals ∧ w2.io.Tvals = w.io.Tvals
    ∧ w2.io.Pvals = w.io.Pvals ∧ w2.io.Spos = w.io.Spos ∧ w2.g.urg = w.g.urg

/-- The reply of the exchange `e` fails to decode or to process, in every state that differs
from `w` at most in what failing attempts change. -/
def failing (w : Sys) (e : Exchange) : Prop :=
  ∀ w2, w.sameDevice w2 → ∃ rc w3, receive w2 e.chk.riov e.rnd = some (rc, w3) ∧ rc ≠ 0

/-- The reply of the exchange `e` decodes and processes successfully, leaving the response
value `v`, in every state that differs from `w` at most in what failing attempts change. -/
def succeeding (w : Sys) (e : Exchange) (v : Nat) : Prop :=
  ∀ w2, w.sameDevice w2 → ∃ w3, receive w2 e.chk.riov e.rnd = some ((0 : Int), w3)
    ∧ w3.io.retval = v

/-- The state in which the reply of an attempt of `_Command` is received. -/
def Sys.attempt (io : IO_s) (g : Globals) (sent : List (Option (List Nat))) (tid cmd : Nat)
    (s : List Nat) (e : Exchange) (es : List Exchange) : Sys :=
  Sys.afterChk
    { io := { io with wtv := e.wtv }, g := g, sent := sent ++ [_Load io.msgfmt tid cmd s],
      env := es } e.chk

/-- The sensor record after one more sample with raw value `rval`, taken at time `tv`, while
the 16-bit count does not wrap. -/
def SENSOR_s.sample (s : SENSOR_s) (tv rval : Nat) : SENSOR_s :=
  { s with
    tstamp := tv
    rval := rval
    npts := s.npts + 1
    sum := toInt32 (s.sum + toInt32 (toInt32 (s.gain * rval) + s.off))
    avg := Int.tdiv (toInt32 (s.sum + toInt32 (toInt32 (s.gain * rval) + s.off)))
      ((s.npts + 1 : Nat) : Int)
    max := if toInt32 (toInt32 (s.gain * rval) + s.off) > s.max
      then toInt32 (toInt32 (s.gain * rval) + s.off) else s.max
    min := if toInt32 (toInt32 (s.gain * rval) + s.off) < s.min
      then toInt32 (toInt32 (s.gain * rval) + s.off) else s.min }

/-- The scaled value of the raw value held in a sensor record. -/
def SENSOR_s.sval (s : SENSOR_s) : Int := toInt32 (toInt32 (s.gain * s.rval) + s.off)

/-- The device model after the average `avg` of `sensors[ix]` has been copied to the ambient
temperature (`ix = 1`) or the ambient pressure (`ix = 5`). -/
def republish (ix : Nat) (avg : Int) (u : URG_s) : URG_s :=
  if ix = 5 then { u with pres := avg }
  else if ix = 1 then { u with temp := avg }
  else u

/-- The fields of the channel state that neither `_Parse` nor `_Process` writes: role,
format selector, counters, ceilings and time stamps. -/
def IO_s.config (io : IO_s) : String × Int × Int × Int × Int × Int × Nat × Nat :=
  (io.role, io.msgfmt, io.ntimeout, io.maxtimeouts, io.nretry, io.maxretrys, io.rtv, io.wtv)

/-- A step from the sensor record `s` to `s'` kept the sum exact: either the count is the
same, or the new sum is the old sum plus the scaled value of the new raw value, with no
32-bit overflow. -/
def exactStep (s s' : SENSOR_s) : Prop := s'.npts = s.npts ∨ s'.sum = s.sum + s'.sval

/-- The states of the device model reachable from the initial one by calls of `_Process`
(with any channel state) and by calibration resets of a sensor record (the record gets count
0 and sum 0, whatever its other fields become: each block of assignments in `_SCal` ends in
`sensor->npts = 0; sensor->sum = 0;`), and by `exit_request` being set by the signal handler
or by `_Poll`. The second index tells, for each sensor, whether its
sum has been exact since count and sum were last zeroed. -/
inductive Reach : Globals → (Nat → Prop) → Prop
  | init : Reach initGlobals (fun _ => True)
  | process (g : Globals) (ok : Nat → Prop) (io : IO_s) (rnd : Nat) (rc : Int) (io' : IO_s)
      (g' : Globals) : Reach g ok → _Process io g rnd = some (rc, io', g') →
      Reach g' (fun ix => ok ix ∧ exactStep (g.urg.getSensor ix) (g'.urg.getSensor ix))
  | reset (g : Globals) (ok : Nat → Prop) (ix : Nat) (s' : SENSOR_s) : Reach g ok →
      ix < _NSENSORS → s'.npts = 0 → s'.sum = 0 →
      Reach { g with urg := g.urg.setSensor ix s' } (fun jx => jx = ix ∨ ok jx)
  | quit (g : Globals) (ok : Nat → Prop) : Reach g ok → Reach { g with exit_request := 1 } ok

/-- The invariant of a sensor record: the 16-bit count is in range, the average is the
quotient of sum and count once there is a sample, and, while the sum has been exact, it lies
between count times minimum and count times maximum. -/
def SENSOR_s.inv (s : SENSOR_s) (ok : Prop) : Prop :=
  s.npts < 65536 ∧ (0 < s.npts → s.avg = Int.tdiv s.sum s.npts)
    ∧ (ok → (s.npts : Int) * s.min ≤ s.sum ∧ s.sum ≤ (s.npts : Int) * s.max)

/-- The exchange in which the bytes `b` arrive (time stamps and `random()` value 0, the cells
of the receive buffer beyond the message 0). -/
def replyOf (b : List Nat) : Exchange :=
  { wtv := 0
    chk := { rc := b.length, riov := some (iovOf (fun _ => 0) b), rtv := 0, exit := false }
    rnd := 0 }

/-- A wait of `_Poll` that ends as a timeout: `pselect` returns 0, no signal arrives. -/
def timeoutWait : Wait :=
  { rc := 0, eintr := false, sig := false, isset := false, get_rc := 0,
    get_iov := iovOf (fun _ => 0) [], get_rtv := 0 }

/-- The fields of a sensor record that only calibration writes. -/
def SENSOR_s.cal (s : SENSOR_s) : Int × Int × Nat × Int × Int :=
  (s.gain, s.off, s.rmax, s.sys, s.ref)

/-- Every 16-bit sample count of the device model is in range. -/
def bounded (g : Globals) : Prop := ∀ ix, ix < 8 → (g.urg.getSensor ix).npts < 65536

/-- The sensor record after the samples with raw value `v` taken at the times `tvs`. -/
def SENSOR_s.samples (s : SENSOR_s) (v : Nat) (tvs : List Nat) : SENSOR_s :=
  tvs.foldl (fun s tv => s.sample tv v) s

/-- The exchange `e` delivers the bytes `f`. -/
def Exchange.carries (e : Exchange) (f : List Nat) : Prop :=
  ∃ mem, e.chk.riov = some (iovOf mem f)

/-- The exchanges of one measurement of `_SAvg` with an ideal device in format 1: the reply
to the analog-out request carries the value `v` written, and each of the five replies to the
analog-in requests carries that same raw value. -/
def idealFor (cmd v : Nat) (es : List Exchange) : Prop :=
  ∃ eD esA, es = eD :: esA ∧ esA.length = 5
    ∧ eD.carries (frame1 TID_D2A cmd [(v >>> 8) &&& 0xFF, v &&& 0xFF])
    ∧ ∀ e ∈ esA, e.carries (frame1 TID_A2D cmd [(v >>> 8) &&& 0xFF, v &&& 0xFF])

/-- The sensor record with which `_SCal` starts: gain and offset from the range, minimum
and maximum swapped in from the range, count and sum zeroed. -/
def SENSOR_s.calStart (s : SENSOR_s) (range : RANGE_s) : SENSOR_s :=
  { s with
    gain := Int.tdiv (toInt32 (range.max - range.min)) s.rmax
    off := range.min
    min := range.max
    max := range.min
    npts := 0
    sum := 0 }

/-- The sensor record with count and sum zeroed. -/
def SENSOR_s.zeroed (s : SENSOR_s) : SENSOR_s := { s with npts := 0, sum := 0 }

/-- The setpoint of the reference measurement: `(range->val - range->min) / gain` in `int`
arithmetic, converted to `uint16_t`. -/
def setpoint (range : RANGE_s) (gain : Int) : Nat :=
  ((Int.tdiv (toInt32 (range.val - range.min)) gain) % 65536).toNat

/-- The C macro `UNITS_CELSIUS`. -/
def UNITS_CELSIUS : Nat := 1

/-- The C macro `CMD_ambient` (`CMD_1`). -/
def CMD_ambient : Nat := 1

/-- The static `_temperature_celsius`: `_F2I(-40.0)`, `_F2I(21.0)`, `_F2I(40.0)` at the scale
10000, the members not initialised are 0. -/
def _temperature_celsius : RANGE_s :=
  { min := -400000, val := 210000, max := 400000, units := UNITS_CELSIUS, npts := 0 }

/-- The replies of an ideal device to one measurement of `_SAvg` at the setpoint `v`: the
reply to the analog-out request, then five analog-in replies with the raw value `v`. -/
def idealReplies (cmd v : Nat) : List Exchange :=
  replyOf (frame1 TID_D2A cmd [(v >>> 8) &&& 0xFF, v &&& 0xFF])
    :: List.replicate 5 (replyOf (frame1 TID_A2D cmd [(v >>> 8) &&& 0xFF, v &&& 0xFF]))

/-- The controller after `newIO` and `_Fork`, nothing sent yet, with the exchanges `env`
ahead. -/
def controller (env : List Exchange) : Sys :=
  { io := { newIO with role := "nuc" }, g := initGlobals, sent := [], env := env }

/-- The C macro `UNITS_TORR`. -/
def UNITS_TORR : Nat := 2

/-- The C macro `CMD_barometer` (`CMD_5`). -/
def CMD_barometer : Nat := 5

/-- The static `_barometer_torr`: `_F2I(225.)`, `_F2I(760.)`, `_F2I(825.)` at the scale
10000, the members not initialised are 0. -/
def _barometer_torr : RANGE_s :=
  { min := 2250000, val := 7600000, max := 8250000, units := UNITS_TORR, npts := 0 }

/-- The exchange `e` delivers a message that `_Parse` accepts in the format `fmt`, leaving the
target id `tid`, the command `cmd` and the value `v` (`none` when the message has no
value). -/
def Exchange.decodes (e : Exchange) (fmt : Int) (tid cmd : Nat) (v : Option Nat) : Prop :=
  ∃ iov, e.chk.riov = some iov ∧ ∀ io : IO_s, io.msgfmt = fmt →
    outcome (_Parse io iov) = ((0 : Int), tid, cmd, v.isSome, v.getD 0xffff, false, 0xffff)

/-- Lossless channel: the exchange `e` delivers exactly the bytes of the frame `f` that the
peer handed to `io->Set`. -/
def Exchange.delivers (e : Exchange) (f : Option (List Nat)) : Prop :=
  ∃ b, f = some b ∧ e.carries b

/-- The value carried by a payload: its first two bytes, big-endian, when there are two. -/
def payloadValue (s : List Nat) : Option Nat :=
  if 2 ≤ s.length then some ((s.getD 0 0 <<< 8) ||| s.getD 1 0) else none

/-- The big-endian payload `s[0] = (v >> 8) & 0xFF; s[1] = v & 0xFF`. -/
def bigEndian (v : Nat) : List Nat := [(v >>> 8) &&& 0xFF, v &&& 0xFF]

/-- The exchange in which the message `iov` arrives. -/
def arrival (iov : iovec) : Exchange :=
  { wtv := 0, chk := { rc := 0, riov := some iov, rtv := 0, exit := false }, rnd := 0 }

/-- The value that the simulated device returns for an analog-in read when the stored value
is `v` and `random()` returns `rnd`: the stored value plus the jitter `rnd % 5 - 2`, in
`int16_t`, clamped to `0 .. 0x0fff`. -/
def deviceRead (v rnd : Nat) : Nat :=
  (clamp12 (toInt16 (toInt16 v + toInt16 ((rnd % 5 : Nat) - 2)))).toNat

/-- The sensor record after the samples `xs`, each a time stamp and a raw value. -/
def SENSOR_s.sampleList (s : SENSOR_s) (xs : List (Nat × Nat)) : SENSOR_s :=
  xs.foldl (fun s x => s.sample x.1 x.2) s

/-- The frames of one measurement of `_SAvg` at the index `cmd` with the setpoint `v`: the
analog-out request, then five analog-in requests. -/
def measureReqs (fmt : Int) (cmd v : Nat) : List (Option (List Nat)) :=
  _Load fmt TID_D2A cmd [(v >>> 8) &&& 0xFF, v &&& 0xFF]
    :: List.replicate 5 (_Load fmt TID_A2D cmd [])

/-- The responder with channel state `dev` and file-scope variables `dg` answers the
requests `reqs` over a lossless channel, `random()` returning the values `rnds`: each request
arrives unchanged (in a buffer whose surroundings are arbitrary, at an arbitrary time), one
pass of the loop of `_Child` builds the reply, and the exchange of the controller delivers
that reply unchanged. The last two arguments are the responder's state afterwards. -/
inductive answers : IO_s → Globals → List Nat → List (Option (List Nat)) → List Exchange →
    IO_s → Globals → Prop
  | done (dev : IO_s) (dg : Globals) : answers dev dg [] [] [] dev dg
  | step (dev : IO_s) (dg : Globals) (rnd : Nat) (rnds : List Nat) (f : List Nat)
      (reqs : List (Option (List Nat))) (e : Exchange) (es : List Exchange) (dev' : IO_s)
      (dg' : Globals) (mem : Nat → Nat) (tr tw : Nat) (r : Option (List Nat) × IO_s × Globals) :
      _Child_body { dev with rtv := tr } dg rnd (iovOf mem f) = some r → e.delivers r.1 →
      answers { r.2.1 with wtv := tw } r.2.2 rnds reqs es dev' dg' →
      answers dev dg (rnd :: rnds) (some f :: reqs) (e :: es) dev' dg'

/-- The replies of the responder to the requests `reqs`, computed pass by pass, each reply
delivered as `replyOf` does; the responder's state afterwards is the second component. -/
def deviceRun : IO_s → Globals → List Nat → List (Option (List Nat)) →
    Option (List Exchange × IO_s × Globals)
  | dev, dg, [], [] => some ([], dev, dg)
  | dev, dg, rnd :: rnds, some f :: reqs =>
    match _Child_body dev dg rnd (iovOf (fun _ => 0) f) with
    | some (some b, dev1, dg1) =>
      (deviceRun dev1 dg1 rnds reqs).map fun x => (replyOf b :: x.1, x.2)
    | _ => none
  | _, _, _, _ => none

/-- The responder after `newIO` and `_Fork`, nothing sent yet, with the exchanges `env`
ahead. -/
def responder (env : List Exchange) : Sys :=
  { io := { newIO with role := "avr" }, g := initGlobals, sent := [], env := env }

/-- The replies and the final state of `deviceRun` (no replies and the initial state when a
pass has no defined result). -/
def deviceReplies (dev : IO_s) (dg : Globals) (rnds : List Nat)
    (reqs : List (Option (List Nat))) : List Exchange × IO_s × Globals :=
  (deviceRun dev dg rnds reqs).getD ([], dev, dg)

/-- The first measurement of a calibration of the ambient sensor against the responder in
its initial state, `random()` returning 2 (jitter 0). -/
def simRun1 : List Exchange × IO_s × Globals :=
  deviceReplies (responder []).io initGlobals (List.replicate 6 2) (measureReqs 1 CMD_ambient 0)

/-- The second measurement, at the raw maximum. -/
def simRun2 : List Exchange × IO_s × Globals :=
  deviceReplies simRun1.2.1 simRun1.2.2 (List.replicate 6 2) (measureReqs 1 CMD_ambient 0x3FF)

/-- The third measurement, at the setpoint 780. -/
def simRun3 : List Exchange × IO_s × Globals :=
  deviceReplies simRun2.2.1 simRun2.2.2 (List.replicate 6 2) (measureReqs 1 CMD_ambient 780)

/-! ## The checksum: table against bitwise update, and error detection -/

set_option maxRecDepth 100000 in
theorem fcstab_eq_crcBit : ∀ i < 256, fcstab.getD i 0 = crcBit^[8] i := by
  decide

theorem shiftRight_xor (x y k : Nat) : (x ^^^ y) >>> k = (x >>> k) ^^^ (y >>> k) := by
  apply Nat.eq_of_testBit_eq
  intro i
  simp [Nat.testBit_shiftRight, Nat.testBit_xor]

theorem and_one_xor (x y : Nat) :
    (if (x ^^^ y) &&& 1 = 1 then 0x8408 else 0)
      = (if x &&& 1 = 1 then 0x8408 else 0) ^^^ (if y &&& 1 = 1 then 0x8408 else 0) := by
  have h : (x ^^^ y) &&& 1 = (x &&& 1) ^^^ (y &&& 1) := Nat.and_xor_distrib_right
  rw [h]
  have hx : x &&& 1 = 0 ∨ x &&& 1 = 1 := by rw [Nat.and_one_is_mod]; omega
  have hy : y &&& 1 = 0 ∨ y &&& 1 = 1 := by rw [Nat.and_one_is_mod]; omega
  rcases hx with hx | hx <;> rcases hy with hy | hy <;> simp [hx, hy]

theorem crcBit_xor (x y : Nat) : crcBit (x ^^^ y) = crcBit x ^^^ crcBit y := by
  unfold crcBit
  rw [shiftRight_xor, and_one_xor]
  ac_rfl

theorem crcBit_iter_xor (k x y : Nat) :
    crcBit^[k] (x ^^^ y) = crcBit^[k] x ^^^ crcBit^[k] y := by
  induction k generalizing x y with
  | zero => rfl
  | succ k ih => simp only [Function.iterate_succ, Function.comp]; rw [crcBit_xor, ih]

theorem crcBit_shiftLeft (h k : Nat) : crcBit (h <<< (k + 1)) = h <<< k := by
  unfold crcBit
  have h1 : (h <<< (k + 1)) >>> 1 = h <<< k := by
    rw [Nat.shiftLeft_eq, Nat.shiftLeft_eq, Nat.shiftRight_eq_div_pow, pow_succ, ← Nat.mul_assoc]
    simp
  have h2 : (h <<< (k + 1)) &&& 1 = 0 := by
    rw [Nat.and_one_is_mod, Nat.shiftLeft_eq, pow_succ, ← Nat.mul_assoc]
    simp
  rw [h1, h2]
  simp

theorem crcBit_iter_shiftLeft (h k : Nat) : crcBit^[k] (h <<< k) = h := by
  induction k with
  | zero => simp
  | succ k ih => rw [Function.iterate_succ, Function.comp, crcBit_shiftLeft, ih]

theorem split_low8 (x : Nat) : x = ((x >>> 8) <<< 8) ^^^ (x &&& 0xff) := by
  apply Nat.eq_of_testBit_eq
  intro i
  have hff : (0xff : Nat) = 2 ^ 8 - 1 := by norm_num
  rw [Nat.testBit_xor, Nat.testBit_shiftLeft, Nat.testBit_shiftRight, hff, Nat.testBit_and,
    Nat.testBit_two_pow_sub_one]
  by_cases hi : i < 8
  · have : ¬ i ≥ 8 := by omega
    simp [hi, this]
  · have h8 : i ≥ 8 := by omega
    have : 8 + (i - 8) = i := by omega
    simp [hi, h8, this]

theorem crcBit_iter8 (x : Nat) : crcBit^[8] x = (x >>> 8) ^^^ crcBit^[8] (x &&& 0xff) := by
  conv_lhs => rw [split_low8 x]
  rw [crcBit_iter_xor, crcBit_iter_shiftLeft]

theorem and_ff_lt (x : Nat) : x &&& 0xff < 256 := by
  have hff : (0xff : Nat) = 2 ^ 8 - 1 := by norm_num
  rw [hff, Nat.and_pow_two_sub_one_eq_mod]
  exact Nat.mod_lt _ (by norm_num)

theorem shiftRight8_xor_byte (fcs b : Nat) (hb : b < 256) : (fcs ^^^ b) >>> 8 = fcs >>> 8 := by
  rw [shiftRight_xor]
  have : b >>> 8 = 0 := by rw [Nat.shiftRight_eq_div_pow]; exact Nat.div_eq_of_lt (by simpa using hb)
  rw [this, Nat.xor_zero]

/-- One table-driven step is the bitwise update of one byte. -/
theorem fcs_step_eq_crcByte (fcs b : Nat) (hb : b < 256) :
    (fcs >>> 8) ^^^ fcstab.getD ((fcs ^^^ b) &&& 0xff) 0 = crcByte fcs b := by
  unfold crcByte
  rw [crcBit_iter8 (fcs ^^^ b), shiftRight8_xor_byte fcs b hb,
    fcstab_eq_crcBit _ (and_ff_lt _)]

theorem pppfcs_eq_crcRef (fcs : Nat) (bs : List Nat) (hbs : ∀ b ∈ bs, b < 256) :
    pppfcs fcs bs = crcRef fcs bs := by
  induction bs generalizing fcs with
  | nil => rfl
  | cons b bs ih =>
    have hb : b < 256 := hbs b (List.mem_cons_self _ _)
    have hrest : ∀ x ∈ bs, x < 256 := fun x hx => hbs x (List.mem_cons_of_mem _ hx)
    rw [pppfcs, fcs_step_eq_crcByte fcs b hb, ih _ hrest]
    rfl

theorem pppfcs_cons (fcs b : Nat) (bs : List Nat) :
    pppfcs fcs (b :: bs) = pppfcs (fcsStep fcs b) bs := rfl

theorem pppfcs_append (fcs : Nat) (xs ys : List Nat) :
    pppfcs fcs (xs ++ ys) = pppfcs (pppfcs fcs xs) ys := by
  induction xs generalizing fcs with
  | nil => rfl
  | cons x xs ih => simp only [List.cons_append, pppfcs_cons, ih]

theorem fcstab_xor (i j : Nat) (hi : i < 256) (hj : j < 256) :
    fcstab.getD (i ^^^ j) 0 = fcstab.getD i 0 ^^^ fcstab.getD j 0 := by
  have hij : i ^^^ j < 256 := @Nat.xor_lt_two_pow i j 8 hi hj
  rw [fcstab_eq_crcBit _ hij, fcstab_eq_crcBit _ hi, fcstab_eq_crcBit _ hj, crcBit_iter_xor]

set_option maxRecDepth 100000 in
theorem fcstab_hi_zero : ∀ k < 256, fcstab.getD k 0 >>> 8 = 0 → k = 0 := by
  decide

set_option maxRecDepth 100000 in
theorem fcstab_lt : ∀ k < 256, fcstab.getD k 0 < 65536 := by
  decide

theorem fcstab_hi_inj (i j : Nat) (hi : i < 256) (hj : j < 256)
    (h : fcstab.getD i 0 >>> 8 = fcstab.getD j 0 >>> 8) : i = j := by
  have hij : i ^^^ j < 256 := @Nat.xor_lt_two_pow i j 8 hi hj
  have h0 : fcstab.getD (i ^^^ j) 0 >>> 8 = 0 := by
    rw [fcstab_xor i j hi hj, shiftRight_xor, h, Nat.xor_self]
  exact Nat.xor_eq_zero.mp (fcstab_hi_zero _ hij h0)

theorem and_ff_of_lt (b : Nat) (hb : b < 256) : b &&& 0xff = b := by
  have hff : (0xff : Nat) = 2 ^ 8 - 1 := by norm_num
  rw [hff, Nat.and_pow_two_sub_one_eq_mod]
  exact Nat.mod_eq_of_lt (by simpa using hb)

theorem fcsStep_lt (s b : Nat) (hs : s < 65536) : fcsStep s b < 65536 := by
  unfold fcsStep
  have h1 : s >>> 8 < 2 ^ 16 := by
    rw [Nat.shiftRight_eq_div_pow]
    exact lt_of_le_of_lt (Nat.div_le_self _ _) (by simpa using hs)
  have h2 : fcstab.getD ((s ^^^ b) &&& 0xff) 0 < 2 ^ 16 := by
    simpa using fcstab_lt _ (and_ff_lt _)
  simpa using Nat.xor_lt_two_pow h1 h2

theorem pppfcs_lt (s : Nat) (bs : List Nat) (hs : s < 65536) : pppfcs s bs < 65536 := by
  induction bs generalizing s with
  | nil => exact hs
  | cons b bs ih => rw [pppfcs_cons]; exact ih _ (fcsStep_lt s b hs)

/-- For a fixed byte the step is injective in the 16-bit state. -/
theorem fcsStep_state_inj (s t b : Nat) (hs : s < 65536) (ht : t < 65536)
    (h : fcsStep s b = fcsStep t b) : s = t := by
  unfold fcsStep at h
  have hs8 : (s >>> 8) >>> 8 = 0 := by
    rw [← Nat.shiftRight_add, Nat.shiftRight_eq_div_pow]
    exact Nat.div_eq_of_lt (by simpa using hs)
  have ht8 : (t >>> 8) >>> 8 = 0 := by
    rw [← Nat.shiftRight_add, Nat.shiftRight_eq_div_pow]
    exact Nat.div_eq_of_lt (by simpa using ht)
  have hhi := congrArg (fun x => x >>> 8) h
  simp only [shiftRight_xor, hs8, ht8, Nat.zero_xor] at hhi
  have hidx := fcstab_hi_inj _ _ (and_ff_lt _) (and_ff_lt _) hhi
  rw [hidx] at h
  have hhigh : s >>> 8 = t >>> 8 := Nat.xor_left_inj.mp h
  have hlow : s &&& 0xff = t &&& 0xff := by
    rw [Nat.and_xor_distrib_right, Nat.and_xor_distrib_right] at hidx
    exact Nat.xor_left_inj.mp hidx
  rw [split_low8 s, split_low8 t, hhigh, hlow]

/-- For a fixed state the step is injective in the byte. -/
theorem fcsStep_byte_inj (s b c : Nat) (hb : b < 256) (hc : c < 256)
    (h : fcsStep s b = fcsStep s c) : b = c := by
  unfold fcsStep at h
  have hT := Nat.xor_right_inj.mp h
  have hidx := fcstab_hi_inj _ _ (and_ff_lt _) (and_ff_lt _) (congrArg (fun x => x >>> 8) hT)
  rw [Nat.and_xor_distrib_right, Nat.and_xor_distrib_right] at hidx
  have := Nat.xor_right_inj.mp hidx
  rwa [and_ff_of_lt b hb, and_ff_of_lt c hc] at this

theorem pppfcs_state_inj (s t : Nat) (bs : List Nat) (hs : s < 65536) (ht : t < 65536)
    (h : pppfcs s bs = pppfcs t bs) : s = t := by
  induction bs generalizing s t with
  | nil => exact h
  | cons b bs ih =>
    rw [pppfcs_cons, pppfcs_cons] at h
    exact fcsStep_state_inj s t b hs ht (ih _ _ (fcsStep_lt s b hs) (fcsStep_lt t b ht) h)

/-- Changing one byte of the data changes the checksum. -/
theorem pppfcs_detects (s : Nat) (pre post : List Nat) (b c : Nat) (hs : s < 65536)
    (hb : b < 256) (hc : c < 256) (hne : b ≠ c) :
    pppfcs s (pre ++ b :: post) ≠ pppfcs s (pre ++ c :: post) := by
  intro h
  rw [pppfcs_append, pppfcs_append, pppfcs_cons, pppfcs_cons] at h
  have hp := pppfcs_lt s pre hs
  have h1 := pppfcs_state_inj _ _ post (fcsStep_lt _ b hp) (fcsStep_lt _ c hp) h
  exact hne (fcsStep_byte_inj _ b c hb hc h1)

/-! ## The decoder on a list of received bytes -/

theorem szsub_of_le (a b : Nat) (h : b ≤ a) (ha : a < SIZE_MOD) : szsub a b = a - b := by
  unfold szsub SIZE_MOD at *
  split_ifs <;> omega

theorem szsub_of_lt (a b : Nat) (h : a < b) (hb : b < 256) : 256 < szsub a b := by
  unfold szsub SIZE_MOD at *
  split_ifs <;> omega

theorem rdbs_lt (io : IO_s) (i : Nat) : io.rdbs i < 256 := Nat.mod_lt _ (by norm_num)

theorem rdb_lt (io : IO_s) (i : Nat) : io.rdb i < 256 := Nat.mod_lt _ (by norm_num)

theorem getD_lt (w : List Nat) (hw : ∀ x ∈ w, x < 256) (i : Nat) : w.getD i 0 < 256 := by
  by_cases hi : i < w.length
  · rw [List.getD_eq_getElem _ _ hi]; exact hw _ (List.getElem_mem _)
  · rw [List.getD_eq_default _ _ (by omega)]; norm_num

/-- The bytes of a window read through `io->bs` are the window itself. -/
theorem bytes_eq_take (io : IO_s) (w : List Nat) (hrd : ∀ i < w.length, io.rdbs i = w.getD i 0)
    (m : Nat) (hm : m ≤ w.length) : io.bytes m = w.take m := by
  apply List.ext_getElem
  · simp [IO_s.bytes, hm]
  · intro i h1 h2
    simp only [IO_s.bytes, List.getElem_map, List.getElem_range, List.getElem_take]
    have hi : i < w.length := by simp [IO_s.bytes] at h1; omega
    rw [hrd i hi, List.getD_eq_getElem _ _ hi]

set_option maxRecDepth 10000 in
theorem accept1_length (w : List Nat) (h : accept1 w) : 3 ≤ w.length := by
  obtain ⟨h2, h0, hhi, _⟩ := h
  by_contra hlt
  have hlen : w.length = 2 := by omega
  rw [hlen] at h0 hhi
  simp only [Nat.sub_self, List.take_zero, pppfcs] at h0 hhi
  rw [h0] at hhi
  revert hhi; decide

/-- The `case 1` arm of `_Parse` with its assignments collected. -/
theorem parseBinary_eq (io : IO_s) :
    parseBinary io =
      if io.rdbs 0 ≠ szsub io.nb 2 then (false, io)
      else if io.rdbs (szsub io.nb 2) ≠ (pppfcs 0xffff (io.bytes (szsub io.nb 2)) >>> 8) &&& 0xFF
          ∨ io.rdbs (szsub io.nb 1) ≠ pppfcs 0xffff (io.bytes (szsub io.nb 2)) &&& 0xFF then
        (false, io)
      else
        (true, { io with
          tid := io.rdbs 1, cmd := io.rdbs 2,
          valid := if 5 ≤ szsub io.nb 2 then true else io.valid,
          val := if 5 ≤ szsub io.nb 2 then (io.rdbs 3 <<< 8) ||| io.rdbs 4 else io.val }) := by
  unfold parseBinary
  dsimp only
  split_ifs <;> rfl

/-- What the `case 1` arm of `_Parse` does on a window `w` of `io->nb` bytes at `io->bs`. -/
theorem parseBinary_spec (io : IO_s) (w : List Nat) (hnb : io.nb = w.length)
    (hlen : w.length < SIZE_MOD) (hrd : ∀ i < w.length, io.rdbs i = w.getD i 0) :
    parseBinary io =
      if accept1 w then
        (true, { io with
          tid := w.getD 1 0, cmd := w.getD 2 0,
          valid := if 5 ≤ w.length - 2 then true else io.valid,
          val := if 5 ≤ w.length - 2 then (w.getD 3 0 <<< 8) ||| w.getD 4 0 else io.val })
      else (false, io) := by
  rw [parseBinary_eq]
  by_cases h2 : 2 ≤ w.length
  · have e2 : szsub io.nb 2 = w.length - 2 := by rw [hnb]; exact szsub_of_le _ _ h2 hlen
    have e1 : szsub io.nb 1 = w.length - 1 := by rw [hnb]; exact szsub_of_le _ _ (by omega) hlen
    have r0 : io.rdbs 0 = w.getD 0 0 := hrd 0 (by omega)
    have rhi : io.rdbs (w.length - 2) = w.getD (w.length - 2) 0 := hrd _ (by omega)
    have rlo : io.rdbs (w.length - 1) = w.getD (w.length - 1) 0 := hrd _ (by omega)
    have hby : io.bytes (w.length - 2) = w.take (w.length - 2) :=
      bytes_eq_take io w hrd _ (by omega)
    rw [e2, e1, r0, rhi, rlo, hby]
    by_cases ha : accept1 w
    · have h3 := accept1_length w ha
      have r1 : io.rdbs 1 = w.getD 1 0 := hrd 1 (by omega)
      have r2 : io.rdbs 2 = w.getD 2 0 := hrd 2 (by omega)
      rw [if_pos ha, if_neg (not_not.mpr ha.2.1), if_neg (by
        rw [not_or, not_not, not_not]; exact ⟨ha.2.2.1, ha.2.2.2⟩), r1, r2]
      by_cases h5 : 5 ≤ w.length - 2
      · have r3 : io.rdbs 3 = w.getD 3 0 := hrd 3 (by omega)
        have r4 : io.rdbs 4 = w.getD 4 0 := hrd 4 (by omega)
        simp only [if_pos h5, r3, r4]
      · simp only [if_neg h5]
    · rw [if_neg ha]
      by_cases c0 : w.getD 0 0 = w.length - 2
      · rw [if_neg (not_not.mpr c0), if_pos]
        by_contra hh
        rw [not_or, not_not, not_not] at hh
        exact ha ⟨h2, c0, hh.1, hh.2⟩
      · rw [if_pos c0]
  · have hna : ¬ accept1 w := fun h => h2 h.1
    rw [if_neg hna]
    have hbig := szsub_of_lt w.length 2 (by omega) (by norm_num)
    have := rdbs_lt io 0
    rw [hnb, if_pos (by omega)]

theorem outcome_Parse (io : IO_s) (iov : iovec) :
    outcome (_Parse io iov) =
      (if (parseSwitch (parseEntry io iov)).1 then (0 : Int) else -1,
        (parseSwitch (parseEntry io iov)).2.frame) := by
  unfold _Parse outcome IO_s.frame
  rcases parseSwitch (parseEntry io iov) with ⟨f, st⟩
  cases f <;> simp

theorem iovOf_rd (mem : Nat → Nat) (b : List Nat) (hb : ∀ x ∈ b, x < 256) (i : Nat)
    (hi : i < b.length) : (iovOf mem b).iov_base i % 256 = b.getD i 0 := by
  unfold iovOf
  dsimp only
  rw [if_pos hi]
  exact Nat.mod_eq_of_lt (getD_lt b hb i)

/-- Format 1: the outcome of `_Parse` on the received bytes `b`. -/
theorem parse1_outcome (io : IO_s) (mem : Nat → Nat) (b : List Nat) (hfmt : io.msgfmt = 1)
    (hb : ∀ x ∈ b, x < 256) (hlen : b.length < SIZE_MOD) :
    outcome (_Parse io (iovOf mem b)) =
      if accept1 b then
        ((0 : Int), b.getD 1 0, b.getD 2 0, decide (5 ≤ b.length - 2),
          (if 5 ≤ b.length - 2 then (b.getD 3 0 <<< 8) ||| b.getD 4 0 else 0xffff),
          false, 0xffff)
      else ((-1 : Int), io.tid, io.cmd, false, 0xffff, false, 0xffff) := by
  rw [outcome_Parse]
  have hsw : parseSwitch (parseEntry io (iovOf mem b)) = parseBinary (parseEntry io (iovOf mem b)) := by
    unfold parseSwitch
    have : (parseEntry io (iovOf mem b)).msgfmt = 1 := hfmt
    rw [this]; rfl
  have hnb : (parseEntry io (iovOf mem b)).nb = b.length := Nat.mod_eq_of_lt hlen
  have hrd : ∀ i < b.length, (parseEntry io (iovOf mem b)).rdbs i = b.getD i 0 := by
    intro i hi
    have h1 : (parseEntry io (iovOf mem b)).rdbs i
        = (iovOf mem b).iov_base ((0 + i) % SIZE_MOD) % 256 := rfl
    rw [h1, Nat.zero_add, Nat.mod_eq_of_lt (lt_trans hi hlen)]
    exact iovOf_rd mem b hb i hi
  rw [hsw, parseBinary_spec _ b hnb hlen hrd]
  by_cases ha : accept1 b
  · rw [if_pos ha, if_pos ha]
    by_cases h5 : 5 ≤ b.length - 2 <;> simp [h5, IO_s.frame, parseEntry]
  · rw [if_neg ha, if_neg ha]
    simp [IO_s.frame, parseEntry]

theorem strip_length (b : List Nat) : (strip b).length = b.length - 2 := by
  unfold strip; simp; omega

theorem strip_getD (b : List Nat) (i : Nat) (hi : i < b.length - 2) :
    (strip b).getD i 0 = b.getD (1 + i) 0 := by
  have h1 : i < (strip b).length := by rw [strip_length]; exact hi
  rw [List.getD_eq_getElem _ _ h1, List.getD_eq_getElem _ _ (by omega : 1 + i < b.length)]
  simp [strip, Nat.add_comm]

/-- Format 2 (and every selector other than 0 and 1): the outcome of `_Parse` on the
received bytes `b`, when there are at least two of them. -/
theorem parse2_outcome (io : IO_s) (mem : Nat → Nat) (b : List Nat) (hf0 : io.msgfmt ≠ 0)
    (hf1 : io.msgfmt ≠ 1) (hb : ∀ x ∈ b, x < 256) (hlen : b.length < SIZE_MOD)
    (h2 : 2 ≤ b.length) :
    outcome (_Parse io (iovOf mem b)) =
      if b.getD 0 0 = TWIDDLE ∧ b.getD (b.length - 1) 0 = TWIDDLE ∧ accept1 (strip b) then
        ((0 : Int), (strip b).getD 1 0, (strip b).getD 2 0, decide (5 ≤ (strip b).length - 2),
          (if 5 ≤ (strip b).length - 2 then ((strip b).getD 3 0 <<< 8) ||| (strip b).getD 4 0
            else 0xffff),
          false, 0xffff)
      else ((-1 : Int), io.tid, io.cmd, false, 0xffff, false, 0xffff) := by
  rw [outcome_Parse]
  have e1 : szsub (parseEntry io (iovOf mem b)).nb 1 = b.length - 1 := by
    have : (parseEntry io (iovOf mem b)).nb = b.length := Nat.mod_eq_of_lt hlen
    rw [this]; exact szsub_of_le _ _ (by omega) hlen
  have e2 : szsub (parseEntry io (iovOf mem b)).nb 2 = b.length - 2 := by
    have : (parseEntry io (iovOf mem b)).nb = b.length := Nat.mod_eq_of_lt hlen
    rw [this]; exact szsub_of_le _ _ h2 hlen
  have rdb_eq : ∀ i < b.length, (parseEntry io (iovOf mem b)).rdb i = b.getD i 0 := by
    intro i hi
    have h1 : (parseEntry io (iovOf mem b)).rdb i
        = (iovOf mem b).iov_base (i % SIZE_MOD) % 256 := rfl
    rw [h1, Nat.mod_eq_of_lt (lt_trans hi hlen)]
    exact iovOf_rd mem b hb i hi
  have hsw : parseSwitch (parseEntry io (iovOf mem b)) =
      if ¬ ((parseEntry io (iovOf mem b)).rdb 0 = TWIDDLE
          ∧ (parseEntry io (iovOf mem b)).rdb (szsub (parseEntry io (iovOf mem b)).nb 1)
            = TWIDDLE) then
        (false, parseEntry io (iovOf mem b))
      else parseBinary (parseStrip (parseEntry io (iovOf mem b))) := by
    unfold parseSwitch
    have : (parseEntry io (iovOf mem b)).msgfmt = io.msgfmt := rfl
    rw [this, if_neg hf0, if_neg hf1]
  rw [hsw, e1, rdb_eq 0 (by omega), rdb_eq _ (by omega : b.length - 1 < b.length)]
  by_cases hfl : b.getD 0 0 = TWIDDLE ∧ b.getD (b.length - 1) 0 = TWIDDLE
  · rw [if_neg (not_not.mpr hfl)]
    have hnb : (parseStrip (parseEntry io (iovOf mem b))).nb = (strip b).length := by
      rw [strip_length]; exact e2
    have hrd : ∀ i < (strip b).length,
        (parseStrip (parseEntry io (iovOf mem b))).rdbs i = (strip b).getD i 0 := by
      intro i hi
      rw [strip_length] at hi
      have h1 : (parseStrip (parseEntry io (iovOf mem b))).rdbs i
          = (iovOf mem b).iov_base (((0 + 1) % SIZE_MOD + i) % SIZE_MOD) % 256 := rfl
      have hone : (0 + 1) % SIZE_MOD = 1 := rfl
      rw [h1, hone, Nat.mod_eq_of_lt (by omega : 1 + i < SIZE_MOD),
        iovOf_rd mem b hb (1 + i) (by omega), strip_getD b i hi]
    rw [parseBinary_spec _ (strip b) hnb (by rw [strip_length]; omega) hrd]
    by_cases ha : accept1 (strip b)
    · have hall : b.getD 0 0 = TWIDDLE ∧ b.getD (b.length - 1) 0 = TWIDDLE
          ∧ accept1 (strip b) := ⟨hfl.1, hfl.2, ha⟩
      rw [if_pos ha, if_pos hall]
      by_cases h5 : 5 ≤ (strip b).length - 2 <;> simp [h5, IO_s.frame, parseEntry, parseStrip]
    · have hall : ¬ (b.getD 0 0 = TWIDDLE ∧ b.getD (b.length - 1) 0 = TWIDDLE
          ∧ accept1 (strip b)) := fun h => ha h.2.2
      rw [if_neg ha, if_neg hall]
      simp [IO_s.frame, parseEntry, parseStrip]
  · have hall : ¬ (b.getD 0 0 = TWIDDLE ∧ b.getD (b.length - 1) 0 = TWIDDLE
        ∧ accept1 (strip b)) := fun h => hfl ⟨h.1, h.2.1⟩
    rw [if_pos hfl, if_neg hall]
    simp [IO_s.frame, parseEntry]

/-! ## The encoder, and decoding what it produces -/

theorem map_mod_bytes (s : List Nat) (hs : ∀ x ∈ s, x < 256) : s.map (fun x => x % 256) = s := by
  conv_rhs => rw [← List.map_id s]
  apply List.map_congr_left
  intro x hx
  exact Nat.mod_eq_of_lt (hs x hx)

theorem hi_byte (crc : Nat) (h : crc < 65536) : (crc >>> 8) &&& 0xFF = crc >>> 8 := by
  apply and_ff_of_lt
  rw [Nat.shiftRight_eq_div_pow]
  omega

theorem frameData_length (tid cmd : Nat) (s : List Nat) :
    (frameData tid cmd s).length = s.length + 3 := by
  simp [frameData]

theorem frame1_length (tid cmd : Nat) (s : List Nat) :
    (frame1 tid cmd s).length = s.length + 5 := by
  simp [frame1, frameData]

/-- Format 1: `_Load` lays the frame out as `frame1`, provided it fits the message buffer. -/
theorem load1_eq (tid cmd : Nat) (s : List Nat) (htid : tid < 256) (hcmd : cmd < 256)
    (hs : ∀ x ∈ s, x < 256) (hn : s.length ≤ 251) :
    _Load 1 tid cmd s = some (frame1 tid cmd s) := by
  have hcrc := pppfcs_lt 0xffff (frameData tid cmd s) (by norm_num)
  unfold _Load
  simp only [map_mod_bytes s hs, Nat.mod_eq_of_lt htid, Nat.mod_eq_of_lt hcmd]
  have hcount : ([0, tid, cmd] ++ s).length % 256 = s.length + 3 := by
    simp; omega
  simp only [hcount]
  have hbody : (s.length + 3) :: ([0, tid, cmd] ++ s).tail = frameData tid cmd s := by
    simp [frameData]
  simp only [hbody, hi_byte _ hcrc]
  simp [frame1, MSGBUFLEN, frameData_length]
  omega

/-- Format 2: `_Load` wraps `frame1` in two flags, provided the result fits the message
buffer. -/
theorem load2_eq (tid cmd : Nat) (s : List Nat) (htid : tid < 256) (hcmd : cmd < 256)
    (hs : ∀ x ∈ s, x < 256) (hn : s.length ≤ 249) :
    _Load 2 tid cmd s = some (TWIDDLE :: frame1 tid cmd s ++ [TWIDDLE]) := by
  have hcrc := pppfcs_lt 0xffff (frameData tid cmd s) (by norm_num)
  unfold _Load
  simp only [map_mod_bytes s hs, Nat.mod_eq_of_lt htid, Nat.mod_eq_of_lt hcmd]
  have hcount : ([0, tid, cmd] ++ s).length % 256 = s.length + 3 := by
    simp; omega
  simp only [hcount]
  have hbody : (s.length + 3) :: ([0, tid, cmd] ++ s).tail = frameData tid cmd s := by
    simp [frameData]
  simp only [hbody, hi_byte _ hcrc]
  simp [frame1, MSGBUFLEN, frameData_length]
  omega

/-- A frame longer than the message buffer is not produced. -/
theorem load2_overflow (tid cmd : Nat) (s : List Nat) (hn : 250 ≤ s.length) :
    _Load 2 tid cmd s = none := by
  unfold _Load
  simp [MSGBUFLEN]
  omega

theorem frame1_bytes (tid cmd : Nat) (s : List Nat) (htid : tid < 256) (hcmd : cmd < 256)
    (hs : ∀ x ∈ s, x < 256) (hn : s.length ≤ 251) : ∀ x ∈ frame1 tid cmd s, x < 256 := by
  intro x hx
  have hcrc := pppfcs_lt 0xffff ([s.length + 3, tid, cmd] ++ s) (by norm_num)
  simp only [frame1, frameData, List.mem_append, List.mem_cons, List.mem_singleton,
    List.not_mem_nil, or_false] at hx
  rcases hx with (((h | h | h) | h) | h | h)
  · omega
  · omega
  · omega
  · exact hs x h
  · rw [h, Nat.shiftRight_eq_div_pow]; omega
  · rw [h]; exact and_ff_lt _

theorem frame1_take (tid cmd : Nat) (s : List Nat) :
    (frame1 tid cmd s).take ((frame1 tid cmd s).length - 2) = frameData tid cmd s := by
  rw [frame1_length]
  have h : s.length + 5 - 2 = (frameData tid cmd s).length := by rw [frameData_length]; omega
  rw [h, frame1, List.take_left']
  rfl

theorem frame1_getD_data (tid cmd : Nat) (s : List Nat) (i : Nat) (hi : i < s.length + 3) :
    (frame1 tid cmd s).getD i 0 = (frameData tid cmd s).getD i 0 := by
  have h1 : i < (frameData tid cmd s).length := by rw [frameData_length]; exact hi
  have h2 : i < (frame1 tid cmd s).length := by rw [frame1_length]; omega
  rw [List.getD_eq_getElem _ _ h1, List.getD_eq_getElem _ _ h2]
  simp only [frame1]
  rw [List.getElem_append_left]

theorem frame1_getD_hi (tid cmd : Nat) (s : List Nat) :
    (frame1 tid cmd s).getD (s.length + 3) 0 = pppfcs 0xffff (frameData tid cmd s) >>> 8 := by
  have h2 : s.length + 3 < (frame1 tid cmd s).length := by rw [frame1_length]; omega
  rw [List.getD_eq_getElem _ _ h2]
  simp only [frame1]
  rw [List.getElem_append_right (by rw [frameData_length])]
  simp [frameData_length]

theorem frame1_getD_lo (tid cmd : Nat) (s : List Nat) :
    (frame1 tid cmd s).getD (s.length + 4) 0
      = pppfcs 0xffff (frameData tid cmd s) &&& 0xFF := by
  have h2 : s.length + 4 < (frame1 tid cmd s).length := by rw [frame1_length]; omega
  rw [List.getD_eq_getElem _ _ h2]
  simp only [frame1]
  rw [List.getElem_append_right (by rw [frameData_length]; omega)]
  simp [frameData_length]

/-- The frame laid out by `_Load` satisfies the acceptance condition of `_Parse`. -/
theorem accept1_frame1 (tid cmd : Nat) (s : List Nat) (hn : s.length ≤ 251) :
    accept1 (frame1 tid cmd s) := by
  have hcrc := pppfcs_lt 0xffff (frameData tid cmd s) (by norm_num)
  unfold accept1
  rw [frame1_take, frame1_length]
  refine ⟨by omega, ?_, ?_, ?_⟩
  · rw [frame1_getD_data _ _ _ 0 (by omega)]; simp [frameData]
  · rw [show s.length + 5 - 2 = s.length + 3 by omega, frame1_getD_hi, hi_byte _ hcrc]
  · rw [show s.length + 5 - 1 = s.length + 4 by omega, frame1_getD_lo]

theorem strip_wrap (f : List Nat) : strip (TWIDDLE :: f ++ [TWIDDLE]) = f := by
  unfold strip
  simp

theorem outcome_eq_iff (r : Int × IO_s) (a : Int) (t c : Nat) (vd : Bool) (vl : Nat)
    (rd : Bool) (rl : Nat) :
    outcome r = (a, t, c, vd, vl, rd, rl) ↔
      r.1 = a ∧ r.2.tid = t ∧ r.2.cmd = c ∧ r.2.valid = vd ∧ r.2.val = vl
        ∧ r.2.retvalid = rd ∧ r.2.retval = rl := by
  simp [outcome, IO_s.frame, Prod.ext_iff]

theorem frameData_getD (tid cmd : Nat) (s : List Nat) :
    (frameData tid cmd s).getD 1 0 = tid ∧ (frameData tid cmd s).getD 2 0 = cmd
      ∧ (frameData tid cmd s).getD 3 0 = s.getD 0 0
      ∧ (frameData tid cmd s).getD 4 0 = s.getD 1 0 := by
  simp [frameData]

/-- Decoding the frame that `_Load` lays out (without flags): the outcome. -/
theorem frame1_decoded (tid cmd : Nat) (s : List Nat) :
    (frame1 tid cmd s).getD 1 0 = tid ∧ (frame1 tid cmd s).getD 2 0 = cmd
      ∧ (2 ≤ s.length → (frame1 tid cmd s).getD 3 0 = s.getD 0 0
          ∧ (frame1 tid cmd s).getD 4 0 = s.getD 1 0) := by
  obtain ⟨h1, h2, h3, h4⟩ := frameData_getD tid cmd s
  refine ⟨?_, ?_, fun h => ⟨?_, ?_⟩⟩
  · rw [frame1_getD_data _ _ _ _ (by omega), h1]
  · rw [frame1_getD_data _ _ _ _ (by omega), h2]
  · rw [frame1_getD_data _ _ _ _ (by omega), h3]
  · rw [frame1_getD_data _ _ _ _ (by omega), h4]

/-- Format 1: `_Parse` accepts the frame laid out by `_Load` and recovers its fields. -/
theorem parse_frame1 (io : IO_s) (mem : Nat → Nat) (tid cmd : Nat) (s : List Nat)
    (hfmt : io.msgfmt = 1) (htid : tid < 256) (hcmd : cmd < 256) (hs : ∀ x ∈ s, x < 256)
    (hn : s.length ≤ 251) :
    outcome (_Parse io (iovOf mem (frame1 tid cmd s))) =
      ((0 : Int), tid, cmd, decide (2 ≤ s.length),
        (if 2 ≤ s.length then (s.getD 0 0 <<< 8) ||| s.getD 1 0 else 0xffff), false, 0xffff) := by
  have hlen : (frame1 tid cmd s).length < SIZE_MOD := by
    rw [frame1_length]; unfold SIZE_MOD; omega
  rw [parse1_outcome io mem _ hfmt (frame1_bytes tid cmd s htid hcmd hs hn) hlen,
    if_pos (accept1_frame1 tid cmd s hn), frame1_length]
  obtain ⟨h1, h2, h34⟩ := frame1_decoded tid cmd s
  rw [h1, h2]
  by_cases h : 2 ≤ s.length
  · have h5 : 5 ≤ s.length + 5 - 2 := by omega
    rw [(h34 h).1, (h34 h).2]
    simp [h, h5]
  · have h5 : ¬ 5 ≤ s.length + 5 - 2 := by omega
    simp [h, h5]

theorem wrap_getD (f : List Nat) :
    (TWIDDLE :: f ++ [TWIDDLE]).getD 0 0 = TWIDDLE
      ∧ (TWIDDLE :: f ++ [TWIDDLE]).getD ((TWIDDLE :: f ++ [TWIDDLE]).length - 1) 0
        = TWIDDLE := by
  constructor
  · rfl
  · have h : (TWIDDLE :: f ++ [TWIDDLE]).length - 1 = (TWIDDLE :: f).length := by simp
    rw [h, List.getD_eq_getElem _ _ (by simp)]
    rw [List.getElem_append_right (by simp)]
    simp

/-- Format 2 (and every selector other than 0 and 1): `_Parse` accepts the flagged frame and
recovers its fields. -/
theorem parse_frame2 (io : IO_s) (mem : Nat → Nat) (tid cmd : Nat) (s : List Nat)
    (hf0 : io.msgfmt ≠ 0) (hf1 : io.msgfmt ≠ 1) (htid : tid < 256) (hcmd : cmd < 256)
    (hs : ∀ x ∈ s, x < 256) (hn : s.length ≤ 251) :
    outcome (_Parse io (iovOf mem (TWIDDLE :: frame1 tid cmd s ++ [TWIDDLE]))) =
      ((0 : Int), tid, cmd, decide (2 ≤ s.length),
        (if 2 ≤ s.length then (s.getD 0 0 <<< 8) ||| s.getD 1 0 else 0xffff), false, 0xffff) := by
  have hbytes : ∀ x ∈ TWIDDLE :: frame1 tid cmd s ++ [TWIDDLE], x < 256 := by
    intro x hx
    simp only [List.cons_append, List.mem_cons, List.mem_append, List.mem_singleton,
      List.not_mem_nil, or_false] at hx
    rcases hx with h | h | h
    · rw [h]; decide
    · exact frame1_bytes tid cmd s htid hcmd hs hn x h
    · rw [h]; decide
  have hl : (TWIDDLE :: frame1 tid cmd s ++ [TWIDDLE]).length = s.length + 7 := by
    simp [frame1_length]
  have hlen : (TWIDDLE :: frame1 tid cmd s ++ [TWIDDLE]).length < SIZE_MOD := by
    rw [hl]; unfold SIZE_MOD; omega
  rw [parse2_outcome io mem _ hf0 hf1 hbytes hlen (by rw [hl]; omega), strip_wrap]
  have hall : (TWIDDLE :: frame1 tid cmd s ++ [TWIDDLE]).getD 0 0 = TWIDDLE
      ∧ (TWIDDLE :: frame1 tid cmd s ++ [TWIDDLE]).getD
          ((TWIDDLE :: frame1 tid cmd s ++ [TWIDDLE]).length - 1) 0 = TWIDDLE
      ∧ accept1 (frame1 tid cmd s) :=
    ⟨(wrap_getD _).1, (wrap_getD _).2, accept1_frame1 tid cmd s hn⟩
  rw [if_pos hall, frame1_length]
  obtain ⟨h1, h2, h34⟩ := frame1_decoded tid cmd s
  rw [h1, h2]
  by_cases h : 2 ≤ s.length
  · have h5 : 5 ≤ s.length + 5 - 2 := by omega
    rw [(h34 h).1, (h34 h).2]
    simp [h, h5]
  · have h5 : ¬ 5 ≤ s.length + 5 - 2 := by omega
    simp [h, h5]

theorem join_bytes (v : Nat) : ((v >>> 8) <<< 8) ||| (v &&& 0xFF) = v := by
  apply Nat.eq_of_testBit_eq
  intro i
  have hff : (0xFF : Nat) = 2 ^ 8 - 1 := by norm_num
  rw [Nat.testBit_or, Nat.testBit_shiftLeft, Nat.testBit_shiftRight, hff, Nat.testBit_and,
    Nat.testBit_two_pow_sub_one]
  by_cases hi : i < 8
  · have : ¬ i ≥ 8 := by omega
    simp [hi, this]
  · have h8 : i ≥ 8 := by omega
    have : 8 + (i - 8) = i := by omega
    simp [hi, h8, this]

/-! ## Single-bit errors -/

theorem flip_lt (x k : Nat) (hx : x < 256) (hk : k < 8) : x ^^^ (1 <<< k) < 256 := by
  have h1 : 1 <<< k < 2 ^ 8 := by
    rw [Nat.shiftLeft_eq, Nat.one_mul]
    exact Nat.pow_lt_pow_right (by norm_num) hk
  exact @Nat.xor_lt_two_pow x (1 <<< k) 8 hx h1

theorem flip_ne (x k : Nat) : x ^^^ (1 <<< k) ≠ x := by
  intro h
  have h0 : x ^^^ (1 <<< k) = x ^^^ 0 := by rw [Nat.xor_zero]; exact h
  have := Nat.xor_right_inj.mp h0
  rw [Nat.shiftLeft_eq, Nat.one_mul] at this
  exact absurd this (by positivity)

/-- Changing one byte of the data changes the checksum (`List.set` form). -/
theorem pppfcs_set_ne (s0 : Nat) (d : List Nat) (j y : Nat) (hs0 : s0 < 65536)
    (hd : ∀ x ∈ d, x < 256) (hj : j < d.length) (hy : y < 256) (hne : y ≠ d.getD j 0) :
    pppfcs s0 (d.set j y) ≠ pppfcs s0 d := by
  rw [List.getD_eq_getElem _ _ hj] at hne
  have h1 : d.set j y = d.take j ++ y :: d.drop (j + 1) := List.set_eq_take_cons_drop y hj
  have h2 : d = d.take j ++ d[j] :: d.drop (j + 1) := by
    rw [List.getElem_cons_drop, List.take_append_drop]
  rw [h1]
  conv_rhs => rw [h2]
  exact pppfcs_detects s0 _ _ y d[j] hs0 hy (hd _ (List.getElem_mem _)) hne

/-- Two 16-bit values with the same high and low bytes are equal. -/
theorem eq_of_bytes_eq (c d : Nat) (hc : c < 65536) (hd : d < 65536)
    (hhi : (c >>> 8) &&& 0xFF = (d >>> 8) &&& 0xFF) (hlo : c &&& 0xFF = d &&& 0xFF) : c = d := by
  rw [hi_byte c hc, hi_byte d hd] at hhi
  rw [split_low8 c, split_low8 d, hhi, hlo]

/-- The acceptance condition on data followed by two checksum bytes. -/
theorem accept1_append (d : List Nat) (h l : Nat) :
    accept1 (d ++ [h, l]) ↔
      (d ++ [h, l]).getD 0 0 = d.length ∧ h = (pppfcs 0xffff d >>> 8) &&& 0xFF
        ∧ l = pppfcs 0xffff d &&& 0xFF := by
  unfold accept1
  have hlen : (d ++ [h, l]).length = d.length + 2 := by simp
  have e2 : d.length + 2 - 2 = d.length := by omega
  have e1 : d.length + 2 - 1 = d.length + 1 := by omega
  have htake : (d ++ [h, l]).take d.length = d := List.take_left' rfl
  have gh : (d ++ [h, l]).getD d.length 0 = h := by
    rw [List.getD_eq_getElem _ _ (by rw [hlen]; omega), List.getElem_append_right (le_refl _)]
    simp
  have gl : (d ++ [h, l]).getD (d.length + 1) 0 = l := by
    rw [List.getD_eq_getElem _ _ (by rw [hlen]; omega),
      List.getElem_append_right (by omega)]
    simp
  rw [hlen, e2, e1, htake, gh, gl]
  constructor
  · rintro ⟨_, h0, h1, h2⟩; exact ⟨h0, h1, h2⟩
  · rintro ⟨h0, h1, h2⟩; exact ⟨by omega, h0, h1, h2⟩

/-- No single changed byte of a frame laid out by `_Load` passes the acceptance condition. -/
theorem not_accept1_set (tid cmd : Nat) (s : List Nat) (j y : Nat) (htid : tid < 256)
    (hcmd : cmd < 256) (hs : ∀ x ∈ s, x < 256) (hn : s.length ≤ 251)
    (hj : j < s.length + 5) (hy : y < 256) (hne : y ≠ (frame1 tid cmd s).getD j 0) :
    ¬ accept1 ((frame1 tid cmd s).set j y) := by
  have hdl := frameData_length tid cmd s
  have hcrc := pppfcs_lt 0xffff (frameData tid cmd s) (by norm_num)
  have hdb : ∀ x ∈ frameData tid cmd s, x < 256 := by
    intro x hx
    simp only [frameData, List.mem_append, List.mem_cons, List.mem_singleton,
      List.not_mem_nil, or_false] at hx
    rcases hx with (h | h | h) | h
    · omega
    · omega
    · omega
    · exact hs x h
  intro hacc
  by_cases hjd : j < s.length + 3
  · -- the changed byte is covered by the checksum
    have hset : (frame1 tid cmd s).set j y = (frameData tid cmd s).set j y
        ++ [pppfcs 0xffff (frameData tid cmd s) >>> 8,
            pppfcs 0xffff (frameData tid cmd s) &&& 0xFF] := by
      unfold frame1
      rw [List.set_append_left _ _ (by rw [hdl]; exact hjd)]
    rw [hset, accept1_append, List.length_set, hdl] at hacc
    obtain ⟨h0, hhi, hlo⟩ := hacc
    rw [frame1_getD_data _ _ _ _ hjd] at hne
    by_cases hj0 : j = 0
    · subst hj0
      have : ((frameData tid cmd s).set 0 y ++
          [pppfcs 0xffff (frameData tid cmd s) >>> 8,
            pppfcs 0xffff (frameData tid cmd s) &&& 0xFF]).getD 0 0 = y := by
        simp [frameData]
      rw [this] at h0
      apply hne
      rw [h0]
      simp [frameData]
    · have hcrc2 := pppfcs_lt 0xffff ((frameData tid cmd s).set j y) (by norm_num)
      have heq : pppfcs 0xffff ((frameData tid cmd s).set j y)
          = pppfcs 0xffff (frameData tid cmd s) := by
        apply eq_of_bytes_eq _ _ hcrc2 hcrc
        · rw [← hhi, hi_byte _ hcrc]
        · rw [← hlo]
      exact pppfcs_set_ne 0xffff (frameData tid cmd s) j y (by norm_num) hdb
        (by rw [hdl]; exact hjd) hy hne heq
  · -- the changed byte is one of the two checksum bytes
    have hset : (frame1 tid cmd s).set j y = frameData tid cmd s
        ++ [pppfcs 0xffff (frameData tid cmd s) >>> 8,
            pppfcs 0xffff (frameData tid cmd s) &&& 0xFF].set (j - (s.length + 3)) y := by
      unfold frame1
      rw [List.set_append_right _ _ (by rw [hdl]; omega), hdl]
    have hj2 : j = s.length + 3 ∨ j = s.length + 4 := by omega
    rcases hj2 with hj2 | hj2
    · have e : j - (s.length + 3) = 0 := by omega
      rw [hset, e, List.set_cons_zero, accept1_append] at hacc
      apply hne
      rw [hj2, frame1_getD_hi, hacc.2.1, hi_byte _ hcrc]
    · have e : j - (s.length + 3) = 1 := by omega
      rw [hset, e, List.set_cons_succ, List.set_cons_zero, accept1_append] at hacc
      apply hne
      rw [hj2, frame1_getD_lo, hacc.2.2]

theorem flipBit_bytes (f : List Nat) (p : Nat) (hf : ∀ x ∈ f, x < 256) :
    ∀ x ∈ flipBit f p, x < 256 := by
  intro x hx
  rcases List.mem_or_eq_of_mem_set hx with h | h
  · exact hf x h
  · rw [h]; exact flip_lt _ _ (getD_lt f hf _) (Nat.mod_lt _ (by norm_num))

theorem flipBit_length (f : List Nat) (p : Nat) : (flipBit f p).length = f.length :=
  List.length_set _ _ _

theorem rc_of_outcome (r : Int × IO_s) (a : Int) (x : Nat × Nat × Bool × Nat × Bool × Nat)
    (h : outcome r = (a, x)) : r.1 = a := congrArg Prod.fst h

/-- Format 1: a frame laid out by `_Load` with one bit inverted is rejected. -/
theorem parse1_flip (io : IO_s) (mem : Nat → Nat) (tid cmd : Nat) (s : List Nat) (p : Nat)
    (hfmt : io.msgfmt = 1) (htid : tid < 256) (hcmd : cmd < 256) (hs : ∀ x ∈ s, x < 256)
    (hn : s.length ≤ 251) (hp : p < 8 * (s.length + 5)) :
    (_Parse io (iovOf mem (flipBit (frame1 tid cmd s) p))).1 = -1 := by
  have hb := flipBit_bytes _ p (frame1_bytes tid cmd s htid hcmd hs hn)
  have hlen : (flipBit (frame1 tid cmd s) p).length < SIZE_MOD := by
    rw [flipBit_length, frame1_length]; unfold SIZE_MOD; omega
  have hna : ¬ accept1 (flipBit (frame1 tid cmd s) p) :=
    not_accept1_set tid cmd s (p / 8) _ htid hcmd hs hn (by omega)
      (flip_lt _ _ (getD_lt _ (frame1_bytes tid cmd s htid hcmd hs hn) _)
        (Nat.mod_lt _ (by norm_num)))
      (flip_ne _ _)
  have h := parse1_outcome io mem _ hfmt hb hlen
  rw [if_neg hna] at h
  exact rc_of_outcome _ _ _ h

theorem wrap_set_succ (f : List Nat) (j y : Nat) (hj : j < f.length) :
    (TWIDDLE :: f ++ [TWIDDLE]).set (j + 1) y = TWIDDLE :: f.set j y ++ [TWIDDLE] := by
  rw [List.cons_append, List.set_cons_succ, List.set_append_left _ _ hj, List.cons_append]

theorem wrap_getD_succ (f : List Nat) (j : Nat) (hj : j < f.length) :
    (TWIDDLE :: f ++ [TWIDDLE]).getD (j + 1) 0 = f.getD j 0 := by
  rw [List.cons_append, List.getD_cons_succ, List.getD_eq_getElem _ _ hj,
    List.getD_eq_getElem _ _ (by simp; omega), List.getElem_append_left]

/-- Format 2: a flagged frame laid out by `_Load` with one bit inverted is rejected. -/
theorem parse2_flip (io : IO_s) (mem : Nat → Nat) (tid cmd : Nat) (s : List Nat) (p : Nat)
    (hf0 : io.msgfmt ≠ 0) (hf1 : io.msgfmt ≠ 1) (htid : tid < 256) (hcmd : cmd < 256)
    (hs : ∀ x ∈ s, x < 256) (hn : s.length ≤ 251) (hp : p < 8 * (s.length + 7)) :
    (_Parse io (iovOf mem (flipBit (TWIDDLE :: frame1 tid cmd s ++ [TWIDDLE]) p))).1 = -1 := by
  have hf1b := frame1_bytes tid cmd s htid hcmd hs hn
  have hwb : ∀ x ∈ TWIDDLE :: frame1 tid cmd s ++ [TWIDDLE], x < 256 := by
    intro x hx
    simp only [List.cons_append, List.mem_cons, List.mem_append, List.mem_singleton,
      List.not_mem_nil, or_false] at hx
    rcases hx with h | h | h
    · rw [h]; decide
    · exact hf1b x h
    · rw [h]; decide
  have hl : (TWIDDLE :: frame1 tid cmd s ++ [TWIDDLE]).length = s.length + 7 := by
    simp [frame1_length]
  have hb := flipBit_bytes _ p hwb
  have hfl := flipBit_length (TWIDDLE :: frame1 tid cmd s ++ [TWIDDLE]) p
  have hlen : (flipBit (TWIDDLE :: frame1 tid cmd s ++ [TWIDDLE]) p).length < SIZE_MOD := by
    rw [hfl, hl]; unfold SIZE_MOD; omega
  have h := parse2_outcome io mem _ hf0 hf1 hb hlen (by rw [hfl, hl]; omega)
  have hcond : ¬ ((flipBit (TWIDDLE :: frame1 tid cmd s ++ [TWIDDLE]) p).getD 0 0 = TWIDDLE
      ∧ (flipBit (TWIDDLE :: frame1 tid cmd s ++ [TWIDDLE]) p).getD
          ((flipBit (TWIDDLE :: frame1 tid cmd s ++ [TWIDDLE]) p).length - 1) 0 = TWIDDLE
      ∧ accept1 (strip (flipBit (TWIDDLE :: frame1 tid cmd s ++ [TWIDDLE]) p))) := by
    rintro ⟨c0, c1, c2⟩
    rw [hfl, hl] at c1
    have hj : p / 8 < s.length + 7 := by omega
    by_cases hj0 : p / 8 = 0
    · -- the start flag
      unfold flipBit at c0
      rw [hj0, List.getD_eq_getElem _ _ (by rw [List.length_set, hl]; omega),
        List.getElem_set_self] at c0
      exact flip_ne _ _ c0
    · by_cases hjl : p / 8 = s.length + 6
      · -- the stop flag
        unfold flipBit at c1
        rw [hjl, List.getD_eq_getElem _ _ (by rw [List.length_set, hl]; omega)] at c1
        have e : s.length + 7 - 1 = s.length + 6 := by omega
        simp only [e, List.getElem_set_self] at c1
        have hlast := (wrap_getD (frame1 tid cmd s)).2
        rw [hl, e] at hlast
        rw [hlast] at c1
        exact flip_ne _ _ c1
      · -- a byte of the frame between the flags
        obtain ⟨j, hjeq⟩ : ∃ j, p / 8 = j + 1 := ⟨p / 8 - 1, by omega⟩
        have hjlt : j < (frame1 tid cmd s).length := by rw [frame1_length]; omega
        unfold flipBit at c2
        rw [hjeq, wrap_set_succ _ _ _ hjlt, strip_wrap, wrap_getD_succ _ _ hjlt] at c2
        exact not_accept1_set tid cmd s j _ htid hcmd hs hn (by rw [frame1_length] at hjlt; exact hjlt)
          (flip_lt _ _ (getD_lt _ hf1b _) (Nat.mod_lt _ (by norm_num))) (flip_ne _ _) c2
  rw [if_neg hcond] at h
  exact rc_of_outcome _ _ _ h

/-! ## Format 0, and what a rejected buffer leaves -/

theorem parseHex_succ (io : IO_s) (i k : Nat) :
    parseHex io i (k + 1) =
      if isxdigit (io.rdbs (2 + i)) = true then
        parseHex { io with val := hexAcc io.val (io.rdbs (2 + i)) } (i + 1) k
      else (false, io) := by
  rw [parseHex]
  dsimp only
  unfold hexAcc
  split_ifs <;> rfl

/-- The hex loop only writes `io->val`. -/
theorem parseHex_keeps (io : IO_s) (i k : Nat) :
    (parseHex io i k).2.tid = io.tid ∧ (parseHex io i k).2.cmd = io.cmd
      ∧ (parseHex io i k).2.valid = io.valid ∧ (parseHex io i k).2.retvalid = io.retvalid
      ∧ (parseHex io i k).2.retval = io.retval := by
  induction k generalizing io i with
  | zero => exact ⟨rfl, rfl, rfl, rfl, rfl⟩
  | succ k ih =>
    rw [parseHex_succ]
    split_ifs
    · exact ih _ _
    · exact ⟨rfl, rfl, rfl, rfl, rfl⟩

/-- The hex loop runs to its end exactly when every character it reads is a hex digit. -/
theorem parseHex_ok (io : IO_s) (i k : Nat) :
    (parseHex io i k).1 = true ↔ ∀ j < k, isxdigit (io.rdbs (2 + (i + j))) = true := by
  induction k generalizing io i with
  | zero => simp [parseHex]
  | succ k ih =>
    rw [parseHex_succ]
    by_cases hc : isxdigit (io.rdbs (2 + i)) = true
    · rw [if_pos hc, ih]
      constructor
      · intro h j hj
        cases j with
        | zero => exact hc
        | succ j =>
          have := h j (by omega)
          have e : 2 + (i + 1 + j) = 2 + (i + (j + 1)) := by omega
          rw [← e]; exact this
      · intro h j hj
        have := h (j + 1) (by omega)
        have e : 2 + (i + 1 + j) = 2 + (i + (j + 1)) := by omega
        rw [e]; exact this
    · rw [if_neg hc]
      constructor
      · intro h; exact absurd h (by simp)
      · intro h; exact absurd (h 0 (by omega)) hc

/-- The `case 0` arm of `_Parse` with its assignments collected. -/
theorem parseAscii_eq (io : IO_s) :
    parseAscii io =
      if ¬ (io.rdb (szsub io.nb 2) = 13 ∧ io.rdb (szsub io.nb 1) = 10) then (false, io)
      else if szsub io.nb 2 ≥ 6 then
        parseHex { io with tid := io.rdbs 0, cmd := io.rdbs 1, valid := true, val := 0 } 0 4
      else (true, { io with tid := io.rdbs 0, cmd := io.rdbs 1 }) := by
  unfold parseAscii
  dsimp only
  split_ifs <;> rfl

/-- A rejected binary frame leaves the channel state as it was. -/
theorem parseBinary_fail (io : IO_s) (h : (parseBinary io).1 = false) :
    (parseBinary io).2 = io := by
  rw [parseBinary_eq] at h ⊢
  split_ifs at h ⊢
  · rfl
  · rfl

/-- The frame fields on entry to the `switch` of `_Parse`. -/
theorem parseEntry_frame (io : IO_s) (iov : iovec) :
    (parseEntry io iov).frame = (io.tid, io.cmd, false, 0xffff, false, 0xffff) := rfl

theorem parseBinary_ret (io : IO_s) :
    (parseBinary io).2.retvalid = io.retvalid ∧ (parseBinary io).2.retval = io.retval := by
  rw [parseBinary_eq]
  split_ifs <;> exact ⟨rfl, rfl⟩

theorem parseAscii_ret (io : IO_s) :
    (parseAscii io).2.retvalid = io.retvalid ∧ (parseAscii io).2.retval = io.retval := by
  rw [parseAscii_eq]
  by_cases hterm : io.rdb (szsub io.nb 2) = 13 ∧ io.rdb (szsub io.nb 1) = 10
  · rw [if_neg (not_not.mpr hterm)]
    by_cases h6 : szsub io.nb 2 ≥ 6
    · rw [if_pos h6]
      exact ⟨(parseHex_keeps _ 0 4).2.2.2.1, (parseHex_keeps _ 0 4).2.2.2.2⟩
    · rw [if_neg h6]
      exact ⟨rfl, rfl⟩
  · rw [if_pos hterm]
    exact ⟨rfl, rfl⟩

/-- The `switch` of `_Parse` never writes the response fields. -/
theorem parseSwitch_ret (io : IO_s) :
    (parseSwitch io).2.retvalid = io.retvalid ∧ (parseSwitch io).2.retval = io.retval := by
  unfold parseSwitch
  by_cases h0 : io.msgfmt = 0
  · rw [if_pos h0]; exact parseAscii_ret io
  · rw [if_neg h0]
    by_cases h1 : io.msgfmt = 1
    · rw [if_pos h1]; exact parseBinary_ret io
    · rw [if_neg h1]
      by_cases hfl : io.rdb 0 = TWIDDLE ∧ io.rdb (szsub io.nb 1) = TWIDDLE
      · rw [if_neg (not_not.mpr hfl)]; exact parseBinary_ret (parseStrip io)
      · rw [if_pos hfl]; exact ⟨rfl, rfl⟩

/-- When the `switch` of `_Parse` leaves through `goto exit`, other than on a character of
format 0 that is not a hex digit, the frame fields are the ones it was entered with. -/
theorem parseSwitch_fail (io : IO_s) (h : (parseSwitch io).1 = false)
    (hcase : io.msgfmt ≠ 0 ∨ ¬ (io.rdb (szsub io.nb 2) = 13 ∧ io.rdb (szsub io.nb 1) = 10)) :
    (parseSwitch io).2.frame = io.frame := by
  unfold parseSwitch at h ⊢
  by_cases h0 : io.msgfmt = 0
  · rw [if_pos h0] at h ⊢
    have hterm : ¬ (io.rdb (szsub io.nb 2) = 13 ∧ io.rdb (szsub io.nb 1) = 10) := by
      rcases hcase with hc | hc
      · exact absurd h0 hc
      · exact hc
    rw [parseAscii_eq, if_pos hterm]
  · rw [if_neg h0] at h ⊢
    by_cases h1 : io.msgfmt = 1
    · rw [if_pos h1] at h ⊢
      rw [parseBinary_fail io h]
    · rw [if_neg h1] at h ⊢
      by_cases hfl : io.rdb 0 = TWIDDLE ∧ io.rdb (szsub io.nb 1) = TWIDDLE
      · rw [if_neg (not_not.mpr hfl)] at h ⊢
        rw [parseBinary_fail _ h]
        rfl
      · rw [if_pos hfl]

theorem _Parse_rc (io : IO_s) (iov : iovec) :
    (_Parse io iov).1 = if (parseSwitch (parseEntry io iov)).1 = true then 0 else -1 :=
  congrArg Prod.fst (outcome_Parse io iov)

theorem _Parse_frame (io : IO_s) (iov : iovec) :
    (_Parse io iov).2.frame = (parseSwitch (parseEntry io iov)).2.frame :=
  congrArg Prod.snd (outcome_Parse io iov)

theorem parseEntry_rdb (io : IO_s) (mem : Nat → Nat) (b : List Nat) (hb : ∀ x ∈ b, x < 256)
    (hlen : b.length < SIZE_MOD) (i : Nat) (hi : i < b.length) :
    (parseEntry io (iovOf mem b)).rdb i = b.getD i 0 := by
  have h1 : (parseEntry io (iovOf mem b)).rdb i
      = (iovOf mem b).iov_base (i % SIZE_MOD) % 256 := rfl
  rw [h1, Nat.mod_eq_of_lt (lt_trans hi hlen)]
  exact iovOf_rd mem b hb i hi

theorem parseEntry_rdbs (io : IO_s) (mem : Nat → Nat) (b : List Nat) (hb : ∀ x ∈ b, x < 256)
    (hlen : b.length < SIZE_MOD) (i : Nat) (hi : i < b.length) :
    (parseEntry io (iovOf mem b)).rdbs i = b.getD i 0 := by
  have h1 : (parseEntry io (iovOf mem b)).rdbs i
      = (iovOf mem b).iov_base ((0 + i) % SIZE_MOD) % 256 := rfl
  rw [h1, Nat.zero_add, Nat.mod_eq_of_lt (lt_trans hi hlen)]
  exact iovOf_rd mem b hb i hi

/-- Format 0: the return code of `_Parse` on the received bytes `b` (at least two), and the
target id, command and value-valid flag it leaves on success. -/
theorem parse0_spec (io : IO_s) (mem : Nat → Nat) (b : List Nat) (hfmt : io.msgfmt = 0)
    (hb : ∀ x ∈ b, x < 256) (hlen : b.length < SIZE_MOD) (h2 : 2 ≤ b.length) :
    ((_Parse io (iovOf mem b)).1 = 0 ↔
      b.getD (b.length - 2) 0 = 13 ∧ b.getD (b.length - 1) 0 = 10
        ∧ (6 ≤ b.length - 2 → ∀ j < 4, isxdigit (b.getD (2 + j) 0) = true))
    ∧ ((_Parse io (iovOf mem b)).1 ≠ 0 → (_Parse io (iovOf mem b)).1 = -1)
    ∧ ((_Parse io (iovOf mem b)).1 = 0 →
        (_Parse io (iovOf mem b)).2.tid = b.getD 0 0
        ∧ (_Parse io (iovOf mem b)).2.cmd = b.getD 1 0
        ∧ (_Parse io (iovOf mem b)).2.valid = decide (6 ≤ b.length - 2)) := by
  have hnb : (parseEntry io (iovOf mem b)).nb = b.length := Nat.mod_eq_of_lt hlen
  have e2 : szsub (parseEntry io (iovOf mem b)).nb 2 = b.length - 2 := by
    rw [hnb]; exact szsub_of_le _ _ h2 hlen
  have e1 : szsub (parseEntry io (iovOf mem b)).nb 1 = b.length - 1 := by
    rw [hnb]; exact szsub_of_le _ _ (by omega) hlen
  have hsw : parseSwitch (parseEntry io (iovOf mem b)) = parseAscii (parseEntry io (iovOf mem b)) := by
    unfold parseSwitch
    have : (parseEntry io (iovOf mem b)).msgfmt = 0 := hfmt
    rw [if_pos this]
  have hfr := _Parse_frame io (iovOf mem b)
  simp only [IO_s.frame, Prod.mk.injEq] at hfr
  rw [_Parse_rc, hfr.1, hfr.2.1, hfr.2.2.1, hsw, parseAscii_eq, e2, e1,
    parseEntry_rdb io mem b hb hlen _ (by omega : b.length - 2 < b.length),
    parseEntry_rdb io mem b hb hlen _ (by omega : b.length - 1 < b.length)]
  by_cases hterm : b.getD (b.length - 2) 0 = 13 ∧ b.getD (b.length - 1) 0 = 10
  · rw [if_neg (not_not.mpr hterm)]
    by_cases h6 : b.length - 2 ≥ 6
    · rw [if_pos h6]
      have hk := parseHex_keeps { parseEntry io (iovOf mem b) with
        tid := (parseEntry io (iovOf mem b)).rdbs 0, cmd := (parseEntry io (iovOf mem b)).rdbs 1,
        valid := true, val := 0 } 0 4
      have hok := parseHex_ok { parseEntry io (iovOf mem b) with
        tid := (parseEntry io (iovOf mem b)).rdbs 0, cmd := (parseEntry io (iovOf mem b)).rdbs 1,
        valid := true, val := 0 } 0 4
      have hdig : (∀ j < 4, isxdigit (IO_s.rdbs { parseEntry io (iovOf mem b) with
          tid := (parseEntry io (iovOf mem b)).rdbs 0,
          cmd := (parseEntry io (iovOf mem b)).rdbs 1,
          valid := true, val := 0 } (2 + (0 + j))) = true)
          ↔ (∀ j < 4, isxdigit (b.getD (2 + j) 0) = true) := by
        constructor
        · intro h j hj
          have := h j hj
          have e : IO_s.rdbs { parseEntry io (iovOf mem b) with
              tid := (parseEntry io (iovOf mem b)).rdbs 0,
              cmd := (parseEntry io (iovOf mem b)).rdbs 1,
              valid := true, val := 0 } (2 + (0 + j))
              = (parseEntry io (iovOf mem b)).rdbs (2 + (0 + j)) := rfl
          rw [e, Nat.zero_add, parseEntry_rdbs io mem b hb hlen _ (by omega)] at this
          exact this
        · intro h j hj
          have e : IO_s.rdbs { parseEntry io (iovOf mem b) with
              tid := (parseEntry io (iovOf mem b)).rdbs 0,
              cmd := (parseEntry io (iovOf mem b)).rdbs 1,
              valid := true, val := 0 } (2 + (0 + j))
              = (parseEntry io (iovOf mem b)).rdbs (2 + (0 + j)) := rfl
          rw [e, Nat.zero_add, parseEntry_rdbs io mem b hb hlen _ (by omega)]
          exact h j hj
      rw [hk.1, hk.2.1, hk.2.2.1]
      rw [hdig] at hok
      by_cases hall : ∀ j < 4, isxdigit (b.getD (2 + j) 0) = true
      · rw [if_pos (hok.mpr hall)]
        refine ⟨⟨fun _ => ⟨hterm.1, hterm.2, fun _ => hall⟩, fun _ => rfl⟩, fun h => absurd rfl h,
          fun _ => ⟨?_, ?_, ?_⟩⟩
        · exact parseEntry_rdbs io mem b hb hlen 0 (by omega)
        · exact parseEntry_rdbs io mem b hb hlen 1 (by omega)
        · exact (decide_eq_true h6).symm
      · rw [if_neg (fun h => hall (hok.mp h))]
        refine ⟨⟨fun h => absurd h (by decide), fun h => absurd (h.2.2 h6) hall⟩, fun _ => rfl,
          fun h => absurd h (by decide)⟩
    · rw [if_neg h6, if_pos rfl]
      refine ⟨⟨fun _ => ⟨hterm.1, hterm.2, fun h => absurd h h6⟩, fun _ => rfl⟩,
        fun h => absurd rfl h, fun _ => ⟨?_, ?_, ?_⟩⟩
      · exact parseEntry_rdbs io mem b hb hlen 0 (by omega)
      · exact parseEntry_rdbs io mem b hb hlen 1 (by omega)
      · exact (decide_eq_false h6).symm
  · rw [if_pos hterm, if_neg (by simp)]
    exact ⟨⟨fun h => absurd h (by decide), fun h => absurd ⟨h.1, h.2.1⟩ hterm⟩, fun _ => rfl,
      fun h => absurd h (by decide)⟩

/-! ## The command processor on the register classes -/

/-- The function `_GetSet` on an index in range with a value: the value is stored and returned. -/
theorem _GetSet_write (io : IO_s) (rnd : Nat) (vals : Nat → Nat) (hcmd : io.cmd < 32)
    (hvalid : io.valid = true) :
    _GetSet io rnd vals =
      (0, { io with retvalid := true, retval := io.val }, Function.update vals io.cmd io.val) := by
  unfold _GetSet
  have h1 : ¬ io.cmd ≥ CMD_NDEVS := by unfold CMD_NDEVS _CMD_NDEVS; omega
  simp only [h1, if_false, hvalid, if_true, Function.update_same]

/-- The function `_GetSet` on an index in range without a value, other than an analog-in read on the
device: the stored value is returned and nothing is stored. -/
theorem _GetSet_read (io : IO_s) (rnd : Nat) (vals : Nat → Nat) (hcmd : io.cmd < 32)
    (hvalid : io.valid = false) (htid : io.tid ≠ TID_A2D) :
    _GetSet io rnd vals = (0, { io with retvalid := true, retval := vals io.cmd }, vals) := by
  unfold _GetSet
  have h1 : ¬ io.cmd ≥ CMD_NDEVS := by unfold CMD_NDEVS _CMD_NDEVS; omega
  have h2 : ¬ (io.role = "avr" ∧ io.tid = TID_A2D) := fun h => htid h.2
  simp only [h1, if_false, hvalid, Bool.false_eq_true, h2]

/-- An analog-out frame at an index in range: what `_Process` returns. -/
theorem _Process_D2A (io : IO_s) (g : Globals) (rnd : Nat) (ht : io.tid = TID_D2A)
    (hcmd : io.cmd < 32) :
    _Process io g rnd = some (0,
      (if io.valid = true then
        { io with retvalid := true, retval := io.val,
                  ADvals := Function.update io.ADvals io.cmd io.val }
      else { io with retvalid := true, retval := io.ADvals io.cmd }), g) := by
  unfold _Process
  rw [if_neg (by rw [ht]; decide), if_pos ht]
  by_cases hv : io.valid = true
  · rw [_GetSet_write io rnd _ hcmd hv, if_pos hv]; rfl
  · rw [_GetSet_read io rnd _ hcmd (by simpa using hv) (by rw [ht]; decide), if_neg hv]; rfl

/-- A pressure frame at an index in range: what `_Process` returns. -/
theorem _Process_PRES (io : IO_s) (g : Globals) (rnd : Nat) (ht : io.tid = TID_PRES)
    (hcmd : io.cmd < 32) :
    _Process io g rnd = some (0,
      (if io.valid = true then
        { io with retvalid := true, retval := io.val,
                  Pvals := Function.update io.Pvals io.cmd io.val }
      else { io with retvalid := true, retval := io.Pvals io.cmd }), g) := by
  unfold _Process
  rw [if_neg (by rw [ht]; decide), if_neg (by rw [ht]; decide), if_neg (by rw [ht]; decide),
    if_pos ht]
  by_cases hv : io.valid = true
  · rw [_GetSet_write io rnd _ hcmd hv, if_pos hv]; rfl
  · rw [_GetSet_read io rnd _ hcmd (by simpa using hv) (by rw [ht]; decide), if_neg hv]; rfl

/-- A temperature frame at an index in range: what `_Process` returns. -/
theorem _Process_TEMP (io : IO_s) (g : Globals) (rnd : Nat) (ht : io.tid = TID_TEMP)
    (hcmd : io.cmd < 32) :
    _Process io g rnd = some (0,
      (if io.valid = true then
        { io with retvalid := true, retval := io.val,
                  Tvals := Function.update io.Tvals io.cmd io.val }
      else { io with retvalid := true, retval := io.Tvals io.cmd }), g) := by
  unfold _Process
  rw [if_neg (by rw [ht]; decide), if_neg (by rw [ht]; decide), if_neg (by rw [ht]; decide),
    if_neg (by rw [ht]; decide), if_neg (by rw [ht]; decide), if_pos ht]
  by_cases hv : io.valid = true
  · rw [_GetSet_write io rnd _ hcmd hv, if_pos hv]; rfl
  · rw [_GetSet_read io rnd _ hcmd (by simpa using hv) (by rw [ht]; decide), if_neg hv]; rfl

/-- A digital-IO frame at an index in range: what `_Process` returns. The flags are loaded
from the response word when the index is below `_NFLAGS`. -/
theorem _Process_digital (io : IO_s) (g : Globals) (rnd : Nat) (ht : io.tid = TID_DIO)
    (hcmd : io.cmd < 32) :
    _Process io g rnd = some (0,
      (if io.valid = true then
        { io with retvalid := true, retval := io.val,
                  Fvals := Function.update io.Fvals io.cmd io.val }
      else { io with retvalid := true, retval := io.Fvals io.cmd }),
      (if io.cmd < _NFLAGS then
        { g with urg := { g.urg with
            flags := (setFlags (if io.valid = true then io.val else io.Fvals io.cmd)
              g.urg.flags 1 0 _NFLAGS) } }
      else g)) := by
  unfold _Process
  rw [if_neg (by rw [ht]; decide), if_neg (by rw [ht]; decide), if_pos ht]
  by_cases hv : io.valid = true
  · rw [_GetSet_write io rnd _ hcmd hv, if_pos hv, if_pos hv]
    by_cases hf : io.cmd < _NFLAGS
    · rw [if_pos hf]
      simp [hf]
    · rw [if_neg hf]
      simp [hf]
  · rw [_GetSet_read io rnd _ hcmd (by simpa using hv) (by rw [ht]; decide), if_neg hv,
      if_neg hv]
    by_cases hf : io.cmd < _NFLAGS
    · rw [if_pos hf]
      simp [hf]
    · rw [if_neg hf]
      simp [hf]

/-! ## The jitter clamp and the flag loop -/

theorem clamp12_range (x : Int) : 0 ≤ clamp12 x ∧ clamp12 x ≤ 0x0fff := by
  unfold clamp12
  split_ifs <;> omega

theorem toInt16_of_range (x : Int) (h1 : -32768 ≤ x) (h2 : x < 32768) : toInt16 x = x := by
  unfold toInt16
  omega

theorem toInt16_range (x : Int) : -32768 ≤ toInt16 x ∧ toInt16 x < 32768 := by
  unfold toInt16
  omega

/-- An analog-in read at an index in range on the device role: what `_Process` returns. -/
theorem _Process_A2D_device_read (io : IO_s) (g : Globals) (rnd : Nat) (hrole : io.role = "avr")
    (ht : io.tid = TID_A2D) (hcmd : io.cmd < 32) (hv : io.valid = false) :
    _Process io g rnd = some (0,
      { io with retvalid := true,
                retval := (clamp12 (toInt16 (toInt16 (io.ADvals io.cmd)
                  + toInt16 ((rnd % 5 : Nat) - 2)))).toNat }, g) := by
  have h1 : ¬ io.cmd ≥ CMD_NDEVS := by unfold CMD_NDEVS _CMD_NDEVS; omega
  have hnuc : ¬ (io.role = "nuc") := by rw [hrole]; decide
  have hr := clamp12_range (toInt16 (toInt16 (io.ADvals io.cmd) + toInt16 ((rnd % 5 : Nat) - 2)))
  have hmod : clamp12 (toInt16 (toInt16 (io.ADvals io.cmd) + toInt16 ((rnd % 5 : Nat) - 2)))
      % 65536 = clamp12 (toInt16 (toInt16 (io.ADvals io.cmd)
        + toInt16 ((rnd % 5 : Nat) - 2))) := by
    omega
  have hgs : _GetSet io rnd io.ADvals = (0,
      { io with retvalid := true,
                retval := (clamp12 (toInt16 (toInt16 (io.ADvals io.cmd)
                  + toInt16 ((rnd % 5 : Nat) - 2)))).toNat }, io.ADvals) := by
    unfold _GetSet
    simp only [h1, if_false, hv, Bool.false_eq_true, hrole, ht, and_self, if_true]
    rw [← hmod]
    rfl
  unfold _Process
  rw [if_pos ht, hgs]
  simp [hnuc]

theorem and_two_pow_bit (w k : Nat) : (if w &&& 2 ^ k ≠ 0 then 1 else 0) = bitOf w k := by
  unfold bitOf
  rw [Nat.and_comm, Nat.two_pow_and, Nat.shiftRight_eq_div_pow]
  have hpos : 0 < 2 ^ k := Nat.pow_pos (by norm_num)
  by_cases hb : w.testBit k = true
  · have h1 : w / 2 ^ k % 2 = 1 := by
      rw [Nat.testBit_to_div_mod] at hb
      exact of_decide_eq_true hb
    rw [hb, h1]
    simp
  · have hb' : w.testBit k = false := by simpa using hb
    have h0 : w / 2 ^ k % 2 = 0 := by
      rw [Nat.testBit_to_div_mod] at hb'
      have := of_decide_eq_false hb'
      omega
    rw [hb', h0]
    simp

/-- The flag loop of `_Process` loads the flags with bits 0..12 of the response word. -/
theorem setFlags_eq (w : Nat) (f : FLAGS_s) : setFlags w f 1 0 _NFLAGS = flagsOf w := by
  have b0 : (if w &&& 1 ≠ 0 then 1 else 0) = bitOf w 0 := and_two_pow_bit w 0
  have b1 : (if w &&& 2 ≠ 0 then 1 else 0) = bitOf w 1 := and_two_pow_bit w 1
  have b2 : (if w &&& 4 ≠ 0 then 1 else 0) = bitOf w 2 := and_two_pow_bit w 2
  have b3 : (if w &&& 8 ≠ 0 then 1 else 0) = bitOf w 3 := and_two_pow_bit w 3
  have b4 : (if w &&& 16 ≠ 0 then 1 else 0) = bitOf w 4 := and_two_pow_bit w 4
  have b5 : (if w &&& 32 ≠ 0 then 1 else 0) = bitOf w 5 := and_two_pow_bit w 5
  have b6 : (if w &&& 64 ≠ 0 then 1 else 0) = bitOf w 6 := and_two_pow_bit w 6
  have b7 : (if w &&& 128 ≠ 0 then 1 else 0) = bitOf w 7 := and_two_pow_bit w 7
  have b8 : (if w &&& 256 ≠ 0 then 1 else 0) = bitOf w 8 := and_two_pow_bit w 8
  have b9 : (if w &&& 512 ≠ 0 then 1 else 0) = bitOf w 9 := and_two_pow_bit w 9
  have b10 : (if w &&& 1024 ≠ 0 then 1 else 0) = bitOf w 10 := and_two_pow_bit w 10
  have b11 : (if w &&& 2048 ≠ 0 then 1 else 0) = bitOf w 11 := and_two_pow_bit w 11
  have b12 : (if w &&& 4096 ≠ 0 then 1 else 0) = bitOf w 12 := and_two_pow_bit w 12
  have m1 : (1 <<< 1) % 65536 = 2 := by decide
  have m2 : (2 <<< 1) % 65536 = 4 := by decide
  have m3 : (4 <<< 1) % 65536 = 8 := by decide
  have m4 : (8 <<< 1) % 65536 = 16 := by decide
  have m5 : (16 <<< 1) % 65536 = 32 := by decide
  have m6 : (32 <<< 1) % 65536 = 64 := by decide
  have m7 : (64 <<< 1) % 65536 = 128 := by decide
  have m8 : (128 <<< 1) % 65536 = 256 := by decide
  have m9 : (256 <<< 1) % 65536 = 512 := by decide
  have m10 : (512 <<< 1) % 65536 = 1024 := by decide
  have m11 : (1024 <<< 1) % 65536 = 2048 := by decide
  have m12 : (2048 <<< 1) % 65536 = 4096 := by decide
  simp only [_NFLAGS, setFlags, FLAGS_s.set, flagsOf, m1, m2, m3, m4, m5, m6, m7, m8, m9, m10,
    m11, m12, b0, b1, b2, b3, b4, b5, b6, b7, b8, b9, b10, b11, b12]

theorem flagsOf_get (w k : Nat) (hk : k < 13) : (flagsOf w).get k = bitOf w k := by
  interval_cases k <;> rfl

theorem bitOf_mod (w k : Nat) (hk : k < 13) : bitOf (w % 8192) k = bitOf w k := by
  have h1 : w.testBit k = (w % 2 ^ 13).testBit k := by
    rw [Nat.testBit_mod_two_pow]; simp [hk]
  unfold bitOf
  rw [Nat.shiftRight_eq_div_pow, Nat.shiftRight_eq_div_pow]
  rw [Nat.testBit_to_div_mod, Nat.testBit_to_div_mod] at h1
  have h2 : (w / 2 ^ k % 2 = 1) ↔ (w % 2 ^ 13 / 2 ^ k % 2 = 1) := by
    constructor
    · intro h; exact of_decide_eq_true (h1 ▸ decide_eq_true h)
    · intro h; exact of_decide_eq_true (h1.symm ▸ decide_eq_true h)
  have e : (2 : Nat) ^ 13 = 8192 := by norm_num
  rw [e] at h2
  omega

/-! ## The command processor: range check, stepper, global control, failure -/

/-- The function `_GetSet` on an index out of range: failure, nothing changed. -/
theorem _GetSet_range (io : IO_s) (rnd : Nat) (vals : Nat → Nat) (hcmd : 32 ≤ io.cmd) :
    _GetSet io rnd vals = (-1, io, vals) := by
  unfold _GetSet
  have h1 : io.cmd ≥ CMD_NDEVS := by unfold CMD_NDEVS _CMD_NDEVS; omega
  simp only [h1, if_true]

/-- The classes served by `_GetSet` reject an index out of range and change nothing. -/
theorem _Process_range (io : IO_s) (g : Globals) (rnd : Nat)
    (ht : io.tid = TID_A2D ∨ io.tid = TID_D2A ∨ io.tid = TID_DIO ∨ io.tid = TID_PRES
      ∨ io.tid = TID_TEMP) (hcmd : 32 ≤ io.cmd) :
    _Process io g rnd = some (-1, io, g) := by
  unfold _Process
  rcases ht with ht | ht | ht | ht | ht
  · rw [if_pos ht, _GetSet_range io rnd _ hcmd]; rfl
  · rw [if_neg (by rw [ht]; decide), if_pos ht, _GetSet_range io rnd _ hcmd]; rfl
  · rw [if_neg (by rw [ht]; decide), if_neg (by rw [ht]; decide), if_pos ht,
      _GetSet_range io rnd _ hcmd]; rfl
  · rw [if_neg (by rw [ht]; decide), if_neg (by rw [ht]; decide), if_neg (by rw [ht]; decide),
      if_pos ht, _GetSet_range io rnd _ hcmd]; rfl
  · rw [if_neg (by rw [ht]; decide), if_neg (by rw [ht]; decide), if_neg (by rw [ht]; decide),
      if_neg (by rw [ht]; decide), if_neg (by rw [ht]; decide), if_pos ht,
      _GetSet_range io rnd _ hcmd]; rfl

/-- A stepper frame: what `_Process` returns, whatever the command byte. -/
theorem _Process_STEP (io : IO_s) (g : Globals) (rnd : Nat) (ht : io.tid = TID_STEP) :
    _Process io g rnd = some (0,
      (if io.valid = true then
        { io with Spos := ((io.Spos + toInt16 io.val) % 65536).toNat }
      else { io with retvalid := true, retval := io.Spos }), g) := by
  unfold _Process
  rw [if_neg (by rw [ht]; decide), if_neg (by rw [ht]; decide), if_neg (by rw [ht]; decide),
    if_neg (by rw [ht]; decide), if_pos ht]
  by_cases hv : io.valid = true
  · rw [if_pos hv, if_pos hv]
  · rw [if_neg hv, if_neg hv]

/-- A global-control frame: what `_Process` returns. -/
theorem _Process_GLOBAL (io : IO_s) (g : Globals) (rnd : Nat) (ht : io.tid = TID_GLOBAL) :
    _Process io g rnd =
      if io.cmd = CMD_QUIT then some (0, io, { g with exit_request := 1 })
      else some (-1, io, g) := by
  unfold _Process
  rw [if_neg (by rw [ht]; decide), if_neg (by rw [ht]; decide), if_neg (by rw [ht]; decide),
    if_neg (by rw [ht]; decide), if_neg (by rw [ht]; decide), if_neg (by rw [ht]; decide),
    if_pos ht]

/-- A frame for no known target: `_Process` fails and changes nothing. -/
theorem _Process_unknown (io : IO_s) (g : Globals) (rnd : Nat) (hA : io.tid ≠ TID_A2D)
    (hD : io.tid ≠ TID_D2A) (hF : io.tid ≠ TID_DIO) (hG : io.tid ≠ TID_GLOBAL)
    (hP : io.tid ≠ TID_PRES) (hS : io.tid ≠ TID_STEP) (hT : io.tid ≠ TID_TEMP) :
    _Process io g rnd = some (-1, io, g) := by
  unfold _Process
  rw [if_neg hA, if_neg hD, if_neg hF, if_neg hP, if_neg hS, if_neg hT, if_neg hG]

theorem _GetSet_ok (io : IO_s) (rnd : Nat) (vals : Nat → Nat) (hcmd : io.cmd < 32) :
    (_GetSet io rnd vals).1 = 0 := by
  unfold _GetSet
  have h1 : ¬ io.cmd ≥ CMD_NDEVS := by unfold CMD_NDEVS _CMD_NDEVS; omega
  simp only [h1, if_false]
  split_ifs <;> rfl

/-- An analog-in frame at an index in range never makes `_Process` return a failure code. -/
theorem _Process_A2D_rc (io : IO_s) (g : Globals) (rnd : Nat) (ht : io.tid = TID_A2D)
    (hcmd : io.cmd < 32) (rc : Int) (io' : IO_s) (g' : Globals)
    (h : _Process io g rnd = some (rc, io', g')) : rc = 0 := by
  unfold _Process at h
  rw [if_pos ht, if_neg (by rw [_GetSet_ok io rnd _ hcmd]; decide)] at h
  dsimp only at h
  split_ifs at h
  · rw [Option.map_eq_some'] at h
    obtain ⟨u, _, hu⟩ := h
    exact (congrArg Prod.fst hu).symm
  · rw [Option.some.injEq] at h
    exact (congrArg Prod.fst h).symm

/-- Whenever `_Process` returns a failure code, the code is -1 and neither the channel state
nor the file-scope variables have changed. -/
theorem _Process_failure (io : IO_s) (g : Globals) (rnd : Nat) (rc : Int) (io' : IO_s)
    (g' : Globals) (h : _Process io g rnd = some (rc, io', g')) (hrc : rc ≠ 0) :
    rc = -1 ∧ io' = io ∧ g' = g := by
  have key : ∀ x : Int × IO_s × Globals, some x = some (rc, io', g') → x = (-1, io, g) →
      rc = -1 ∧ io' = io ∧ g' = g := by
    intro x hx hx'
    rw [Option.some.injEq] at hx
    rw [hx'] at hx
    simp only [Prod.mk.injEq] at hx
    exact ⟨hx.1.symm, hx.2.1.symm, hx.2.2.symm⟩
  have contra : ∀ x : IO_s × Globals, some ((0 : Int), x) = some (rc, io', g') →
      rc = -1 ∧ io' = io ∧ g' = g := by
    intro x hx
    rw [Option.some.injEq] at hx
    exact absurd (congrArg Prod.fst hx).symm hrc
  by_cases hA : io.tid = TID_A2D
  · by_cases hc : io.cmd < 32
    · exact absurd (_Process_A2D_rc io g rnd hA hc rc io' g' h) hrc
    · rw [_Process_range io g rnd (Or.inl hA) (by omega)] at h
      exact key _ h rfl
  by_cases hD : io.tid = TID_D2A
  · by_cases hc : io.cmd < 32
    · rw [_Process_D2A io g rnd hD hc] at h; exact contra _ h
    · rw [_Process_range io g rnd (Or.inr (Or.inl hD)) (by omega)] at h
      exact key _ h rfl
  by_cases hF : io.tid = TID_DIO
  · by_cases hc : io.cmd < 32
    · rw [_Process_digital io g rnd hF hc] at h; exact contra _ h
    · rw [_Process_range io g rnd (Or.inr (Or.inr (Or.inl hF))) (by omega)] at h
      exact key _ h rfl
  by_cases hP : io.tid = TID_PRES
  · by_cases hc : io.cmd < 32
    · rw [_Process_PRES io g rnd hP hc] at h; exact contra _ h
    · rw [_Process_range io g rnd (Or.inr (Or.inr (Or.inr (Or.inl hP)))) (by omega)] at h
      exact key _ h rfl
  by_cases hT : io.tid = TID_TEMP
  · by_cases hc : io.cmd < 32
    · rw [_Process_TEMP io g rnd hT hc] at h; exact contra _ h
    · rw [_Process_range io g rnd (Or.inr (Or.inr (Or.inr (Or.inr hT)))) (by omega)] at h
      exact key _ h rfl
  by_cases hS : io.tid = TID_STEP
  · rw [_Process_STEP io g rnd hS] at h; exact contra _ h
  by_cases hG : io.tid = TID_GLOBAL
  · rw [_Process_GLOBAL io g rnd hG] at h
    by_cases hq : io.cmd = CMD_QUIT
    · rw [if_pos hq] at h; exact contra _ h
    · rw [if_neg hq] at h; exact key _ h rfl
  rw [_Process_unknown io g rnd hA hD hF hG hP hS hT] at h
  exact key _ h rfl

/-! ## What the decoder writes, and sequences of frames -/

theorem parseHex_writes (io : IO_s) (i k : Nat) :
    (parseHex io i k).2 = io.setParsed (parseHex io i k).2.parsed := by
  induction k generalizing io i with
  | zero => rfl
  | succ k ih =>
    rw [parseHex_succ]
    split_ifs
    · have h := ih { io with val := hexAcc io.val (io.rdbs (2 + i)) } (i + 1)
      rw [h]
      rfl
    · rfl

theorem parseBinary_writes (io : IO_s) :
    (parseBinary io).2 = io.setParsed (parseBinary io).2.parsed := by
  rw [parseBinary_eq]
  split_ifs <;> rfl

theorem parseAscii_writes (io : IO_s) :
    (parseAscii io).2 = io.setParsed (parseAscii io).2.parsed := by
  rw [parseAscii_eq]
  split_ifs <;> first | rfl | (rw [parseHex_writes _ 0 4]; rfl)

theorem parseSwitch_writes (io : IO_s) :
    (parseSwitch io).2 = io.setParsed (parseSwitch io).2.parsed := by
  unfold parseSwitch
  split_ifs <;>
    first
    | rfl
    | exact parseAscii_writes io
    | exact parseBinary_writes io
    | (rw [parseBinary_writes (parseStrip io)]; rfl)

/-- Nothing but the buffer pointers and the frame fields is written by `_Parse`. -/
theorem _Parse_writes (io : IO_s) (iov : iovec) :
    (_Parse io iov).2 = io.setParsed (_Parse io iov).2.parsed := by
  have h := parseSwitch_writes (parseEntry io iov)
  unfold _Parse
  dsimp only
  split_ifs
  · rw [h]; rfl
  · rw [h]; rfl

theorem processAll_cons (io : IO_s) (g : Globals) (w : Parsed × Nat) (ws : List (Parsed × Nat))
    (r : Int × IO_s × Globals) (h : _Process (io.setParsed w.1) g w.2 = some r) :
    processAll io g (w :: ws) = processAll r.2.1 r.2.2 ws := by
  rw [processAll, h]

/-- A stepper write adds the value, read as `int16_t`, to the position modulo `2 ^ 16` and
leaves the register arrays, the role and the format selector alone. -/
theorem _Process_STEP_write (io : IO_s) (g : Globals) (rnd : Nat) (ht : io.tid = TID_STEP)
    (hv : io.valid = true) :
    ∃ io1, _Process io g rnd = some ((0 : Int), io1, g)
      ∧ io1.Spos = ((io.Spos + toInt16 io.val) % 65536).toNat
      ∧ io1.ADvals = io.ADvals ∧ io1.Fvals = io.Fvals ∧ io1.Pvals = io.Pvals
      ∧ io1.Tvals = io.Tvals ∧ io1.role = io.role ∧ io1.msgfmt = io.msgfmt := by
  have h := _Process_STEP io g rnd ht
  rw [if_pos hv] at h
  exact ⟨_, h, by dsimp only, rfl, rfl, rfl, rfl, rfl, rfl⟩

/-- The stepper position after the writes `ws`: each adds its value, read as `int16_t`,
modulo `2 ^ 16`. -/
theorem processAll_stepper (io : IO_s) (g : Globals) (ws : List (Parsed × Nat))
    (hS : io.Spos < 65536) (hws : ∀ w ∈ ws, w.1.tid = TID_STEP ∧ w.1.valid = true) :
    ∃ io', processAll io g ws = some (io', g)
      ∧ io'.Spos = ((io.Spos + (ws.map fun w => toInt16 w.1.val).sum) % 65536).toNat
      ∧ io'.ADvals = io.ADvals ∧ io'.Fvals = io.Fvals ∧ io'.Pvals = io.Pvals
      ∧ io'.Tvals = io.Tvals ∧ io'.role = io.role ∧ io'.msgfmt = io.msgfmt := by
  induction ws generalizing io with
  | nil =>
    refine ⟨io, rfl, ?_, rfl, rfl, rfl, rfl, rfl, rfl⟩
    simp only [List.map_nil, List.sum_nil, add_zero]
    omega
  | cons w ws ih =>
    have hw := hws w (List.mem_cons_self _ _)
    have hrest : ∀ x ∈ ws, x.1.tid = TID_STEP ∧ x.1.valid = true :=
      fun x hx => hws x (List.mem_cons_of_mem _ hx)
    obtain ⟨io1, hp, hs, a1, a2, a3, a4, a5, a6⟩ :=
      _Process_STEP_write (io.setParsed w.1) g w.2 hw.1 hw.2
    have e1 : (io.setParsed w.1).Spos = io.Spos := rfl
    have e2 : (io.setParsed w.1).val = w.1.val := rfl
    rw [e1, e2] at hs
    have hlt : io1.Spos < 65536 := by rw [hs]; omega
    obtain ⟨io', h1, h2, h3, h4, h5, h6, h7, h8⟩ := ih io1 hlt hrest
    refine ⟨io', ?_, ?_, h3.trans a1, h4.trans a2, h5.trans a3, h6.trans a4, h7.trans a5,
      h8.trans a6⟩
    · rw [processAll_cons io g w ws _ hp]
      exact h1
    · rw [h2, hs]
      simp only [List.map_cons, List.sum_cons]
      omega

/-! ## The reply of the responder -/

theorem _Parse_msgfmt (io : IO_s) (iov : iovec) : (_Parse io iov).2.msgfmt = io.msgfmt := by
  rw [_Parse_writes]
  rfl

/-- A failed decode in a format other than 0 leaves the target id and the command of the
frame decoded before, and no response value. -/
theorem _Parse_fail_keeps (io : IO_s) (iov : iovec) (hfail : (_Parse io iov).1 ≠ 0)
    (hfmt : io.msgfmt ≠ 0) :
    (_Parse io iov).2.tid = io.tid ∧ (_Parse io iov).2.cmd = io.cmd
      ∧ (_Parse io iov).2.retvalid = false := by
  have hfr := _Parse_frame io iov
  simp only [IO_s.frame, Prod.mk.injEq] at hfr
  obtain ⟨ft, fc, _, _, frv, _⟩ := hfr
  have hret := parseSwitch_ret (parseEntry io iov)
  have hsw : (parseSwitch (parseEntry io iov)).1 = false := by
    rw [_Parse_rc] at hfail
    by_contra hne
    rw [if_pos (by simpa using hne)] at hfail
    exact hfail rfl
  have hkeep := parseSwitch_fail (parseEntry io iov) hsw (Or.inl hfmt)
  rw [parseEntry_frame] at hkeep
  simp only [IO_s.frame, Prod.mk.injEq] at hkeep
  exact ⟨by rw [ft, hkeep.1], by rw [fc, hkeep.2.1], by rw [frv, hret.1]; rfl⟩

/-- The reply of `_Child` to a message that `_Parse` rejects, in a format other than 0: a
frame without value whose target id is the one decoded before and whose command is the one
decoded before with `CMD_NAK` set. -/
theorem _Child_body_parse_fail (io : IO_s) (g : Globals) (rnd : Nat) (iov : iovec)
    (hfail : (_Parse io iov).1 ≠ 0) (hfmt : io.msgfmt ≠ 0) :
    (_Child_body io g rnd iov).map (fun r => (r.1, r.2.2))
      = some (_Load io.msgfmt io.tid (io.cmd ||| CMD_NAK) [], g) := by
  obtain ⟨ht, hc, _⟩ := _Parse_fail_keeps io iov hfail hfmt
  unfold _Child_body
  simp only [hfail, ne_eq, not_false_eq_true, if_true, Option.map_some', Bool.false_eq_true,
    if_false, ht, hc, _Parse_msgfmt]

/-- The reply of `_Child` to a message that `_Parse` accepts and `_Process` fails on: a frame
without value with the decoded target id and the decoded command with `CMD_NAK` set. -/
theorem _Child_body_process_fail (io : IO_s) (g : Globals) (rnd : Nat) (iov : iovec) (rc : Int)
    (io2 : IO_s) (g2 : Globals) (hparse : (_Parse io iov).1 = 0)
    (hproc : _Process (_Parse io iov).2 g rnd = some (rc, io2, g2)) (hrc : rc ≠ 0) :
    (_Child_body io g rnd iov).map (fun r => (r.1, r.2.2))
      = some (_Load io.msgfmt (_Parse io iov).2.tid ((_Parse io iov).2.cmd ||| CMD_NAK) [], g) := by
  obtain ⟨_, hio, hg⟩ := _Process_failure _ _ _ _ _ _ hproc hrc
  subst hio hg
  unfold _Child_body
  simp only [hparse, ne_eq, not_true_eq_false, if_false, hproc, Option.map_some', hrc,
    not_false_eq_true, if_true, Bool.false_eq_true, _Parse_msgfmt]

/-! ## Sensor records on the controller -/

theorem toInt32_of_fits (x : Int) (h : inInt32 x = true) : toInt32 x = x := by
  unfold inInt32 at h
  simp only [Bool.and_eq_true, decide_eq_true_eq] at h
  unfold toInt32
  omega

theorem getSensor_setSensor (u : URG_s) (ix : Nat) (x : SENSOR_s) (hix : ix < 8) :
    (u.setSensor ix x).getSensor ix = x := by
  interval_cases ix <;> rfl

theorem getSensor_temp (u : URG_s) (ix : Nat) (t : Int) :
    ({ u with temp := t } : URG_s).getSensor ix = u.getSensor ix := by
  unfold URG_s.getSensor
  split <;> rfl

theorem getSensor_pres (u : URG_s) (ix : Nat) (t : Int) :
    ({ u with pres := t } : URG_s).getSensor ix = u.getSensor ix := by
  unfold URG_s.getSensor
  split <;> rfl

/-- The block "Scale and save a measurement" with a response value, at a sensor index whose
count does not wrap: the record takes one more sample. -/
theorem saveMeasurement_sample (io : IO_s) (u : URG_s) (ix : Nat) (hix : ix < 8)
    (hrv : io.retvalid = true) (hn : (u.getSensor ix).npts + 1 < 65536) :
    ∃ u1, saveMeasurement io u ix = some u1
      ∧ (u1.getSensor ix).gain = (u.getSensor ix).gain
      ∧ (u1.getSensor ix).off = (u.getSensor ix).off
      ∧ (u1.getSensor ix).npts = (u.getSensor ix).npts + 1
      ∧ (u1.getSensor ix).sum
          = toInt32 ((u.getSensor ix).sum
              + toInt32 (toInt32 ((u.getSensor ix).gain * io.retval) + (u.getSensor ix).off))
      ∧ (u1.getSensor ix).avg = Int.tdiv (u1.getSensor ix).sum (u1.getSensor ix).npts
      ∧ (u1.getSensor ix).max
          = (if toInt32 (toInt32 ((u.getSensor ix).gain * io.retval) + (u.getSensor ix).off)
                > (u.getSensor ix).max
             then toInt32 (toInt32 ((u.getSensor ix).gain * io.retval) + (u.getSensor ix).off)
             else (u.getSensor ix).max)
      ∧ (u1.getSensor ix).min
          = (if toInt32 (toInt32 ((u.getSensor ix).gain * io.retval) + (u.getSensor ix).off)
                < (u.getSensor ix).min
             then toInt32 (toInt32 ((u.getSensor ix).gain * io.retval) + (u.getSensor ix).off)
             else (u.getSensor ix).min) := by
  have hmod := Nat.mod_eq_of_lt hn
  unfold saveMeasurement
  dsimp only
  rw [if_pos hrv, hmod, if_neg (by omega)]
  generalize toInt32 (toInt32 ((u.getSensor ix).gain * io.retval) + (u.getSensor ix).off) = sval
  generalize u.getSensor ix = s
  interval_cases ix <;> by_cases hmax : sval > s.max <;> by_cases hmin : sval < s.min <;>
    simp only [hmax, hmin, if_true, if_false, Nat.reduceEqDiff] <;>
    refine ⟨_, rfl, ?_⟩ <;>
    simp only [URG_s.getSensor, URG_s.setSensor, and_self]

/-- An analog-in reply with a value, at a sensor index, on the controller: the value is
stored and the sensor record takes one more sample. -/
theorem _Process_A2D_controller (io : IO_s) (g : Globals) (rnd : Nat) (hrole : io.role = "nuc")
    (ht : io.tid = TID_A2D) (hcmd : io.cmd < 8) (hv : io.valid = true)
    (hn : (g.urg.getSensor io.cmd).npts + 1 < 65536) :
    ∃ io1 g1, _Process io g rnd = some ((0 : Int), io1, g1)
      ∧ io1.role = io.role
      ∧ (g1.urg.getSensor io.cmd).gain = (g.urg.getSensor io.cmd).gain
      ∧ (g1.urg.getSensor io.cmd).off = (g.urg.getSensor io.cmd).off
      ∧ (g1.urg.getSensor io.cmd).npts = (g.urg.getSensor io.cmd).npts + 1
      ∧ (g1.urg.getSensor io.cmd).sum
          = toInt32 ((g.urg.getSensor io.cmd).sum
              + toInt32 (toInt32 ((g.urg.getSensor io.cmd).gain * io.val)
                  + (g.urg.getSensor io.cmd).off))
      ∧ (g1.urg.getSensor io.cmd).avg
          = Int.tdiv (g1.urg.getSensor io.cmd).sum (g1.urg.getSensor io.cmd).npts
      ∧ (g1.urg.getSensor io.cmd).max
          = (if toInt32 (toInt32 ((g.urg.getSensor io.cmd).gain * io.val)
                  + (g.urg.getSensor io.cmd).off) > (g.urg.getSensor io.cmd).max
             then toInt32 (toInt32 ((g.urg.getSensor io.cmd).gain * io.val)
                  + (g.urg.getSensor io.cmd).off)
             else (g.urg.getSensor io.cmd).max)
      ∧ (g1.urg.getSensor io.cmd).min
          = (if toInt32 (toInt32 ((g.urg.getSensor io.cmd).gain * io.val)
                  + (g.urg.getSensor io.cmd).off) < (g.urg.getSensor io.cmd).min
             then toInt32 (toInt32 ((g.urg.getSensor io.cmd).gain * io.val)
                  + (g.urg.getSensor io.cmd).off)
             else (g.urg.getSensor io.cmd).min) := by
  have hgs := _GetSet_write io rnd io.ADvals (by omega) hv
  have hns : (8 : Nat) = _NSENSORS := rfl
  obtain ⟨u1, hsave, hrest⟩ := saveMeasurement_sample
    { io with retvalid := true, retval := io.val,
              ADvals := Function.update io.ADvals io.cmd io.val } g.urg io.cmd hcmd rfl hn
  unfold _Process
  rw [if_pos ht, hgs]
  dsimp only
  rw [if_neg (by decide), if_pos ⟨hns ▸ hcmd, hrole⟩]
  rw [hsave, Option.map_some']
  exact ⟨_, { g with urg := u1 }, rfl, rfl, hrest⟩

/-! ## Running statistics -/

theorem ite_gt_eq_max (a b : Int) : (if b > a then b else a) = max a b := by
  rw [max_def]
  split_ifs <;> omega

theorem ite_lt_eq_min (a b : Int) : (if b < a then b else a) = min a b := by
  rw [min_def]
  split_ifs <;> omega

theorem fitsInt32_cons (gain off s : Int) (r : Nat) (rs : List Nat)
    (h : fitsInt32 gain off s (r :: rs) = true) :
    inInt32 (gain * r) = true ∧ inInt32 (scaled gain off r) = true
      ∧ inInt32 (s + scaled gain off r) = true
      ∧ fitsInt32 gain off (s + scaled gain off r) rs = true := by
  simp only [fitsInt32, Bool.and_eq_true] at h
  exact ⟨h.1.1.1, h.1.1.2, h.1.2, h.2⟩

/-- The sensor record after the analog-in replies `ws` on the controller, while the count
does not wrap and the arithmetic stays in `int32_t`. -/
theorem processAll_stats (ix : Nat) (hix : ix < 8) (ws : List (Parsed × Nat)) (io : IO_s)
    (g : Globals) (hrole : io.role = "nuc")
    (hws : ∀ w ∈ ws, w.1.tid = TID_A2D ∧ w.1.cmd = ix ∧ w.1.valid = true)
    (hn : (g.urg.getSensor ix).npts + ws.length < 65536)
    (hfit : fitsInt32 (g.urg.getSensor ix).gain (g.urg.getSensor ix).off
      (g.urg.getSensor ix).sum (ws.map fun w => w.1.val) = true) :
    ∃ io1 g1, processAll io g ws = some (io1, g1)
      ∧ (g1.urg.getSensor ix).gain = (g.urg.getSensor ix).gain
      ∧ (g1.urg.getSensor ix).off = (g.urg.getSensor ix).off
      ∧ (g1.urg.getSensor ix).npts = (g.urg.getSensor ix).npts + ws.length
      ∧ (g1.urg.getSensor ix).sum = (g.urg.getSensor ix).sum
          + (ws.map fun w =>
              scaled (g.urg.getSensor ix).gain (g.urg.getSensor ix).off w.1.val).sum
      ∧ (ws ≠ [] → (g1.urg.getSensor ix).avg
          = Int.tdiv (g1.urg.getSensor ix).sum (g1.urg.getSensor ix).npts)
      ∧ (g1.urg.getSensor ix).max
          = (ws.map fun w =>
              scaled (g.urg.getSensor ix).gain (g.urg.getSensor ix).off w.1.val).foldl max
              (g.urg.getSensor ix).max
      ∧ (g1.urg.getSensor ix).min
          = (ws.map fun w =>
              scaled (g.urg.getSensor ix).gain (g.urg.getSensor ix).off w.1.val).foldl min
              (g.urg.getSensor ix).min := by
  induction ws generalizing io g with
  | nil =>
    refine ⟨io, g, rfl, rfl, rfl, rfl, ?_, fun h => absurd rfl h, rfl, rfl⟩
    simp only [List.map_nil, List.sum_nil, add_zero]
  | cons w ws ih =>
    obtain ⟨ht, hc, hv⟩ := hws w (List.mem_cons_self _ _)
    have hrest : ∀ x ∈ ws, x.1.tid = TID_A2D ∧ x.1.cmd = ix ∧ x.1.valid = true :=
      fun x hx => hws x (List.mem_cons_of_mem _ hx)
    rw [List.length_cons] at hn
    rw [List.map_cons] at hfit
    obtain ⟨f1, f2, f3, f4⟩ := fitsInt32_cons _ _ _ _ _ hfit
    have hcmd : (io.setParsed w.1).cmd = ix := hc
    have hval : (io.setParsed w.1).val = w.1.val := rfl
    obtain ⟨io1, g1, hp, hr1, a1, a2, a3, a4, a5, a6, a7⟩ :=
      _Process_A2D_controller (io.setParsed w.1) g w.2 hrole ht (hcmd ▸ hix) hv
        (by rw [hcmd]; omega)
    rw [hcmd] at a1 a2 a3 a4 a5 a6 a7
    rw [hval] at a4 a6 a7
    have e1 : toInt32 ((g.urg.getSensor ix).gain * w.1.val) = (g.urg.getSensor ix).gain * w.1.val :=
      toInt32_of_fits _ f1
    have e2 : toInt32 ((g.urg.getSensor ix).gain * w.1.val + (g.urg.getSensor ix).off)
        = scaled (g.urg.getSensor ix).gain (g.urg.getSensor ix).off w.1.val :=
      toInt32_of_fits _ f2
    rw [e1, e2] at a4 a6 a7
    rw [toInt32_of_fits _ f3] at a4
    rw [ite_gt_eq_max] at a6
    rw [ite_lt_eq_min] at a7
    have hrole1 : io1.role = "nuc" := hr1.trans hrole
    obtain ⟨io2, g2, hq, b1, b2, b3, b4, b5, b6, b7⟩ := ih io1 g1 hrole1 hrest
      (by rw [a3]; omega) (by rw [a1, a2, a4]; exact f4)
    rw [a1, a2] at b4 b6 b7
    refine ⟨io2, g2, ?_, b1.trans a1, b2.trans a2, ?_, ?_, ?_, ?_, ?_⟩
    · rw [processAll_cons io g w ws _ hp]
      exact hq
    · rw [b3, a3, List.length_cons]
      omega
    · rw [b4, a4, List.map_cons, List.sum_cons]
      omega
    · intro _
      by_cases hne : ws = []
      · subst hne
        have hq2 : (io1, g1) = (io2, g2) := Option.some.inj hq
        have hg : g1 = g2 := congrArg Prod.snd hq2
        rw [← hg]
        exact a5
      · exact b5 hne
    · rw [b6, a6, List.map_cons, List.foldl_cons]
    · rw [b7, a7, List.map_cons, List.foldl_cons]

theorem _Load_empty_isSome (msgfmt : Int) (tid cmd : Nat) :
    (_Load msgfmt tid cmd []).isSome = true := by
  unfold _Load
  by_cases h0 : msgfmt = 0
  · rw [if_pos h0]
    rfl
  · rw [if_neg h0]
    by_cases h2 : msgfmt = 2
    · simp only [h2, if_true]
      rfl
    · simp only [h2, if_false]
      rfl

/-! ## Polling and the retry loop of the commander -/

theorem pollLoop_timeouts (m : Int) (ws rest : List Wait) (nt rc : Int) (n : Nat)
    (hws : ∀ w ∈ ws, w.rc = 0 ∧ w.sig = false) (hlen : nt + ws.length = m)
    (hpos : 1 ≤ ws.length) (hnt : 0 ≤ nt) (hm : m < 2147483648) :
    pollLoop m 0 nt rc n (ws ++ rest) = some ⟨0, none, 0, n + ws.length, rest⟩ := by
  induction ws generalizing nt rc n with
  | nil => exact absurd hpos (by decide)
  | cons w ws ih =>
    obtain ⟨hw1, hw2⟩ := hws w (List.mem_cons_self _ _)
    have hrest : ∀ x ∈ ws, x.rc = 0 ∧ x.sig = false :=
      fun x hx => hws x (List.mem_cons_of_mem _ hx)
    rw [List.length_cons] at hlen
    have hnt1 : toInt32 (nt + 1) = nt + 1 := by
      unfold toInt32
      push_cast at hlen
      omega
    rw [List.cons_append, pollLoop]
    simp only [ne_eq, not_true_eq_false, if_false, hw1, hw2, Bool.false_eq_true,
      lt_self_iff_false, false_and, if_true, hnt1]
    by_cases hnil : ws = []
    · subst hnil
      have hmeq : nt + 1 = m := by simpa using hlen
      have hc : m > 0 ∧ nt + 1 ≥ m := by omega
      rw [if_pos hc]
      simp
    · have hl : 1 ≤ ws.length := by
        cases ws with
        | nil => exact absurd rfl hnil
        | cons a l => simp
      have hc : ¬ (m > 0 ∧ nt + 1 ≥ m) := by
        push_cast at hlen
        omega
      rw [if_neg hc, ih (nt + 1) 0 (n + 1) hrest (by push_cast at hlen ⊢; omega) hl (by omega)]
      simp only [List.length_cons]
      congr 2
      omega

theorem Sys.sameDevice_refl (w : Sys) : w.sameDevice w :=
  ⟨rfl, rfl, rfl, rfl, rfl, rfl, rfl, rfl, rfl⟩

theorem Sys.sameDevice_trans (a b c : Sys) (h1 : a.sameDevice b) (h2 : b.sameDevice c) :
    a.sameDevice c := by
  obtain ⟨a1, a2, a3, a4, a5, a6, a7, a8, a9⟩ := h1
  obtain ⟨b1, b2, b3, b4, b5, b6, b7, b8, b9⟩ := h2
  exact ⟨b1.trans a1, b2.trans a2, b3.trans a3, b4.trans a4, b5.trans a5, b6.trans a6,
    b7.trans a7, b8.trans a8, b9.trans a9⟩

theorem Sys.attempt_sameDevice (io : IO_s) (g : Globals) (sent : List (Option (List Nat)))
    (tid cmd : Nat) (s : List Nat) (e : Exchange) (es env : List Exchange) :
    Sys.sameDevice { io := io, g := g, sent := sent, env := env }
      (Sys.attempt io g sent tid cmd s e es) := by
  unfold Sys.attempt Sys.afterChk Sys.sameDevice
  refine ⟨rfl, rfl, rfl, rfl, rfl, rfl, rfl, rfl, ?_⟩
  dsimp only
  split_ifs <;> rfl

theorem commandLoop_cons (tid cmd : Nat) (s : List Nat) (io : IO_s) (g : Globals)
    (sent : List (Option (List Nat))) (e : Exchange) (es : List Exchange) :
    commandLoop tid cmd s io g sent (e :: es) =
      match receive (Sys.attempt io g sent tid cmd s e es) e.chk.riov e.rnd with
      | none => none
      | some r =>
        if r.1 ≠ 0 then
          if ({ r.2.io with nretry := toInt32 (r.2.io.nretry + 1) } : IO_s).maxretrys ≤ 0
              ∨ ({ r.2.io with nretry := toInt32 (r.2.io.nretry + 1) } : IO_s).nretry
                < ({ r.2.io with nretry := toInt32 (r.2.io.nretry + 1) } : IO_s).maxretrys then
            commandLoop tid cmd s { r.2.io with nretry := toInt32 (r.2.io.nretry + 1) } r.2.g
              r.2.sent es
          else some (r.1, none, { r.2 with io :=
            { r.2.io with nretry := toInt32 (r.2.io.nretry + 1) } })
        else
          some (0, some ({ r.2.io with nretry := 0 } : IO_s).retval,
            { r.2 with io := { r.2.io with nretry := 0 } }) := by
  rw [commandLoop]
  rfl

/-- What a reply that fails leaves: the return code is -1, and nothing changes but the
fields that `_Parse` writes. -/
theorem receive_fail (w : Sys) (riov : Option iovec) (rnd : Nat) (rc : Int) (w3 : Sys)
    (h : receive w riov rnd = some (rc, w3)) (hrc : rc ≠ 0) :
    rc = -1 ∧ w3.sent = w.sent ∧ w3.env = w.env ∧ w3.g = w.g ∧ w.sameDevice w3
      ∧ w3.io.nretry = w.io.nretry := by
  cases riov with
  | none => exact absurd h (by simp [receive])
  | some iov =>
    unfold receive at h
    dsimp only at h
    have hw := _Parse_writes w.io iov
    by_cases hp : (_Parse w.io iov).1 ≠ 0
    · rw [if_pos hp] at h
      have h2 := Option.some.inj h
      have hrc2 : (_Parse w.io iov).1 = rc := congrArg Prod.fst h2
      have hw3 : ({ w with io := (_Parse w.io iov).2 } : Sys) = w3 := congrArg Prod.snd h2
      have hm1 : rc = -1 := by
        rw [← hrc2, _Parse_rc] at hrc ⊢
        split_ifs at hrc ⊢ with hc
        · exact absurd rfl hrc
        · rfl
      subst hw3
      refine ⟨hm1, rfl, rfl, rfl, ?_, ?_⟩
      · unfold Sys.sameDevice
        dsimp only
        rw [hw]
        exact ⟨rfl, rfl, rfl, rfl, rfl, rfl, rfl, rfl, rfl⟩
      · dsimp only
        rw [hw]
        rfl
    · rw [if_neg hp] at h
      cases hpr : _Process (_Parse w.io iov).2 w.g rnd with
      | none => rw [hpr] at h; exact absurd h (by simp)
      | some r =>
        rw [hpr, Option.map_some'] at h
        have h2 := Option.some.inj h
        have hrc2 : r.1 = rc := congrArg Prod.fst h2
        have hw3 : ({ w with io := r.2.1, g := r.2.2 } : Sys) = w3 := congrArg Prod.snd h2
        obtain ⟨hm1, hio, hg⟩ := _Process_failure _ _ _ r.1 r.2.1 r.2.2 hpr (hrc2 ▸ hrc)
        subst hw3
        refine ⟨hrc2 ▸ hm1, rfl, rfl, hg, ?_, ?_⟩
        · unfold Sys.sameDevice
          dsimp only
          rw [hio, hg, hw]
          exact ⟨rfl, rfl, rfl, rfl, rfl, rfl, rfl, rfl, rfl⟩
        · dsimp only
          rw [hio, hw]
          rfl

theorem toInt32_succ (n : Int) (h0 : 0 ≤ n) (h1 : n + 1 < 2147483648) :
    toInt32 (n + 1) = n + 1 := by
  unfold toInt32
  omega

/-- An attempt of `_Command` whose reply fails, below the retry ceiling: the loop goes on
with one more frame sent and the retry counter one higher. -/
theorem commandLoop_retry (tid cmd : Nat) (s : List Nat) (w0 : Sys) (io : IO_s) (g : Globals)
    (sent : List (Option (List Nat))) (e : Exchange) (es : List Exchange)
    (hsd : w0.sameDevice { io := io, g := g, sent := sent, env := [] })
    (hf : failing w0 e) (h0 : 0 ≤ io.nretry) (hlt : io.nretry + 1 < io.maxretrys)
    (hmax : io.maxretrys < 2147483648) :
    ∃ io1 g1, commandLoop tid cmd s io g sent (e :: es)
        = commandLoop tid cmd s io1 g1 (sent ++ [_Load io.msgfmt tid cmd s]) es
      ∧ w0.sameDevice { io := io1, g := g1, sent := sent, env := [] }
      ∧ io1.nretry = io.nretry + 1 := by
  have hsd1 : w0.sameDevice (Sys.attempt io g sent tid cmd s e es) :=
    Sys.sameDevice_trans _ _ _ hsd (Sys.attempt_sameDevice io g sent tid cmd s e es [])
  obtain ⟨rc, w3, hrec, hrc⟩ := hf _ hsd1
  obtain ⟨_, hsent, _, _, hsd3, hnr⟩ := receive_fail _ _ _ _ _ hrec hrc
  have hsd03 := Sys.sameDevice_trans _ _ _ hsd1 hsd3
  have hnr2 : w3.io.nretry = io.nretry := hnr
  have hmx : w3.io.maxretrys = io.maxretrys := hsd03.2.2.1.trans hsd.2.2.1.symm
  have hsent2 : w3.sent = sent ++ [_Load io.msgfmt tid cmd s] := hsent
  rw [commandLoop_cons, hrec]
  dsimp only
  rw [if_pos hrc, hnr2, hmx, toInt32_succ _ h0 (by omega), if_pos (Or.inr hlt), hsent2]
  refine ⟨_, _, rfl, ?_, rfl⟩
  obtain ⟨a1, a2, _, a4, a5, a6, a7, a8, a9⟩ := hsd03
  exact ⟨a1, a2, hsd.2.2.1, a4, a5, a6, a7, a8, a9⟩

/-- The last attempt of `_Command`: the reply fails and the retry counter reaches the
ceiling. -/
theorem commandLoop_giveup (tid cmd : Nat) (s : List Nat) (w0 : Sys) (io : IO_s) (g : Globals)
    (sent : List (Option (List Nat))) (e : Exchange) (es : List Exchange)
    (hsd : w0.sameDevice { io := io, g := g, sent := sent, env := [] })
    (hf : failing w0 e) (h0 : 0 ≤ io.nretry) (heq : io.nretry + 1 = io.maxretrys)
    (hmax : io.maxretrys < 2147483648) :
    ∃ w1, commandLoop tid cmd s io g sent (e :: es) = some ((-1 : Int), none, w1)
      ∧ w1.sent = sent ++ [_Load io.msgfmt tid cmd s] ∧ w1.env = es
      ∧ w1.io.nretry = io.maxretrys ∧ w0.sameDevice w1 := by
  have hsd1 : w0.sameDevice (Sys.attempt io g sent tid cmd s e es) :=
    Sys.sameDevice_trans _ _ _ hsd (Sys.attempt_sameDevice io g sent tid cmd s e es [])
  obtain ⟨rc, w3, hrec, hrc⟩ := hf _ hsd1
  obtain ⟨hm1, hsent, henv, _, hsd3, hnr⟩ := receive_fail _ _ _ _ _ hrec hrc
  have hsd03 := Sys.sameDevice_trans _ _ _ hsd1 hsd3
  have hnr2 : w3.io.nretry = io.nretry := hnr
  have hmx : w3.io.maxretrys = io.maxretrys := hsd03.2.2.1.trans hsd.2.2.1.symm
  have hsent2 : w3.sent = sent ++ [_Load io.msgfmt tid cmd s] := hsent
  have henv2 : w3.env = es := henv
  rw [commandLoop_cons, hrec]
  dsimp only
  have hno : ¬ (io.maxretrys ≤ 0 ∨ io.nretry + 1 < io.maxretrys) := by omega
  rw [if_pos hrc, hnr2, hmx, toInt32_succ _ h0 (by omega), if_neg hno, hm1]
  refine ⟨_, rfl, hsent2, henv2, heq, ?_⟩
  obtain ⟨a1, a2, _, a4, a5, a6, a7, a8, a9⟩ := hsd03
  exact ⟨a1, a2, hsd.2.2.1, a4, a5, a6, a7, a8, a9⟩

/-- An attempt of `_Command` whose reply succeeds: the function returns. -/
theorem commandLoop_success (tid cmd : Nat) (s : List Nat) (w0 : Sys) (io : IO_s) (g : Globals)
    (sent : List (Option (List Nat))) (e : Exchange) (es : List Exchange) (v : Nat)
    (hsd : w0.sameDevice { io := io, g := g, sent := sent, env := [] })
    (hs : succeeding w0 e v) :
    ∃ w3, receive (Sys.attempt io g sent tid cmd s e es) e.chk.riov e.rnd
        = some ((0 : Int), w3)
      ∧ w3.io.retval = v
      ∧ commandLoop tid cmd s io g sent (e :: es)
        = some ((0 : Int), some v, { w3 with io := { w3.io with nretry := 0 } }) := by
  have hsd1 : w0.sameDevice (Sys.attempt io g sent tid cmd s e es) :=
    Sys.sameDevice_trans _ _ _ hsd (Sys.attempt_sameDevice io g sent tid cmd s e es [])
  obtain ⟨w3, hrec, hv⟩ := hs _ hsd1
  refine ⟨w3, hrec, hv, ?_⟩
  rw [commandLoop_cons, hrec]
  dsimp only
  rw [if_neg (by decide), hv]

/-- The attempts of `_Command` whose replies `fs` fail, below the retry ceiling. -/
theorem commandLoop_failures (tid cmd : Nat) (s : List Nat) (w0 : Sys) (fs : List Exchange)
    (rest : List Exchange) (io : IO_s) (g : Globals) (sent : List (Option (List Nat)))
    (hsd : w0.sameDevice { io := io, g := g, sent := sent, env := [] })
    (hf : ∀ e ∈ fs, failing w0 e) (h0 : 0 ≤ io.nretry)
    (hlt : io.nretry + fs.length < io.maxretrys) (hmax : io.maxretrys < 2147483648) :
    ∃ io1 g1, commandLoop tid cmd s io g sent (fs ++ rest)
        = commandLoop tid cmd s io1 g1
            (sent ++ List.replicate fs.length (_Load w0.io.msgfmt tid cmd s)) rest
      ∧ w0.sameDevice { io := io1, g := g1, sent := sent, env := [] }
      ∧ io1.nretry = io.nretry + fs.length := by
  induction fs generalizing io g sent with
  | nil =>
    refine ⟨io, g, ?_, hsd, ?_⟩
    · simp
    · simp
  | cons e fs ih =>
    rw [List.length_cons] at hlt
    push_cast at hlt
    obtain ⟨io1, g1, h1, hsd1, hn1⟩ := commandLoop_retry tid cmd s w0 io g sent e (fs ++ rest)
      hsd (hf e (List.mem_cons_self _ _)) h0 (by omega) hmax
    have hmx : io1.maxretrys = io.maxretrys := hsd1.2.2.1.trans hsd.2.2.1.symm
    have hsd1b : w0.sameDevice
        { io := io1, g := g1, sent := sent ++ [_Load io.msgfmt tid cmd s], env := [] } := by
      obtain ⟨a1, a2, a3, a4, a5, a6, a7, a8, a9⟩ := hsd1
      exact ⟨a1, a2, a3, a4, a5, a6, a7, a8, a9⟩
    obtain ⟨io2, g2, h2, hsd2, hn2⟩ := ih io1 g1 (sent ++ [_Load io.msgfmt tid cmd s]) hsd1b
      (fun x hx => hf x (List.mem_cons_of_mem _ hx)) (by omega) (by rw [hmx, hn1]; omega)
      (by rw [hmx]; exact hmax)
    have hfmt : io.msgfmt = w0.io.msgfmt := hsd.2.1
    refine ⟨io2, g2, ?_, ?_, ?_⟩
    · rw [List.cons_append, h1, h2, hfmt, List.length_cons, List.replicate_succ,
        List.append_assoc]
      rfl
    · obtain ⟨a1, a2, a3, a4, a5, a6, a7, a8, a9⟩ := hsd2
      exact ⟨a1, a2, a3, a4, a5, a6, a7, a8, a9⟩
    · rw [hn2, hn1, List.length_cons]
      push_cast
      omega

/-! ## The command processor and the sensor records -/

theorem getSensor_setSensor_ne (u : URG_s) (ix jx : Nat) (x : SENSOR_s) (hix : ix < 8)
    (hjx : jx < 8) (hne : jx ≠ ix) : (u.setSensor ix x).getSensor jx = u.getSensor jx := by
  interval_cases ix <;> interval_cases jx <;> first | rfl | exact absurd rfl hne

theorem getSensor_republish (ix jx : Nat) (avg : Int) (u : URG_s) :
    (republish ix avg u).getSensor jx = u.getSensor jx := by
  unfold republish
  split_ifs
  · exact getSensor_pres u jx avg
  · exact getSensor_temp u jx avg
  · rfl

/-- The block "Scale and save a measurement" with a response value, at a sensor index whose
count does not wrap, in closed form. -/
theorem saveMeasurement_eq (io : IO_s) (u : URG_s) (ix : Nat) (hrv : io.retvalid = true)
    (hn : (u.getSensor ix).npts + 1 < 65536) :
    saveMeasurement io u ix
      = some (republish ix
          ((u.getSensor ix).sample (if io.role ≠ "avr" then io.wtv else io.rtv) io.retval).avg
          (u.setSensor ix
            ((u.getSensor ix).sample (if io.role ≠ "avr" then io.wtv else io.rtv)
              io.retval))) := by
  have hmod := Nat.mod_eq_of_lt hn
  unfold saveMeasurement SENSOR_s.sample republish
  dsimp only
  rw [if_pos hrv, hmod, if_neg (by omega)]
  generalize toInt32 (toInt32 ((u.getSensor ix).gain * io.retval) + (u.getSensor ix).off) = sval
  generalize u.getSensor ix = s
  by_cases hmax : sval > s.max <;> by_cases hmin : sval < s.min <;>
    by_cases h1 : ix = 1 <;> by_cases h5 : ix = 5 <;>
    simp only [hmax, hmin, h1, h5, if_true, if_false, Nat.reduceEqDiff]

theorem saveMeasurement_wrap (io : IO_s) (u : URG_s) (ix : Nat) (hrv : io.retvalid = true)
    (hn : (u.getSensor ix).npts + 1 = 65536) : saveMeasurement io u ix = none := by
  unfold saveMeasurement
  dsimp only
  rw [if_pos hrv, hn]
  rfl

theorem getSensor_flags (u : URG_s) (jx : Nat) (f : FLAGS_s) :
    ({ u with flags := f } : URG_s).getSensor jx = u.getSensor jx := by
  unfold URG_s.getSensor
  split <;> rfl

/-- What a successful call of `_GetSet` leaves in the fields it does not compute: the
response is valid, and index, role and time stamps are as before. -/
theorem _GetSet_fields (io : IO_s) (rnd : Nat) (vals : Nat → Nat)
    (h : (_GetSet io rnd vals).1 = 0) :
    (_GetSet io rnd vals).2.1.retvalid = true ∧ (_GetSet io rnd vals).2.1.cmd = io.cmd
      ∧ (_GetSet io rnd vals).2.1.role = io.role ∧ (_GetSet io rnd vals).2.1.wtv = io.wtv
      ∧ (_GetSet io rnd vals).2.1.rtv = io.rtv := by
  unfold _GetSet at h ⊢
  dsimp only at h ⊢
  split_ifs at h ⊢ <;> first | exact ⟨rfl, rfl, rfl, rfl, rfl⟩ | (simp at h)

/-- What a call of `_Process` does to the device model: nothing, or new flags, or (an
analog-in frame at a sensor index on the controller) one more sample in one sensor record,
whose average is republished. -/
theorem _Process_urg (io : IO_s) (g : Globals) (rnd : Nat) (rc : Int) (io' : IO_s)
    (g' : Globals) (h : _Process io g rnd = some (rc, io', g'))
    (hnp : io.cmd < 8 → (g.urg.getSensor io.cmd).npts < 65536) :
    g'.urg = g.urg ∨ (∃ f, g'.urg = { g.urg with flags := f })
      ∨ (io.tid = TID_A2D ∧ io.cmd < 8 ∧ io.role = "nuc" ∧ rc = 0
          ∧ (g.urg.getSensor io.cmd).npts + 1 < 65536
          ∧ ∃ rv, g'.urg = republish io.cmd
              ((g.urg.getSensor io.cmd).sample io.wtv rv).avg
              (g.urg.setSensor io.cmd ((g.urg.getSensor io.cmd).sample io.wtv rv))) := by
  have key : ∀ x : Int × IO_s × Globals, some x = some (rc, io', g') → x.2.2.urg = g.urg →
      g'.urg = g.urg := by
    intro x hx hu
    have := Option.some.inj hx
    rw [← hu, this]
  by_cases hrc : rc ≠ 0
  · left
    rw [(_Process_failure io g rnd rc io' g' h hrc).2.2]
  have hrc0 : rc = 0 := not_not.mp hrc
  have h0 := h
  unfold _Process at h
  by_cases hA : io.tid = TID_A2D
  · rw [if_pos hA] at h
    have hf := _GetSet_fields io rnd io.ADvals
    generalize _GetSet io rnd io.ADvals = r at h hf
    obtain ⟨rc1, io1, vals⟩ := r
    dsimp only at h hf
    by_cases hg : rc1 ≠ 0
    · rw [if_pos hg] at h
      exact Or.inl (key _ h rfl)
    · rw [if_neg hg] at h
      obtain ⟨f1, f2, f3, f4, _⟩ := hf (not_not.mp hg)
      by_cases hs : io1.cmd < _NSENSORS ∧ io1.role = "nuc"
      · rw [if_pos hs] at h
        have hcmd1 : io1.cmd < 8 := hs.1
        have hcmd : io.cmd < 8 := f2 ▸ hcmd1
        have hb := hnp hcmd
        right; right
        by_cases hn : (g.urg.getSensor io.cmd).npts + 1 < 65536
        · have hexp := saveMeasurement_eq { io1 with ADvals := vals } g.urg io1.cmd f1
            (by rw [f2]; exact hn)
          dsimp only at hexp
          have hrole : io1.role ≠ "avr" := by
            rw [hs.2]
            decide
          rw [if_pos hrole] at hexp
          rw [hexp, Option.map_some'] at h
          have h2 := Option.some.inj h
          have hg' : g' = _ := (congrArg (fun x => x.2.2) h2).symm
          refine ⟨hA, hcmd, f3 ▸ hs.2, hrc0, hn, io1.retval, ?_⟩
          rw [hg', ← f2, ← f4]
        · have hw := saveMeasurement_wrap { io1 with ADvals := vals } g.urg io1.cmd f1
            (by rw [f2]; omega)
          rw [hw] at h
          exact absurd h (by simp)
      · rw [if_neg hs] at h
        exact Or.inl (key _ h rfl)
  · clear h
    have hg3 : ∀ (a : Int) (b : IO_s) (c : Globals), _Process io g rnd = some (a, b, c) →
        g' = c := by
      intro a b c hx
      rw [hx] at h0
      exact (congrArg (fun x => x.2.2) (Option.some.inj h0)).symm
    by_cases hc : io.cmd < 32
    · by_cases hD : io.tid = TID_D2A
      · left; rw [hg3 _ _ _ (_Process_D2A io g rnd hD hc)]
      by_cases hF : io.tid = TID_DIO
      · have hx := hg3 _ _ _ (_Process_digital io g rnd hF hc)
        by_cases hfl : io.cmd < _NFLAGS
        · rw [if_pos hfl] at hx
          right; left
          exact ⟨_, by rw [hx]⟩
        · rw [if_neg hfl] at hx
          left; rw [hx]
      by_cases hP : io.tid = TID_PRES
      · left; rw [hg3 _ _ _ (_Process_PRES io g rnd hP hc)]
      by_cases hS : io.tid = TID_STEP
      · left; rw [hg3 _ _ _ (_Process_STEP io g rnd hS)]
      by_cases hT : io.tid = TID_TEMP
      · left; rw [hg3 _ _ _ (_Process_TEMP io g rnd hT hc)]
      by_cases hG : io.tid = TID_GLOBAL
      · have hx := _Process_GLOBAL io g rnd hG
        by_cases hq : io.cmd = CMD_QUIT
        · rw [if_pos hq] at hx
          left; rw [hg3 _ _ _ hx]
        · rw [if_neg hq] at hx
          left; rw [hg3 _ _ _ hx]
      · left; rw [hg3 _ _ _ (_Process_unknown io g rnd hA hD hF hG hP hS hT)]
    · by_cases hS : io.tid = TID_STEP
      · left; rw [hg3 _ _ _ (_Process_STEP io g rnd hS)]
      by_cases hG : io.tid = TID_GLOBAL
      · have hx := _Process_GLOBAL io g rnd hG
        by_cases hq : io.cmd = CMD_QUIT
        · rw [if_pos hq] at hx
          left; rw [hg3 _ _ _ hx]
        · rw [if_neg hq] at hx
          left; rw [hg3 _ _ _ hx]
      by_cases hD : io.tid = TID_D2A
      · left; rw [hg3 _ _ _ (_Process_range io g rnd (Or.inr (Or.inl hD)) (by omega))]
      by_cases hF : io.tid = TID_DIO
      · left; rw [hg3 _ _ _ (_Process_range io g rnd (Or.inr (Or.inr (Or.inl hF))) (by omega))]
      by_cases hP : io.tid = TID_PRES
      · left
        rw [hg3 _ _ _ (_Process_range io g rnd (Or.inr (Or.inr (Or.inr (Or.inl hP))))
          (by omega))]
      by_cases hT : io.tid = TID_TEMP
      · left
        rw [hg3 _ _ _ (_Process_range io g rnd (Or.inr (Or.inr (Or.inr (Or.inr hT))))
          (by omega))]
      · left; rw [hg3 _ _ _ (_Process_unknown io g rnd hA hD hF hG hP hS hT)]

/-- The function `_GetSet` on an index in range, on any role but the device: no jitter. -/
theorem _GetSet_nojitter (io : IO_s) (rnd : Nat) (vals : Nat → Nat) (hcmd : io.cmd < 32)
    (hr : io.role ≠ "avr") :
    _GetSet io rnd vals =
      (0, { io with retvalid := true, retval := if io.valid = true then io.val else vals io.cmd },
        if io.valid = true then Function.update vals io.cmd io.val else vals) := by
  by_cases hv : io.valid = true
  · rw [_GetSet_write io rnd vals hcmd hv, if_pos hv, if_pos hv]
  · have hv2 : io.valid = false := by simpa using hv
    unfold _GetSet
    have h1 : ¬ io.cmd ≥ CMD_NDEVS := by unfold CMD_NDEVS _CMD_NDEVS; omega
    have h2 : ¬ (io.role = "avr" ∧ io.tid = TID_A2D) := fun h => hr h.1
    simp only [h1, if_false, hv2, Bool.false_eq_true, h2]

theorem _GetSet_config (io : IO_s) (rnd : Nat) (vals : Nat → Nat) :
    (_GetSet io rnd vals).2.1.config = io.config := by
  unfold _GetSet IO_s.config
  dsimp only
  split_ifs <;> dsimp only

/-- Nothing in `_Process` writes the role, the format selector, the counters, the ceilings
or the time stamps. -/
theorem _Process_config (io : IO_s) (g : Globals) (rnd : Nat) (rc : Int) (io' : IO_s)
    (g' : Globals) (h : _Process io g rnd = some (rc, io', g')) : io'.config = io.config := by
  have key : ∀ x : Int × IO_s × Globals, some x = some (rc, io', g') →
      x.2.1.config = io.config → io'.config = io.config := by
    intro x hx hu
    have := Option.some.inj hx
    rw [← hu, this]
  have keyG : ∀ (vals : Nat → Nat) (x : Int × IO_s × Globals), some x = some (rc, io', g') →
      x.2.1.config = (_GetSet io rnd vals).2.1.config → io'.config = io.config := by
    intro vals x hx hu
    exact key x hx (hu.trans (_GetSet_config io rnd vals))
  unfold _Process at h
  dsimp only at h
  split_ifs at h
  all_goals first
    | exact keyG _ _ h (by unfold IO_s.config; dsimp only)
    | exact key _ h (by unfold IO_s.config; dsimp only)
    | skip
  cases hs : saveMeasurement
      { (_GetSet io rnd io.ADvals).2.1 with ADvals := (_GetSet io rnd io.ADvals).2.2 }
      g.urg (_GetSet io rnd io.ADvals).2.1.cmd with
  | none =>
    have hs2 := hs
    dsimp only at hs2
    rw [hs2] at h
    exact absurd h (by simp)
  | some u =>
    have hs2 := hs
    dsimp only at hs2
    rw [hs2, Option.map_some'] at h
    exact keyG _ _ h (by unfold IO_s.config; dsimp only)

/-- An analog-in frame at a sensor index on the controller, while the count does not wrap:
the raw value (the frame's value, or the stored one when the frame has none) is sampled into
the sensor record and the average is republished. -/
theorem _Process_A2D_nuc (io : IO_s) (g : Globals) (rnd : Nat) (hrole : io.role = "nuc")
    (ht : io.tid = TID_A2D) (hcmd : io.cmd < 8)
    (hn : (g.urg.getSensor io.cmd).npts + 1 < 65536) :
    ∃ io1, _Process io g rnd = some ((0 : Int), io1,
        { g with urg := (republish io.cmd
            ((g.urg.getSensor io.cmd).sample io.wtv
              (if io.valid = true then io.val else io.ADvals io.cmd)).avg
            (g.urg.setSensor io.cmd ((g.urg.getSensor io.cmd).sample io.wtv
              (if io.valid = true then io.val else io.ADvals io.cmd)))) })
      ∧ io1.retval = (if io.valid = true then io.val else io.ADvals io.cmd) := by
  have hr : io.role ≠ "avr" := by rw [hrole]; decide
  have hgs := _GetSet_nojitter io rnd io.ADvals (by omega) hr
  have hns : (8 : Nat) = _NSENSORS := rfl
  have hexp := saveMeasurement_eq
    { io with retvalid := true, retval := if io.valid = true then io.val else io.ADvals io.cmd,
              ADvals := if io.valid = true then Function.update io.ADvals io.cmd io.val
                else io.ADvals }
    g.urg io.cmd rfl hn
  dsimp only at hexp
  rw [if_pos hr] at hexp
  unfold _Process
  rw [if_pos ht, hgs]
  dsimp only
  rw [if_neg (by decide), if_pos ⟨hns ▸ hcmd, hrole⟩, hexp, Option.map_some']
  exact ⟨_, rfl, rfl⟩

/-- An analog-in frame at an index in range that is no sensor index, on the controller:
the device model is not touched. -/
theorem _Process_A2D_nuc_other (io : IO_s) (g : Globals) (rnd : Nat) (hrole : io.role = "nuc")
    (ht : io.tid = TID_A2D) (hcmd : io.cmd < 32) (h8 : 8 ≤ io.cmd) :
    ∃ io1, _Process io g rnd = some ((0 : Int), io1, g) := by
  have hr : io.role ≠ "avr" := by rw [hrole]; decide
  have hgs := _GetSet_nojitter io rnd io.ADvals hcmd hr
  have hno : ¬ (io.cmd < _NSENSORS ∧ io.role = "nuc") := by
    intro hh
    have : io.cmd < 8 := hh.1
    omega
  unfold _Process
  rw [if_pos ht, hgs]
  dsimp only
  rw [if_neg (by decide), if_neg hno]
  exact ⟨_, rfl⟩

/-! ## Reachable states of the device model -/

theorem tdiv_bounds (s a b : Int) (n : Nat) (hn : 0 < n) (h1 : (n : Int) * a ≤ s)
    (h2 : s ≤ (n : Int) * b) : a ≤ Int.tdiv s n ∧ Int.tdiv s n ≤ b := by
  have hn0 : (0 : Int) < n := by exact_mod_cast hn
  by_cases hs : 0 ≤ s
  · rw [Int.tdiv_eq_ediv hs (le_of_lt hn0)]
    constructor
    · exact Int.le_ediv_of_mul_le hn0 (by rw [mul_comm]; exact h1)
    · exact Int.ediv_le_of_le_mul hn0 (by rw [mul_comm]; exact h2)
  · have hs' : 0 ≤ -s := by omega
    have e : Int.tdiv s n = -((-s) / n) := by
      have := Int.neg_tdiv (-s) n
      rw [neg_neg] at this
      rw [this, Int.tdiv_eq_ediv hs' (le_of_lt hn0)]
    rw [e]
    constructor
    · have : (-s) / n ≤ -a := Int.ediv_le_of_le_mul hn0 (by nlinarith)
      omega
    · have : -b ≤ (-s) / n := Int.le_ediv_of_mul_le hn0 (by nlinarith)
      omega

theorem sample_inv (s : SENSOR_s) (tv rv : Nat) (ok : Prop) (hs : s.inv ok)
    (hn : s.npts + 1 < 65536) :
    (s.sample tv rv).inv (ok ∧ exactStep s (s.sample tv rv)) := by
  obtain ⟨_, _, h3⟩ := hs
  refine ⟨hn, fun _ => rfl, fun hok => ?_⟩
  obtain ⟨hok1, hex⟩ := hok
  obtain ⟨i1, i2⟩ := h3 hok1
  have hsum : (s.sample tv rv).sum = s.sum + (s.sample tv rv).sval := by
    rcases hex with hex | hex
    · have : s.npts + 1 = s.npts := hex
      omega
    · exact hex
  have hsv : (s.sample tv rv).sval = toInt32 (toInt32 (s.gain * rv) + s.off) := rfl
  rw [hsum, hsv]
  have hnp : ((s.sample tv rv).npts : Int) = (s.npts : Int) + 1 := by
    show ((s.npts + 1 : Nat) : Int) = _
    push_cast
    rfl
  have hmin : (s.sample tv rv).min = if toInt32 (toInt32 (s.gain * rv) + s.off) < s.min
      then toInt32 (toInt32 (s.gain * rv) + s.off) else s.min := rfl
  have hmax : (s.sample tv rv).max = if toInt32 (toInt32 (s.gain * rv) + s.off) > s.max
      then toInt32 (toInt32 (s.gain * rv) + s.off) else s.max := rfl
  rw [hnp, hmin, hmax]
  generalize toInt32 (toInt32 (s.gain * rv) + s.off) = x
  have hn0 : (0 : Int) ≤ s.npts := Int.ofNat_nonneg _
  constructor
  · split_ifs with hc
    · nlinarith
    · nlinarith
  · split_ifs with hc
    · nlinarith
    · nlinarith

theorem SENSOR_s.inv_mono (s : SENSOR_s) (ok ok' : Prop) (h : ok' → ok) (hs : s.inv ok) :
    s.inv ok' :=
  ⟨hs.1, hs.2.1, fun hok => hs.2.2 (h hok)⟩

theorem SENSOR_s.inv_zero (s : SENSOR_s) (ok : Prop) (hn : s.npts = 0) (hsum : s.sum = 0) :
    s.inv ok := by
  refine ⟨by rw [hn]; decide, fun h => absurd h (by rw [hn]; decide), fun _ => ?_⟩
  rw [hn, hsum]
  simp

theorem init_inv (ix : Nat) (hix : ix < 8) (ok : Prop) :
    (initGlobals.urg.getSensor ix).inv ok := by
  interval_cases ix <;> exact SENSOR_s.inv_zero _ _ rfl rfl

/-- In every reachable state every sensor record satisfies the invariant. -/
theorem Reach_inv (g : Globals) (ok : Nat → Prop) (h : Reach g ok) :
    ∀ ix, ix < 8 → (g.urg.getSensor ix).inv (ok ix) := by
  induction h with
  | init => exact fun ix hix => init_inv ix hix _
  | process g ok io rnd rc io' g' _ hp ih =>
    intro ix hix
    have hsame : g'.urg.getSensor ix = g.urg.getSensor ix →
        (g'.urg.getSensor ix).inv
          (ok ix ∧ exactStep (g.urg.getSensor ix) (g'.urg.getSensor ix)) := by
      intro he
      rw [he]
      exact SENSOR_s.inv_mono _ _ _ (fun hh => hh.1) (ih ix hix)
    rcases _Process_urg io g rnd rc io' g' hp (fun hc => (ih io.cmd hc).1) with
      hu | ⟨f, hu⟩ | ⟨_, hc, _, _, hn, rv, hu⟩
    · exact hsame (by rw [hu])
    · exact hsame (by rw [hu, getSensor_flags])
    · by_cases hix2 : ix = io.cmd
      · have he : g'.urg.getSensor ix = (g.urg.getSensor ix).sample io.wtv rv := by
          rw [hu, getSensor_republish, hix2, getSensor_setSensor _ _ _ hc]
        show (g'.urg.getSensor ix).inv
          (ok ix ∧ exactStep (g.urg.getSensor ix) (g'.urg.getSensor ix))
        rw [he]
        exact sample_inv _ _ _ _ (ih ix hix) (by rw [hix2]; exact hn)
      · exact hsame (by rw [hu, getSensor_republish, getSensor_setSensor_ne _ _ _ _ hc hix hix2])
  | reset g ok ix s' _ hix' hn hsum ih =>
    intro jx hjx
    by_cases hj : jx = ix
    · have he : (g.urg.setSensor ix s').getSensor jx = s' := by
        rw [hj]; exact getSensor_setSensor _ _ _ hix'
      show ((g.urg.setSensor ix s').getSensor jx).inv _
      rw [he]
      exact SENSOR_s.inv_zero _ _ hn hsum
    · have he : (g.urg.setSensor ix s').getSensor jx = g.urg.getSensor jx :=
        getSensor_setSensor_ne _ _ _ _ hix' hjx hj
      show ((g.urg.setSensor ix s').getSensor jx).inv _
      rw [he]
      exact SENSOR_s.inv_mono _ _ _ (fun hh => hh.resolve_left hj) (ih jx hjx)
  | quit g ok _ ih => exact ih

/-! ## What the commander and the measurement loop keep -/

theorem setSensor_temp_pres (u : URG_s) (ix : Nat) (x : SENSOR_s) :
    (u.setSensor ix x).temp = u.temp ∧ (u.setSensor ix x).pres = u.pres := by
  unfold URG_s.setSensor
  split <;> exact ⟨rfl, rfl⟩

theorem republish_temp (ix : Nat) (avg : Int) (u : URG_s) :
    (republish ix avg u).temp = if ix = 1 then avg else u.temp := by
  unfold republish
  by_cases h5 : ix = 5
  · rw [if_pos h5, if_neg (by omega)]
  · rw [if_neg h5]
    split_ifs <;> rfl

theorem republish_pres (ix : Nat) (avg : Int) (u : URG_s) :
    (republish ix avg u).pres = if ix = 5 then avg else u.pres := by
  unfold republish
  split_ifs <;> rfl

theorem _Parse_config (io : IO_s) (iov : iovec) : (_Parse io iov).2.config = io.config := by
  rw [_Parse_writes]
  rfl

theorem receive_keeps (w : Sys) (riov : Option iovec) (rnd : Nat) (rc : Int) (w3 : Sys)
    (h : receive w riov rnd = some (rc, w3)) :
    w3.sent = w.sent ∧ w3.env = w.env ∧ w3.io.config = w.io.config := by
  cases riov with
  | none => exact absurd h (by simp [receive])
  | some iov =>
    unfold receive at h
    dsimp only at h
    by_cases hp : (_Parse w.io iov).1 ≠ 0
    · rw [if_pos hp] at h
      have hw3 : ({ w with io := (_Parse w.io iov).2 } : Sys) = w3 :=
        congrArg Prod.snd (Option.some.inj h)
      subst hw3
      exact ⟨rfl, rfl, _Parse_config w.io iov⟩
    · rw [if_neg hp] at h
      cases hpr : _Process (_Parse w.io iov).2 w.g rnd with
      | none => rw [hpr] at h; exact absurd h (by simp)
      | some r =>
        rw [hpr, Option.map_some'] at h
        have hw3 : ({ w with io := r.2.1, g := r.2.2 } : Sys) = w3 :=
          congrArg Prod.snd (Option.some.inj h)
        subst hw3
        exact ⟨rfl, rfl,
          (_Process_config _ _ _ r.1 r.2.1 r.2.2 hpr).trans (_Parse_config w.io iov)⟩

/-- Format 1: a buffer that does not satisfy the acceptance condition is rejected. -/
theorem parse1_reject (io : IO_s) (mem : Nat → Nat) (b : List Nat) (hfmt : io.msgfmt = 1)
    (hb : ∀ x ∈ b, x < 256) (hlen : b.length < SIZE_MOD) (hna : ¬ accept1 b) :
    (_Parse io (iovOf mem b)).1 = -1 := by
  have h := parse1_outcome io mem b hfmt hb hlen
  rw [if_neg hna] at h
  exact rc_of_outcome _ _ _ h

/-- A reply that `_Parse` rejects in the channel's format is a failing reply. -/
theorem failing_of_reject (w : Sys) (e : Exchange) (iov : iovec) (hr : e.chk.riov = some iov)
    (hp : ∀ io : IO_s, io.msgfmt = w.io.msgfmt → (_Parse io iov).1 ≠ 0) : failing w e := by
  intro w2 hsd
  have hne := hp w2.io hsd.2.1
  refine ⟨(_Parse w2.io iov).1, { w2 with io := (_Parse w2.io iov).2 }, ?_, hne⟩
  rw [hr]
  unfold receive
  dsimp only
  rw [if_pos hne]

/-- Format 1: receiving the frame of an analog-out reply with a value. -/
theorem receive_D2A (w : Sys) (mem : Nat → Nat) (cmd a b rnd : Nat) (hfmt : w.io.msgfmt = 1)
    (hcmd : cmd < 32) (ha : a < 256) (hb : b < 256) :
    ∃ io1, receive w (some (iovOf mem (frame1 TID_D2A cmd [a, b]))) rnd
        = some ((0 : Int), { w with io := io1 })
      ∧ io1.retval = (a <<< 8) ||| b ∧ io1.config = w.io.config := by
  have hs : ∀ x ∈ [a, b], x < 256 := by
    intro x hx
    simp only [List.mem_cons, List.mem_singleton, List.not_mem_nil, or_false] at hx
    rcases hx with rfl | rfl <;> assumption
  have ho := parse_frame1 w.io mem TID_D2A cmd [a, b] hfmt (by decide) (by omega) hs
    (by simp)
  rw [outcome_eq_iff] at ho
  obtain ⟨h1, h2, h3, h4, h5, _, _⟩ := ho
  have hv : (_Parse w.io (iovOf mem (frame1 TID_D2A cmd [a, b]))).2.valid = true := by
    rw [h4]; simp
  have hval : (_Parse w.io (iovOf mem (frame1 TID_D2A cmd [a, b]))).2.val = (a <<< 8) ||| b := by
    rw [h5]; simp
  have hp := _Process_D2A (_Parse w.io (iovOf mem (frame1 TID_D2A cmd [a, b]))).2 w.g rnd h2
    (by rw [h3]; exact hcmd)
  rw [if_pos hv] at hp
  have hcfg := _Process_config _ _ _ _ _ _ hp
  unfold receive
  dsimp only
  rw [if_neg (by rw [h1]; decide), hp, Option.map_some']
  refine ⟨_, rfl, ?_, hcfg.trans (_Parse_config _ _)⟩
  dsimp only
  exact hval

/-- Format 1: the frame of an analog-out reply with a value is a succeeding reply. -/
theorem succeeding_D2A (w : Sys) (e : Exchange) (mem : Nat → Nat) (cmd a b : Nat)
    (hfmt : w.io.msgfmt = 1) (hr : e.chk.riov = some (iovOf mem (frame1 TID_D2A cmd [a, b])))
    (hcmd : cmd < 32) (ha : a < 256) (hb : b < 256) : succeeding w e ((a <<< 8) ||| b) := by
  intro w2 hsd
  obtain ⟨io1, h1, h2, _⟩ := receive_D2A w2 mem cmd a b e.rnd (hsd.2.1.trans hfmt) hcmd ha hb
  rw [hr]
  exact ⟨_, h1, h2⟩

/-- When `io->Chk` returns a value that is not negative without having read anything, the
loop of `_Child` goes on to `_Parse` with the empty buffer, whatever comes next. -/
theorem childLoop_no_read (io : IO_s) (g : Globals) (sent : List (Option (List Nat)))
    (e : Exchange) (es : List Exchange) (hrc : 0 ≤ e.chk.rc) (hr : e.chk.riov = none) :
    childLoop io g sent (e :: es) = none := by
  rw [childLoop]
  dsimp only
  rw [if_neg (by omega), hr]

/-- When `io->Chk` returns a negative value the loop of `_Child` ends and `_Child` returns
that value. -/
theorem childLoop_break (io : IO_s) (g : Globals) (sent : List (Option (List Nat)))
    (e : Exchange) (es : List Exchange) (hrc : e.chk.rc < 0) :
    ∃ w, childLoop io g sent (e :: es) = some (e.chk.rc, w) ∧ w.sent = sent ∧ w.env = es := by
  rw [childLoop]
  dsimp only
  rw [if_pos hrc]
  exact ⟨_, rfl, rfl, rfl⟩

theorem sample_cal (s : SENSOR_s) (tv rv : Nat) : (s.sample tv rv).cal = s.cal := rfl

/-- A call of `_Process` keeps the sample counts in range and leaves the calibration fields
of every sensor record alone. -/
theorem _Process_cal (io : IO_s) (g : Globals) (rnd : Nat) (rc : Int) (io' : IO_s)
    (g' : Globals) (h : _Process io g rnd = some (rc, io', g')) (hb : bounded g) :
    bounded g' ∧ ∀ jx, jx < 8 → (g'.urg.getSensor jx).cal = (g.urg.getSensor jx).cal := by
  rcases _Process_urg io g rnd rc io' g' h (fun hc => hb io.cmd hc) with
    hu | ⟨f, hu⟩ | ⟨_, hc, _, _, hn, rv, hu⟩
  · rw [bounded, hu]
    exact ⟨hb, fun _ _ => rfl⟩
  · have e : ∀ jx, g'.urg.getSensor jx = g.urg.getSensor jx := by
      intro jx
      rw [hu, getSensor_flags]
    exact ⟨fun jx hjx => by rw [e jx]; exact hb jx hjx, fun jx _ => by rw [e jx]⟩
  · have e : ∀ jx, jx < 8 → g'.urg.getSensor jx
        = if jx = io.cmd then (g.urg.getSensor io.cmd).sample io.wtv rv
          else g.urg.getSensor jx := by
      intro jx hjx
      rw [hu, getSensor_republish]
      by_cases hj : jx = io.cmd
      · rw [if_pos hj, hj, getSensor_setSensor _ _ _ hc]
      · rw [if_neg hj, getSensor_setSensor_ne _ _ _ _ hc hjx hj]
    constructor
    · intro jx hjx
      rw [e jx hjx]
      by_cases hj : jx = io.cmd
      · rw [if_pos hj]
        exact hn
      · rw [if_neg hj]
        exact hb jx hjx
    · intro jx hjx
      rw [e jx hjx]
      by_cases hj : jx = io.cmd
      · rw [if_pos hj, sample_cal, hj]
      · rw [if_neg hj]

theorem receive_cal (w : Sys) (riov : Option iovec) (rnd : Nat) (rc : Int) (w3 : Sys)
    (h : receive w riov rnd = some (rc, w3)) (hb : bounded w.g) :
    bounded w3.g
      ∧ ∀ jx, jx < 8 → (w3.g.urg.getSensor jx).cal = (w.g.urg.getSensor jx).cal := by
  cases riov with
  | none => exact absurd h (by simp [receive])
  | some iov =>
    unfold receive at h
    dsimp only at h
    by_cases hp : (_Parse w.io iov).1 ≠ 0
    · rw [if_pos hp] at h
      have hw3 : ({ w with io := (_Parse w.io iov).2 } : Sys) = w3 :=
        congrArg Prod.snd (Option.some.inj h)
      subst hw3
      exact ⟨hb, fun _ _ => rfl⟩
    · rw [if_neg hp] at h
      cases hpr : _Process (_Parse w.io iov).2 w.g rnd with
      | none => rw [hpr] at h; exact absurd h (by simp)
      | some r =>
        rw [hpr, Option.map_some'] at h
        have hw3 : ({ w with io := r.2.1, g := r.2.2 } : Sys) = w3 :=
          congrArg Prod.snd (Option.some.inj h)
        subst hw3
        exact _Process_cal _ _ _ r.1 r.2.1 r.2.2 hpr hb

theorem attempt_g (io : IO_s) (g : Globals) (sent : List (Option (List Nat))) (tid cmd : Nat)
    (s : List Nat) (e : Exchange) (es : List Exchange) :
    (Sys.attempt io g sent tid cmd s e es).g.urg = g.urg
      ∧ (Sys.attempt io g sent tid cmd s e es).io.config
          = ({ io with wtv := e.wtv, rtv := e.chk.rtv } : IO_s).config
      ∧ (Sys.attempt io g sent tid cmd s e es).sent = sent ++ [_Load io.msgfmt tid cmd s]
      ∧ (Sys.attempt io g sent tid cmd s e es).env = es := by
  unfold Sys.attempt Sys.afterChk
  dsimp only
  refine ⟨?_, rfl, rfl, rfl⟩
  split_ifs <;> rfl

/-- What `_Command` leaves, whenever it returns: the sample counts stay in range, the
calibration fields of every sensor record, the role, the format selector and the retry
ceiling are as before, and the frames sent are copies of the encoded request, at least one. -/
theorem commandLoop_keeps (tid cmd : Nat) (s : List Nat) (env : List Exchange) (io : IO_s)
    (g : Globals) (sent : List (Option (List Nat))) (rc : Int) (rv : Option Nat) (w1 : Sys)
    (h : commandLoop tid cmd s io g sent env = some (rc, rv, w1)) (hb : bounded g) :
    bounded w1.g
      ∧ (∀ jx, jx < 8 → (w1.g.urg.getSensor jx).cal = (g.urg.getSensor jx).cal)
      ∧ w1.io.role = io.role ∧ w1.io.msgfmt = io.msgfmt ∧ w1.io.maxretrys = io.maxretrys
      ∧ ∃ k, w1.sent = sent ++ List.replicate (k + 1) (_Load io.msgfmt tid cmd s) := by
  induction env generalizing io g sent with
  | nil => exact absurd h (by simp [commandLoop])
  | cons e es ih =>
    rw [commandLoop_cons] at h
    obtain ⟨a1, a2, a3, a4⟩ := attempt_g io g sent tid cmd s e es
    have hb1 : bounded (Sys.attempt io g sent tid cmd s e es).g := by
      unfold bounded
      rw [a1]
      exact hb
    cases hrec : receive (Sys.attempt io g sent tid cmd s e es) e.chk.riov e.rnd with
    | none => rw [hrec] at h; exact absurd h (by simp)
    | some r =>
      rw [hrec] at h
      dsimp only at h
      obtain ⟨c1, c2⟩ := receive_cal _ _ _ r.1 r.2 hrec hb1
      obtain ⟨k1, k2, k3⟩ := receive_keeps _ _ _ r.1 r.2 hrec
      rw [a2] at k3
      have hrole : r.2.io.role = io.role := congrArg (fun x => x.1) k3
      have hfmt : r.2.io.msgfmt = io.msgfmt := congrArg (fun x => x.2.1) k3
      have hmax : r.2.io.maxretrys = io.maxretrys := congrArg (fun x => x.2.2.2.2.2.1) k3
      have hcal : ∀ jx, jx < 8 → (r.2.g.urg.getSensor jx).cal = (g.urg.getSensor jx).cal := by
        intro jx hjx
        rw [c2 jx hjx, a1]
      have hsent : r.2.sent = sent ++ [_Load io.msgfmt tid cmd s] := k1.trans a3
      by_cases hrc : r.1 ≠ 0
      · rw [if_pos hrc] at h
        split_ifs at h with hre
        · obtain ⟨b1, b2, b3, b4, b5, k, b6⟩ := ih _ _ _ h c1
          refine ⟨b1, fun jx hjx => (b2 jx hjx).trans (hcal jx hjx), b3.trans hrole,
            b4.trans hfmt, b5.trans hmax, k + 1, ?_⟩
          rw [b6, hsent]
          have hf : ({ r.2.io with nretry := toInt32 (r.2.io.nretry + 1) } : IO_s).msgfmt
              = io.msgfmt := hfmt
          rw [hf, List.append_assoc]
          rfl
        · have hw : w1 = { r.2 with io :=
              { r.2.io with nretry := toInt32 (r.2.io.nretry + 1) } } :=
            (congrArg (fun x => x.2.2) (Option.some.inj h)).symm
          rw [hw]
          exact ⟨c1, hcal, hrole, hfmt, hmax, 0, hsent⟩
      · rw [if_neg hrc] at h
        have hw : w1 = { r.2 with io := { r.2.io with nretry := 0 } } :=
          (congrArg (fun x => x.2.2) (Option.some.inj h)).symm
        rw [hw]
        exact ⟨c1, hcal, hrole, hfmt, hmax, 0, hsent⟩

theorem _Command_keeps (w : Sys) (tid cmd : Nat) (s : List Nat) (rc : Int) (rv : Option Nat)
    (w1 : Sys) (h : _Command w tid cmd s = some (rc, rv, w1)) (hb : bounded w.g) :
    bounded w1.g
      ∧ (∀ jx, jx < 8 → (w1.g.urg.getSensor jx).cal = (w.g.urg.getSensor jx).cal)
      ∧ w1.io.role = w.io.role ∧ w1.io.msgfmt = w.io.msgfmt
      ∧ w1.io.maxretrys = w.io.maxretrys
      ∧ ∃ k, w1.sent = w.sent ++ List.replicate (k + 1) (_Load w.io.msgfmt tid cmd s) :=
  commandLoop_keeps tid cmd s w.env { w.io with nretry := 0 } w.g w.sent rc rv w1 h hb

theorem savgLoop_keeps (cmd k : Nat) (w w1 : Sys) (h : savgLoop cmd k w = some w1)
    (hb : bounded w.g) :
    bounded w1.g
      ∧ (∀ jx, jx < 8 → (w1.g.urg.getSensor jx).cal = (w.g.urg.getSensor jx).cal)
      ∧ w1.io.role = w.io.role ∧ w1.io.msgfmt = w.io.msgfmt
      ∧ w1.io.maxretrys = w.io.maxretrys
      ∧ ∃ more, w1.sent = w.sent ++ more := by
  induction k generalizing w with
  | zero =>
    have : w = w1 := Option.some.inj h
    subst this
    exact ⟨hb, fun _ _ => rfl, rfl, rfl, rfl, [], (List.append_nil _).symm⟩
  | succ k ih =>
    rw [savgLoop] at h
    cases hc : _Command w TID_A2D cmd [] with
    | none => rw [hc] at h; exact absurd h (by simp)
    | some r =>
      rw [hc] at h
      dsimp only at h
      obtain ⟨a1, a2, a3, a4, a5, n, a6⟩ := _Command_keeps w TID_A2D cmd [] r.1 r.2.1 r.2.2 hc hb
      obtain ⟨b1, b2, b3, b4, b5, more, b6⟩ := ih r.2.2 h a1
      refine ⟨b1, fun jx hjx => (b2 jx hjx).trans (a2 jx hjx), b3.trans a3, b4.trans a4,
        b5.trans a5, List.replicate (n + 1) (_Load w.io.msgfmt TID_A2D cmd []) ++ more, ?_⟩
      rw [b6, a6, List.append_assoc]

/-- What `_SAvg` leaves, whenever it returns: the value returned is the average of the sensor
record, the first frame sent is the analog-out request for the measurement point, and the
calibration fields of every sensor record, the role, the format selector and the retry
ceiling are as before. -/
theorem _SAvg_keeps (w : Sys) (cmd val : Nat) (x : Int) (w1 : Sys)
    (h : _SAvg w cmd val = some (x, w1)) (hb : bounded w.g) :
    x = (w1.g.urg.getSensor cmd).avg ∧ bounded w1.g
      ∧ (∀ jx, jx < 8 → (w1.g.urg.getSensor jx).cal = (w.g.urg.getSensor jx).cal)
      ∧ w1.io.role = w.io.role ∧ w1.io.msgfmt = w.io.msgfmt
      ∧ w1.io.maxretrys = w.io.maxretrys
      ∧ ∃ more, w1.sent = w.sent
          ++ _Load w.io.msgfmt TID_D2A cmd [(val >>> 8) &&& 0xFF, val &&& 0xFF] :: more := by
  unfold _SAvg at h
  dsimp only at h
  cases hc : _Command w TID_D2A cmd [(val >>> 8) &&& 0xFF, val &&& 0xFF] with
  | none => rw [hc] at h; exact absurd h (by simp)
  | some r =>
    rw [hc] at h
    dsimp only at h
    cases hl : savgLoop cmd 5 r.2.2 with
    | none => rw [hl] at h; exact absurd h (by simp)
    | some w2 =>
      rw [hl] at h
      dsimp only at h
      have hh := Option.some.inj h
      have hx : (w2.g.urg.getSensor cmd).avg = x := congrArg Prod.fst hh
      have hw : w2 = w1 := congrArg Prod.snd hh
      subst hw
      obtain ⟨a1, a2, a3, a4, a5, n, a6⟩ := _Command_keeps w TID_D2A cmd _ r.1 r.2.1 r.2.2 hc hb
      obtain ⟨b1, b2, b3, b4, b5, more, b6⟩ := savgLoop_keeps cmd 5 r.2.2 w2 hl a1
      refine ⟨hx.symm, b1, fun jx hjx => (b2 jx hjx).trans (a2 jx hjx), b3.trans a3,
        b4.trans a4, b5.trans a5,
        List.replicate n (_Load w.io.msgfmt TID_D2A cmd [(val >>> 8) &&& 0xFF, val &&& 0xFF])
          ++ more, ?_⟩
      rw [b6, a6, List.replicate_succ, List.append_assoc, List.cons_append]

theorem bounded_setSensor (w : Sys) (ix : Nat) (x : SENSOR_s) (hb : bounded w.g)
    (hix : ix < 8) (hn : x.npts < 65536) : bounded (w.setSensor ix x).g := by
  intro jx hjx
  show ((w.g.urg.setSensor ix x).getSensor jx).npts < 65536
  by_cases hj : jx = ix
  · rw [hj, getSensor_setSensor _ _ _ hix]
    exact hn
  · rw [getSensor_setSensor_ne _ _ _ _ hix hjx hj]
    exact hb jx hjx

theorem cdiv_pos (a : Int) (b : Nat) (hb : 0 < b) : cdiv a b = some (Int.tdiv a b) := by
  unfold cdiv
  rw [if_neg (by omega), if_neg (by omega)]

theorem cdiv_ok (a b : Int) (hb : b ≠ 0) (hm : ¬ (a = -2147483648 ∧ b = -1)) :
    cdiv a b = some (Int.tdiv a b) := by
  unfold cdiv
  rw [if_neg hb, if_neg hm]

/-! ## Measurements and calibration against an ideal device -/

theorem _Command_ok (w : Sys) (tid cmd : Nat) (s : List Nat) (e : Exchange)
    (es : List Exchange) (w3 : Sys) (henv : w.env = e :: es)
    (hrec : receive (Sys.attempt { w.io with nretry := 0 } w.g w.sent tid cmd s e es)
      e.chk.riov e.rnd = some ((0 : Int), w3)) :
    _Command w tid cmd s
      = some ((0 : Int), some w3.io.retval, { w3 with io := { w3.io with nretry := 0 } }) := by
  unfold _Command
  rw [henv, commandLoop_cons, hrec]
  dsimp only
  rw [if_neg (by decide)]

theorem word_bytes (v : Nat) (hv : v < 65536) :
    (((v >>> 8) &&& 0xFF) <<< 8) ||| (v &&& 0xFF) = v := by
  rw [hi_byte v hv]
  exact join_bytes v

/-- Format 1, on the controller: receiving the frame of an analog-in reply with a value, at a
sensor index whose count does not wrap. -/
theorem receive_A2D (w : Sys) (mem : Nat → Nat) (cmd a b rnd : Nat) (hrole : w.io.role = "nuc")
    (hfmt : w.io.msgfmt = 1) (hcmd : cmd < 8) (ha : a < 256) (hb : b < 256)
    (hn : (w.g.urg.getSensor cmd).npts + 1 < 65536) :
    ∃ io1, receive w (some (iovOf mem (frame1 TID_A2D cmd [a, b]))) rnd
        = some ((0 : Int), { w with io := io1, g := { w.g with urg := (republish cmd
            ((w.g.urg.getSensor cmd).sample w.io.wtv ((a <<< 8) ||| b)).avg
            (w.g.urg.setSensor cmd
              ((w.g.urg.getSensor cmd).sample w.io.wtv ((a <<< 8) ||| b)))) } })
      ∧ io1.retval = (a <<< 8) ||| b ∧ io1.config = w.io.config := by
  have hs : ∀ x ∈ [a, b], x < 256 := by
    intro x hx
    simp only [List.mem_cons, List.mem_singleton, List.not_mem_nil, or_false] at hx
    rcases hx with rfl | rfl <;> assumption
  have ho := parse_frame1 w.io mem TID_A2D cmd [a, b] hfmt (by decide) (by omega) hs
    (by simp)
  rw [outcome_eq_iff] at ho
  obtain ⟨h1, h2, h3, h4, h5, _, _⟩ := ho
  have hv : (_Parse w.io (iovOf mem (frame1 TID_A2D cmd [a, b]))).2.valid = true := by
    rw [h4]; simp
  have hval : (_Parse w.io (iovOf mem (frame1 TID_A2D cmd [a, b]))).2.val = (a <<< 8) ||| b := by
    rw [h5]; simp
  have hcfg := _Parse_config w.io (iovOf mem (frame1 TID_A2D cmd [a, b]))
  have hr : (_Parse w.io (iovOf mem (frame1 TID_A2D cmd [a, b]))).2.role = "nuc" :=
    (congrArg (fun x => x.1) hcfg).trans hrole
  have hwtv : (_Parse w.io (iovOf mem (frame1 TID_A2D cmd [a, b]))).2.wtv = w.io.wtv :=
    congrArg (fun x => x.2.2.2.2.2.2.2) hcfg
  obtain ⟨io1, hp, hrv⟩ := _Process_A2D_nuc
    (_Parse w.io (iovOf mem (frame1 TID_A2D cmd [a, b]))).2 w.g rnd hr h2
    (by rw [h3]; exact hcmd) (by rw [h3]; exact hn)
  rw [h3, hwtv, if_pos hv, hval] at hp
  rw [if_pos hv, hval] at hrv
  have hcfg2 := _Process_config _ _ _ _ _ _ hp
  unfold receive
  dsimp only
  rw [if_neg (by rw [h1]; decide), hp, Option.map_some']
  exact ⟨io1, rfl, hrv, hcfg2.trans hcfg⟩

theorem attempt_fields (io : IO_s) (g : Globals) (sent : List (Option (List Nat)))
    (tid cmd : Nat) (s : List Nat) (e : Exchange) (es : List Exchange) :
    (Sys.attempt io g sent tid cmd s e es).io.role = io.role
      ∧ (Sys.attempt io g sent tid cmd s e es).io.msgfmt = io.msgfmt
      ∧ (Sys.attempt io g sent tid cmd s e es).io.wtv = e.wtv := by
  unfold Sys.attempt Sys.afterChk
  exact ⟨rfl, rfl, rfl⟩

/-- The analog-out request of `_SAvg` answered by an ideal device, in format 1. -/
theorem _Command_D2A_ideal (w : Sys) (cmd v : Nat) (s : List Nat) (e : Exchange)
    (es : List Exchange) (hfmt : w.io.msgfmt = 1) (hcmd : cmd < 32) (henv : w.env = e :: es)
    (hr : e.carries (frame1 TID_D2A cmd [(v >>> 8) &&& 0xFF, v &&& 0xFF])) :
    ∃ rv w1, _Command w TID_D2A cmd s = some ((0 : Int), rv, w1)
      ∧ w1.io.role = w.io.role ∧ w1.io.msgfmt = 1 ∧ w1.env = es
      ∧ w1.sent = w.sent ++ [_Load 1 TID_D2A cmd s] ∧ w1.g.urg = w.g.urg := by
  obtain ⟨mem, hmem⟩ := hr
  obtain ⟨a1, a2, a3, a4⟩ := attempt_g { w.io with nretry := 0 } w.g w.sent TID_D2A cmd s e es
  obtain ⟨f1, f2, _⟩ := attempt_fields { w.io with nretry := 0 } w.g w.sent TID_D2A cmd s e es
  have hf : (Sys.attempt { w.io with nretry := 0 } w.g w.sent TID_D2A cmd s e es).io.msgfmt
      = 1 := f2.trans hfmt
  obtain ⟨io1, h1, _, h3⟩ := receive_D2A
    (Sys.attempt { w.io with nretry := 0 } w.g w.sent TID_D2A cmd s e es) mem cmd
    ((v >>> 8) &&& 0xFF) (v &&& 0xFF) e.rnd hf hcmd (and_ff_lt _) (and_ff_lt _)
  rw [← hmem] at h1
  have hok := _Command_ok w TID_D2A cmd s e es _ henv h1
  have hrole : io1.role = w.io.role := (congrArg (fun x => x.1) h3).trans f1
  have hfmt1 : io1.msgfmt = 1 := (congrArg (fun x => x.2.1) h3).trans hf
  have hfw : ({ w.io with nretry := 0 } : IO_s).msgfmt = 1 := hfmt
  rw [hfw] at a3
  exact ⟨_, _, hok, hrole, hfmt1, a4, a3, a1⟩

/-- An analog-in request of `_SAvg` answered by an ideal device, in format 1 on the
controller: the sensor record takes one more sample with the raw value `v`. -/
theorem _Command_A2D_ideal (w : Sys) (cmd v : Nat) (e : Exchange) (es : List Exchange)
    (hrole : w.io.role = "nuc") (hfmt : w.io.msgfmt = 1) (hcmd : cmd < 8) (hv : v < 65536)
    (henv : w.env = e :: es)
    (hr : e.carries (frame1 TID_A2D cmd [(v >>> 8) &&& 0xFF, v &&& 0xFF]))
    (hn : (w.g.urg.getSensor cmd).npts + 1 < 65536) :
    ∃ rv w1, _Command w TID_A2D cmd [] = some ((0 : Int), rv, w1)
      ∧ w1.io.role = "nuc" ∧ w1.io.msgfmt = 1 ∧ w1.env = es
      ∧ w1.sent = w.sent ++ [_Load 1 TID_A2D cmd []]
      ∧ w1.g.urg.getSensor cmd = (w.g.urg.getSensor cmd).sample e.wtv v := by
  obtain ⟨mem, hmem⟩ := hr
  obtain ⟨a1, a2, a3, a4⟩ := attempt_g { w.io with nretry := 0 } w.g w.sent TID_A2D cmd [] e es
  obtain ⟨f1, f2, f3⟩ := attempt_fields { w.io with nretry := 0 } w.g w.sent TID_A2D cmd [] e es
  have hf : (Sys.attempt { w.io with nretry := 0 } w.g w.sent TID_A2D cmd [] e es).io.msgfmt
      = 1 := f2.trans hfmt
  have hro : (Sys.attempt { w.io with nretry := 0 } w.g w.sent TID_A2D cmd [] e es).io.role
      = "nuc" := f1.trans hrole
  obtain ⟨io1, h1, _, h3⟩ := receive_A2D
    (Sys.attempt { w.io with nretry := 0 } w.g w.sent TID_A2D cmd [] e es) mem cmd
    ((v >>> 8) &&& 0xFF) (v &&& 0xFF) e.rnd hro hf hcmd (and_ff_lt _) (and_ff_lt _)
    (by rw [a1]; exact hn)
  rw [← hmem, word_bytes v hv, a1, f3] at h1
  have hok := _Command_ok w TID_A2D cmd [] e es _ henv h1
  have hrole1 : io1.role = "nuc" := (congrArg (fun x => x.1) h3).trans hro
  have hfmt1 : io1.msgfmt = 1 := (congrArg (fun x => x.2.1) h3).trans hf
  have hfw : ({ w.io with nretry := 0 } : IO_s).msgfmt = 1 := hfmt
  rw [hfw] at a3
  refine ⟨_, _, hok, hrole1, hfmt1, a4, a3, ?_⟩
  show (republish cmd _ _).getSensor cmd = _
  rw [getSensor_republish, getSensor_setSensor _ _ _ hcmd]

theorem samples_cons (s : SENSOR_s) (v tv : Nat) (tvs : List Nat) :
    s.samples v (tv :: tvs) = (s.sample tv v).samples v tvs := rfl

theorem samples_fields (s : SENSOR_s) (v : Nat) (tvs : List Nat) :
    (s.samples v tvs).cal = s.cal ∧ (s.samples v tvs).npts = s.npts + tvs.length := by
  induction tvs generalizing s with
  | nil => exact ⟨rfl, rfl⟩
  | cons tv tvs ih =>
    rw [samples_cons]
    obtain ⟨h1, h2⟩ := ih (s.sample tv v)
    refine ⟨h1.trans (sample_cal s tv v), ?_⟩
    rw [h2, List.length_cons]
    show s.npts + 1 + tvs.length = _
    omega

/-- The measurement loop of `_SAvg` answered by an ideal device. -/
theorem savgLoop_ideal (cmd v : Nat) (es rest : List Exchange) (w : Sys)
    (hrole : w.io.role = "nuc") (hfmt : w.io.msgfmt = 1) (hcmd : cmd < 8) (hv : v < 65536)
    (henv : w.env = es ++ rest)
    (hr : ∀ e ∈ es, e.carries (frame1 TID_A2D cmd [(v >>> 8) &&& 0xFF, v &&& 0xFF]))
    (hn : (w.g.urg.getSensor cmd).npts + es.length < 65536) :
    ∃ w1, savgLoop cmd es.length w = some w1
      ∧ w1.io.role = "nuc" ∧ w1.io.msgfmt = 1 ∧ w1.env = rest
      ∧ w1.sent = w.sent ++ List.replicate es.length (_Load 1 TID_A2D cmd [])
      ∧ w1.g.urg.getSensor cmd
          = (w.g.urg.getSensor cmd).samples v (es.map fun e => e.wtv) := by
  induction es generalizing w with
  | nil =>
    refine ⟨w, rfl, hrole, hfmt, henv, ?_, rfl⟩
    simp
  | cons e es ih =>
    rw [List.length_cons] at hn
    obtain ⟨rv, w1, h1, r1, m1, e1, s1, g1⟩ := _Command_A2D_ideal w cmd v e (es ++ rest)
      hrole hfmt hcmd hv henv (hr e (List.mem_cons_self _ _)) (by omega)
    have hn1 : (w1.g.urg.getSensor cmd).npts = (w.g.urg.getSensor cmd).npts + 1 := by
      rw [g1]; rfl
    obtain ⟨w2, h2, r2, m2, e2, s2, g2⟩ := ih w1 r1 m1 e1
      (fun x hx => hr x (List.mem_cons_of_mem _ hx)) (by rw [hn1]; omega)
    refine ⟨w2, ?_, r2, m2, e2, ?_, ?_⟩
    · rw [List.length_cons, savgLoop, h1]
      exact h2
    · rw [s2, s1, List.length_cons, List.replicate_succ, List.append_assoc]
      rfl
    · rw [g2, g1, List.map_cons, samples_cons]

/-- One measurement of `_SAvg` answered by an ideal device, in format 1 on the controller:
six frames are sent, and the value returned is the average of the sensor record after five
samples with the raw value `v`. -/
theorem _SAvg_ideal (w : Sys) (cmd v : Nat) (es rest : List Exchange)
    (hrole : w.io.role = "nuc") (hfmt : w.io.msgfmt = 1) (hcmd : cmd < 8) (hv : v < 65536)
    (henv : w.env = es ++ rest) (hid : idealFor cmd v es)
    (hn : (w.g.urg.getSensor cmd).npts + 5 < 65536) :
    ∃ tvs w1, tvs.length = 5
      ∧ _SAvg w cmd v = some (((w.g.urg.getSensor cmd).samples v tvs).avg, w1)
      ∧ w1.io.role = "nuc" ∧ w1.io.msgfmt = 1 ∧ w1.env = rest
      ∧ w1.sent = w.sent ++ (_Load 1 TID_D2A cmd [(v >>> 8) &&& 0xFF, v &&& 0xFF]
          :: List.replicate 5 (_Load 1 TID_A2D cmd []))
      ∧ w1.g.urg.getSensor cmd = (w.g.urg.getSensor cmd).samples v tvs := by
  obtain ⟨eD, esA, hes, hlen, hD, hA⟩ := hid
  subst hes
  obtain ⟨rv, w1, h1, r1, m1, e1, s1, g1⟩ := _Command_D2A_ideal w cmd v
    [(v >>> 8) &&& 0xFF, v &&& 0xFF] eD (esA ++ rest) hfmt (by omega) henv hD
  obtain ⟨w2, h2, r2, m2, e2, s2, g2⟩ := savgLoop_ideal cmd v esA rest w1 (r1.trans hrole) m1
    hcmd hv e1 hA (by rw [g1, hlen]; exact hn)
  rw [hlen] at h2 s2
  rw [g1] at g2
  refine ⟨esA.map fun e => e.wtv, w2, by rw [List.length_map, hlen], ?_, r2, m2, e2, ?_, g2⟩
  · unfold _SAvg
    dsimp only
    rw [h1]
    dsimp only
    rw [h2]
    dsimp only
    rw [g2]
  · rw [s2, s1, List.append_assoc]
    rfl

theorem toInt32_id (x : Int) (h1 : -2147483648 ≤ x) (h2 : x ≤ 2147483647) : toInt32 x = x := by
  unfold toInt32
  omega

/-- The sum and the average after samples of one raw value, while the arithmetic stays in
`int32_t`: `x` is the scaled value. -/
theorem samples_exact (s : SENSOR_s) (v : Nat) (tvs : List Nat) (x : Int)
    (hx : toInt32 (toInt32 (s.gain * v) + s.off) = x)
    (hfit : ∀ j : Nat, j ≤ tvs.length →
      -2147483648 ≤ s.sum + j * x ∧ s.sum + j * x ≤ 2147483647) :
    (s.samples v tvs).sum = s.sum + tvs.length * x
      ∧ (1 ≤ tvs.length → (s.samples v tvs).avg
          = Int.tdiv (s.sum + tvs.length * x) ((s.npts + tvs.length : Nat) : Int)) := by
  induction tvs generalizing s with
  | nil =>
    refine ⟨?_, fun h => absurd h (by decide)⟩
    show s.sum = _
    simp
  | cons tv tvs ih =>
    have h1 := hfit 1 (by simp)
    have hsum : (s.sample tv v).sum = s.sum + x := by
      show toInt32 (s.sum + toInt32 (toInt32 (s.gain * v) + s.off)) = _
      rw [hx]
      exact toInt32_id _ (by simpa using h1.1) (by simpa using h1.2)
    have havg : (s.sample tv v).avg = Int.tdiv (s.sum + x) ((s.npts + 1 : Nat) : Int) := by
      show Int.tdiv (toInt32 (s.sum + toInt32 (toInt32 (s.gain * v) + s.off))) _ = _
      rw [hx, toInt32_id _ (by simpa using h1.1) (by simpa using h1.2)]
    have hnp : (s.sample tv v).npts = s.npts + 1 := rfl
    obtain ⟨i1, i2⟩ := ih (s.sample tv v) hx (by
      intro j hj
      have := hfit (j + 1) (by rw [List.length_cons]; omega)
      rw [hsum]
      push_cast at this
      constructor
      · linarith [this.1]
      · linarith [this.2])
    rw [samples_cons]
    constructor
    · rw [i1, hsum, List.length_cons]
      push_cast
      ring
    · intro _
      by_cases hl : 1 ≤ tvs.length
      · rw [i2 hl, hsum, hnp, List.length_cons]
        have e1 : s.sum + x + (tvs.length : Int) * x = s.sum + ((tvs.length + 1 : Nat) : Int) * x := by
          push_cast; ring
        have e2 : s.npts + 1 + tvs.length = s.npts + (tvs.length + 1) := by omega
        rw [e1, e2]
      · have hnil : tvs = [] := by
          cases tvs with
          | nil => rfl
          | cons a l => exact absurd (by simp) hl
        subst hnil
        show (s.sample tv v).avg = _
        rw [havg]
        simp

/-- Five samples of one raw value into a zeroed record: the average is the scaled value. -/
theorem samples_five (s : SENSOR_s) (v : Nat) (tvs : List Nat) (x : Int) (hlen : tvs.length = 5)
    (hn : s.npts = 0) (hs : s.sum = 0) (hx : toInt32 (toInt32 (s.gain * v) + s.off) = x)
    (h1 : -2147483648 ≤ 5 * x) (h2 : 5 * x ≤ 2147483647) : (s.samples v tvs).avg = x := by
  obtain ⟨_, i2⟩ := samples_exact s v tvs x hx (by
    intro j hj
    rw [hs, hlen] at *
    have hj' : (j : Int) ≤ 5 := by exact_mod_cast hj
    have hj0 : (0 : Int) ≤ j := Int.ofNat_nonneg _
    constructor <;> nlinarith)
  rw [i2 (by rw [hlen]; decide), hs, hn, hlen]
  simp only [zero_add]
  have : ((5 : Nat) : Int) * x = x * 5 := by push_cast; ring
  rw [this]
  exact Int.mul_tdiv_cancel x (by decide)

theorem _SCal_steps (w : Sys) (cmd : Nat) (range : RANGE_s) (L H S : Int) (w2 w4 w6 : Sys)
    (hix : cmd < 8) (hrmax : 0 < (w.g.urg.getSensor cmd).rmax)
    (hr2 : (w2.g.urg.getSensor cmd).rmax = (w.g.urg.getSensor cmd).rmax)
    (hr4 : (w4.g.urg.getSensor cmd).rmax = (w.g.urg.getSensor cmd).rmax)
    (h1 : _SAvg (w.setSensor cmd ((w.g.urg.getSensor cmd).calStart range)) cmd 0
      = some (L, w2))
    (h2 : _SAvg (w2.setSensor cmd ({ w2.g.urg.getSensor cmd with off := L } : SENSOR_s).zeroed)
        cmd (w.g.urg.getSensor cmd).rmax = some (H, w4))
    (hgain : Int.tdiv (toInt32 (H - L)) (w.g.urg.getSensor cmd).rmax ≠ 0)
    (hmin : ¬ (toInt32 (range.val - range.min) = -2147483648
      ∧ Int.tdiv (toInt32 (H - L)) (w.g.urg.getSensor cmd).rmax = -1))
    (h3 : _SAvg (w4.setSensor cmd ({ w4.g.urg.getSensor cmd with
          gain := Int.tdiv (toInt32 (H - L)) (w.g.urg.getSensor cmd).rmax } : SENSOR_s).zeroed)
        cmd (setpoint range (Int.tdiv (toInt32 (H - L)) (w.g.urg.getSensor cmd).rmax))
      = some (S, w6)) :
    _SCal w cmd range = some ((0 : Int),
      w6.setSensor cmd
        ({ w6.g.urg.getSensor cmd with sys := S, ref := range.val } : SENSOR_s).zeroed) := by
  have hns : cmd < _NSENSORS := hix
  unfold _SCal
  dsimp only
  rw [if_neg (not_not.mpr hns), cdiv_pos _ _ hrmax]
  dsimp only
  unfold SENSOR_s.calStart at h1
  unfold SENSOR_s.zeroed at h2 h3 ⊢
  unfold setpoint at h3
  rw [← hr2] at h2
  rw [← hr4] at h3 hgain hmin
  dsimp only at h1 h2 h3 ⊢
  rw [h1]
  dsimp only
  rw [h2]
  dsimp only
  rw [cdiv_pos _ _ (hr4 ▸ hrmax)]
  dsimp only
  rw [cdiv_ok _ _ hgain hmin]
  dsimp only
  rw [h3]

theorem idealFor_idealReplies (cmd v : Nat) : idealFor cmd v (idealReplies cmd v) :=
  ⟨_, _, rfl, List.length_replicate _ _, ⟨_, rfl⟩,
    fun e he => by rw [List.eq_of_mem_replicate he]; exact ⟨_, rfl⟩⟩

theorem tdiv_fixed (D : Int) (R : Nat) (hR : 0 < R) (hD : (R : Int) ≤ D) :
    0 < Int.tdiv D R ∧ Int.tdiv D R * R ≤ D ∧ Int.tdiv (Int.tdiv D R * R) R = Int.tdiv D R := by
  have hR0 : (0 : Int) < R := by exact_mod_cast hR
  have hD0 : (0 : Int) ≤ D := le_trans (le_of_lt hR0) hD
  refine ⟨?_, ?_, Int.mul_tdiv_cancel _ (ne_of_gt hR0)⟩
  · rw [Int.tdiv_eq_ediv hD0 (le_of_lt hR0)]
    exact lt_of_lt_of_le (by decide : (0 : Int) < 1) (Int.le_ediv_of_mul_le hR0 (by rw [one_mul]; exact hD))
  · rw [Int.tdiv_eq_ediv hD0 (le_of_lt hR0)]
    exact Int.ediv_mul_le _ (ne_of_gt hR0)

theorem tdiv_small (D : Int) (R : Nat) (h0 : 0 ≤ D) (hD : D < (R : Int)) : Int.tdiv D R = 0 := by
  rw [Int.tdiv_eq_ediv h0 (by omega)]
  exact Int.ediv_eq_zero_of_lt h0 hD

/-- One measurement of `_SAvg` on a zeroed sensor record `s`, answered by an ideal device:
while five times the scaled value `x` is a value of `int32_t`, the value returned is `x`. -/
theorem _SAvg_ideal_set (w : Sys) (cmd v : Nat) (s : SENSOR_s) (es rest : List Exchange)
    (hrole : w.io.role = "nuc") (hfmt : w.io.msgfmt = 1) (hcmd : cmd < 8) (hv : v < 65536)
    (henv : w.env = es ++ rest) (hid : idealFor cmd v es) (hn : s.npts = 0) (hs : s.sum = 0)
    (x : Int) (hx : toInt32 (toInt32 (s.gain * v) + s.off) = x)
    (h1 : -2147483648 ≤ 5 * x) (h2 : 5 * x ≤ 2147483647) :
    ∃ w1, _SAvg (w.setSensor cmd s) cmd v = some (x, w1)
      ∧ w1.io.role = "nuc" ∧ w1.io.msgfmt = 1 ∧ w1.env = rest
      ∧ (w1.g.urg.getSensor cmd).cal = s.cal
      ∧ w1.sent = w.sent ++ (_Load 1 TID_D2A cmd [(v >>> 8) &&& 0xFF, v &&& 0xFF]
          :: List.replicate 5 (_Load 1 TID_A2D cmd [])) := by
  have hg : (w.setSensor cmd s).g.urg.getSensor cmd = s := getSensor_setSensor _ _ _ hcmd
  obtain ⟨tvs, w1, hlen, hr, r1, m1, e1, s1, g1⟩ := _SAvg_ideal (w.setSensor cmd s) cmd v es rest
    hrole hfmt hcmd hv henv hid (by rw [hg, hn]; decide)
  rw [hg] at hr g1
  rw [samples_five s v tvs x hlen hn hs hx h1 h2] at hr
  refine ⟨w1, hr, r1, m1, e1, ?_, s1⟩
  rw [g1]
  exact (samples_fields s v tvs).1

theorem tdiv_floor (D : Int) (R : Nat) (hR : 0 < R) (hD : 0 ≤ D) :
    0 ≤ Int.tdiv D R ∧ Int.tdiv D R * R ≤ D ∧ Int.tdiv (Int.tdiv D R * R) R = Int.tdiv D R := by
  have hR0 : (0 : Int) < R := by exact_mod_cast hR
  refine ⟨Int.tdiv_nonneg hD (le_of_lt hR0), ?_, Int.mul_tdiv_cancel _ (ne_of_gt hR0)⟩
  rw [Int.tdiv_eq_ediv hD (le_of_lt hR0)]
  exact Int.ediv_mul_le _ (ne_of_gt hR0)

/-- The first two measurements of `_SCal` answered by an ideal device: the low point is
`range.min`, the high point is `gain × rmax + range.min` with the gain first computed from
the range, while five times `range.min` and five times `range.max` are values of `int32_t`. -/
theorem _SCal_ideal_low_high (w : Sys) (cmd : Nat) (range : RANGE_s)
    (E1 E2 rest : List Exchange) (hrole : w.io.role = "nuc") (hfmt : w.io.msgfmt = 1)
    (hix : cmd < 8) (hrmax : 0 < (w.g.urg.getSensor cmd).rmax)
    (hr16 : (w.g.urg.getSensor cmd).rmax < 65536)
    (hD0 : 0 ≤ range.max - range.min)
    (hlo : -2147483648 ≤ 5 * range.min) (hhi : 5 * range.max ≤ 2147483647)
    (henv : w.env = E1 ++ (E2 ++ rest))
    (h1 : idealFor cmd 0 E1) (h2 : idealFor cmd (w.g.urg.getSensor cmd).rmax E2) :
    ∃ w2 w4, _SAvg (w.setSensor cmd ((w.g.urg.getSensor cmd).calStart range)) cmd 0
        = some (range.min, w2)
      ∧ _SAvg (w2.setSensor cmd
            ({ w2.g.urg.getSensor cmd with off := range.min } : SENSOR_s).zeroed)
          cmd (w.g.urg.getSensor cmd).rmax
        = some (Int.tdiv (range.max - range.min) (w.g.urg.getSensor cmd).rmax
            * (w.g.urg.getSensor cmd).rmax + range.min, w4)
      ∧ (w2.g.urg.getSensor cmd).rmax = (w.g.urg.getSensor cmd).rmax
      ∧ (w4.g.urg.getSensor cmd).rmax = (w.g.urg.getSensor cmd).rmax
      ∧ (w4.g.urg.getSensor cmd).off = range.min
      ∧ w4.io.role = "nuc" ∧ w4.io.msgfmt = 1 ∧ w4.env = rest
      ∧ w4.sent.length = w.sent.length + 12 := by
  obtain ⟨f1, f2, _⟩ := tdiv_floor _ _ hrmax hD0
  have hD : toInt32 (range.max - range.min) = range.max - range.min :=
    toInt32_id _ (by omega) (by omega)
  -- the low point
  obtain ⟨w2, a1, r2, m2, e2, c2, s2⟩ := _SAvg_ideal_set w cmd 0
    ((w.g.urg.getSensor cmd).calStart range) E1 (E2 ++ rest) hrole hfmt hix (by decide) henv h1
    rfl rfl range.min (by
      show toInt32 (toInt32 (_ * ((0 : Nat) : Int)) + range.min) = range.min
      rw [Nat.cast_zero, mul_zero, toInt32_id 0 (by decide) (by decide), zero_add,
        toInt32_id _ (by omega) (by omega)]) hlo (by omega)
  have hg2 : (w2.g.urg.getSensor cmd).gain
      = Int.tdiv (range.max - range.min) (w.g.urg.getSensor cmd).rmax := by
    have e : (w2.g.urg.getSensor cmd).gain
        = Int.tdiv (toInt32 (range.max - range.min)) (w.g.urg.getSensor cmd).rmax :=
      congrArg (fun c => c.1) c2
    rw [e, hD]
  have hr2 : (w2.g.urg.getSensor cmd).rmax = (w.g.urg.getSensor cmd).rmax :=
    congrArg (fun c => c.2.2.1) c2
  -- the high point
  generalize hP : Int.tdiv (range.max - range.min) (w.g.urg.getSensor cmd).rmax
    * (w.g.urg.getSensor cmd).rmax = P at f2
  have hP0 : 0 ≤ P := by
    rw [← hP]
    exact mul_nonneg f1 (Int.ofNat_nonneg _)
  obtain ⟨w4, a2, r4, m4, e4, c4, s4⟩ := _SAvg_ideal_set w2 cmd (w.g.urg.getSensor cmd).rmax
    ({ w2.g.urg.getSensor cmd with off := range.min } : SENSOR_s).zeroed E2 rest r2 m2 hix hr16
    e2 h2 rfl rfl (P + range.min) (by
      show toInt32 (toInt32 ((w2.g.urg.getSensor cmd).gain * _) + range.min) = _
      rw [hg2, hP, toInt32_id P (by omega) (by omega), toInt32_id _ (by omega) (by omega)])
    (by omega) (by omega)
  refine ⟨w2, w4, a1, a2, hr2, (congrArg (fun c => c.2.2.1) c4).trans hr2,
    congrArg (fun c => c.2.1) c4, r4, m4, e4, ?_⟩
  rw [s4, s2]
  simp only [List.length_append, List.length_cons, List.length_replicate]

/-- When the gain computed from the two measured points is 0, `_SCal` divides by zero in the
computation of the setpoint: the call has no defined result. -/
theorem _SCal_zero_gain (w : Sys) (cmd : Nat) (range : RANGE_s) (L H : Int) (w2 w4 : Sys)
    (hix : cmd < 8) (hrmax : 0 < (w.g.urg.getSensor cmd).rmax)
    (hr2 : (w2.g.urg.getSensor cmd).rmax = (w.g.urg.getSensor cmd).rmax)
    (hr4 : (w4.g.urg.getSensor cmd).rmax = (w.g.urg.getSensor cmd).rmax)
    (h1 : _SAvg (w.setSensor cmd ((w.g.urg.getSensor cmd).calStart range)) cmd 0
      = some (L, w2))
    (h2 : _SAvg (w2.setSensor cmd ({ w2.g.urg.getSensor cmd with off := L } : SENSOR_s).zeroed)
        cmd (w.g.urg.getSensor cmd).rmax = some (H, w4))
    (hgain : Int.tdiv (toInt32 (H - L)) (w.g.urg.getSensor cmd).rmax = 0) :
    _SCal w cmd range = none := by
  have hns : cmd < _NSENSORS := hix
  unfold _SCal
  dsimp only
  rw [if_neg (not_not.mpr hns), cdiv_pos _ _ hrmax]
  dsimp only
  unfold SENSOR_s.calStart at h1
  unfold SENSOR_s.zeroed at h2
  rw [← hr2] at h2
  rw [← hr4] at hgain
  dsimp only at h1 h2 ⊢
  rw [h1]
  dsimp only
  rw [h2]
  dsimp only
  rw [cdiv_pos _ _ (hr4 ▸ hrmax)]
  dsimp only
  rw [hgain]
  rfl

theorem setpoint_lt (range : RANGE_s) (gain : Int) : setpoint range gain < 65536 := by
  unfold setpoint
  omega

theorem bounded_init : bounded initGlobals := by
  intro ix hix
  interval_cases ix <;> decide

/-! ## Lossless exchanges, the simulated device and measurements with jitter -/

theorem bigEndian_lt (v : Nat) : ∀ x ∈ bigEndian v, x < 256 := by
  intro x hx
  simp only [bigEndian, List.mem_cons, List.mem_singleton, List.not_mem_nil, or_false] at hx
  rcases hx with rfl | rfl <;> exact and_ff_lt _

theorem payloadValue_bigEndian (v : Nat) (hv : v < 65536) :
    payloadValue (bigEndian v) = some v := by
  unfold payloadValue bigEndian
  rw [if_pos (by simp)]
  exact congrArg some (word_bytes v hv)

theorem payloadValue_nil : payloadValue [] = none := rfl

/-- Formats 1 and 2: a frame laid out by `_Load` and delivered unchanged is decoded by
`_Parse` to the target id, the command and the value it was built from. -/
theorem decodes_of_delivers (e : Exchange) (fmt : Int) (tid cmd : Nat) (s : List Nat)
    (hfmt : fmt = 1 ∨ fmt = 2) (htid : tid < 256) (hcmd : cmd < 256) (hs : ∀ x ∈ s, x < 256)
    (hn : s.length ≤ 249) (hd : e.delivers (_Load fmt tid cmd s)) :
    e.decodes fmt tid cmd (payloadValue s) := by
  obtain ⟨b, hb, mem, hmem⟩ := hd
  have hval : ((payloadValue s).isSome, (payloadValue s).getD 0xffff)
      = (decide (2 ≤ s.length),
          if 2 ≤ s.length then (s.getD 0 0 <<< 8) ||| s.getD 1 0 else 0xffff) := by
    unfold payloadValue
    by_cases h2 : 2 ≤ s.length
    · rw [if_pos h2, if_pos h2]; simp [h2]
    · rw [if_neg h2, if_neg h2]; simp [h2]
  have hv1 := congrArg Prod.fst hval
  have hv2 := congrArg Prod.snd hval
  dsimp only at hv1 hv2
  rcases hfmt with h | h
  · subst h
    rw [load1_eq tid cmd s htid hcmd hs (by omega)] at hb
    have hb' := Option.some.inj hb
    subst hb'
    refine ⟨_, hmem, fun io hio => ?_⟩
    rw [parse_frame1 io mem tid cmd s hio htid hcmd hs (by omega), hv1, hv2]
  · subst h
    rw [load2_eq tid cmd s htid hcmd hs hn] at hb
    have hb' := Option.some.inj hb
    subst hb'
    refine ⟨_, hmem, fun io hio => ?_⟩
    rw [parse_frame2 io mem tid cmd s (by rw [hio]; decide) (by rw [hio]; decide) htid hcmd hs
      (by omega), hv1, hv2]

/-- What `receive` does with a message that decodes: `_Process` runs on the channel state
with the decoded fields, every other field being as before. -/
theorem receive_of_decodes (w : Sys) (e : Exchange) (rnd tid cmd : Nat) (v : Option Nat)
    (hd : e.decodes w.io.msgfmt tid cmd v) :
    ∃ io1 : IO_s, io1.tid = tid ∧ io1.cmd = cmd ∧ io1.valid = v.isSome
      ∧ io1.val = v.getD 0xffff ∧ io1.retvalid = false ∧ io1.retval = 0xffff
      ∧ io1.config = w.io.config
      ∧ io1.ADvals = w.io.ADvals ∧ io1.Fvals = w.io.Fvals ∧ io1.Tvals = w.io.Tvals
      ∧ io1.Pvals = w.io.Pvals ∧ io1.Spos = w.io.Spos
      ∧ receive w e.chk.riov rnd
          = (_Process io1 w.g rnd).map fun r => (r.1, { w with io := r.2.1, g := r.2.2 }) := by
  obtain ⟨iov, hiov, hp⟩ := hd
  have ho := hp w.io rfl
  rw [outcome_eq_iff] at ho
  obtain ⟨h1, h2, h3, h4, h5, h6, h7⟩ := ho
  have hw := _Parse_writes w.io iov
  refine ⟨(_Parse w.io iov).2, h2, h3, h4, h5, h6, h7, _Parse_config w.io iov, ?_, ?_, ?_, ?_,
    ?_, ?_⟩
  · rw [hw]; rfl
  · rw [hw]; rfl
  · rw [hw]; rfl
  · rw [hw]; rfl
  · rw [hw]; rfl
  · rw [hiov]
    unfold receive
    dsimp only
    rw [if_neg (by rw [h1]; decide)]

/-- One pass of the loop of `_Child` on a message that decodes and that `_Process` accepts:
the reply carries the decoded target id and command, with the response value when there is
one. -/
theorem _Child_body_ok (io : IO_s) (g : Globals) (rnd : Nat) (iov : iovec) (io2 : IO_s)
    (g2 : Globals) (hparse : (_Parse io iov).1 = 0)
    (hproc : _Process (_Parse io iov).2 g rnd = some ((0 : Int), io2, g2)) :
    _Child_body io g rnd iov
      = some ((if io2.retvalid = true then
                _Load io2.msgfmt io2.tid io2.cmd [(io2.retval >>> 8) &&& 0xFF, io2.retval &&& 0xFF]
              else _Load io2.msgfmt io2.tid io2.cmd []), io2, g2) := by
  unfold _Child_body
  dsimp only
  rw [if_neg (by rw [hparse]; decide), hproc, Option.map_some']
  dsimp only
  rw [if_neg (by decide : ¬ ((0 : Int) ≠ 0))]

/-- The first attempt of `_Command` on a reply that decodes: `_Process` runs on the channel
state with the decoded fields, and when it returns 0 the command returns 0 with the response
value it left, after one frame. -/
theorem _Command_of_decodes (w : Sys) (tid cmd : Nat) (s : List Nat) (e : Exchange)
    (es : List Exchange) (tid' cmd' : Nat) (v : Option Nat) (henv : w.env = e :: es)
    (hd : e.decodes w.io.msgfmt tid' cmd' v) :
    ∃ (io1 : IO_s) (g0 : Globals), io1.tid = tid' ∧ io1.cmd = cmd' ∧ io1.valid = v.isSome
      ∧ io1.val = v.getD 0xffff ∧ io1.retvalid = false ∧ io1.retval = 0xffff
      ∧ io1.role = w.io.role ∧ io1.msgfmt = w.io.msgfmt ∧ io1.wtv = e.wtv
      ∧ io1.maxretrys = w.io.maxretrys
      ∧ io1.ADvals = w.io.ADvals ∧ io1.Fvals = w.io.Fvals ∧ io1.Tvals = w.io.Tvals
      ∧ io1.Pvals = w.io.Pvals ∧ io1.Spos = w.io.Spos
      ∧ g0.urg = w.g.urg
      ∧ ∀ io2 g2, _Process io1 g0 e.rnd = some ((0 : Int), io2, g2) →
          _Command w tid cmd s = some ((0 : Int), some io2.retval,
            { io := { io2 with nretry := 0 }, g := g2,
              sent := w.sent ++ [_Load w.io.msgfmt tid cmd s], env := es }) := by
  obtain ⟨a1, a2, a3, a4⟩ := attempt_g { w.io with nretry := 0 } w.g w.sent tid cmd s e es
  obtain ⟨f1, f2, f3⟩ := attempt_fields { w.io with nretry := 0 } w.g w.sent tid cmd s e es
  have hd' : e.decodes (Sys.attempt { w.io with nretry := 0 } w.g w.sent tid cmd s e es).io.msgfmt
      tid' cmd' v := by
    rw [f2]; exact hd
  obtain ⟨io1, h1, h2, h3, h4, h5, h6, h7, h8, h9, h10, h11, h12, hrec⟩ :=
    receive_of_decodes _ e e.rnd tid' cmd' v hd'
  have hcfg := h7.trans a2
  refine ⟨io1, (Sys.attempt { w.io with nretry := 0 } w.g w.sent tid cmd s e es).g,
    h1, h2, h3, h4, h5, h6, congrArg (fun c => c.1) hcfg, congrArg (fun c => c.2.1) hcfg,
    congrArg (fun c => c.2.2.2.2.2.2.2) hcfg, congrArg (fun c => c.2.2.2.2.2.1) hcfg,
    h8, h9, h10, h11, h12, a1, ?_⟩
  intro io2 g2 hp
  rw [hp, Option.map_some'] at hrec
  have hc := _Command_ok w tid cmd s e es _ henv hrec
  rw [hc]
  dsimp only
  rw [a3, a4]

/-- The controller's `_Command` on a global-control quit reply. -/
theorem _Command_quit (w : Sys) (tid cmd : Nat) (s : List Nat) (e : Exchange)
    (es : List Exchange) (henv : w.env = e :: es)
    (hd : e.decodes w.io.msgfmt TID_GLOBAL CMD_QUIT none) :
    ∃ w1, _Command w tid cmd s = some ((0 : Int), some 0xffff, w1)
      ∧ w1.io.tid = TID_GLOBAL ∧ w1.io.cmd = CMD_QUIT ∧ w1.g.exit_request = 1
      ∧ w1.g.urg = w.g.urg
      ∧ w1.sent = w.sent ++ [_Load w.io.msgfmt tid cmd s] ∧ w1.env = es
      ∧ w1.io.nretry = 0 := by
  obtain ⟨io1, g0, h1, h2, _, _, _, h6, _, _, _, _, _, _, _, _, _, hu, hc⟩ :=
    _Command_of_decodes w tid cmd s e es TID_GLOBAL CMD_QUIT none henv hd
  have hp := _Process_GLOBAL io1 g0 e.rnd h1
  rw [if_pos h2] at hp
  have := hc _ _ hp
  rw [h6] at this
  exact ⟨_, this, h1, h2, rfl, hu, rfl, rfl, rfl⟩

/-- The controller's `_Command` on an analog-out reply at an index below 32. -/
theorem _Command_D2A_decoded (w : Sys) (tid cmd : Nat) (s : List Nat) (e : Exchange)
    (es : List Exchange) (cmd' : Nat) (v : Option Nat) (henv : w.env = e :: es)
    (hcmd : cmd' < 32) (hd : e.decodes w.io.msgfmt TID_D2A cmd' v) :
    ∃ w1, _Command w tid cmd s = some ((0 : Int), some (v.getD (w.io.ADvals cmd')), w1)
      ∧ w1.io.role = w.io.role ∧ w1.io.msgfmt = w.io.msgfmt
      ∧ w1.io.ADvals cmd' = v.getD (w.io.ADvals cmd')
      ∧ w1.g.urg = w.g.urg
      ∧ w1.sent = w.sent ++ [_Load w.io.msgfmt tid cmd s] ∧ w1.env = es
      ∧ w1.io.nretry = 0 := by
  obtain ⟨io1, g0, h1, h2, h3, h4, _, _, hr, hf, _, _, hA, _, _, _, _, hu, hc⟩ :=
    _Command_of_decodes w tid cmd s e es TID_D2A cmd' v henv hd
  have hp := _Process_D2A io1 g0 e.rnd h1 (by rw [h2]; exact hcmd)
  cases v with
  | none =>
    have hv : ¬ (io1.valid = true) := by rw [h3]; decide
    rw [if_neg hv] at hp
    have := hc _ _ hp
    dsimp only at this
    rw [h2, hA] at this
    exact ⟨_, this, hr, hf, rfl, hu, rfl, rfl, rfl⟩
  | some x =>
    have hv : io1.valid = true := by rw [h3]; rfl
    have hx : io1.val = x := by rw [h4]; rfl
    rw [if_pos hv] at hp
    have := hc _ _ hp
    dsimp only at this
    rw [hx] at this
    refine ⟨_, this, hr, hf, ?_, hu, rfl, rfl, rfl⟩
    dsimp only
    rw [h2, Function.update_same]
    rfl

/-- The controller's `_Command` on an analog-in reply with a value at a sensor index whose
count does not wrap: the record takes one more sample. -/
theorem _Command_A2D_decoded (w : Sys) (tid cmd : Nat) (s : List Nat) (e : Exchange)
    (es : List Exchange) (ix r : Nat) (hrole : w.io.role = "nuc") (henv : w.env = e :: es)
    (hix : ix < 8) (hd : e.decodes w.io.msgfmt TID_A2D ix (some r))
    (hn : (w.g.urg.getSensor ix).npts + 1 < 65536) :
    ∃ w1, _Command w tid cmd s = some ((0 : Int), some r, w1)
      ∧ w1.io.role = "nuc" ∧ w1.io.msgfmt = w.io.msgfmt ∧ w1.env = es
      ∧ w1.sent = w.sent ++ [_Load w.io.msgfmt tid cmd s]
      ∧ w1.g.urg.getSensor ix = (w.g.urg.getSensor ix).sample e.wtv r
      ∧ w1.io.nretry = 0 := by
  obtain ⟨io1, g0, h1, h2, h3, h4, _, _, hr, hf, hw, _, _, _, _, _, _, hu, hc⟩ :=
    _Command_of_decodes w tid cmd s e es TID_A2D ix (some r) henv hd
  have hv : io1.valid = true := by rw [h3]; rfl
  have hx : io1.val = r := by rw [h4]; rfl
  obtain ⟨io2, hp, hrv⟩ := _Process_A2D_nuc io1 g0 e.rnd (hr.trans hrole) h1
    (by rw [h2]; exact hix) (by rw [h2, hu]; exact hn)
  rw [if_pos hv, hx] at hrv
  rw [if_pos hv, hx, h2, hw, hu] at hp
  have := hc _ _ hp
  rw [hrv] at this
  have hcfg := _Process_config _ _ _ _ _ _ hp
  refine ⟨_, this, (congrArg (fun c => c.1) hcfg).trans (hr.trans hrole),
    (congrArg (fun c => c.2.1) hcfg).trans hf, rfl, rfl, ?_, rfl⟩
  dsimp only
  rw [getSensor_republish, getSensor_setSensor _ _ _ hix]

/-- Formats 1 and 2: what `_Parse` leaves on the bytes of a frame laid out by `_Load`. -/
theorem parse_Load (io : IO_s) (mem : Nat → Nat) (fmt : Int) (tid cmd : Nat) (s f : List Nat)
    (hfmt : fmt = 1 ∨ fmt = 2) (hio : io.msgfmt = fmt) (htid : tid < 256) (hcmd : cmd < 256)
    (hs : ∀ x ∈ s, x < 256) (hn : s.length ≤ 249) (hf : _Load fmt tid cmd s = some f) :
    outcome (_Parse io (iovOf mem f))
      = ((0 : Int), tid, cmd, (payloadValue s).isSome, (payloadValue s).getD 0xffff, false,
          0xffff) := by
  obtain ⟨iov, hiov, hp⟩ := decodes_of_delivers (arrival (iovOf mem f)) fmt tid cmd s hfmt htid
    hcmd hs hn ⟨f, hf, mem, rfl⟩
  have e : iovOf mem f = iov := Option.some.inj hiov
  rw [e]
  exact hp io hio

/-- One pass of the loop of `_Child` on a message that decodes: `_Process` runs on the
channel state with the decoded fields, and when it returns 0 the reply carries the target
id and command it leaves, with the response value when there is one. -/
theorem _Child_body_of_outcome (io : IO_s) (g : Globals) (rnd : Nat) (iov : iovec)
    (tid cmd : Nat) (v : Option Nat)
    (ho : outcome (_Parse io iov)
      = ((0 : Int), tid, cmd, v.isSome, v.getD 0xffff, false, 0xffff)) :
    ∃ io1 : IO_s, io1.tid = tid ∧ io1.cmd = cmd ∧ io1.valid = v.isSome
      ∧ io1.val = v.getD 0xffff ∧ io1.retvalid = false ∧ io1.retval = 0xffff
      ∧ io1.role = io.role ∧ io1.msgfmt = io.msgfmt
      ∧ io1.ADvals = io.ADvals ∧ io1.Fvals = io.Fvals ∧ io1.Tvals = io.Tvals
      ∧ io1.Pvals = io.Pvals ∧ io1.Spos = io.Spos
      ∧ ∀ io2 g2, _Process io1 g rnd = some ((0 : Int), io2, g2) →
          _Child_body io g rnd iov
            = some ((if io2.retvalid = true then
                      _Load io2.msgfmt io2.tid io2.cmd
                        [(io2.retval >>> 8) &&& 0xFF, io2.retval &&& 0xFF]
                    else _Load io2.msgfmt io2.tid io2.cmd []), io2, g2) := by
  rw [outcome_eq_iff] at ho
  obtain ⟨h1, h2, h3, h4, h5, h6, h7⟩ := ho
  have hw := _Parse_writes io iov
  have hcfg := _Parse_config io iov
  refine ⟨(_Parse io iov).2, h2, h3, h4, h5, h6, h7, congrArg (fun c => c.1) hcfg,
    congrArg (fun c => c.2.1) hcfg, ?_, ?_, ?_, ?_, ?_, ?_⟩
  · rw [hw]; rfl
  · rw [hw]; rfl
  · rw [hw]; rfl
  · rw [hw]; rfl
  · rw [hw]; rfl
  · intro io2 g2 hp
    exact _Child_body_ok io g rnd iov io2 g2 h1 hp

/-- The responder's pass on a global-control quit request. -/
theorem _Child_body_quit (io : IO_s) (g : Globals) (rnd : Nat) (iov : iovec)
    (ho : outcome (_Parse io iov)
      = ((0 : Int), TID_GLOBAL, CMD_QUIT, false, 0xffff, false, 0xffff)) :
    ∃ io2, _Child_body io g rnd iov
        = some (_Load io.msgfmt TID_GLOBAL CMD_QUIT [], io2, { g with exit_request := 1 })
      ∧ io2.tid = TID_GLOBAL ∧ io2.cmd = CMD_QUIT ∧ io2.msgfmt = io.msgfmt := by
  obtain ⟨io1, h1, h2, _, _, h5, _, _, hf, _, _, _, _, _, hc⟩ :=
    _Child_body_of_outcome io g rnd iov TID_GLOBAL CMD_QUIT none ho
  have hp := _Process_GLOBAL io1 g rnd h1
  rw [if_pos h2] at hp
  have := hc _ _ hp
  rw [if_neg (by rw [h5]; decide), hf, h1, h2] at this
  exact ⟨io1, this, h1, h2, hf⟩

/-- The responder's pass on an analog-out write of `v` at an index below 32. -/
theorem _Child_body_D2A_write (io : IO_s) (g : Globals) (rnd : Nat) (iov : iovec) (i v : Nat)
    (hi : i < 32)
    (ho : outcome (_Parse io iov) = ((0 : Int), TID_D2A, i, true, v, false, 0xffff)) :
    ∃ io2, _Child_body io g rnd iov
        = some (_Load io.msgfmt TID_D2A i [(v >>> 8) &&& 0xFF, v &&& 0xFF], io2, g)
      ∧ io2.role = io.role ∧ io2.msgfmt = io.msgfmt
      ∧ io2.ADvals = Function.update io.ADvals i v := by
  obtain ⟨io1, h1, h2, h3, h4, _, _, hr, hf, hA, _, _, _, _, hc⟩ :=
    _Child_body_of_outcome io g rnd iov TID_D2A i (some v) ho
  have hv : io1.valid = true := h3
  have hx : io1.val = v := h4
  have hp := _Process_D2A io1 g rnd h1 (by rw [h2]; exact hi)
  rw [if_pos hv] at hp
  have := hc _ _ hp
  dsimp only at this
  rw [if_pos rfl, hf, h1, h2, hx, hA] at this
  exact ⟨_, this, hr, rfl, rfl⟩

theorem deviceRead_le (v rnd : Nat) : deviceRead v rnd ≤ 0x0fff := by
  unfold deviceRead
  have := clamp12_range (toInt16 (toInt16 v + toInt16 ((rnd % 5 : Nat) - 2)))
  omega

theorem deviceRead_near (v rnd : Nat) (hv : v ≤ 0x0ffd) :
    deviceRead v rnd ≤ v + 2 ∧ v ≤ deviceRead v rnd + 2 := by
  unfold deviceRead clamp12 toInt16
  have h5 : rnd % 5 < 5 := Nat.mod_lt _ (by decide)
  split_ifs <;> omega

/-- The responder's pass, in the role `"avr"`, on an analog-in read at an index below 32. -/
theorem _Child_body_A2D_read (io : IO_s) (g : Globals) (rnd : Nat) (iov : iovec) (i : Nat)
    (hrole : io.role = "avr") (hi : i < 32)
    (ho : outcome (_Parse io iov) = ((0 : Int), TID_A2D, i, false, 0xffff, false, 0xffff)) :
    ∃ io2, _Child_body io g rnd iov
        = some (_Load io.msgfmt TID_A2D i
            [(deviceRead (io.ADvals i) rnd >>> 8) &&& 0xFF, deviceRead (io.ADvals i) rnd &&& 0xFF],
            io2, g)
      ∧ io2.role = io.role ∧ io2.msgfmt = io.msgfmt ∧ io2.ADvals = io.ADvals := by
  obtain ⟨io1, h1, h2, h3, _, _, _, hr, hf, hA, _, _, _, _, hc⟩ :=
    _Child_body_of_outcome io g rnd iov TID_A2D i none ho
  have hv : io1.valid = false := h3
  have hp := _Process_A2D_device_read io1 g rnd (hr.trans hrole) h1 (by rw [h2]; exact hi) hv
  have := hc _ _ hp
  dsimp only at this
  rw [if_pos rfl, hf, h1, h2, hA] at this
  exact ⟨_, this, hr, rfl, rfl⟩

/-- The loop of `_Child` on a global-control quit request: one pass, then the loop ends. -/
theorem childLoop_quit (io : IO_s) (g : Globals) (sent : List (Option (List Nat)))
    (e : Exchange) (es : List Exchange) (hrc : 0 ≤ e.chk.rc)
    (hd : e.decodes io.msgfmt TID_GLOBAL CMD_QUIT none) :
    ∃ w1, childLoop io g sent (e :: es) = some ((0 : Int), w1)
      ∧ w1.io.tid = TID_GLOBAL ∧ w1.io.cmd = CMD_QUIT ∧ w1.g.exit_request = 1
      ∧ w1.g.urg = g.urg
      ∧ w1.sent = sent ++ [_Load io.msgfmt TID_GLOBAL CMD_QUIT []] ∧ w1.env = es := by
  obtain ⟨iov, hiov, hp⟩ := hd
  rw [childLoop]
  dsimp only
  rw [if_neg (by omega), hiov]
  dsimp only
  have hm : (Sys.afterChk { io := io, g := g, sent := sent, env := es } e.chk).io.msgfmt
      = io.msgfmt := rfl
  obtain ⟨io2, hb, t1, t2, t3⟩ := _Child_body_quit
    (Sys.afterChk { io := io, g := g, sent := sent, env := es } e.chk).io
    (Sys.afterChk { io := io, g := g, sent := sent, env := es } e.chk).g e.rnd iov
    (hp _ hm)
  rw [hb]
  dsimp only
  rw [if_pos (by decide)]
  refine ⟨_, rfl, t1, t2, rfl, ?_, ?_, rfl⟩
  · unfold Sys.afterChk
    dsimp only
    split_ifs <;> rfl
  · rw [hm]

theorem sampleList_cons (s : SENSOR_s) (x : Nat × Nat) (xs : List (Nat × Nat)) :
    s.sampleList (x :: xs) = (s.sample x.1 x.2).sampleList xs := rfl

theorem sampleList_fields (s : SENSOR_s) (xs : List (Nat × Nat)) :
    (s.sampleList xs).cal = s.cal ∧ (s.sampleList xs).npts = s.npts + xs.length := by
  induction xs generalizing s with
  | nil => exact ⟨rfl, rfl⟩
  | cons x xs ih =>
    rw [sampleList_cons]
    obtain ⟨h1, h2⟩ := ih (s.sample x.1 x.2)
    refine ⟨h1.trans (sample_cal s x.1 x.2), ?_⟩
    rw [h2, List.length_cons]
    show s.npts + 1 + xs.length = _
    omega

/-- The sum and the average after a list of samples, while every product, every scaled value
and every partial sum is a value of `int32_t`. -/
theorem sampleList_exact (s : SENSOR_s) (xs : List (Nat × Nat))
    (hfit : fitsInt32 s.gain s.off s.sum (xs.map Prod.snd) = true) :
    (s.sampleList xs).sum = s.sum + ((xs.map Prod.snd).map (scaled s.gain s.off)).sum
      ∧ (xs ≠ [] → (s.sampleList xs).avg
          = Int.tdiv (s.sum + ((xs.map Prod.snd).map (scaled s.gain s.off)).sum)
              ((s.npts + xs.length : Nat) : Int)) := by
  induction xs generalizing s with
  | nil =>
    refine ⟨?_, fun h => absurd rfl h⟩
    show s.sum = _
    simp
  | cons x xs ih =>
    rw [List.map_cons] at hfit
    obtain ⟨f1, f2, f3, f4⟩ := fitsInt32_cons _ _ _ _ _ hfit
    have hsv : toInt32 (toInt32 (s.gain * x.2) + s.off) = scaled s.gain s.off x.2 := by
      rw [toInt32_of_fits _ f1]
      exact toInt32_of_fits _ f2
    have hsum : (s.sample x.1 x.2).sum = s.sum + scaled s.gain s.off x.2 := by
      show toInt32 (s.sum + toInt32 (toInt32 (s.gain * x.2) + s.off)) = _
      rw [hsv]
      exact toInt32_of_fits _ f3
    have havg : (s.sample x.1 x.2).avg
        = Int.tdiv (s.sum + scaled s.gain s.off x.2) ((s.npts + 1 : Nat) : Int) := by
      show Int.tdiv (toInt32 (s.sum + toInt32 (toInt32 (s.gain * x.2) + s.off))) _ = _
      rw [hsv, toInt32_of_fits _ f3]
    have hg : (s.sample x.1 x.2).gain = s.gain := rfl
    have ho : (s.sample x.1 x.2).off = s.off := rfl
    have hnp : (s.sample x.1 x.2).npts = s.npts + 1 := rfl
    obtain ⟨i1, i2⟩ := ih (s.sample x.1 x.2) (by rw [hg, ho, hsum]; exact f4)
    rw [hg, ho, hsum] at i1
    rw [hg, ho, hsum, hnp] at i2
    rw [sampleList_cons]
    refine ⟨?_, fun _ => ?_⟩
    · rw [i1, List.map_cons, List.map_cons, List.sum_cons]
      ring
    · by_cases hxs : xs = []
      · subst hxs
        show (s.sample x.1 x.2).avg = _
        rw [havg]
        simp
      · rw [i2 hxs, List.map_cons, List.map_cons, List.sum_cons, List.length_cons]
        have e1 : s.sum + scaled s.gain s.off x.2
            + (List.map (scaled s.gain s.off) (List.map Prod.snd xs)).sum
            = s.sum + (scaled s.gain s.off x.2
              + (List.map (scaled s.gain s.off) (List.map Prod.snd xs)).sum) := by ring
        have e2 : s.npts + 1 + xs.length = s.npts + (xs.length + 1) := by omega
        rw [e1, e2]

/-- The average after a list of samples taken into a zeroed record, when every scaled value
lies between `A` and `B` and `n` times each bound is a value of `int32_t`, `n` being the
number of samples: the average lies between `A` and `B`. -/
theorem sampleList_between (A B : Int) (n : Nat) (xs : List (Nat × Nat)) (s : SENSOR_s)
    (hn : s.npts + xs.length = n)
    (hx : ∀ x ∈ xs, A ≤ toInt32 (toInt32 (s.gain * x.2) + s.off)
      ∧ toInt32 (toInt32 (s.gain * x.2) + s.off) ≤ B)
    (hA : -2147483648 ≤ (n : Int) * A) (hB : (n : Int) * B ≤ 2147483647)
    (hinv : (s.npts : Int) * A ≤ s.sum ∧ s.sum ≤ (s.npts : Int) * B) :
    (n : Int) * A ≤ (s.sampleList xs).sum ∧ (s.sampleList xs).sum ≤ (n : Int) * B
      ∧ (xs ≠ [] → (s.sampleList xs).avg = Int.tdiv (s.sampleList xs).sum n) := by
  induction xs generalizing s with
  | nil =>
    rw [List.length_nil, Nat.add_zero] at hn
    subst hn
    exact ⟨hinv.1, hinv.2, fun h => absurd rfl h⟩
  | cons x xs ih =>
    rw [List.length_cons] at hn
    obtain ⟨x1, x2⟩ := hx x (List.mem_cons_self _ _)
    generalize hv : toInt32 (toInt32 (s.gain * x.2) + s.off) = v at x1 x2
    have hk : (s.npts : Int) + 1 ≤ n := by
      have : s.npts + 1 ≤ n := by omega
      exact_mod_cast this
    have hk0 : (0 : Int) ≤ s.npts := Int.ofNat_nonneg _
    have hlo : -2147483648 ≤ ((s.npts : Int) + 1) * A := by
      by_cases hA0 : 0 ≤ A
      · have := mul_nonneg (by omega : (0 : Int) ≤ (s.npts : Int) + 1) hA0
        omega
      · have := mul_le_mul_of_nonpos_right hk (by omega : A ≤ 0)
        omega
    have hhi : ((s.npts : Int) + 1) * B ≤ 2147483647 := by
      by_cases hB0 : 0 ≤ B
      · have := mul_le_mul_of_nonneg_right hk hB0
        omega
      · have := mul_nonpos_of_nonneg_of_nonpos (by omega : (0 : Int) ≤ (s.npts : Int) + 1)
          (by omega : B ≤ 0)
        omega
    have e1 : ((s.npts : Int) + 1) * A = (s.npts : Int) * A + A := by ring
    have e2 : ((s.npts : Int) + 1) * B = (s.npts : Int) * B + B := by ring
    have hsum : (s.sample x.1 x.2).sum = s.sum + v := by
      show toInt32 (s.sum + toInt32 (toInt32 (s.gain * x.2) + s.off)) = _
      rw [hv]
      exact toInt32_id _ (by omega) (by omega)
    have havg : (s.sample x.1 x.2).avg = Int.tdiv (s.sum + v) ((s.npts + 1 : Nat) : Int) := by
      show Int.tdiv (toInt32 (s.sum + toInt32 (toInt32 (s.gain * x.2) + s.off))) _ = _
      rw [hv, toInt32_id _ (by omega) (by omega)]
    have hnp : (s.sample x.1 x.2).npts = s.npts + 1 := rfl
    obtain ⟨i1, i2, i3⟩ := ih (s.sample x.1 x.2) (by rw [hnp]; omega)
      (fun y hy => hx y (List.mem_cons_of_mem _ hy))
      (by rw [hnp, hsum]; push_cast; constructor <;> omega)
    rw [sampleList_cons]
    refine ⟨i1, i2, fun _ => ?_⟩
    by_cases hxs : xs = []
    · subst hxs
      rw [List.length_nil] at hn
      show (s.sample x.1 x.2).avg = Int.tdiv (s.sample x.1 x.2).sum n
      rw [havg, hsum, ← hn]
    · exact i3 hxs

/-- The measurement loop of `_SAvg` when each reply decodes to an analog-in frame with a
value, at a sensor index whose count does not wrap. -/
theorem savgLoop_decoded (fmt : Int) (cmd : Nat) (es : List Exchange) (rs : List Nat)
    (rest : List Exchange) (w : Sys) (hrole : w.io.role = "nuc") (hfmt : w.io.msgfmt = fmt)
    (hcmd : cmd < 8) (henv : w.env = es ++ rest)
    (hr : List.Forall₂ (fun e r => e.decodes fmt TID_A2D cmd (some r)) es rs)
    (hn : (w.g.urg.getSensor cmd).npts + es.length < 65536) :
    ∃ w1, savgLoop cmd es.length w = some w1
      ∧ w1.io.role = "nuc" ∧ w1.io.msgfmt = fmt ∧ w1.env = rest
      ∧ w1.sent = w.sent ++ List.replicate es.length (_Load fmt TID_A2D cmd [])
      ∧ w1.g.urg.getSensor cmd
          = (w.g.urg.getSensor cmd).sampleList ((es.map fun e => e.wtv).zip rs) := by
  induction hr generalizing w with
  | nil =>
    refine ⟨w, rfl, hrole, hfmt, henv, ?_, rfl⟩
    simp
  | @cons e r es rs he _ ih =>
    rw [List.length_cons] at hn
    obtain ⟨w1, h1, r1, m1, e1, s1, g1, _⟩ := _Command_A2D_decoded w TID_A2D cmd [] e
      (es ++ rest) cmd r hrole henv hcmd (by rw [hfmt]; exact he) (by omega)
    have hn1 : (w1.g.urg.getSensor cmd).npts = (w.g.urg.getSensor cmd).npts + 1 := by
      rw [g1]; rfl
    obtain ⟨w2, h2, r2, m2, e2, s2, g2⟩ := ih w1 r1 (m1.trans hfmt) e1 (by rw [hn1]; omega)
    refine ⟨w2, ?_, r2, m2, e2, ?_, ?_⟩
    · rw [List.length_cons, savgLoop, h1]
      exact h2
    · rw [s2, s1, hfmt, List.length_cons, List.replicate_succ, List.append_assoc]
      rfl
    · rw [g2, g1, List.map_cons, List.zip_cons_cons, sampleList_cons]

/-- One measurement of `_SAvg` on the controller when the reply to the analog-out request
decodes to an analog-out frame and the five replies that follow decode to analog-in frames
with the values `rs`: six frames are sent, and the value returned is the average of the
sensor record after the five samples. -/
theorem _SAvg_decoded (fmt : Int) (w : Sys) (cmd val : Nat) (eD : Exchange)
    (es : List Exchange) (rs : List Nat) (rest : List Exchange) (cD : Nat) (vD : Option Nat)
    (hrole : w.io.role = "nuc") (hfmt : w.io.msgfmt = fmt) (hcmd : cmd < 8) (hcD : cD < 32)
    (henv : w.env = eD :: (es ++ rest)) (hD : eD.decodes fmt TID_D2A cD vD)
    (hr : List.Forall₂ (fun e r => e.decodes fmt TID_A2D cmd (some r)) es rs)
    (hlen : es.length = 5) (hn : (w.g.urg.getSensor cmd).npts + 5 < 65536) :
    ∃ xs w1, xs.map Prod.snd = rs
      ∧ _SAvg w cmd val = some (((w.g.urg.getSensor cmd).sampleList xs).avg, w1)
      ∧ w1.io.role = "nuc" ∧ w1.io.msgfmt = fmt ∧ w1.env = rest
      ∧ w1.sent = w.sent ++ (_Load fmt TID_D2A cmd [(val >>> 8) &&& 0xFF, val &&& 0xFF]
          :: List.replicate 5 (_Load fmt TID_A2D cmd []))
      ∧ w1.g.urg.getSensor cmd = (w.g.urg.getSensor cmd).sampleList xs := by
  obtain ⟨w1, h1, r1, m1, _, g1, s1, e1, _⟩ := _Command_D2A_decoded w TID_D2A cmd
    [(val >>> 8) &&& 0xFF, val &&& 0xFF] eD (es ++ rest) cD vD henv hcD
    (by rw [hfmt]; exact hD)
  obtain ⟨w2, h2, r2, m2, e2, s2, g2⟩ := savgLoop_decoded fmt cmd es rs rest w1
    (r1.trans hrole) (m1.trans hfmt) hcmd e1 hr (by rw [g1, hlen]; exact hn)
  rw [hlen] at h2 s2
  rw [g1] at g2
  have hzip : ((es.map fun e => e.wtv).zip rs).map Prod.snd = rs := by
    rw [List.map_snd_zip]
    rw [List.length_map, hr.length_eq]
  refine ⟨(es.map fun e => e.wtv).zip rs, w2, hzip, ?_, r2, m2, e2, ?_, g2⟩
  · unfold _SAvg
    dsimp only
    rw [h1]
    dsimp only
    rw [h2]
    dsimp only
    rw [g2]
  · rw [s2, s1, hfmt, List.append_assoc]
    rfl

theorem answers_cons_inv (dev : IO_s) (dg : Globals) (rnds : List Nat)
    (req : Option (List Nat)) (reqs : List (Option (List Nat))) (E : List Exchange)
    (dev' : IO_s) (dg' : Globals) (h : answers dev dg rnds (req :: reqs) E dev' dg') :
    ∃ rnd rnds' f e es mem tr tw r, rnds = rnd :: rnds' ∧ req = some f ∧ E = e :: es
      ∧ _Child_body { dev with rtv := tr } dg rnd (iovOf mem f) = some r ∧ e.delivers r.1
      ∧ answers { r.2.1 with wtv := tw } r.2.2 rnds' reqs es dev' dg' := by
  generalize hq : req :: reqs = q at h
  cases h with
  | done => exact absurd hq (List.cons_ne_nil _ _)
  | step _ _ rnd rnds f reqs' e es _ _ mem tr tw r hb hdel hrest =>
    obtain ⟨h1, h2⟩ := List.cons.inj hq
    subst h1
    subst h2
    exact ⟨rnd, rnds, f, e, es, mem, tr, tw, r, rfl, rfl, rfl, hb, hdel, hrest⟩

theorem answers_nil_inv (dev : IO_s) (dg : Globals) (rnds : List Nat) (E : List Exchange)
    (dev' : IO_s) (dg' : Globals) (h : answers dev dg rnds [] E dev' dg') :
    E = [] ∧ dev' = dev ∧ dg' = dg := by
  generalize hq : ([] : List (Option (List Nat))) = q at h
  cases h with
  | done => exact ⟨rfl, rfl, rfl⟩
  | step _ _ rnd rnds f reqs' e es _ _ mem tr tw r hb hdel hrest =>
    exact absurd hq.symm (List.cons_ne_nil _ _)

/-- The simulated device answering analog-in reads at an index whose stored value is `v`:
every reply decodes to an analog-in frame whose value is `v` plus a jitter, clamped. -/
theorem answers_reads (fmt : Int) (cmd v : Nat) (hfmt : fmt = 1 ∨ fmt = 2) (hcmd : cmd < 32)
    (k : Nat) : ∀ (dev : IO_s) (dg : Globals) (rnds : List Nat) (E : List Exchange)
      (dev' : IO_s) (dg' : Globals), dev.role = "avr" → dev.msgfmt = fmt →
      dev.ADvals cmd = v →
      answers dev dg rnds (List.replicate k (_Load fmt TID_A2D cmd [])) E dev' dg' →
      ∃ rs, E.length = k
        ∧ List.Forall₂ (fun e r => e.decodes fmt TID_A2D cmd (some r)) E rs
        ∧ (∀ r ∈ rs, ∃ rnd, r = deviceRead v rnd)
        ∧ dev'.role = "avr" ∧ dev'.msgfmt = fmt ∧ dev'.ADvals cmd = v := by
  induction k with
  | zero =>
    intro dev dg rnds E dev' dg' hr hf hv h
    rw [List.replicate_zero] at h
    obtain ⟨h1, h2, _⟩ := answers_nil_inv _ _ _ _ _ _ h
    subst h1
    subst h2
    exact ⟨[], rfl, List.Forall₂.nil, fun r hr' => absurd hr' (List.not_mem_nil r), hr, hf, hv⟩
  | succ k ih =>
    intro dev dg rnds E dev' dg' hr hf hv h
    rw [List.replicate_succ] at h
    obtain ⟨rnd, rnds', f, e, es, mem, tr, tw, r, _, hreq, hE, hb, hdel, hrest⟩ :=
      answers_cons_inv _ _ _ _ _ _ _ _ h
    subst hE
    have hnil : ∀ x ∈ ([] : List Nat), x < 256 :=
      fun x hx => absurd hx (List.not_mem_nil x)
    have ho := parse_Load { dev with rtv := tr } mem fmt TID_A2D cmd [] f hfmt hf
      (by decide) (by omega) hnil (by decide) hreq
    rw [payloadValue_nil] at ho
    obtain ⟨io2, hb2, r2, m2, a2⟩ := _Child_body_A2D_read { dev with rtv := tr } dg rnd
      (iovOf mem f) cmd hr hcmd ho
    rw [hb] at hb2
    have hr1 := congrArg Prod.fst (Option.some.inj hb2)
    have hr2 := congrArg (fun x => x.2.1) (Option.some.inj hb2)
    dsimp only at hr1 hr2
    rw [hr1] at hdel
    have hm : ({ dev with rtv := tr } : IO_s).msgfmt = fmt := hf
    have hA : ({ dev with rtv := tr } : IO_s).ADvals cmd = v := hv
    rw [hm, hA] at hdel
    have hdec := decodes_of_delivers e fmt TID_A2D cmd (bigEndian (deviceRead v rnd)) hfmt
      (by decide) (by omega) (bigEndian_lt _) (by simp [bigEndian]) hdel
    rw [payloadValue_bigEndian _ (by have := deviceRead_le v rnd; omega)] at hdec
    obtain ⟨rs, i1, i2, i3, i4, i5, i6⟩ := ih { r.2.1 with wtv := tw } r.2.2 rnds' es dev' dg'
      (by rw [hr2]; exact r2.trans hr) (by rw [hr2]; exact m2.trans hf)
      (by rw [hr2]; dsimp only; rw [a2]; exact hv) hrest
    refine ⟨deviceRead v rnd :: rs, by rw [List.length_cons, i1],
      List.Forall₂.cons hdec i2, ?_, i4, i5, i6⟩
    intro x hx
    rcases List.mem_cons.mp hx with h | hx'
    · exact ⟨rnd, h⟩
    · exact i3 x hx'

/-- The simulated device answering one measurement of `_SAvg` with the setpoint `v`: the
first reply decodes to the analog-out frame with `v`, the five replies that follow decode to
analog-in frames whose values are `v` plus a jitter, clamped. -/
theorem answers_measure (fmt : Int) (cmd v : Nat) (hfmt : fmt = 1 ∨ fmt = 2) (hcmd : cmd < 32)
    (hv : v < 65536) (dev : IO_s) (dg : Globals) (rnds : List Nat) (E : List Exchange)
    (dev' : IO_s) (dg' : Globals) (hr : dev.role = "avr") (hf : dev.msgfmt = fmt)
    (h : answers dev dg rnds (measureReqs fmt cmd v) E dev' dg') :
    ∃ eD es rs, E = eD :: es ∧ es.length = 5
      ∧ eD.decodes fmt TID_D2A cmd (some v)
      ∧ List.Forall₂ (fun e r => e.decodes fmt TID_A2D cmd (some r)) es rs
      ∧ (∀ r ∈ rs, ∃ rnd, r = deviceRead v rnd)
      ∧ dev'.role = "avr" ∧ dev'.msgfmt = fmt := by
  unfold measureReqs at h
  obtain ⟨rnd, rnds', f, e, es, mem, tr, tw, r, _, hreq, hE, hb, hdel, hrest⟩ :=
    answers_cons_inv _ _ _ _ _ _ _ _ h
  subst hE
  have ho := parse_Load { dev with rtv := tr } mem fmt TID_D2A cmd (bigEndian v) f hfmt hf
    (by decide) (by omega) (bigEndian_lt _) (by simp [bigEndian]) hreq
  rw [payloadValue_bigEndian v hv] at ho
  obtain ⟨io2, hb2, r2, m2, a2⟩ := _Child_body_D2A_write { dev with rtv := tr } dg rnd
    (iovOf mem f) cmd v hcmd ho
  rw [hb] at hb2
  have hr1 := congrArg Prod.fst (Option.some.inj hb2)
  have hr2 := congrArg (fun x => x.2.1) (Option.some.inj hb2)
  dsimp only at hr1 hr2
  rw [hr1] at hdel
  have hm : ({ dev with rtv := tr } : IO_s).msgfmt = fmt := hf
  rw [hm] at hdel
  have hdec := decodes_of_delivers e fmt TID_D2A cmd (bigEndian v) hfmt
    (by decide) (by omega) (bigEndian_lt _) (by simp [bigEndian]) hdel
  rw [payloadValue_bigEndian v hv] at hdec
  obtain ⟨rs, i1, i2, i3, i4, i5, _⟩ := answers_reads fmt cmd v hfmt hcmd 5
    { r.2.1 with wtv := tw } r.2.2 rnds' es dev' dg'
    (by rw [hr2]; exact r2.trans hr) (by rw [hr2]; exact m2.trans hf)
    (by rw [hr2]; dsimp only; rw [a2]; exact Function.update_same _ _ _)
    hrest
  exact ⟨e, es, rs, rfl, i1, hdec, i2, i3, i4, i5⟩

/-- One measurement of `_SAvg` on a zeroed sensor record `s` when the replies decode and
every scaled value lies between `A` and `B`, five times each bound being a value of
`int32_t`: the value returned lies between `A` and `B`. -/
theorem _SAvg_between (fmt : Int) (w : Sys) (cmd val : Nat) (s : SENSOR_s) (eD : Exchange)
    (es : List Exchange) (rs : List Nat) (rest : List Exchange) (cD : Nat) (vD : Option Nat)
    (A B : Int) (hrole : w.io.role = "nuc") (hfmt : w.io.msgfmt = fmt) (hcmd : cmd < 8)
    (hcD : cD < 32) (henv : w.env = eD :: (es ++ rest)) (hD : eD.decodes fmt TID_D2A cD vD)
    (hr : List.Forall₂ (fun e r => e.decodes fmt TID_A2D cmd (some r)) es rs)
    (hlen : es.length = 5) (hn : s.npts = 0) (hs : s.sum = 0)
    (hx : ∀ r ∈ rs, A ≤ toInt32 (toInt32 (s.gain * r) + s.off)
      ∧ toInt32 (toInt32 (s.gain * r) + s.off) ≤ B)
    (hA : -2147483648 ≤ 5 * A) (hB : 5 * B ≤ 2147483647) :
    ∃ x w1, _SAvg (w.setSensor cmd s) cmd val = some (x, w1) ∧ A ≤ x ∧ x ≤ B
      ∧ w1.io.role = "nuc" ∧ w1.io.msgfmt = fmt ∧ w1.env = rest
      ∧ (w1.g.urg.getSensor cmd).cal = s.cal
      ∧ w1.sent = w.sent ++ measureReqs fmt cmd val := by
  have hg : (w.setSensor cmd s).g.urg.getSensor cmd = s := getSensor_setSensor _ _ _ hcmd
  obtain ⟨xs, w1, hxs, a1, r1, m1, e1, s1, g1⟩ := _SAvg_decoded fmt (w.setSensor cmd s) cmd val
    eD es rs rest cD vD hrole hfmt hcmd hcD henv hD hr hlen (by rw [hg, hn]; decide)
  rw [hg] at a1 g1
  have hl : xs.length = 5 := by
    have := congrArg List.length hxs
    rw [List.length_map, ← hr.length_eq, hlen] at this
    exact this
  have hne : xs ≠ [] := by
    intro h
    rw [h] at hl
    exact absurd hl (by decide)
  obtain ⟨i1, i2, i3⟩ := sampleList_between A B 5 xs s (by rw [hn, hl])
    (fun x hxm => hx x.2 (by rw [← hxs]; exact List.mem_map_of_mem _ hxm))
    (by push_cast; exact hA) (by push_cast; exact hB)
    (by rw [hn, hs]; simp)
  obtain ⟨b1, b2⟩ := tdiv_bounds (s.sampleList xs).sum A B 5 (by decide) i1 i2
  rw [i3 hne] at a1
  refine ⟨_, w1, a1, b1, b2, r1, m1, e1, ?_, s1⟩
  rw [g1]
  exact (sampleList_fields s xs).1

/-- Calibration when the replies decode, the five raw values of the first measurement are
at most 2 and those of the second lie in 1021 .. 1025, for a sensor with raw maximum 0x3FF
and a range whose first gain `g0` is at least 2 and whose values stay in `int32_t`: `_SCal`
returns 0 with a strictly positive gain and an offset between `range.min` and
`range.min + 2 * g0`. -/
theorem _SCal_jitter_core (fmt : Int) (w : Sys) (cmd : Nat) (range : RANGE_s) (g0 : Int)
    (eD1 eD2 eD3 : Exchange) (es1 es2 es3 rest : List Exchange) (rs1 rs2 rs3 : List Nat)
    (v1 v2 v3 : Option Nat) (hrole : w.io.role = "nuc") (hfmt : w.io.msgfmt = fmt)
    (hcmd : cmd < 8) (hrmax : (w.g.urg.getSensor cmd).rmax = 1023)
    (hg0 : Int.tdiv (toInt32 (range.max - range.min)) ((1023 : Nat) : Int) = g0)
    (hg2 : 2 ≤ g0) (hlo : -2147483648 ≤ 5 * range.min)
    (hhi : 5 * (range.min + 1027 * g0) ≤ 2147483647)
    (henv : w.env = eD1 :: (es1 ++ (eD2 :: (es2 ++ (eD3 :: (es3 ++ rest))))))
    (hD1 : eD1.decodes fmt TID_D2A cmd v1)
    (hr1 : List.Forall₂ (fun e r => e.decodes fmt TID_A2D cmd (some r)) es1 rs1)
    (hl1 : es1.length = 5) (hb1 : ∀ r ∈ rs1, r ≤ 2)
    (hD2 : eD2.decodes fmt TID_D2A cmd v2)
    (hr2 : List.Forall₂ (fun e r => e.decodes fmt TID_A2D cmd (some r)) es2 rs2)
    (hl2 : es2.length = 5) (hb2 : ∀ r ∈ rs2, 1021 ≤ r ∧ r ≤ 1025)
    (hD3 : eD3.decodes fmt TID_D2A cmd v3)
    (hr3 : List.Forall₂ (fun e r => e.decodes fmt TID_A2D cmd (some r)) es3 rs3)
    (hl3 : es3.length = 5) :
    ∃ w7, _SCal w cmd range = some ((0 : Int), w7)
      ∧ 0 < (w7.g.urg.getSensor cmd).gain
      ∧ range.min ≤ (w7.g.urg.getSensor cmd).off
      ∧ (w7.g.urg.getSensor cmd).off ≤ range.min + 2 * g0
      ∧ w7.env = rest
      ∧ w7.sent = w.sent ++ measureReqs fmt cmd 0 ++ measureReqs fmt cmd 1023
          ++ measureReqs fmt cmd (setpoint range (w7.g.urg.getSensor cmd).gain) := by
  have hc32 : cmd < 32 := by omega
  have hg : ∀ (v : Sys) (x : SENSOR_s), (v.setSensor cmd x).g.urg.getSensor cmd = x :=
    fun v x => getSensor_setSensor _ _ _ hcmd
  have hgs : ((w.g.urg.getSensor cmd).calStart range).gain = g0 := by
    show Int.tdiv (toInt32 (range.max - range.min)) ((w.g.urg.getSensor cmd).rmax : Int) = g0
    rw [hrmax]
    exact hg0
  have hrs : ((w.g.urg.getSensor cmd).calStart range).rmax = 1023 := hrmax
  -- the low point
  obtain ⟨L, w2, a1, l1, l2, r2, m2, e2, c2, s2⟩ := _SAvg_between fmt w cmd 0
    ((w.g.urg.getSensor cmd).calStart range) eD1 es1 rs1 _ cmd v1 range.min
    (range.min + 2 * g0) hrole hfmt hcmd hc32 henv hD1 hr1 hl1 rfl rfl
    (by
      intro r hr
      have hr2 := hb1 r hr
      rw [hgs]
      show range.min ≤ toInt32 (toInt32 (g0 * (r : Int)) + range.min)
        ∧ toInt32 (toInt32 (g0 * (r : Int)) + range.min) ≤ range.min + 2 * g0
      have hr0 : (0 : Int) ≤ r := Int.ofNat_nonneg _
      have hr2' : (r : Int) ≤ 2 := by exact_mod_cast hr2
      have p0 : 0 ≤ g0 * (r : Int) := mul_nonneg (by omega) hr0
      have p1 : g0 * (r : Int) ≤ g0 * 2 := mul_le_mul_of_nonneg_left hr2' (by omega)
      generalize g0 * (r : Int) = p at p0 p1
      rw [toInt32_id p (by omega) (by omega), toInt32_id _ (by omega) (by omega)]
      constructor <;> omega)
    hlo (by omega)
  have hg2' : (w2.g.urg.getSensor cmd).gain = g0 := (congrArg (fun c => c.1) c2).trans hgs
  have hr2' : (w2.g.urg.getSensor cmd).rmax = (w.g.urg.getSensor cmd).rmax :=
    congrArg (fun c => c.2.2.1) c2
  -- the high point
  have hs2 : (w.setSensor cmd ((w.g.urg.getSensor cmd).calStart range)).sent = w.sent := rfl
  obtain ⟨H, w4, a2, h1, h2, r4, m4, e4, c4, s4⟩ := _SAvg_between fmt w2 cmd
    (w.g.urg.getSensor cmd).rmax
    ({ w2.g.urg.getSensor cmd with off := L } : SENSOR_s).zeroed eD2 es2 rs2 _ cmd v2
    (1021 * g0 + L) (1025 * g0 + L) r2 m2 hcmd hc32 e2 hD2 hr2 hl2 rfl rfl
    (by
      intro r hr
      obtain ⟨q1, q2⟩ := hb2 r hr
      show 1021 * g0 + L ≤ toInt32 (toInt32 ((w2.g.urg.getSensor cmd).gain * (r : Int)) + L)
        ∧ toInt32 (toInt32 ((w2.g.urg.getSensor cmd).gain * (r : Int)) + L) ≤ 1025 * g0 + L
      rw [hg2']
      have q1' : (1021 : Int) ≤ r := by exact_mod_cast q1
      have q2' : (r : Int) ≤ 1025 := by exact_mod_cast q2
      have p0 : g0 * 1021 ≤ g0 * (r : Int) := mul_le_mul_of_nonneg_left q1' (by omega)
      have p1 : g0 * (r : Int) ≤ g0 * 1025 := mul_le_mul_of_nonneg_left q2' (by omega)
      generalize g0 * (r : Int) = p at p0 p1
      rw [toInt32_id p (by omega) (by omega), toInt32_id _ (by omega) (by omega)]
      constructor <;> omega)
    (by omega) (by omega)
  have hr4' : (w4.g.urg.getSensor cmd).rmax = (w.g.urg.getSensor cmd).rmax :=
    (congrArg (fun c => c.2.2.1) c4).trans hr2'
  have ho4 : (w4.g.urg.getSensor cmd).off = L := congrArg (fun c => c.2.1) c4
  -- the gain
  have hd1 : 1023 ≤ H - L := by omega
  have hd2 : H - L ≤ 2147483647 := by omega
  have hgain : 0 < Int.tdiv (toInt32 (H - L)) ((w.g.urg.getSensor cmd).rmax : Int) := by
    rw [hrmax, toInt32_id _ (by omega) hd2, Int.tdiv_eq_ediv (by omega) (by decide)]
    exact lt_of_lt_of_le (by decide : (0 : Int) < 1)
      (Int.le_ediv_of_mul_le (by decide) (by rw [one_mul]; exact_mod_cast hd1))
  generalize hG : Int.tdiv (toInt32 (H - L)) ((w.g.urg.getSensor cmd).rmax : Int) = G at hgain
  -- the reference point
  obtain ⟨xs3, w6, _, a3, _, _, e6, s6, g6⟩ := _SAvg_decoded fmt
    (w4.setSensor cmd ({ w4.g.urg.getSensor cmd with gain := G } : SENSOR_s).zeroed)
    cmd (setpoint range G) eD3 es3 rs3 rest cmd v3 r4 m4 hcmd hc32 e4 hD3 hr3 hl3
    (by rw [hg]; show (0 : Nat) + 5 < 65536; omega)
  rw [hg] at g6 a3
  have hc6 := (congrArg SENSOR_s.cal g6).trans (sampleList_fields _ xs3).1
  have hs := _SCal_steps w cmd range L H _ w2 w4 w6 hcmd (by rw [hrmax]; decide) hr2' hr4' a1 a2
    (by rw [hG]; omega) (by rw [hG]; omega) (by rw [hG]; exact a3)
  have hgain7 : ∀ S : Int, ((w6.setSensor cmd ({ w6.g.urg.getSensor cmd with
      sys := S, ref := range.val } : SENSOR_s).zeroed).g.urg.getSensor cmd).gain = G := by
    intro S
    rw [hg]
    exact congrArg (fun c => c.1) hc6
  refine ⟨_, hs, ?_, ?_, ?_, e6, ?_⟩
  · rw [hgain7]; exact hgain
  · rw [hg]
    have : (w6.g.urg.getSensor cmd).off = L := (congrArg (fun c => c.2.1) hc6).trans ho4
    show range.min ≤ (w6.g.urg.getSensor cmd).off
    rw [this]; exact l1
  · rw [hg]
    have : (w6.g.urg.getSensor cmd).off = L := (congrArg (fun c => c.2.1) hc6).trans ho4
    show (w6.g.urg.getSensor cmd).off ≤ _
    rw [this]; exact l2
  · rw [hgain7]
    show w6.sent = _
    rw [s6]
    show w4.sent ++ measureReqs fmt cmd (setpoint range G) = _
    rw [s4, s2, hrmax]

theorem answers_of_deviceRun (rnds : List Nat) : ∀ (dev : IO_s) (dg : Globals)
    (reqs : List (Option (List Nat))) (E : List Exchange) (dev' : IO_s) (dg' : Globals),
    deviceRun dev dg rnds reqs = some (E, dev', dg') → answers dev dg rnds reqs E dev' dg' := by
  induction rnds with
  | nil =>
    intro dev dg reqs E dev' dg' h
    cases reqs with
    | nil =>
      have h1 : (([] : List Exchange), dev, dg) = (E, dev', dg') := Option.some.inj h
      have e1 := congrArg Prod.fst h1
      have e2 := congrArg (fun x => x.2.1) h1
      have e3 := congrArg (fun x => x.2.2) h1
      dsimp only at e1 e2 e3
      subst e1
      subst e2
      subst e3
      exact answers.done dev dg
    | cons r rs => exact absurd h (by simp [deviceRun])
  | cons rnd rnds ih =>
    intro dev dg reqs E dev' dg' h
    cases reqs with
    | nil => exact absurd h (by simp [deviceRun])
    | cons req reqs =>
      cases req with
      | none => exact absurd h (by simp [deviceRun])
      | some f =>
        rw [deviceRun] at h
        cases hb : _Child_body dev dg rnd (iovOf (fun _ => 0) f) with
        | none => rw [hb] at h; exact absurd h (by simp)
        | some r =>
          obtain ⟨reply, dev1, dg1⟩ := r
          cases reply with
          | none => rw [hb] at h; exact absurd h (by simp)
          | some b =>
            rw [hb] at h
            dsimp only at h
            cases hrun : deviceRun dev1 dg1 rnds reqs with
            | none => rw [hrun] at h; exact absurd h (by simp)
            | some x =>
              rw [hrun, Option.map_some'] at h
              have h1 := Option.some.inj h
              have e1 := congrArg Prod.fst h1
              have e2 := congrArg Prod.snd h1
              dsimp only at e1 e2
              subst e1
              have hx : deviceRun dev1 dg1 rnds reqs = some (x.1, dev', dg') := by
                rw [hrun, ← e2]
              exact answers.step dev dg rnd rnds f reqs (replyOf b) x.1 dev' dg' (fun _ => 0)
                dev.rtv dev1.wtv (some b, dev1, dg1) hb ⟨b, rfl, fun _ => 0, rfl⟩
                (ih dev1 dg1 reqs x.1 dev' dg' hx)

theorem some_getD_of_isSome {α : Type} (o : Option α) (d : α) (h : o.isSome = true) :
    o = some (o.getD d) := by
  cases o with
  | none => exact absurd h (by simp)
  | some x => rfl

theorem forall2_replicate {α β : Type} (R : α → β → Prop) (a : α) (b : β) (h : R a b)
    (n : Nat) : List.Forall₂ R (List.replicate n a) (List.replicate n b) := by
  induction n with
  | zero => exact List.Forall₂.nil
  | succ n ih => exact List.Forall₂.cons h ih

/-- Format 1: an exchange made by `replyOf` from a frame laid out as `_Load` does decodes to
what the frame was built from. -/
theorem decodes_replyOf (tid cmd : Nat) (s : List Nat) (htid : tid < 256) (hcmd : cmd < 256)
    (hs : ∀ x ∈ s, x < 256) (hn : s.length ≤ 249) :
    (replyOf (frame1 tid cmd s)).decodes 1 tid cmd (payloadValue s) :=
  decodes_of_delivers _ 1 tid cmd s (Or.inl rfl) htid hcmd hs hn
    ⟨_, load1_eq tid cmd s htid hcmd hs (by omega), fun _ => 0, rfl⟩

/-- For a selector other than 0 and 2, `_Load` lays out the binary frame without flags. -/
theorem load_noflag_eq (fmt : Int) (tid cmd : Nat) (s : List Nat) (h0 : fmt ≠ 0)
    (h2 : fmt ≠ 2) (hn : s.length ≤ 251) :
    _Load fmt tid cmd s
      = some (((s.length + 3) % 256) :: tid % 256 :: cmd % 256 :: s.map (fun x => x % 256)
          ++ [(pppfcs 0xffff (((s.length + 3) % 256) :: tid % 256 :: cmd % 256
                :: s.map (fun x => x % 256)) >>> 8) &&& 0xFF,
              pppfcs 0xffff (((s.length + 3) % 256) :: tid % 256 :: cmd % 256
                :: s.map (fun x => x % 256)) &&& 0xFF]) := by
  unfold _Load
  rw [if_neg h0, if_neg h2]
  have hl : ([0, tid % 256, cmd % 256] ++ s.map (fun x => x % 256)).length = s.length + 3 := by
    simp
  have ht : ([0, tid % 256, cmd % 256] ++ s.map (fun x => x % 256)).tail
      = tid % 256 :: cmd % 256 :: s.map (fun x => x % 256) := rfl
  dsimp only
  rw [hl, ht, if_pos]
  · simp
  · simp only [List.nil_append, List.append_nil, List.length_append, List.length_cons,
      List.length_map, List.length_nil, MSGBUFLEN]
    omega

theorem answers_deviceReplies (dev : IO_s) (dg : Globals) (rnds : List Nat)
    (reqs : List (Option (List Nat))) (h : (deviceRun dev dg rnds reqs).isSome = true) :
    answers dev dg rnds reqs (deviceReplies dev dg rnds reqs).1
      (deviceReplies dev dg rnds reqs).2.1 (deviceReplies dev dg rnds reqs).2.2 :=
  answers_of_deviceRun rnds dev dg reqs _ _ _ (some_getD_of_isSome _ ([], dev, dg) h)

theorem simRun1_answers :
    answers (responder []).io initGlobals (List.replicate 6 2) (measureReqs 1 CMD_ambient 0)
      simRun1.1 simRun1.2.1 simRun1.2.2 :=
  answers_deviceReplies (responder []).io initGlobals (List.replicate 6 2)
    (measureReqs 1 CMD_ambient 0) (by decide)

theorem simRun2_answers :
    answers simRun1.2.1 simRun1.2.2 (List.replicate 6 2) (measureReqs 1 CMD_ambient 0x3FF)
      simRun2.1 simRun2.2.1 simRun2.2.2 :=
  answers_deviceReplies simRun1.2.1 simRun1.2.2 (List.replicate 6 2)
    (measureReqs 1 CMD_ambient 0x3FF) (by decide)

theorem simRun3_answers :
    answers simRun2.2.1 simRun2.2.2 (List.replicate 6 2) (measureReqs 1 CMD_ambient 780)
      simRun3.1 simRun3.2.1 simRun3.2.2 :=
  answers_deviceReplies simRun2.2.1 simRun2.2.2 (List.replicate 6 2)
    (measureReqs 1 CMD_ambient 780) (by decide)

/-! ## The claims -/

/-- Claim C1. Binary round trip. In format 1 and format 2, for every target-id byte, command
byte and 16-bit value `v`: `_Load` produces a frame for the empty payload and for the payload
made of the two big-endian bytes of `v`; `_Parse` applied to that frame succeeds and yields
the same target id and command, with `valid` clear for the empty payload, and with `valid`
set and `val = v` for the two-byte payload. -/
theorem binary_round_trip (io : IO_s) (mem : Nat → Nat) (tid cmd v : Nat)
    (hfmt : io.msgfmt = 1 ∨ io.msgfmt = 2) (htid : tid < 256) (hcmd : cmd < 256)
    (hv : v < 65536) :
    (∃ f, _Load io.msgfmt tid cmd [] = some f
      ∧ (_Parse io (iovOf mem f)).1 = 0
      ∧ (_Parse io (iovOf mem f)).2.tid = tid ∧ (_Parse io (iovOf mem f)).2.cmd = cmd
      ∧ (_Parse io (iovOf mem f)).2.valid = false)
    ∧ (∃ f, _Load io.msgfmt tid cmd [v >>> 8, v &&& 0xFF] = some f
      ∧ (_Parse io (iovOf mem f)).1 = 0
      ∧ (_Parse io (iovOf mem f)).2.tid = tid ∧ (_Parse io (iovOf mem f)).2.cmd = cmd
      ∧ (_Parse io (iovOf mem f)).2.valid = true ∧ (_Parse io (iovOf mem f)).2.val = v) := by
  have hnil : ∀ x ∈ ([] : List Nat), x < 256 := by simp
  have hpay : ∀ x ∈ [v >>> 8, v &&& 0xFF], x < 256 := by
    intro x hx
    simp only [List.mem_cons, List.mem_singleton, List.not_mem_nil, or_false] at hx
    rcases hx with h | h
    · rw [h, Nat.shiftRight_eq_div_pow]; omega
    · rw [h]; exact and_ff_lt v
  rcases hfmt with hfmt | hfmt
  · rw [hfmt]
    refine ⟨⟨_, load1_eq tid cmd [] htid hcmd hnil (by simp), ?_⟩,
      ⟨_, load1_eq tid cmd _ htid hcmd hpay (by simp), ?_⟩⟩
    · have h := parse_frame1 io mem tid cmd [] hfmt htid hcmd hnil (by simp)
      rw [outcome_eq_iff] at h
      exact ⟨h.1, h.2.1, h.2.2.1, by simpa using h.2.2.2.1⟩
    · have h := parse_frame1 io mem tid cmd _ hfmt htid hcmd hpay (by simp)
      rw [outcome_eq_iff] at h
      refine ⟨h.1, h.2.1, h.2.2.1, by simpa using h.2.2.2.1, ?_⟩
      rw [h.2.2.2.2.1]
      simpa using join_bytes v
  · have hf0 : io.msgfmt ≠ 0 := by rw [hfmt]; decide
    have hf1 : io.msgfmt ≠ 1 := by rw [hfmt]; decide
    rw [hfmt]
    refine ⟨⟨_, load2_eq tid cmd [] htid hcmd hnil (by simp), ?_⟩,
      ⟨_, load2_eq tid cmd _ htid hcmd hpay (by simp), ?_⟩⟩
    · have h := parse_frame2 io mem tid cmd [] hf0 hf1 htid hcmd hnil (by simp)
      rw [outcome_eq_iff] at h
      exact ⟨h.1, h.2.1, h.2.2.1, by simpa using h.2.2.2.1⟩
    · have h := parse_frame2 io mem tid cmd _ hf0 hf1 htid hcmd hpay (by simp)
      rw [outcome_eq_iff] at h
      refine ⟨h.1, h.2.1, h.2.2.1, by simpa using h.2.2.2.1, ?_⟩
      rw [h.2.2.2.2.1]
      simpa using join_bytes v

theorem binary_round_trip_witness :
    ( newIO.msgfmt = 1 ∨ newIO.msgfmt = 2) ∧ 68 < 256 ∧ 1 < 256 ∧ 0x0550 < 65536
    ∧ (∃ f, _Load newIO.msgfmt 68 1 [0x0550 >>> 8, 0x0550 &&& 0xFF] = some f
      ∧ (_Parse newIO (iovOf (fun _ => 0) f)).1 = 0
      ∧ (_Parse newIO (iovOf (fun _ => 0) f)).2.tid = 68
      ∧ (_Parse newIO (iovOf (fun _ => 0) f)).2.cmd = 1
      ∧ (_Parse newIO (iovOf (fun _ => 0) f)).2.valid = true
      ∧ (_Parse newIO (iovOf (fun _ => 0) f)).2.val = 0x0550) :=
  ⟨Or.inl rfl, by decide, by decide, by decide,
    (binary_round_trip newIO (fun _ => 0) 68 1 0x0550 (Or.inl rfl) (by decide) (by decide)
      (by decide)).2⟩

/-- Claim C3. Single-bit error detection. For every frame `f` that `_Load` produces in format 1
or format 2 (any target-id byte, command byte and payload of at most 251 bytes) and every bit
position `p` inside the frame, `_Parse` in the same format rejects the buffer obtained by
inverting that one bit. -/
theorem single_bit_error_detected (io : IO_s) (mem : Nat → Nat) (tid cmd : Nat) (s f : List Nat)
    (p : Nat) (hfmt : io.msgfmt = 1 ∨ io.msgfmt = 2) (htid : tid < 256) (hcmd : cmd < 256)
    (hs : ∀ x ∈ s, x < 256) (hn : s.length ≤ 251)
    (hload : _Load io.msgfmt tid cmd s = some f) (hp : p < 8 * f.length) :
    (_Parse io (iovOf mem (flipBit f p))).1 = -1 := by
  rcases hfmt with hfmt | hfmt
  · rw [hfmt, load1_eq tid cmd s htid hcmd hs hn, Option.some.injEq] at hload
    subst hload
    rw [frame1_length] at hp
    exact parse1_flip io mem tid cmd s p hfmt htid hcmd hs hn hp
  · have hf0 : io.msgfmt ≠ 0 := by rw [hfmt]; decide
    have hf1 : io.msgfmt ≠ 1 := by rw [hfmt]; decide
    rw [hfmt] at hload
    by_cases h249 : s.length ≤ 249
    · rw [load2_eq tid cmd s htid hcmd hs h249, Option.some.injEq] at hload
      subst hload
      have hl : (TWIDDLE :: frame1 tid cmd s ++ [TWIDDLE]).length = s.length + 7 := by
        simp [frame1_length]
      rw [hl] at hp
      exact parse2_flip io mem tid cmd s p hf0 hf1 htid hcmd hs hn hp
    · rw [load2_overflow tid cmd s (by omega)] at hload
      exact absurd hload (by simp)

theorem single_bit_error_detected_witness :
    (_Load newIO.msgfmt 68 1 [5, 0x50] = some [5, 68, 1, 5, 80, 4, 102])
    ∧ 11 < 8 * [5, 68, 1, 5, 80, 4, 102].length
    ∧ (_Parse newIO (iovOf (fun _ => 0) (flipBit [5, 68, 1, 5, 80, 4, 102] 11))).1 = -1 :=
  ⟨by decide, by decide,
    single_bit_error_detected newIO (fun _ => 0) 68 1 [5, 0x50] [5, 68, 1, 5, 80, 4, 102] 11
      (Or.inl rfl) (by decide) (by decide) (by decide) (by decide) (by decide) (by decide)⟩

/-- Claim C4. CRC reference equivalence. For every starting value (in particular every 16-bit
one) and every byte sequence, the table-driven `pppfcs` equals the bitwise reflected
CRC-16/X.25 update `crcRef` (xor the byte into the low 8 bits, then 8 times shift right by
one and xor `0x8408` when the shifted-out bit was 1), with no final complement; every entry
`fcstab[i]` is the 8-step bitwise result for `i`; and `pppfcs(0xFFFF, "123456789") = 0x6F91`. -/
theorem pppfcs_refines_bitwise (fcs : Nat) (bs : List Nat) (hbs : ∀ b ∈ bs, b < 256) :
    pppfcs fcs bs = crcRef fcs bs
    ∧ (∀ i < 256, fcstab.getD i 0 = crcBit^[8] i)
    ∧ pppfcs 0xFFFF [0x31, 0x32, 0x33, 0x34, 0x35, 0x36, 0x37, 0x38, 0x39] = 0x6F91 :=
  ⟨pppfcs_eq_crcRef fcs bs hbs, fcstab_eq_crcBit, by decide⟩

theorem pppfcs_refines_bitwise_witness :
    (∀ b ∈ [0x31, 0x32, 0x33], b < 256)
    ∧ pppfcs 0xFFFF [0x31, 0x32, 0x33] = crcRef 0xFFFF [0x31, 0x32, 0x33] :=
  ⟨by decide, (pppfcs_refines_bitwise 0xFFFF [0x31, 0x32, 0x33] (by decide)).1⟩

/-- Claim C5 (counterexample). In format 2 a payload of 250 bytes, which the claim admits, gives
a frame of 257 bytes: it does not fit the 256-byte message buffer and `_Load` produces no
frame, so it does not produce the flagged layout. -/
theorem load_layout_format2_counterexample :
    (List.replicate 250 0).length ≤ 251
    ∧ _Load 2 68 1 (List.replicate 250 0) = none
    ∧ _Load 2 68 1 (List.replicate 250 0)
        ≠ some (0x7E :: frame1 68 1 (List.replicate 250 0) ++ [0x7E]) := by
  have h : _Load 2 68 1 (List.replicate 250 0) = none :=
    load2_overflow 68 1 _ (by rw [List.length_replicate])
  refine ⟨by rw [List.length_replicate]; norm_num, h, ?_⟩
  rw [h]
  exact (Option.some_ne_none _).symm

/-- Claim C5 (amended). Binary frame layout. For every target-id byte, command byte and payload
of `n` bytes: when `n ≤ 251`, `_Load` in format 1 produces exactly the `n + 5` bytes
`[n + 3, target_id, command] ++ payload ++ [crc >> 8, crc & 0xFF]` with
`crc = pppfcs(0xFFFF, the first n + 3 bytes)`; when `n ≤ 249` (the flagged frame must fit
the 256-byte buffer), `_Load` in format 2 produces exactly `0x7E`, that format-1 frame,
`0x7E`. -/
theorem load_layout (tid cmd : Nat) (s : List Nat) (htid : tid < 256) (hcmd : cmd < 256)
    (hs : ∀ x ∈ s, x < 256) :
    (s.length ≤ 251 →
      _Load 1 tid cmd s = some ([s.length + 3, tid, cmd] ++ s
        ++ [pppfcs 0xFFFF ([s.length + 3, tid, cmd] ++ s) >>> 8,
            pppfcs 0xFFFF ([s.length + 3, tid, cmd] ++ s) &&& 0xFF])
      ∧ ([s.length + 3, tid, cmd] ++ s
        ++ [pppfcs 0xFFFF ([s.length + 3, tid, cmd] ++ s) >>> 8,
            pppfcs 0xFFFF ([s.length + 3, tid, cmd] ++ s) &&& 0xFF]).length = s.length + 5)
    ∧ (s.length ≤ 249 →
      _Load 2 tid cmd s = some (0x7E :: ([s.length + 3, tid, cmd] ++ s
        ++ [pppfcs 0xFFFF ([s.length + 3, tid, cmd] ++ s) >>> 8,
            pppfcs 0xFFFF ([s.length + 3, tid, cmd] ++ s) &&& 0xFF]) ++ [0x7E])) := by
  constructor
  · intro hn
    exact ⟨load1_eq tid cmd s htid hcmd hs hn, frame1_length tid cmd s⟩
  · intro hn
    exact load2_eq tid cmd s htid hcmd hs hn

theorem load_layout_witness :
    68 < 256 ∧ 1 < 256 ∧ (∀ x ∈ [5, 0x50], x < 256)
    ∧ _Load 1 68 1 [5, 0x50] = some [5, 68, 1, 5, 0x50, 0x04, 0x66]
    ∧ _Load 2 68 1 [5, 0x50] = some [0x7E, 5, 68, 1, 5, 0x50, 0x04, 0x66, 0x7E] := by
  have h := load_layout 68 1 [5, 0x50] (by decide) (by decide) (by decide)
  exact ⟨by decide, by decide, by decide, (h.1 (by decide)).1, h.2 (by decide)⟩

/-- Claim C6. Format-1 acceptance condition. For every buffer `b` of `n` bytes, `_Parse` in
format 1 succeeds if and only if `b[0] = n - 2` and the last two bytes are the high then the
low byte of `pppfcs(0xFFFF, b[0..n-2))`; in every other case it returns the failure code -1,
in particular for every buffer of fewer than 3 bytes. -/
theorem format1_acceptance (io : IO_s) (mem : Nat → Nat) (b : List Nat) (hfmt : io.msgfmt = 1)
    (hb : ∀ x ∈ b, x < 256) (hlen : b.length < 2 ^ 64) :
    ((_Parse io (iovOf mem b)).1 = 0 ↔
      2 ≤ b.length ∧ b.getD 0 0 = b.length - 2
        ∧ b.getD (b.length - 2) 0 = pppfcs 0xFFFF (b.take (b.length - 2)) >>> 8
        ∧ b.getD (b.length - 1) 0 = pppfcs 0xFFFF (b.take (b.length - 2)) &&& 0xFF)
    ∧ ((_Parse io (iovOf mem b)).1 ≠ 0 → (_Parse io (iovOf mem b)).1 = -1)
    ∧ (b.length < 3 → (_Parse io (iovOf mem b)).1 = -1) := by
  have hcrc := pppfcs_lt 0xffff (b.take (b.length - 2)) (by norm_num)
  have hacc : accept1 b ↔ 2 ≤ b.length ∧ b.getD 0 0 = b.length - 2
      ∧ b.getD (b.length - 2) 0 = pppfcs 0xFFFF (b.take (b.length - 2)) >>> 8
      ∧ b.getD (b.length - 1) 0 = pppfcs 0xFFFF (b.take (b.length - 2)) &&& 0xFF := by
    unfold accept1
    rw [hi_byte _ hcrc]
  have h := parse1_outcome io mem b hfmt hb (by unfold SIZE_MOD; simpa using hlen)
  rw [← hacc]
  by_cases ha : accept1 b
  · rw [if_pos ha] at h
    have h1 := rc_of_outcome _ _ _ h
    have h3 := accept1_length b ha
    exact ⟨⟨fun _ => ha, fun _ => h1⟩, fun hne => absurd h1 hne, fun hlt => by omega⟩
  · rw [if_neg ha] at h
    have h1 := rc_of_outcome _ _ _ h
    refine ⟨⟨fun h0 => ?_, fun h' => absurd h' ha⟩, fun _ => h1, fun _ => h1⟩
    rw [h1] at h0
    exact absurd h0 (by decide)

theorem format1_acceptance_witness :
    newIO.msgfmt = 1 ∧ (∀ x ∈ [5, 68, 1, 5, 80, 4, 102], x < 256)
    ∧ [5, 68, 1, 5, 80, 4, 102].length < 2 ^ 64
    ∧ (_Parse newIO (iovOf (fun _ => 0) [5, 68, 1, 5, 80, 4, 102])).1 = 0 := by
  have h := format1_acceptance newIO (fun _ => 0) [5, 68, 1, 5, 80, 4, 102] rfl (by decide)
    (by decide)
  exact ⟨rfl, by decide, by decide, h.1.mpr (by decide)⟩

/-- Claim C7. Format-2 decode is format-1 decode of the stripped frame. For every buffer `b` of
`n ≥ 2` bytes, `_Parse` in format 2 succeeds if and only if `b[0] = b[n-1] = 0x7E` and
`_Parse` in format 1 succeeds on `b[1..n-1)`; and then both return the same target id,
command, value-valid flag and value. -/
theorem format2_is_format1_stripped (io2 io1 : IO_s) (mem2 mem1 : Nat → Nat) (b : List Nat)
    (hfmt2 : io2.msgfmt = 2) (hfmt1 : io1.msgfmt = 1) (hb : ∀ x ∈ b, x < 256)
    (h2 : 2 ≤ b.length) (hlen : b.length < 2 ^ 64) :
    ((_Parse io2 (iovOf mem2 b)).1 = 0 ↔
      b.getD 0 0 = 0x7E ∧ b.getD (b.length - 1) 0 = 0x7E
        ∧ (_Parse io1 (iovOf mem1 ((b.drop 1).take (b.length - 2)))).1 = 0)
    ∧ ((_Parse io2 (iovOf mem2 b)).1 = 0 →
      (_Parse io2 (iovOf mem2 b)).2.tid
          = (_Parse io1 (iovOf mem1 ((b.drop 1).take (b.length - 2)))).2.tid
      ∧ (_Parse io2 (iovOf mem2 b)).2.cmd
          = (_Parse io1 (iovOf mem1 ((b.drop 1).take (b.length - 2)))).2.cmd
      ∧ (_Parse io2 (iovOf mem2 b)).2.valid
          = (_Parse io1 (iovOf mem1 ((b.drop 1).take (b.length - 2)))).2.valid
      ∧ (_Parse io2 (iovOf mem2 b)).2.val
          = (_Parse io1 (iovOf mem1 ((b.drop 1).take (b.length - 2)))).2.val) := by
  have hsize : b.length < SIZE_MOD := by unfold SIZE_MOD; simpa using hlen
  have hsb : ∀ x ∈ strip b, x < 256 := by
    intro x hx
    exact hb x (List.mem_of_mem_drop (List.mem_of_mem_take hx))
  have hslen : (strip b).length < SIZE_MOD := by rw [strip_length]; omega
  have hf0 : io2.msgfmt ≠ 0 := by rw [hfmt2]; decide
  have hf1 : io2.msgfmt ≠ 1 := by rw [hfmt2]; decide
  have p2 := parse2_outcome io2 mem2 b hf0 hf1 hb hsize h2
  have p1 := parse1_outcome io1 mem1 (strip b) hfmt1 hsb hslen
  change ((_Parse io2 (iovOf mem2 b)).1 = 0 ↔
      b.getD 0 0 = TWIDDLE ∧ b.getD (b.length - 1) 0 = TWIDDLE
        ∧ (_Parse io1 (iovOf mem1 (strip b))).1 = 0) ∧ _
  by_cases ha : accept1 (strip b)
  · rw [if_pos ha, outcome_eq_iff] at p1
    by_cases hfl : b.getD 0 0 = TWIDDLE ∧ b.getD (b.length - 1) 0 = TWIDDLE
    · have hall : b.getD 0 0 = TWIDDLE ∧ b.getD (b.length - 1) 0 = TWIDDLE
          ∧ accept1 (strip b) := ⟨hfl.1, hfl.2, ha⟩
      rw [if_pos hall, outcome_eq_iff] at p2
      refine ⟨⟨fun _ => ⟨hfl.1, hfl.2, p1.1⟩, fun _ => p2.1⟩, fun _ => ?_⟩
      change _ = (_Parse io1 (iovOf mem1 (strip b))).2.tid
        ∧ _ = (_Parse io1 (iovOf mem1 (strip b))).2.cmd
        ∧ _ = (_Parse io1 (iovOf mem1 (strip b))).2.valid
        ∧ _ = (_Parse io1 (iovOf mem1 (strip b))).2.val
      rw [p2.2.1, p2.2.2.1, p2.2.2.2.1, p2.2.2.2.2.1, p1.2.1, p1.2.2.1, p1.2.2.2.1,
        p1.2.2.2.2.1]
      exact ⟨rfl, rfl, rfl, rfl⟩
    · have hall : ¬ (b.getD 0 0 = TWIDDLE ∧ b.getD (b.length - 1) 0 = TWIDDLE
          ∧ accept1 (strip b)) := fun h => hfl ⟨h.1, h.2.1⟩
      rw [if_neg hall] at p2
      have r2 := rc_of_outcome _ _ _ p2
      refine ⟨⟨fun h0 => ?_, fun h => absurd ⟨h.1, h.2.1⟩ hfl⟩, fun h0 => ?_⟩
      · rw [r2] at h0; exact absurd h0 (by decide)
      · rw [r2] at h0; exact absurd h0 (by decide)
  · rw [if_neg ha] at p1
    have r1 := rc_of_outcome _ _ _ p1
    have hall : ¬ (b.getD 0 0 = TWIDDLE ∧ b.getD (b.length - 1) 0 = TWIDDLE
        ∧ accept1 (strip b)) := fun h => ha h.2.2
    rw [if_neg hall] at p2
    have r2 := rc_of_outcome _ _ _ p2
    refine ⟨⟨fun h0 => ?_, fun h => ?_⟩, fun h0 => ?_⟩
    · rw [r2] at h0; exact absurd h0 (by decide)
    · rw [r1] at h; exact absurd h.2.2 (by decide)
    · rw [r2] at h0; exact absurd h0 (by decide)

theorem format2_is_format1_stripped_witness :
    ({ newIO with msgfmt := 2 } : IO_s).msgfmt = 2 ∧ newIO.msgfmt = 1
    ∧ (∀ x ∈ [126, 5, 68, 1, 5, 80, 4, 102, 126], x < 256)
    ∧ 2 ≤ [126, 5, 68, 1, 5, 80, 4, 102, 126].length
    ∧ [126, 5, 68, 1, 5, 80, 4, 102, 126].length < 2 ^ 64
    ∧ (_Parse { newIO with msgfmt := 2 }
        (iovOf (fun _ => 0) [126, 5, 68, 1, 5, 80, 4, 102, 126])).1 = 0 := by
  have h := format2_is_format1_stripped { newIO with msgfmt := 2 } newIO (fun _ => 0)
    (fun _ => 0) [126, 5, 68, 1, 5, 80, 4, 102, 126] rfl rfl (by decide) (by decide) (by decide)
  exact ⟨rfl, rfl, by decide, by decide, by decide, h.1.mpr ⟨rfl, rfl, by decide⟩⟩

/-- Claim C2 (the code at the failing input). In format 0 the payload `"000A"`, the four hex
digits of the value 10, is framed by `_Load` and accepted by `_Parse` with `valid` set, but
the decoded value is 0: the digit `'A'` contributes `'A' - 'A' = 0`, not 10. -/
theorem ascii_hex_letter_decodes_to_zero :
    ∃ f, _Load 0 68 1 [48, 48, 48, 65] = some f
      ∧ (_Parse { newIO with msgfmt := 0 } (iovOf (fun _ => 0) f)).1 = 0
      ∧ (_Parse { newIO with msgfmt := 0 } (iovOf (fun _ => 0) f)).2.valid = true
      ∧ (_Parse { newIO with msgfmt := 0 } (iovOf (fun _ => 0) f)).2.val = 0
      ∧ (_Parse { newIO with msgfmt := 0 } (iovOf (fun _ => 0) f)).2.val ≠ 0x000A :=
  ⟨[68, 1, 48, 48, 48, 65, 13, 10], by decide, by decide, by decide, by decide, by decide⟩

/-- Claim C8. Format-0 acceptance condition. For every buffer `b` of `n ≥ 2` bytes, `_Parse` in
format 0 succeeds if and only if the last two bytes are CR, LF and, when at least 6 bytes
precede the CR LF, bytes 2..5 are all hexadecimal digits; on success the target id is byte 0,
the command is byte 1, and `valid` is set exactly when at least 6 bytes precede the CR LF. -/
theorem format0_acceptance (io : IO_s) (mem : Nat → Nat) (b : List Nat) (hfmt : io.msgfmt = 0)
    (hb : ∀ x ∈ b, x < 256) (h2 : 2 ≤ b.length) (hlen : b.length < 2 ^ 64) :
    ((_Parse io (iovOf mem b)).1 = 0 ↔
      b.getD (b.length - 2) 0 = 13 ∧ b.getD (b.length - 1) 0 = 10
        ∧ (6 ≤ b.length - 2 → ∀ i, 2 ≤ i → i ≤ 5 → isxdigit (b.getD i 0) = true))
    ∧ ((_Parse io (iovOf mem b)).1 = 0 →
        (_Parse io (iovOf mem b)).2.tid = b.getD 0 0
        ∧ (_Parse io (iovOf mem b)).2.cmd = b.getD 1 0
        ∧ ((_Parse io (iovOf mem b)).2.valid = true ↔ 6 ≤ b.length - 2)) := by
  have h := parse0_spec io mem b hfmt hb (by unfold SIZE_MOD; simpa using hlen) h2
  have hdig : (∀ j < 4, isxdigit (b.getD (2 + j) 0) = true)
      ↔ (∀ i, 2 ≤ i → i ≤ 5 → isxdigit (b.getD i 0) = true) := by
    constructor
    · intro hj i hi2 hi5
      have := hj (i - 2) (by omega)
      rwa [show 2 + (i - 2) = i by omega] at this
    · intro hi j hj
      exact hi (2 + j) (by omega) (by omega)
  rw [← hdig]
  refine ⟨h.1, fun h0 => ?_⟩
  obtain ⟨ht, hc, hv⟩ := h.2.2 h0
  refine ⟨ht, hc, ?_⟩
  rw [hv]
  exact decide_eq_true_iff

theorem format0_acceptance_witness :
    ({ newIO with msgfmt := 0 } : IO_s).msgfmt = 0
    ∧ (∀ x ∈ [68, 1, 48, 53, 53, 48, 13, 10], x < 256)
    ∧ 2 ≤ [68, 1, 48, 53, 53, 48, 13, 10].length
    ∧ [68, 1, 48, 53, 53, 48, 13, 10].length < 2 ^ 64
    ∧ (_Parse { newIO with msgfmt := 0 }
        (iovOf (fun _ => 0) [68, 1, 48, 53, 53, 48, 13, 10])).1 = 0 := by
  have h := format0_acceptance { newIO with msgfmt := 0 } (fun _ => 0)
    [68, 1, 48, 53, 53, 48, 13, 10] rfl (by decide) (by decide) (by decide)
  exact ⟨rfl, by decide, by decide, by decide, h.1.mpr (by decide)⟩

/-- Claim C9 (counterexample). A channel whose last decoded frame carried a value
(`valid = 1`, `val = 5`) is given an empty buffer in format 1: `_Parse` returns failure and
the value-valid flag and the value are no longer the ones before the call. -/
theorem decode_failure_mutates_counterexample :
    (_Parse { newIO with valid := true, val := 5 } (iovOf (fun _ => 0) [])).1 = -1
    ∧ (_Parse { newIO with valid := true, val := 5 } (iovOf (fun _ => 0) [])).2.valid
        ≠ ({ newIO with valid := true, val := 5 } : IO_s).valid
    ∧ (_Parse { newIO with valid := true, val := 5 } (iovOf (fun _ => 0) [])).2.val
        ≠ ({ newIO with valid := true, val := 5 } : IO_s).val :=
  ⟨by decide, by decide, by decide⟩

/-- Claim C9 (amended). What a failed decode leaves. For every channel state and every buffer,
in each format, if `_Parse` returns failure then the response-valid flag is clear and the
response value is `0xFFFF`; and in every format other than 0, or in format 0 when the
buffer does not end in CR LF, the target id and the command are the same as before the call,
the value-valid flag is clear and the value is `0xFFFF`. -/
theorem decode_failure_frame (io : IO_s) (iov : iovec) (hfail : (_Parse io iov).1 ≠ 0) :
    (_Parse io iov).2.retvalid = false ∧ (_Parse io iov).2.retval = 0xFFFF
    ∧ ((io.msgfmt ≠ 0
        ∨ ¬ ((parseEntry io iov).rdb (szsub (parseEntry io iov).nb 2) = 13
            ∧ (parseEntry io iov).rdb (szsub (parseEntry io iov).nb 1) = 10)) →
      (_Parse io iov).2.tid = io.tid ∧ (_Parse io iov).2.cmd = io.cmd
      ∧ (_Parse io iov).2.valid = false ∧ (_Parse io iov).2.val = 0xFFFF) := by
  have hfr := _Parse_frame io iov
  simp only [IO_s.frame, Prod.mk.injEq] at hfr
  obtain ⟨ft, fc, fv, fl, frv, frl⟩ := hfr
  have hret := parseSwitch_ret (parseEntry io iov)
  refine ⟨by rw [frv, hret.1]; rfl, by rw [frl, hret.2]; rfl, fun hcase => ?_⟩
  have hsw : (parseSwitch (parseEntry io iov)).1 = false := by
    rw [_Parse_rc] at hfail
    by_contra hne
    rw [if_pos (by simpa using hne)] at hfail
    exact hfail rfl
  have hkeep := parseSwitch_fail (parseEntry io iov) hsw hcase
  rw [parseEntry_frame] at hkeep
  simp only [IO_s.frame, Prod.mk.injEq] at hkeep
  exact ⟨by rw [ft, hkeep.1], by rw [fc, hkeep.2.1], by rw [fv, hkeep.2.2.1],
    by rw [fl, hkeep.2.2.2.1]⟩

theorem decode_failure_frame_witness :
    (_Parse { newIO with valid := true, val := 5, tid := 68, cmd := 1 }
        (iovOf (fun _ => 0) [5, 68, 1, 5, 80, 4, 103])).1 ≠ 0
    ∧ (_Parse { newIO with valid := true, val := 5, tid := 68, cmd := 1 }
        (iovOf (fun _ => 0) [5, 68, 1, 5, 80, 4, 103])).2.retvalid = false
    ∧ (_Parse { newIO with valid := true, val := 5, tid := 68, cmd := 1 }
        (iovOf (fun _ => 0) [5, 68, 1, 5, 80, 4, 103])).2.retval = 0xFFFF :=
  ⟨by decide,
    (decode_failure_frame { newIO with valid := true, val := 5, tid := 68, cmd := 1 }
      (iovOf (fun _ => 0) [5, 68, 1, 5, 80, 4, 103]) (by decide)).1,
    (decode_failure_frame { newIO with valid := true, val := 5, tid := 68, cmd := 1 }
      (iovOf (fun _ => 0) [5, 68, 1, 5, 80, 4, 103]) (by decide)).2.1⟩

/-- Claim C10. Register write/read. For each class among analog-out, digital-IO, pressure and
temperature, every index below 32 and every value: processing a frame with `valid` set
succeeds, returns the written value as response value, and sets the entry at that index of the
class's backing array (`ADvals`, `Fvals`, `Pvals`, `Tvals`) to the value, every other entry of
every array being unchanged; processing, in any state that has these arrays, a following
frame without a value for the same class and index succeeds, returns the written value and
changes no array entry. -/
theorem register_write_then_read (io : IO_s) (g : Globals) (rnd : Nat)
    (ht : io.tid = TID_D2A ∨ io.tid = TID_DIO ∨ io.tid = TID_PRES ∨ io.tid = TID_TEMP)
    (hi : io.cmd < 32) (hvalid : io.valid = true) :
    ∃ io' g', _Process io g rnd = some (0, io', g')
      ∧ io'.retvalid = true ∧ io'.retval = io.val
      ∧ (∀ j, io'.ADvals j = if io.tid = TID_D2A ∧ j = io.cmd then io.val else io.ADvals j)
      ∧ (∀ j, io'.Fvals j = if io.tid = TID_DIO ∧ j = io.cmd then io.val else io.Fvals j)
      ∧ (∀ j, io'.Pvals j = if io.tid = TID_PRES ∧ j = io.cmd then io.val else io.Pvals j)
      ∧ (∀ j, io'.Tvals j = if io.tid = TID_TEMP ∧ j = io.cmd then io.val else io.Tvals j)
      ∧ ∀ (io2 : IO_s) (g2 : Globals) (rnd2 : Nat),
          io2.tid = io.tid → io2.cmd = io.cmd → io2.valid = false →
          io2.ADvals = io'.ADvals → io2.Fvals = io'.Fvals → io2.Pvals = io'.Pvals →
          io2.Tvals = io'.Tvals →
          ∃ io3 g3, _Process io2 g2 rnd2 = some (0, io3, g3)
            ∧ io3.retvalid = true ∧ io3.retval = io.val
            ∧ io3.ADvals = io2.ADvals ∧ io3.Fvals = io2.Fvals
            ∧ io3.Pvals = io2.Pvals ∧ io3.Tvals = io2.Tvals := by
  have hupd : ∀ (f : Nat → Nat) (j : Nat),
      Function.update f io.cmd io.val j = if j = io.cmd then io.val else f j := by
    intro f j
    by_cases hj : j = io.cmd
    · rw [hj, Function.update_same, if_pos rfl]
    · rw [Function.update_noteq hj, if_neg hj]
  rcases ht with ht | ht | ht | ht
  · refine ⟨{ io with retvalid := true, retval := io.val,
                      ADvals := Function.update io.ADvals io.cmd io.val }, _,
      by rw [_Process_D2A io g rnd ht hi, if_pos hvalid], rfl, rfl, ?_, ?_, ?_, ?_, ?_⟩
    · intro j; simp only [ht, true_and]; exact hupd _ j
    · intro j; rw [if_neg (fun h => absurd (ht.symm.trans h.1) (by decide))]
    · intro j; rw [if_neg (fun h => absurd (ht.symm.trans h.1) (by decide))]
    · intro j; rw [if_neg (fun h => absurd (ht.symm.trans h.1) (by decide))]
    · intro io2 g2 rnd2 h2t h2c h2v hA _ _ _
      refine ⟨{ io2 with retvalid := true, retval := io2.ADvals io2.cmd }, _,
        by rw [_Process_D2A io2 g2 rnd2 (h2t.trans ht) (by rw [h2c]; exact hi),
          if_neg (by rw [h2v]; decide)], rfl, ?_, rfl, rfl, rfl, rfl⟩
      show io2.ADvals io2.cmd = io.val
      rw [hA, h2c]
      exact Function.update_same _ _ _
  · refine ⟨{ io with retvalid := true, retval := io.val,
                      Fvals := Function.update io.Fvals io.cmd io.val }, _,
      by rw [_Process_digital io g rnd ht hi, if_pos hvalid], rfl, rfl, ?_, ?_, ?_, ?_, ?_⟩
    · intro j; rw [if_neg (fun h => absurd (ht.symm.trans h.1) (by decide))]
    · intro j; simp only [ht, true_and]; exact hupd _ j
    · intro j; rw [if_neg (fun h => absurd (ht.symm.trans h.1) (by decide))]
    · intro j; rw [if_neg (fun h => absurd (ht.symm.trans h.1) (by decide))]
    · intro io2 g2 rnd2 h2t h2c h2v _ hF _ _
      refine ⟨{ io2 with retvalid := true, retval := io2.Fvals io2.cmd }, _,
        by rw [_Process_digital io2 g2 rnd2 (h2t.trans ht) (by rw [h2c]; exact hi),
          if_neg (by rw [h2v]; decide)], rfl, ?_, rfl, rfl, rfl, rfl⟩
      show io2.Fvals io2.cmd = io.val
      rw [hF, h2c]
      exact Function.update_same _ _ _
  · refine ⟨{ io with retvalid := true, retval := io.val,
                      Pvals := Function.update io.Pvals io.cmd io.val }, _,
      by rw [_Process_PRES io g rnd ht hi, if_pos hvalid], rfl, rfl, ?_, ?_, ?_, ?_, ?_⟩
    · intro j; rw [if_neg (fun h => absurd (ht.symm.trans h.1) (by decide))]
    · intro j; rw [if_neg (fun h => absurd (ht.symm.trans h.1) (by decide))]
    · intro j; simp only [ht, true_and]; exact hupd _ j
    · intro j; rw [if_neg (fun h => absurd (ht.symm.trans h.1) (by decide))]
    · intro io2 g2 rnd2 h2t h2c h2v _ _ hP _
      refine ⟨{ io2 with retvalid := true, retval := io2.Pvals io2.cmd }, _,
        by rw [_Process_PRES io2 g2 rnd2 (h2t.trans ht) (by rw [h2c]; exact hi),
          if_neg (by rw [h2v]; decide)], rfl, ?_, rfl, rfl, rfl, rfl⟩
      show io2.Pvals io2.cmd = io.val
      rw [hP, h2c]
      exact Function.update_same _ _ _
  · refine ⟨{ io with retvalid := true, retval := io.val,
                      Tvals := Function.update io.Tvals io.cmd io.val }, _,
      by rw [_Process_TEMP io g rnd ht hi, if_pos hvalid], rfl, rfl, ?_, ?_, ?_, ?_, ?_⟩
    · intro j; rw [if_neg (fun h => absurd (ht.symm.trans h.1) (by decide))]
    · intro j; rw [if_neg (fun h => absurd (ht.symm.trans h.1) (by decide))]
    · intro j; rw [if_neg (fun h => absurd (ht.symm.trans h.1) (by decide))]
    · intro j; simp only [ht, true_and]; exact hupd _ j
    · intro io2 g2 rnd2 h2t h2c h2v _ _ _ hT
      refine ⟨{ io2 with retvalid := true, retval := io2.Tvals io2.cmd }, _,
        by rw [_Process_TEMP io2 g2 rnd2 (h2t.trans ht) (by rw [h2c]; exact hi),
          if_neg (by rw [h2v]; decide)], rfl, ?_, rfl, rfl, rfl, rfl⟩
      show io2.Tvals io2.cmd = io.val
      rw [hT, h2c]
      exact Function.update_same _ _ _

theorem register_write_then_read_witness :
    (({ newIO with role := "avr", tid := TID_PRES, cmd := 8, valid := true, val := 0x9AFF }
        : IO_s).tid = TID_D2A
      ∨ ({ newIO with role := "avr", tid := TID_PRES, cmd := 8, valid := true, val := 0x9AFF }
        : IO_s).tid = TID_DIO
      ∨ ({ newIO with role := "avr", tid := TID_PRES, cmd := 8, valid := true, val := 0x9AFF }
        : IO_s).tid = TID_PRES
      ∨ ({ newIO with role := "avr", tid := TID_PRES, cmd := 8, valid := true, val := 0x9AFF }
        : IO_s).tid = TID_TEMP)
    ∧ ∃ io' g',
      _Process { newIO with role := "avr", tid := TID_PRES, cmd := 8, valid := true,
                            val := 0x9AFF } initGlobals 0 = some (0, io', g')
      ∧ io'.retvalid = true ∧ io'.retval = 0x9AFF ∧ io'.Pvals 8 = 0x9AFF := by
  obtain ⟨io', g', h, hrv, hr, _, _, hP, _⟩ :=
    register_write_then_read
      { newIO with role := "avr", tid := TID_PRES, cmd := 8, valid := true, val := 0x9AFF }
      initGlobals 0 (Or.inr (Or.inr (Or.inl rfl))) (by decide) rfl
  refine ⟨Or.inr (Or.inr (Or.inl rfl)), io', g', h, hrv, hr, ?_⟩
  rw [hP 8]
  rfl

/-- Claim C11. Device-side analog-in read is clamped. On the device role (`"avr"`), for every
index below 32, every stored value `s` and every value `rnd` of `random()`, whose jitter draw
is `j = rnd % 5 - 2` (so `j` is in -2..2), an analog-in read succeeds with a response value in
`0..0x0FFF`, equal to `s + j` clamped to `0..0x0FFF` whenever `s ≤ 0x0FFF`, and leaves the
stored values and the file-scope variables unchanged. -/
theorem analog_in_read_clamped (io : IO_s) (g : Globals) (rnd : Nat) (j : Int)
    (hrole : io.role = "avr") (ht : io.tid = TID_A2D) (hcmd : io.cmd < 32)
    (hv : io.valid = false) (hj : ((rnd % 5 : Nat) : Int) - 2 = j) :
    -2 ≤ j ∧ j ≤ 2
      ∧ ∃ io1, _Process io g rnd = some ((0 : Int), io1, g)
        ∧ io1.retvalid = true
        ∧ io1.retval ≤ 0x0FFF
        ∧ (io.ADvals io.cmd ≤ 0x0FFF → (io1.retval : Int) = clamp12 (io.ADvals io.cmd + j))
        ∧ io1.ADvals = io.ADvals := by
  have hp := _Process_A2D_device_read io g rnd hrole ht hcmd hv
  have hr := clamp12_range (toInt16 (toInt16 (io.ADvals io.cmd) + toInt16 ((rnd % 5 : Nat) - 2)))
  have hj1 : -2 ≤ j := by omega
  have hj2 : j ≤ 2 := by omega
  refine ⟨hj1, hj2, _, hp, rfl, ?_, ?_, rfl⟩
  · dsimp only
    have hn := Int.toNat_of_nonneg hr.1
    omega
  · intro hs
    dsimp only
    rw [Int.toNat_of_nonneg hr.1, hj]
    have e1 : toInt16 (io.ADvals io.cmd) = io.ADvals io.cmd :=
      toInt16_of_range _ (by omega) (by omega)
    have e2 : toInt16 j = j := toInt16_of_range _ (by omega) (by omega)
    rw [e1, e2, toInt16_of_range _ (by omega) (by omega)]

theorem analog_in_read_clamped_witness :
    -2 ≤ (2 : Int) ∧ (2 : Int) ≤ 2
      ∧ ∃ io1, _Process { newIO with role := "avr", tid := TID_A2D, cmd := 3,
                                     ADvals := fun _ => 0x0FFF } initGlobals 4
          = some ((0 : Int), io1, initGlobals)
        ∧ io1.retvalid = true
        ∧ io1.retval ≤ 0x0FFF
        ∧ ((0x0FFF : Nat) ≤ 0x0FFF → (io1.retval : Int) = clamp12 ((0x0FFF : Nat) + 2))
        ∧ io1.ADvals = fun _ => 0x0FFF :=
  analog_in_read_clamped { newIO with role := "avr", tid := TID_A2D, cmd := 3,
                                      ADvals := fun _ => 0x0FFF } initGlobals 4 2
    rfl rfl (by decide) rfl (by decide)

/-- Claim C12. Digital flag mapping. For every word `w` written to digital-IO at an index
below 13, `_Process` succeeds and afterwards each of the 13 named flags `k = 0..12`
(0 = `power_fail` ... 12 = `door_open`) equals bit `k` of `w`; the flags are those of
`w % 8192`, so bits 13 and above affect no flag. -/
theorem digital_flag_mapping (io : IO_s) (g : Globals) (rnd : Nat) (ht : io.tid = TID_DIO)
    (hcmd : io.cmd < 13) (hv : io.valid = true) :
    ∃ io1 g1, _Process io g rnd = some ((0 : Int), io1, g1)
      ∧ g1.urg.flags = flagsOf io.val
      ∧ (∀ k, k < 13 → g1.urg.flags.get k = bitOf io.val k)
      ∧ (∀ k, k < 13 → g1.urg.flags.get k = bitOf (io.val % 8192) k) := by
  have hp := _Process_digital io g rnd ht (by omega)
  have hnf : io.cmd < _NFLAGS := hcmd
  rw [if_pos hv, if_pos hnf, if_pos hv, setFlags_eq] at hp
  refine ⟨_, _, hp, rfl, fun k hk => ?_, fun k hk => ?_⟩
  · exact flagsOf_get io.val k hk
  · rw [bitOf_mod io.val k hk]
    exact flagsOf_get io.val k hk

theorem digital_flag_mapping_witness :
    (∃ io1 g1, _Process { newIO with tid := TID_DIO, cmd := 0, valid := true, val := 0x0001 }
          initGlobals 0 = some ((0 : Int), io1, g1)
        ∧ g1.urg.flags =
          { power_fail := 1, field_blank := 0, event_executing := 0, event_paused := 0,
            event_expired := 0, event_aborted := 0, duration_error := 0,
            filter_temp_error := 0, inactive_temp_error := 0, flow_variation_error := 0,
            out_of_range_error := 0, filter_load_error := 0, door_open := 0 })
    ∧ (∃ io1 g1, _Process { newIO with tid := TID_DIO, cmd := 12, valid := true, val := 0x1FFF }
          initGlobals 0 = some ((0 : Int), io1, g1)
        ∧ g1.urg.flags =
          { power_fail := 1, field_blank := 1, event_executing := 1, event_paused := 1,
            event_expired := 1, event_aborted := 1, duration_error := 1,
            filter_temp_error := 1, inactive_temp_error := 1, flow_variation_error := 1,
            out_of_range_error := 1, filter_load_error := 1, door_open := 1 }) := by
  constructor
  · obtain ⟨io1, g1, h, hf, _⟩ := digital_flag_mapping
      { newIO with tid := TID_DIO, cmd := 0, valid := true, val := 0x0001 } initGlobals 0
      rfl (by decide) rfl
    exact ⟨io1, g1, h, hf.trans rfl⟩
  · obtain ⟨io1, g1, h, hf, _⟩ := digital_flag_mapping
      { newIO with tid := TID_DIO, cmd := 12, valid := true, val := 0x1FFF } initGlobals 0
      rfl (by decide) rfl
    exact ⟨io1, g1, h, hf.trans rfl⟩

/-- Claim C13 (counterexample). In the initial state, where `event_aborted` (flag 5) is 1 and
the digital-IO words are 0, a digital-IO read at index 0 returns the word 0, whose bit 5 is 0. -/
theorem digital_read_flag_word_counterexample :
    (_Process { newIO with role := "avr", tid := TID_DIO, cmd := 0 } initGlobals 0).map
        (fun r => (r.1, r.2.1.retvalid, r.2.1.retval)) = some ((0 : Int), true, 0)
    ∧ initGlobals.urg.flags.get 5 = 1
    ∧ bitOf 0 5 ≠ initGlobals.urg.flags.get 5 := by
  refine ⟨?_, rfl, by decide⟩
  rw [_Process_digital _ _ _ rfl (by decide)]
  rfl

/-- Claim C13 (amended). Digital-IO read returns the stored word. In every state, a
digital-IO read at an index `i < 32` succeeds and returns the word stored at digital-IO
index `i` (0 in the initial state), leaving the stored words unchanged; when `i < 13`, bit `k`
of the response word equals the value the named flag `k` holds after the read, for every
`k = 0..12`, and when `13 ≤ i` the flags are left as they were. -/
theorem digital_read_returns_stored (io : IO_s) (g : Globals) (rnd : Nat)
    (ht : io.tid = TID_DIO) (hcmd : io.cmd < 32) (hv : io.valid = false) :
    ∃ io1 g1, _Process io g rnd = some ((0 : Int), io1, g1)
      ∧ io1.retvalid = true
      ∧ io1.retval = io.Fvals io.cmd
      ∧ io1.Fvals = io.Fvals
      ∧ (io.cmd < 13 → ∀ k, k < 13 → bitOf io1.retval k = g1.urg.flags.get k)
      ∧ (13 ≤ io.cmd → g1 = g) := by
  have hp := _Process_digital io g rnd ht hcmd
  have hv2 : ¬ io.valid = true := by rw [hv]; decide
  rw [if_neg hv2, if_neg hv2, setFlags_eq] at hp
  by_cases hnf : io.cmd < _NFLAGS
  · rw [if_pos hnf] at hp
    refine ⟨_, _, hp, rfl, rfl, rfl, fun _ k hk => ?_, fun h13 => ?_⟩
    · exact (flagsOf_get (io.Fvals io.cmd) k hk).symm
    · exact absurd hnf (by unfold _NFLAGS; omega)
  · rw [if_neg hnf] at hp
    refine ⟨_, _, hp, rfl, rfl, rfl, fun h13 => ?_, fun _ => rfl⟩
    exact absurd h13 hnf

theorem digital_read_returns_stored_witness :
    ∃ io1 g1, _Process { newIO with role := "avr", tid := TID_DIO, cmd := 0 } initGlobals 0
        = some ((0 : Int), io1, g1)
      ∧ io1.retvalid = true
      ∧ io1.retval = 0
      ∧ io1.Fvals = (fun _ => 0)
      ∧ ((0 : Nat) < 13 → ∀ k, k < 13 → bitOf io1.retval k = g1.urg.flags.get k)
      ∧ (13 ≤ (0 : Nat) → g1 = initGlobals) :=
  digital_read_returns_stored { newIO with role := "avr", tid := TID_DIO, cmd := 0 }
    initGlobals 0 rfl (by decide) rfl

/-- Claim C14. Stepper accumulation. Starting from stepper position `p` (a `uint16_t`), after
processing any sequence `ws` of stepper writes, a stepper read succeeds and returns the
response value `(p + d1 + ... + dn) mod 2^16`, where `di` is the value of the i-th write read
as a signed 16-bit number; the read changes nothing but the response fields: the position,
the register arrays and the file-scope variables are as before it. -/
theorem stepper_accumulation (io : IO_s) (g : Globals) (ws : List (Parsed × Nat)) (rd : Parsed)
    (rnd : Nat) (hS : io.Spos < 65536)
    (hws : ∀ w ∈ ws, w.1.tid = TID_STEP ∧ w.1.valid = true)
    (hrd : rd.tid = TID_STEP ∧ rd.valid = false) :
    ∃ io1 io2, processAll io g ws = some (io1, g)
      ∧ _Process (io1.setParsed rd) g rnd = some ((0 : Int), io2, g)
      ∧ io2.retvalid = true
      ∧ (io2.retval : Int) = (io.Spos + (ws.map fun w => toInt16 w.1.val).sum) % 65536
      ∧ io2 = { io1.setParsed rd with retvalid := true, retval := io1.Spos } := by
  obtain ⟨io1, h1, h2, _⟩ := processAll_stepper io g ws hS hws
  have hp := _Process_STEP (io1.setParsed rd) g rnd hrd.1
  have hv : ¬ (io1.setParsed rd).valid = true := by
    have e : (io1.setParsed rd).valid = rd.valid := rfl
    rw [e, hrd.2]
    decide
  rw [if_neg hv] at hp
  refine ⟨io1, _, h1, hp, rfl, ?_, rfl⟩
  have e : (io1.setParsed rd).Spos = io1.Spos := rfl
  dsimp only
  rw [e, h2]
  omega

theorem stepper_accumulation_witness :
    ∃ io1 io2, processAll { newIO with Spos := 65530 } initGlobals
          [({ IO_s.parsed newIO with tid := TID_STEP, valid := true, val := 10 }, 0),
           ({ IO_s.parsed newIO with tid := TID_STEP, valid := true, val := 0xFFFF }, 0)]
        = some (io1, initGlobals)
      ∧ _Process (io1.setParsed { IO_s.parsed newIO with tid := TID_STEP }) initGlobals 0
        = some ((0 : Int), io2, initGlobals)
      ∧ io2.retvalid = true
      ∧ (io2.retval : Int) = 3
      ∧ io2 = { io1.setParsed { IO_s.parsed newIO with tid := TID_STEP } with
                retvalid := true, retval := io1.Spos } := by
  obtain ⟨io1, io2, h1, h2, h3, h4, h5⟩ := stepper_accumulation
    { newIO with Spos := 65530 } initGlobals
    [({ IO_s.parsed newIO with tid := TID_STEP, valid := true, val := 10 }, 0),
     ({ IO_s.parsed newIO with tid := TID_STEP, valid := true, val := 0xFFFF }, 0)]
    { IO_s.parsed newIO with tid := TID_STEP } 0 (by decide)
    (by
      intro w hw
      simp only [List.mem_cons, List.mem_singleton, List.not_mem_nil, or_false] at hw
      rcases hw with rfl | rfl <;> exact ⟨rfl, rfl⟩)
    ⟨rfl, rfl⟩
  exact ⟨io1, io2, h1, h2, h3, h4.trans (by decide), h5⟩

/-- Claim C15. Global control. For a frame whose target id is global-control, `_Process`
succeeds and sets the cancellation flag `exit_request` when the command byte is quit (`'q'`,
113), and for every other command byte it returns failure and leaves the cancellation flag,
and everything else, unchanged. -/
theorem global_control (io : IO_s) (g : Globals) (rnd : Nat) (ht : io.tid = TID_GLOBAL) :
    (io.cmd = 113 → _Process io g rnd = some ((0 : Int), io, { g with exit_request := 1 }))
    ∧ (io.cmd ≠ 113 → _Process io g rnd = some ((-1 : Int), io, g)) := by
  have hp := _Process_GLOBAL io g rnd ht
  constructor
  · intro hq
    have hq2 : io.cmd = CMD_QUIT := hq
    rw [hp, if_pos hq2]
  · intro hq
    have hq2 : ¬ io.cmd = CMD_QUIT := hq
    rw [hp, if_neg hq2]

theorem global_control_witness :
    _Process { newIO with tid := TID_GLOBAL, cmd := 113 } initGlobals 0
        = some ((0 : Int), { newIO with tid := TID_GLOBAL, cmd := 113 },
            { initGlobals with exit_request := 1 })
    ∧ _Process { newIO with tid := TID_GLOBAL, cmd := 81 } initGlobals 0
        = some ((-1 : Int), { newIO with tid := TID_GLOBAL, cmd := 81 }, initGlobals) :=
  ⟨(global_control { newIO with tid := TID_GLOBAL, cmd := 113 } initGlobals 0 rfl).1 rfl,
   (global_control { newIO with tid := TID_GLOBAL, cmd := 81 } initGlobals 0 rfl).2
     (by decide)⟩

/-- Claim C16 (counterexample). A stepper frame with command byte 200, outside 0..31, and no
value: `_Process` returns success. -/
theorem index_range_stepper_counterexample :
    (_Process { newIO with tid := TID_STEP, cmd := 200 } initGlobals 0).map (fun r => r.1)
      = some (0 : Int) := by
  rw [_Process_STEP _ _ _ rfl]
  rfl

/-- Claim C16 (amended). Index range check. For every channel class that has a register
array (analog-in, analog-out, digital-IO, pressure, temperature) and every command byte
outside 0..31, with or without a value, `_Process` returns the unsupported-operation failure
and changes nothing; a stepper frame, which has no index, succeeds for every command byte. -/
theorem index_range_check (io : IO_s) (g : Globals) (rnd : Nat) (hcmd : 32 ≤ io.cmd) :
    ((io.tid = TID_A2D ∨ io.tid = TID_D2A ∨ io.tid = TID_DIO ∨ io.tid = TID_PRES
        ∨ io.tid = TID_TEMP) → _Process io g rnd = some ((-1 : Int), io, g))
    ∧ (io.tid = TID_STEP → ∃ io1, _Process io g rnd = some ((0 : Int), io1, g)) :=
  ⟨fun ht => _Process_range io g rnd ht hcmd, fun ht => ⟨_, _Process_STEP io g rnd ht⟩⟩

theorem index_range_check_witness :
    _Process { newIO with tid := TID_TEMP, cmd := 32, valid := true, val := 7 } initGlobals 0
      = some ((-1 : Int), { newIO with tid := TID_TEMP, cmd := 32, valid := true, val := 7 },
          initGlobals) :=
  (index_range_check { newIO with tid := TID_TEMP, cmd := 32, valid := true, val := 7 }
    initGlobals 0 (by decide)).1 (Or.inr (Or.inr (Or.inr (Or.inr rfl))))

/-- Claim C17. Unknown target. For every target-id byte that is not one of `'A'` (65),
`'D'` (68), `'F'` (70), `'G'` (71), `'P'` (80), `'S'` (83), `'T'` (84), and every command
and value, `_Process` returns the unsupported-operation failure and changes nothing. -/
theorem unknown_target (io : IO_s) (g : Globals) (rnd : Nat)
    (ht : io.tid ≠ 65 ∧ io.tid ≠ 68 ∧ io.tid ≠ 70 ∧ io.tid ≠ 71 ∧ io.tid ≠ 80 ∧ io.tid ≠ 83
      ∧ io.tid ≠ 84) :
    _Process io g rnd = some ((-1 : Int), io, g) :=
  _Process_unknown io g rnd ht.1 ht.2.1 ht.2.2.1 ht.2.2.2.1 ht.2.2.2.2.1 ht.2.2.2.2.2.1
    ht.2.2.2.2.2.2

theorem unknown_target_witness :
    _Process { newIO with tid := 88, cmd := 1, valid := true, val := 7 } initGlobals 0
      = some ((-1 : Int), { newIO with tid := 88, cmd := 1, valid := true, val := 7 },
          initGlobals) :=
  unknown_target { newIO with tid := 88, cmd := 1, valid := true, val := 7 } initGlobals 0
    (by decide)

/-- Claim C18. Negative acknowledge on unsupported operation. For every channel state and
every request buffer that `_Parse` decodes successfully to target id `tid` and command `cmd`
but on which `_Process` fails, the reply that `_Child` builds in that pass of its loop is
exactly the frame `_Load(tid, cmd | 0x80, no payload)` in the channel's format (a frame that
always fits), and the file-scope variables are unchanged. -/
theorem nak_on_unsupported_operation (io : IO_s) (g : Globals) (rnd : Nat) (iov : iovec)
    (tid cmd : Nat) (rc : Int) (io2 : IO_s) (g2 : Globals)
    (hparse : (_Parse io iov).1 = 0)
    (htid : (_Parse io iov).2.tid = tid) (hcmd : (_Parse io iov).2.cmd = cmd)
    (hproc : _Process (_Parse io iov).2 g rnd = some (rc, io2, g2)) (hrc : rc ≠ 0) :
    (_Child_body io g rnd iov).map (fun r => (r.1, r.2.2))
        = some (_Load io.msgfmt tid (cmd ||| 0x80) [], g)
    ∧ (_Load io.msgfmt tid (cmd ||| 0x80) []).isSome = true := by
  refine ⟨?_, _Load_empty_isSome _ _ _⟩
  rw [_Child_body_process_fail io g rnd iov rc io2 g2 hparse hproc hrc, htid, hcmd]
  rfl

theorem nak_on_unsupported_operation_witness :
    (_Child_body { newIO with role := "avr" } initGlobals 0
        (iovOf (fun _ => 0) [3, 88, 1, 218, 233])).map (fun r => (r.1, r.2.2))
        = some (_Load 1 88 (1 ||| 0x80) [], initGlobals)
    ∧ (_Load 1 88 (1 ||| 0x80) []).isSome = true
    ∧ _Load 1 88 (1 ||| 0x80) [] = some [3, 88, 129, 94, 225] :=
  ⟨(nak_on_unsupported_operation { newIO with role := "avr" } initGlobals 0
      (iovOf (fun _ => 0) [3, 88, 1, 218, 233]) 88 1 (-1)
      (_Parse { newIO with role := "avr" } (iovOf (fun _ => 0) [3, 88, 1, 218, 233])).2
      initGlobals (by decide) (by decide) (by decide)
      (_Process_unknown _ _ _ (by decide) (by decide) (by decide) (by decide) (by decide)
        (by decide) (by decide))
      (by decide)).1,
   by decide, by decide⟩

/-- Claim C19 (failing input). A responder in its initial state (target id 0, command 0,
format 1) receives the format-1 request frame `_Load('D', 1, no payload)` with the last CRC
byte changed from 216 to 217. The reply of `_Child` is the frame
`_Load(0, 0 | 0x80, no payload)`: its command byte is `0x80`, not the request's command with
the negative-acknowledge bit set, `0x81`, and its target id is 0, not `'D'`. -/
theorem nak_on_frame_error_stale_command :
    _Load 1 68 1 [] = some [3, 68, 1, 230, 216]
    ∧ (_Parse { newIO with role := "avr" } (iovOf (fun _ => 0) [3, 68, 1, 230, 217])).1 = -1
    ∧ (_Child_body { newIO with role := "avr" } initGlobals 0
        (iovOf (fun _ => 0) [3, 68, 1, 230, 217])).map (fun r => r.1)
        = some (some [3, 0, 128, 82, 95])
    ∧ _Load 1 68 (1 ||| 0x80) [] = some [3, 68, 129, 98, 208] := by
  refine ⟨by decide, by decide, ?_, by decide⟩
  have h := _Child_body_parse_fail { newIO with role := "avr" } initGlobals 0
    (iovOf (fun _ => 0) [3, 68, 1, 230, 217]) (by decide) (by decide)
  have h2 := congrArg (Option.map Prod.fst) h
  rw [Option.map_map] at h2
  exact h2.trans (by decide)

/-- Claim C20 (counterexample). On the controller, the barometer record (index 5) of the
initial state has gain 344200, offset -16570000, sample count 0 and sum 0. After seven
analog-in replies with raw value 1023 the sum of the scaled values is 2348826200, which is
no value of the `int32_t` field: the record holds sum -1946141096 and average -278020156. -/
theorem running_statistics_overflow_counterexample :
    ((initGlobals.urg.getSensor 5).gain, (initGlobals.urg.getSensor 5).off,
        (initGlobals.urg.getSensor 5).npts, (initGlobals.urg.getSensor 5).sum)
      = (344200, -16570000, 0, 0)
    ∧ (processAll { newIO with role := "nuc" } initGlobals
        (List.replicate 7
          ({ IO_s.parsed newIO with tid := TID_A2D, cmd := 5, valid := true, val := 1023 },
            0))).map
        (fun r => ((r.2.urg.getSensor 5).npts, (r.2.urg.getSensor 5).sum,
          (r.2.urg.getSensor 5).avg))
      = some (7, -1946141096, -278020156)
    ∧ (List.replicate 7 (scaled 344200 (-16570000) 1023)).sum = 2348826200 := by
  decide

/-- Claim C20 (amended). Running statistics. On the controller role, for a sensor index
below 8 with gain `g`, offset `o`, sample count 0, sum 0, minimum `m0` and maximum `M0`,
after processing `n` analog-in replies (`1 ≤ n < 65536`) carrying the raw values `r1..rn`,
provided every product `g*ri`, every scaled value `g*ri + o` and every partial sum of the
scaled values is a value of `int32_t`, the sensor record has sample count `n`,
sum = the sum of `g*ri + o`, average = sum / n (integer quotient, truncated toward zero),
min = the least of `m0` and all `g*ri + o`, and max = the greatest of `M0` and all
`g*ri + o`. -/
theorem running_statistics (io : IO_s) (g : Globals) (ix : Nat) (ws : List (Parsed × Nat))
    (hrole : io.role = "nuc") (hix : ix < 8)
    (hws : ∀ w ∈ ws, w.1.tid = TID_A2D ∧ w.1.cmd = ix ∧ w.1.valid = true)
    (hn1 : 1 ≤ ws.length) (hn2 : ws.length < 65536)
    (hcount : (g.urg.getSensor ix).npts = 0) (hsum : (g.urg.getSensor ix).sum = 0)
    (hfit : fitsInt32 (g.urg.getSensor ix).gain (g.urg.getSensor ix).off 0
      (ws.map fun w => w.1.val) = true) :
    ∃ io1 g1, processAll io g ws = some (io1, g1)
      ∧ (g1.urg.getSensor ix).npts = ws.length
      ∧ (g1.urg.getSensor ix).sum
          = (ws.map fun w =>
              scaled (g.urg.getSensor ix).gain (g.urg.getSensor ix).off w.1.val).sum
      ∧ (g1.urg.getSensor ix).avg = Int.tdiv (g1.urg.getSensor ix).sum ws.length
      ∧ (g1.urg.getSensor ix).min
          = (ws.map fun w =>
              scaled (g.urg.getSensor ix).gain (g.urg.getSensor ix).off w.1.val).foldl min
              (g.urg.getSensor ix).min
      ∧ (g1.urg.getSensor ix).max
          = (ws.map fun w =>
              scaled (g.urg.getSensor ix).gain (g.urg.getSensor ix).off w.1.val).foldl max
              (g.urg.getSensor ix).max := by
  have hne : ws ≠ [] := by
    intro h
    rw [h] at hn1
    exact absurd hn1 (by decide)
  obtain ⟨io1, g1, hp, _, _, b3, b4, b5, b6, b7⟩ := processAll_stats ix hix ws io g hrole hws
    (by rw [hcount]; omega) (by rw [hsum]; exact hfit)
  rw [hcount, zero_add] at b3
  rw [hsum, zero_add] at b4
  refine ⟨io1, g1, hp, b3, b4, ?_, b7, b6⟩
  rw [b5 hne, b3]

theorem running_statistics_witness :
    ∃ io1 g1, processAll { newIO with role := "nuc" }
        { initGlobals with urg := { _urg with
            sensor := mkSensor "Sensor" 0 0 0 1 0 0 0 0 25 15 0 0 } }
        [({ IO_s.parsed newIO with tid := TID_A2D, cmd := 0, valid := true, val := 10 }, 0),
         ({ IO_s.parsed newIO with tid := TID_A2D, cmd := 0, valid := true, val := 20 }, 0),
         ({ IO_s.parsed newIO with tid := TID_A2D, cmd := 0, valid := true, val := 30 }, 0)]
        = some (io1, g1)
      ∧ (g1.urg.getSensor 0).npts = 3
      ∧ (g1.urg.getSensor 0).sum = 60
      ∧ (g1.urg.getSensor 0).avg = 20
      ∧ (g1.urg.getSensor 0).min = 10
      ∧ (g1.urg.getSensor 0).max = 30 := by
  obtain ⟨io1, g1, h, h1, h2, h3, h4, h5⟩ := running_statistics
    { newIO with role := "nuc" }
    { initGlobals with urg := { _urg with
        sensor := mkSensor "Sensor" 0 0 0 1 0 0 0 0 25 15 0 0 } }
    0
    [({ IO_s.parsed newIO with tid := TID_A2D, cmd := 0, valid := true, val := 10 }, 0),
     ({ IO_s.parsed newIO with tid := TID_A2D, cmd := 0, valid := true, val := 20 }, 0),
     ({ IO_s.parsed newIO with tid := TID_A2D, cmd := 0, valid := true, val := 30 }, 0)]
    rfl (by decide)
    (by
      intro w hw
      simp only [List.mem_cons, List.mem_singleton, List.not_mem_nil, or_false] at hw
      rcases hw with rfl | rfl | rfl <;> exact ⟨rfl, rfl, rfl⟩)
    (by decide) (by decide) rfl rfl (by decide)
  have e2 : (g1.urg.getSensor 0).sum = 60 := h2.trans (by decide)
  refine ⟨io1, g1, h, h1, e2, ?_, h4.trans (by decide), h5.trans (by decide)⟩
  rw [h3, e2]
  decide

/-- Claim C21. Average invariant. In every state reachable from the initial device model by
any sequence of `_Process` calls and calibration resets, every sensor record with sample
count above 0 has average = sum / sample count, the integer quotient (truncated toward zero)
of the stored sum. -/
theorem average_invariant (g : Globals) (ok : Nat → Prop) (h : Reach g ok) (ix : Nat)
    (hix : ix < 8) (hn : 0 < (g.urg.getSensor ix).npts) :
    (g.urg.getSensor ix).avg
      = Int.tdiv (g.urg.getSensor ix).sum (g.urg.getSensor ix).npts :=
  (Reach_inv g ok h ix hix).2.1 hn

theorem average_invariant_witness :
    ∃ io1 g1, _Process { newIO with role := "nuc", tid := TID_A2D, cmd := 1, valid := true,
                                    val := 512 } initGlobals 0 = some ((0 : Int), io1, g1)
      ∧ 0 < (g1.urg.getSensor 1).npts
      ∧ (g1.urg.getSensor 1).sum = -12510000
      ∧ (g1.urg.getSensor 1).avg
          = Int.tdiv (g1.urg.getSensor 1).sum (g1.urg.getSensor 1).npts := by
  obtain ⟨io1, hp, _⟩ := _Process_A2D_nuc
    { newIO with role := "nuc", tid := TID_A2D, cmd := 1, valid := true, val := 512 }
    initGlobals 0 rfl rfl (by decide) (by decide)
  exact ⟨io1, _, hp, by decide, by decide,
    average_invariant _ _ (Reach.process _ _ _ _ _ _ _ Reach.init hp) 1 (by decide)
      (by decide)⟩

/-- Claim C22. Ordering invariant. In every state reachable from the initial device model by
any sequence of `_Process` calls and calibration resets, every sensor record that has taken
at least one sample since its count and sum were last zeroed has min ≤ average ≤ max,
provided its 32-bit sum has not overflowed since then (the 16-bit count cannot wrap in a
reachable state: the call that would wrap it has no defined result). -/
theorem ordering_invariant (g : Globals) (ok : Nat → Prop) (h : Reach g ok) (ix : Nat)
    (hix : ix < 8) (hok : ok ix) (hn : 0 < (g.urg.getSensor ix).npts) :
    (g.urg.getSensor ix).npts < 65536
      ∧ (g.urg.getSensor ix).min ≤ (g.urg.getSensor ix).avg
      ∧ (g.urg.getSensor ix).avg ≤ (g.urg.getSensor ix).max := by
  obtain ⟨h1, h2, h3⟩ := Reach_inv g ok h ix hix
  obtain ⟨i1, i2⟩ := h3 hok
  rw [h2 hn]
  exact ⟨h1, tdiv_bounds _ _ _ _ hn i1 i2⟩

theorem ordering_invariant_witness :
    ∃ io1 g1, _Process { newIO with role := "nuc", tid := TID_A2D, cmd := 1, valid := true,
                                    val := 512 } initGlobals 0 = some ((0 : Int), io1, g1)
      ∧ ((g1.urg.getSensor 1).min, (g1.urg.getSensor 1).avg, (g1.urg.getSensor 1).max)
          = (-12510000, -12510000, 213000)
      ∧ (g1.urg.getSensor 1).npts < 65536
      ∧ (g1.urg.getSensor 1).min ≤ (g1.urg.getSensor 1).avg
      ∧ (g1.urg.getSensor 1).avg ≤ (g1.urg.getSensor 1).max := by
  obtain ⟨io1, hp, _⟩ := _Process_A2D_nuc
    { newIO with role := "nuc", tid := TID_A2D, cmd := 1, valid := true, val := 512 }
    initGlobals 0 rfl rfl (by decide) (by decide)
  exact ⟨io1, _, hp, by decide,
    ordering_invariant _ _ (Reach.process _ _ _ _ _ _ _ Reach.init hp) 1 (by decide)
      ⟨trivial, Or.inr (by decide)⟩ (by decide)⟩

/-- Claim C23. Ambient republish. On the controller role, an analog-in reply at an index
below 32 (while the 16-bit count of the sensor record does not wrap) is processed
successfully, and afterwards the process-wide ambient temperature equals the ambient sensor's
new average when the index is 1, the process-wide ambient pressure equals the barometer
sensor's new average when the index is 5, and for every other index both process-wide values
are unchanged; index 1 leaves the pressure and index 5 the temperature unchanged. -/
theorem ambient_republish (io : IO_s) (g : Globals) (rnd : Nat) (hrole : io.role = "nuc")
    (ht : io.tid = TID_A2D) (hcmd : io.cmd < 32)
    (hn : io.cmd < 8 → (g.urg.getSensor io.cmd).npts + 1 < 65536) :
    ∃ io1 g1, _Process io g rnd = some ((0 : Int), io1, g1)
      ∧ (io.cmd = 1 → g1.urg.temp = g1.urg.ambient.avg ∧ g1.urg.pres = g.urg.pres)
      ∧ (io.cmd = 5 → g1.urg.pres = g1.urg.barometer.avg ∧ g1.urg.temp = g.urg.temp)
      ∧ (io.cmd ≠ 1 → io.cmd ≠ 5 → g1.urg.temp = g.urg.temp ∧ g1.urg.pres = g.urg.pres) := by
  by_cases h8 : io.cmd < 8
  · obtain ⟨io1, hp, _⟩ := _Process_A2D_nuc io g rnd hrole ht h8 (hn h8)
    refine ⟨io1, _, hp, fun h1 => ?_, fun h5 => ?_, fun h1 h5 => ?_⟩
    · have ha : ∀ (u : URG_s) (a : Int), (republish 1 a u).ambient = u.ambient := by
        intro u a; rfl
      have hb : ∀ (u : URG_s) (x : SENSOR_s), (u.setSensor 1 x).ambient = x := by
        intro u x; rfl
      dsimp only
      rw [republish_temp, republish_pres, h1, ha, hb, if_pos (rfl : (1 : Nat) = 1),
        if_neg (by decide : ¬ (1 : Nat) = 5)]
      exact ⟨rfl, (setSensor_temp_pres _ _ _).2⟩
    · have ha : ∀ (u : URG_s) (a : Int), (republish 5 a u).barometer = u.barometer := by
        intro u a; rfl
      have hb : ∀ (u : URG_s) (x : SENSOR_s), (u.setSensor 5 x).barometer = x := by
        intro u x; rfl
      dsimp only
      rw [republish_temp, republish_pres, h5, ha, hb, if_pos (rfl : (5 : Nat) = 5),
        if_neg (by decide : ¬ (5 : Nat) = 1)]
      exact ⟨rfl, (setSensor_temp_pres _ _ _).1⟩
    · dsimp only
      rw [republish_temp, republish_pres, if_neg h1, if_neg h5]
      exact setSensor_temp_pres _ _ _
  · obtain ⟨io1, hp⟩ := _Process_A2D_nuc_other io g rnd hrole ht hcmd (by omega)
    exact ⟨io1, g, hp, fun h1 => absurd h1 (by omega), fun h5 => absurd h5 (by omega),
      fun _ _ => ⟨rfl, rfl⟩⟩

theorem ambient_republish_witness :
    ∃ io1 g1, _Process { newIO with role := "nuc", tid := TID_A2D, cmd := 1, valid := true,
                                    val := 512 } initGlobals 0 = some ((0 : Int), io1, g1)
      ∧ ((1 : Nat) = 1 → g1.urg.temp = g1.urg.ambient.avg
          ∧ g1.urg.pres = initGlobals.urg.pres)
      ∧ ((1 : Nat) = 5 → g1.urg.pres = g1.urg.barometer.avg
          ∧ g1.urg.temp = initGlobals.urg.temp)
      ∧ ((1 : Nat) ≠ 1 → (1 : Nat) ≠ 5 → g1.urg.temp = initGlobals.urg.temp
          ∧ g1.urg.pres = initGlobals.urg.pres) :=
  ambient_republish
    { newIO with role := "nuc", tid := TID_A2D, cmd := 1, valid := true, val := 512 }
    initGlobals 0 rfl rfl (by decide) (fun _ => by decide)

/-- Claim C24. Retry bound. For every configured retry ceiling `m ≥ 1`, if each of the first
`m` replies fails to decode or to process, `_Command` sends the same encoded request exactly
`m` times in total and then returns the permanent failure (-1) without storing a response
value: the `m` replies are consumed, the retry counter is `m`, and nothing is sent an
`(m+1)`-th time. -/
theorem retry_bound (w : Sys) (tid cmd : Nat) (s : List Nat) (m : Nat)
    (es rest : List Exchange) (hm : 1 ≤ m) (hm2 : m < 2147483648)
    (hmax : w.io.maxretrys = m) (hlen : es.length = m) (henv : w.env = es ++ rest)
    (hfail : ∀ e ∈ es, failing w e) :
    ∃ w1, _Command w tid cmd s = some ((-1 : Int), none, w1)
      ∧ w1.sent = w.sent ++ List.replicate m (_Load w.io.msgfmt tid cmd s)
      ∧ w1.env = rest ∧ w1.io.nretry = m := by
  have hne : es ≠ [] := by
    intro h
    rw [h] at hlen
    simp at hlen
    omega
  obtain ⟨fs, e, hfe⟩ : ∃ fs e, es = fs ++ [e] :=
    ⟨es.dropLast, es.getLast hne, (List.dropLast_append_getLast hne).symm⟩
  subst hfe
  rw [List.length_append, List.length_singleton] at hlen
  have hsd : w.sameDevice
      { io := { w.io with nretry := 0 }, g := w.g, sent := w.sent, env := [] } :=
    ⟨rfl, rfl, rfl, rfl, rfl, rfl, rfl, rfl, rfl⟩
  have hmx : ({ w.io with nretry := 0 } : IO_s).maxretrys = m := hmax
  have hnr : ({ w.io with nretry := 0 } : IO_s).nretry = 0 := rfl
  obtain ⟨io1, g1, h1, hsd1, hn1⟩ := commandLoop_failures tid cmd s w fs ([e] ++ rest)
    { w.io with nretry := 0 } w.g w.sent hsd
    (fun x hx => hfail x (List.mem_append_left _ hx)) (by rw [hnr])
    (by rw [hnr, hmx]; omega) (by rw [hmx]; exact_mod_cast hm2)
  rw [hnr, zero_add] at hn1
  have hmx1 : io1.maxretrys = m := hsd1.2.2.1.trans hmax
  have hsd1b : w.sameDevice
      { io := io1, g := g1,
        sent := w.sent ++ List.replicate fs.length (_Load w.io.msgfmt tid cmd s),
        env := [] } := by
    obtain ⟨a1, a2, a3, a4, a5, a6, a7, a8, a9⟩ := hsd1
    exact ⟨a1, a2, a3, a4, a5, a6, a7, a8, a9⟩
  obtain ⟨w1, h2, hs2, he2, hn2, _⟩ := commandLoop_giveup tid cmd s w io1 g1
    (w.sent ++ List.replicate fs.length (_Load w.io.msgfmt tid cmd s)) e rest hsd1b
    (hfail e (List.mem_append_right _ (List.mem_singleton_self e))) (by rw [hn1]; omega)
    (by rw [hn1, hmx1]; omega) (by rw [hmx1]; exact_mod_cast hm2)
  have hfmt : io1.msgfmt = w.io.msgfmt := hsd1.2.1
  refine ⟨w1, ?_, ?_, he2, by rw [hn2, hmx1]⟩
  · unfold _Command
    rw [henv, List.append_assoc, h1]
    exact h2
  · rw [hs2, hfmt, ← hlen, List.replicate_succ', List.append_assoc]

/-- Claim C25. Commander success. For every retry ceiling `m ≥ 1` and every `k` with
`1 ≤ k ≤ m`, if the first `k-1` replies fail and the `k`-th reply decodes and processes
successfully, leaving the response value `v`, then `_Command` returns success after exactly
`k` sends of the same encoded request, stores `v` through `retvalp`, and leaves the retry
counter at 0. -/
theorem commander_success (w : Sys) (tid cmd : Nat) (s : List Nat) (m k : Nat)
    (fs : List Exchange) (e : Exchange) (rest : List Exchange) (v : Nat) (hkm : k ≤ m)
    (hm2 : m < 2147483648) (hmax : w.io.maxretrys = m) (hlen : fs.length + 1 = k)
    (henv : w.env = fs ++ e :: rest) (hfail : ∀ f ∈ fs, failing w f)
    (hsucc : succeeding w e v) :
    ∃ w1, _Command w tid cmd s = some ((0 : Int), some v, w1)
      ∧ w1.sent = w.sent ++ List.replicate k (_Load w.io.msgfmt tid cmd s)
      ∧ w1.env = rest ∧ w1.io.nretry = 0 := by
  have hsd : w.sameDevice
      { io := { w.io with nretry := 0 }, g := w.g, sent := w.sent, env := [] } :=
    ⟨rfl, rfl, rfl, rfl, rfl, rfl, rfl, rfl, rfl⟩
  have hmx : ({ w.io with nretry := 0 } : IO_s).maxretrys = m := hmax
  have hnr : ({ w.io with nretry := 0 } : IO_s).nretry = 0 := rfl
  obtain ⟨io1, g1, h1, hsd1, _⟩ := commandLoop_failures tid cmd s w fs (e :: rest)
    { w.io with nretry := 0 } w.g w.sent hsd hfail (by rw [hnr])
    (by rw [hnr, hmx]; omega) (by rw [hmx]; exact_mod_cast hm2)
  have hsd1b : w.sameDevice
      { io := io1, g := g1,
        sent := w.sent ++ List.replicate fs.length (_Load w.io.msgfmt tid cmd s),
        env := [] } := by
    obtain ⟨a1, a2, a3, a4, a5, a6, a7, a8, a9⟩ := hsd1
    exact ⟨a1, a2, a3, a4, a5, a6, a7, a8, a9⟩
  obtain ⟨w3, hrec, _, h2⟩ := commandLoop_success tid cmd s w io1 g1
    (w.sent ++ List.replicate fs.length (_Load w.io.msgfmt tid cmd s)) e rest v hsd1b hsucc
  obtain ⟨hs3, he3, _⟩ := receive_keeps _ _ _ _ _ hrec
  have hfmt : io1.msgfmt = w.io.msgfmt := hsd1.2.1
  refine ⟨{ w3 with io := { w3.io with nretry := 0 } }, ?_, ?_, he3, rfl⟩
  · unfold _Command
    rw [henv, h1]
    exact h2
  · show w3.sent = _
    rw [hs3]
    show w.sent ++ List.replicate fs.length (_Load w.io.msgfmt tid cmd s)
        ++ [_Load io1.msgfmt tid cmd s] = _
    rw [hfmt, ← hlen, List.replicate_succ', List.append_assoc]

theorem retry_bound_witness :
    ∃ w1, _Command
        { io := { newIO with role := "nuc" }, g := initGlobals, sent := [],
          env := List.replicate 4 (replyOf [3, 68, 1, 230, 217]) } TID_D2A 1 [5, 80]
        = some ((-1 : Int), none, w1)
      ∧ w1.sent = [] ++ List.replicate 4 (_Load 1 TID_D2A 1 [5, 80])
      ∧ w1.env = [] ∧ w1.io.nretry = (4 : Nat) :=
  retry_bound
    { io := { newIO with role := "nuc" }, g := initGlobals, sent := [],
      env := List.replicate 4 (replyOf [3, 68, 1, 230, 217]) } TID_D2A 1 [5, 80] 4
    (List.replicate 4 (replyOf [3, 68, 1, 230, 217])) [] (by decide) (by decide) rfl rfl rfl
    (fun e he => by
      rw [List.eq_of_mem_replicate he]
      exact failing_of_reject _ _ _ rfl (fun io hio => by
        rw [parse1_reject io _ _ hio (by decide) (by decide) (by decide)]
        decide))

theorem commander_success_witness :
    ∃ w1, _Command
        { io := { newIO with role := "nuc" }, g := initGlobals, sent := [],
          env := [replyOf [3, 68, 1, 230, 217], replyOf (frame1 TID_D2A 1 [5, 80])] }
        TID_D2A 1 [5, 80]
        = some ((0 : Int), some ((5 <<< 8) ||| 80), w1)
      ∧ w1.sent = [] ++ List.replicate 2 (_Load 1 TID_D2A 1 [5, 80])
      ∧ w1.env = [] ∧ w1.io.nretry = 0 :=
  commander_success
    { io := { newIO with role := "nuc" }, g := initGlobals, sent := [],
      env := [replyOf [3, 68, 1, 230, 217], replyOf (frame1 TID_D2A 1 [5, 80])] }
    TID_D2A 1 [5, 80] 4 2 [replyOf [3, 68, 1, 230, 217]] (replyOf (frame1 TID_D2A 1 [5, 80]))
    [] ((5 <<< 8) ||| 80) (by decide) (by decide) rfl rfl rfl
    (fun e he => by
      rw [List.eq_of_mem_singleton he]
      exact failing_of_reject _ _ _ rfl (fun io hio => by
        rw [parse1_reject io _ _ hio (by decide) (by decide) (by decide)]
        decide))
    (succeeding_D2A _ _ (fun _ => 0) 1 5 80 rfl rfl (by decide) (by decide) (by decide))

/-- Claim C26. Timeout bound. For every configured ceiling `t ≥ 1`, if `exit_request` is
clear on entry and each of the first `t` waits ends as a timeout (`pselect` returns 0 and no
signal sets `exit_request`), `_Poll` makes exactly `t` calls of `pselect`, never calls
`io->Get`, leaves `exit_request` clear and returns 0. -/
theorem timeout_bound (io : IO_s) (g : Globals) (t : Nat) (ws rest : List Wait) (ht : 1 ≤ t)
    (ht2 : t < 2147483648) (hmax : io.maxtimeouts = t) (hex : g.exit_request = 0)
    (hlen : ws.length = t) (hws : ∀ w ∈ ws, w.rc = 0 ∧ w.sig = false) :
    _Poll io g (ws ++ rest)
      = some { rc := 0, read := none, exit_request := 0, nwaits := t, rest := rest } := by
  unfold _Poll
  rw [hex, hmax, pollLoop_timeouts t ws rest 0 (-1) 0 hws (by rw [hlen]; simp)
    (by rw [hlen]; exact ht) (le_refl 0) (by exact_mod_cast ht2), hlen, Nat.zero_add]

theorem timeout_bound_witness :
    _Poll newIO initGlobals (List.replicate 4 timeoutWait ++ [])
      = some { rc := 0, read := none, exit_request := 0, nwaits := 4, rest := [] } :=
  timeout_bound newIO initGlobals 4 (List.replicate 4 timeoutWait) [] (by decide) (by decide)
    rfl rfl rfl (fun w hw => by rw [List.eq_of_mem_replicate hw]; exact ⟨rfl, rfl⟩)

/-- Claim C27 (failing input). A responder in its initial state (timeout ceiling 4) waits
for a frame and all four waits end as timeouts. `_Poll` returns 0 without reading, so
`io->riov` is still the empty buffer; `_Child` tests `rc < 0`, does not leave its loop and
goes on to `_Parse`, whose first statement reads a byte through the null `iov_base`: the
call of `_Child` has no defined result, whatever exchanges would follow. Had `io->Chk`
returned -1, `_Child` would have returned -1 without decoding or sending anything. -/
theorem responder_timeout_goes_on :
    (_Poll { newIO with role := "avr" } initGlobals (List.replicate 4 timeoutWait)).map
        (fun r => (r.rc, r.read.isSome, r.nwaits)) = some ((0 : Int), false, 4)
    ∧ (Chk_s.ofPoll { newIO with role := "avr" } initGlobals
        { rc := 0, read := none, exit_request := 0, nwaits := 4, rest := [] }).rc = 0
    ∧ (Chk_s.ofPoll { newIO with role := "avr" } initGlobals
        { rc := 0, read := none, exit_request := 0, nwaits := 4, rest := [] }).riov.isNone
        = true
    ∧ (_Child { io := { newIO with role := "avr" }, g := initGlobals, sent := [],
                env := [{ wtv := 0, rnd := 0,
                          chk := Chk_s.ofPoll { newIO with role := "avr" } initGlobals
                            { rc := 0, read := none, exit_request := 0, nwaits := 4,
                              rest := [] } },
                        replyOf (frame1 TID_D2A 1 [5, 80])] }).isNone = true
    ∧ (_Child { io := { newIO with role := "avr" }, g := initGlobals, sent := [],
                env := [{ wtv := 0, rnd := 0,
                          chk := { rc := -1, riov := none, rtv := 0, exit := false } }]
              }).map (fun r => (r.1, r.2.sent.length)) = some ((-1 : Int), 0) := by
  refine ⟨?_, rfl, rfl, ?_, ?_⟩
  · have h := pollLoop_timeouts 4 (List.replicate 4 timeoutWait) [] 0 (-1) 0
      (fun w hw => by rw [List.eq_of_mem_replicate hw]; exact ⟨rfl, rfl⟩) (by decide)
      (by decide) (by decide) (by decide)
    rw [List.append_nil] at h
    unfold _Poll
    have e1 : ({ newIO with role := "avr" } : IO_s).maxtimeouts = 4 := rfl
    have e2 : initGlobals.exit_request = 0 := rfl
    rw [e1, e2, h]
    rfl
  · unfold _Child
    dsimp only
    rw [childLoop_no_read _ _ _ _ _ (by decide) rfl]
    rfl
  · unfold _Child
    dsimp only
    obtain ⟨w, hw, hs, _⟩ := childLoop_break { newIO with role := "avr" } initGlobals []
      { wtv := 0, rnd := 0, chk := { rc := -1, riov := none, rtv := 0, exit := false } } []
      (by decide)
    rw [hw, Option.map_some', hs]
    rfl

/-- Claim C28. Calibration result. For every sensor index below 8 whose record has raw
maximum `rmax > 0`, and every reference range, if the three measurement sub-steps of `_SCal`
(the calls of `_SAvg` with analog-out driven to 0, to `rmax` and to the setpoint) return the
averages `L`, `H` and `S`, the quotients being defined (the gain `(H - L) / rmax` is not 0,
and the setpoint quotient is not `INT_MIN / -1`), then `_SCal` returns 0 and on return
offset = `L`, gain = `(H - L) / rmax` (the program's 32-bit difference, quotient truncated
toward zero; the exact integer quotient when `H - L` is a value of `int32_t`), the setpoint
that was driven (the payload of the first frame of the third sub-step) is
`(range.val - range.min) / gain` truncated to 16 bits, the recorded system value is `S`, the
recorded reference value is `range.val`, and the sample count and the sum are both 0. -/
theorem calibration_result (w : Sys) (cmd : Nat) (range : RANGE_s) (L H S : Int)
    (w2 w4 w6 : Sys) (hix : cmd < 8) (hb : bounded w.g)
    (hrmax : 0 < (w.g.urg.getSensor cmd).rmax)
    (h1 : _SAvg (w.setSensor cmd ((w.g.urg.getSensor cmd).calStart range)) cmd 0
      = some (L, w2))
    (h2 : _SAvg (w2.setSensor cmd ({ w2.g.urg.getSensor cmd with off := L } : SENSOR_s).zeroed)
        cmd (w.g.urg.getSensor cmd).rmax = some (H, w4))
    (hgain : Int.tdiv (toInt32 (H - L)) (w.g.urg.getSensor cmd).rmax ≠ 0)
    (hmin : ¬ (toInt32 (range.val - range.min) = -2147483648
      ∧ Int.tdiv (toInt32 (H - L)) (w.g.urg.getSensor cmd).rmax = -1))
    (h3 : _SAvg (w4.setSensor cmd ({ w4.g.urg.getSensor cmd with
          gain := Int.tdiv (toInt32 (H - L)) (w.g.urg.getSensor cmd).rmax } : SENSOR_s).zeroed)
        cmd (setpoint range (Int.tdiv (toInt32 (H - L)) (w.g.urg.getSensor cmd).rmax))
      = some (S, w6)) :
    ∃ w7, _SCal w cmd range = some ((0 : Int), w7)
      ∧ (w7.g.urg.getSensor cmd).off = L
      ∧ (w7.g.urg.getSensor cmd).gain
          = Int.tdiv (toInt32 (H - L)) (w.g.urg.getSensor cmd).rmax
      ∧ (inInt32 (H - L) = true → (w7.g.urg.getSensor cmd).gain
          = Int.tdiv (H - L) (w.g.urg.getSensor cmd).rmax)
      ∧ (∃ more, w6.sent = w4.sent ++ _Load w.io.msgfmt TID_D2A cmd
          [(setpoint range (w7.g.urg.getSensor cmd).gain >>> 8) &&& 0xFF,
            setpoint range (w7.g.urg.getSensor cmd).gain &&& 0xFF] :: more)
      ∧ (w7.g.urg.getSensor cmd).sys = S
      ∧ (w7.g.urg.getSensor cmd).ref = range.val
      ∧ (w7.g.urg.getSensor cmd).npts = 0
      ∧ (w7.g.urg.getSensor cmd).sum = 0
      ∧ w7.sent = w6.sent ∧ w7.env = w6.env := by
  have hg : ∀ (v : Sys) (x : SENSOR_s), (v.setSensor cmd x).g.urg.getSensor cmd = x :=
    fun v x => getSensor_setSensor _ _ _ hix
  have h0 : (0 : Nat) < 65536 := by decide
  obtain ⟨_, b2, c2, _, f2, _, _⟩ := _SAvg_keeps _ cmd 0 L w2 h1
    (bounded_setSensor w cmd _ hb hix h0)
  have c2' := c2 cmd hix
  rw [hg] at c2'
  have hr2 : (w2.g.urg.getSensor cmd).rmax = (w.g.urg.getSensor cmd).rmax :=
    congrArg (fun c => c.2.2.1) c2'
  obtain ⟨_, b4, c4, _, f4, _, _⟩ := _SAvg_keeps _ cmd _ H w4 h2
    (bounded_setSensor w2 cmd _ b2 hix h0)
  have c4' := c4 cmd hix
  rw [hg] at c4'
  have hr4 : (w4.g.urg.getSensor cmd).rmax = (w.g.urg.getSensor cmd).rmax :=
    (congrArg (fun c => c.2.2.1) c4').trans hr2
  have ho4 : (w4.g.urg.getSensor cmd).off = L := congrArg (fun c => c.2.1) c4'
  obtain ⟨_, _, c6, _, _, _, more, s6⟩ := _SAvg_keeps _ cmd _ S w6 h3
    (bounded_setSensor w4 cmd _ b4 hix h0)
  have c6' := c6 cmd hix
  rw [hg] at c6'
  have hg6 : (w6.g.urg.getSensor cmd).gain
      = Int.tdiv (toInt32 (H - L)) (w.g.urg.getSensor cmd).rmax :=
    congrArg (fun c => c.1) c6'
  have ho6 : (w6.g.urg.getSensor cmd).off = L := (congrArg (fun c => c.2.1) c6').trans ho4
  have hfmt : (w4.setSensor cmd ({ w4.g.urg.getSensor cmd with
      gain := Int.tdiv (toInt32 (H - L)) (w.g.urg.getSensor cmd).rmax } : SENSOR_s).zeroed
      ).io.msgfmt = w.io.msgfmt := f4.trans f2
  have hs4 : (w4.setSensor cmd ({ w4.g.urg.getSensor cmd with
      gain := Int.tdiv (toInt32 (H - L)) (w.g.urg.getSensor cmd).rmax } : SENSOR_s).zeroed
      ).sent = w4.sent := rfl
  rw [hfmt, hs4] at s6
  refine ⟨_, _SCal_steps w cmd range L H S w2 w4 w6 hix hrmax hr2 hr4 h1 h2 hgain hmin h3,
    ?_, ?_, ?_, ?_, ?_, ?_, ?_, ?_, rfl, rfl⟩
  · rw [hg]; exact ho6
  · rw [hg]; exact hg6
  · intro hfit
    rw [hg]
    rw [toInt32_of_fits _ hfit] at hg6
    exact hg6
  · refine ⟨more, ?_⟩
    rw [hg]
    have e : (({ w6.g.urg.getSensor cmd with sys := S, ref := range.val } : SENSOR_s).zeroed).gain
        = Int.tdiv (toInt32 (H - L)) (w.g.urg.getSensor cmd).rmax := hg6
    rw [e]
    exact s6
  · rw [hg]; rfl
  · rw [hg]; rfl
  · rw [hg]; rfl
  · rw [hg]; rfl

/-- Claim C29 (amended). Calibration scenario. On the controller in format 1, against an
ideal device (the reply to each analog-out request and each of the five analog-in replies
that follow carry exactly the raw value last written), for every sensor index below 8 whose
record has raw maximum `0 < rmax`, and every range with `range.max - range.min ≥ rmax` (so
that the fixed-point gain is not 0) and five times `range.min` and five times `range.max` in
the signed 32-bit range: `_SCal` returns 0 and leaves offset = `range.min` and gain =
`(range.max - range.min) / rmax`, the quotient of the fixed-point integers truncated toward
zero, after 18 frames and with all the replies consumed. -/
theorem calibration_scenario (w : Sys) (cmd : Nat) (range : RANGE_s)
    (E1 E2 E3 rest : List Exchange) (hrole : w.io.role = "nuc") (hfmt : w.io.msgfmt = 1)
    (hix : cmd < 8) (hrmax : 0 < (w.g.urg.getSensor cmd).rmax)
    (hr16 : (w.g.urg.getSensor cmd).rmax < 65536)
    (hwide : ((w.g.urg.getSensor cmd).rmax : Int) ≤ range.max - range.min)
    (hlo : -2147483648 ≤ 5 * range.min) (hhi : 5 * range.max ≤ 2147483647)
    (henv : w.env = E1 ++ (E2 ++ (E3 ++ rest)))
    (h1 : idealFor cmd 0 E1) (h2 : idealFor cmd (w.g.urg.getSensor cmd).rmax E2)
    (h3 : idealFor cmd
      (setpoint range (Int.tdiv (range.max - range.min) (w.g.urg.getSensor cmd).rmax)) E3) :
    ∃ w7, _SCal w cmd range = some ((0 : Int), w7)
      ∧ (w7.g.urg.getSensor cmd).off = range.min
      ∧ (w7.g.urg.getSensor cmd).gain
          = Int.tdiv (range.max - range.min) (w.g.urg.getSensor cmd).rmax
      ∧ w7.env = rest ∧ w7.sent.length = w.sent.length + 18 := by
  obtain ⟨fpos, fle, fcancel⟩ := tdiv_fixed _ _ hrmax hwide
  obtain ⟨w2, w4, a1, a2, hr2, hr4, ho4, r4, m4, e4, s4⟩ := _SCal_ideal_low_high w cmd range
    E1 E2 (E3 ++ rest) hrole hfmt hix hrmax hr16 (by omega) hlo hhi henv h1 h2
  have hg1 : Int.tdiv (toInt32 (Int.tdiv (range.max - range.min) (w.g.urg.getSensor cmd).rmax
        * (w.g.urg.getSensor cmd).rmax + range.min - range.min)) (w.g.urg.getSensor cmd).rmax
      = Int.tdiv (range.max - range.min) (w.g.urg.getSensor cmd).rmax := by
    have hR0 : (0 : Int) ≤ ((w.g.urg.getSensor cmd).rmax : Int) := Int.ofNat_nonneg _
    have hP0 := mul_nonneg (le_of_lt fpos) hR0
    rw [add_sub_cancel_right, toInt32_id _ (by omega) (by omega), fcancel]
  have hg : ∀ (v : Sys) (x : SENSOR_s), (v.setSensor cmd x).g.urg.getSensor cmd = x :=
    fun v x => getSensor_setSensor _ _ _ hix
  obtain ⟨tvs, w6, _, a3, _, _, e6, s6, g6⟩ := _SAvg_ideal
    (w4.setSensor cmd ({ w4.g.urg.getSensor cmd with
      gain := Int.tdiv (range.max - range.min) (w.g.urg.getSensor cmd).rmax } : SENSOR_s).zeroed)
    cmd (setpoint range (Int.tdiv (range.max - range.min) (w.g.urg.getSensor cmd).rmax))
    E3 rest r4 m4 hix (setpoint_lt _ _) e4 h3 (by rw [hg]; show (0 : Nat) + 5 < 65536; omega)
  rw [hg] at g6
  have hc6 := (samples_fields _ _ _).1.symm.trans (congrArg SENSOR_s.cal g6).symm
  have hs := _SCal_steps w cmd range range.min _ _ w2 w4 w6 hix hrmax hr2 hr4 a1 a2
    (by rw [hg1]; exact ne_of_gt fpos) (by rw [hg1]; omega) (by rw [hg1]; exact a3)
  refine ⟨_, hs, ?_, ?_, e6, ?_⟩
  · rw [hg]
    exact ((congrArg (fun c => c.2.1) hc6).symm.trans ho4)
  · rw [hg]
    exact (congrArg (fun c => c.1) hc6).symm
  · show w6.sent.length = _
    rw [s6]
    show (w4.sent ++ _).length = _
    rw [List.length_append, s4]
    simp only [List.length_cons, List.length_replicate]

theorem calibration_scenario_witness :
    ∃ w7, _SCal (controller (idealReplies CMD_ambient 0
          ++ (idealReplies CMD_ambient 1023 ++ (idealReplies CMD_ambient 780 ++ []))))
        CMD_ambient _temperature_celsius = some ((0 : Int), w7)
      ∧ (w7.g.urg.getSensor CMD_ambient).off = -400000
      ∧ (w7.g.urg.getSensor CMD_ambient).gain = 782
      ∧ w7.env = [] ∧ w7.sent.length = 18 :=
  calibration_scenario
    (controller (idealReplies CMD_ambient 0
      ++ (idealReplies CMD_ambient 1023 ++ (idealReplies CMD_ambient 780 ++ []))))
    CMD_ambient _temperature_celsius (idealReplies CMD_ambient 0)
    (idealReplies CMD_ambient 1023) (idealReplies CMD_ambient 780) [] rfl rfl (by decide)
    (by decide) (by decide) (by decide) (by decide) (by decide) rfl
    (idealFor_idealReplies CMD_ambient 0) (idealFor_idealReplies CMD_ambient 1023)
    (idealFor_idealReplies CMD_ambient 780)

/-- Claim C29 (counterexample). The ambient sensor of the initial device model has raw
maximum 0x3FF, and the range 0.0 .. 0.1 (fixed-point 0 .. 1000) has max > min. Against an
ideal device the low and the high point are both 0, the gain `(1000 - 0) / 1023` is 0 in
`int32_t`, and the setpoint `(range.val - range.min) / gain` divides by zero: the call of
`_SCal` has no defined result, whatever replies would follow, so it leaves no offset and no
gain. -/
theorem calibration_narrow_range :
    idealFor CMD_ambient 0 (idealReplies CMD_ambient 0)
    ∧ idealFor CMD_ambient 1023 (idealReplies CMD_ambient 1023)
    ∧ ((controller []).g.urg.getSensor CMD_ambient).rmax = 1023
    ∧ (0 : Int) < 1000
    ∧ Int.tdiv (1000 - 0) 1023 = 0
    ∧ cdiv (toInt32 (500 - 0)) 0 = none
    ∧ ∀ rest, _SCal (controller (idealReplies CMD_ambient 0
          ++ (idealReplies CMD_ambient 1023 ++ rest))) CMD_ambient
        { min := 0, val := 500, max := 1000, units := UNITS_CELSIUS, npts := 0 } = none := by
  refine ⟨idealFor_idealReplies _ _, idealFor_idealReplies _ _, rfl, by decide, by decide,
    rfl, fun rest => ?_⟩
  have h0 : 0 < ((controller (idealReplies CMD_ambient 0
      ++ (idealReplies CMD_ambient 1023 ++ rest))).g.urg.getSensor CMD_ambient).rmax := by
    show (0 : Nat) < 1023
    decide
  have h16 : ((controller (idealReplies CMD_ambient 0
      ++ (idealReplies CMD_ambient 1023 ++ rest))).g.urg.getSensor CMD_ambient).rmax
      < 65536 := by
    show (1023 : Nat) < 65536
    decide
  obtain ⟨w2, w4, a1, a2, hr2, hr4, _⟩ := _SCal_ideal_low_high
    (controller (idealReplies CMD_ambient 0 ++ (idealReplies CMD_ambient 1023 ++ rest)))
    CMD_ambient { min := 0, val := 500, max := 1000, units := UNITS_CELSIUS, npts := 0 }
    (idealReplies CMD_ambient 0) (idealReplies CMD_ambient 1023) rest rfl rfl (by decide)
    h0 h16 (by decide) (by decide) (by decide) rfl
    (idealFor_idealReplies _ _) (idealFor_idealReplies _ _)
  exact _SCal_zero_gain _ CMD_ambient _ _ _ w2 w4 (by decide) h0 hr2 hr4 a1 a2 (by
    show Int.tdiv (toInt32 (Int.tdiv (1000 - 0) ((1023 : Nat) : Int) * ((1023 : Nat) : Int)
      + 0 - 0)) ((1023 : Nat) : Int) = 0
    decide)

theorem calibration_result_witness :
    ∃ w7, _SCal (controller (idealReplies CMD_ambient 0
          ++ (idealReplies CMD_ambient 1023 ++ (idealReplies CMD_ambient 780 ++ []))))
        CMD_ambient _temperature_celsius = some ((0 : Int), w7)
      ∧ (w7.g.urg.getSensor CMD_ambient).off = -400000
      ∧ (w7.g.urg.getSensor CMD_ambient).gain = 782
      ∧ (w7.g.urg.getSensor CMD_ambient).sys = 209960
      ∧ (w7.g.urg.getSensor CMD_ambient).ref = 210000
      ∧ (w7.g.urg.getSensor CMD_ambient).npts = 0
      ∧ (w7.g.urg.getSensor CMD_ambient).sum = 0 := by
  obtain ⟨w2, w4, a1, a2, hr2, hr4, ho4, r4, m4, e4, _⟩ := _SCal_ideal_low_high
    (controller (idealReplies CMD_ambient 0
      ++ (idealReplies CMD_ambient 1023 ++ (idealReplies CMD_ambient 780 ++ []))))
    CMD_ambient _temperature_celsius (idealReplies CMD_ambient 0)
    (idealReplies CMD_ambient 1023) (idealReplies CMD_ambient 780 ++ []) rfl rfl (by decide)
    (by decide) (by decide) (by decide) (by decide) (by decide) rfl
    (idealFor_idealReplies _ _) (idealFor_idealReplies _ _)
  obtain ⟨w6, a3, _⟩ := _SAvg_ideal_set w4 CMD_ambient 780
    ({ w4.g.urg.getSensor CMD_ambient with gain := 782 } : SENSOR_s).zeroed
    (idealReplies CMD_ambient 780) [] r4 m4 (by decide) (by decide) e4
    (idealFor_idealReplies _ _) rfl rfl 209960 (by
      show toInt32 (toInt32 (782 * ((780 : Nat) : Int))
        + (w4.g.urg.getSensor CMD_ambient).off) = 209960
      rw [ho4]
      decide) (by decide) (by decide)
  obtain ⟨w7, h, o, g, _, _, sy, rf, np, sm, _, _⟩ := calibration_result
    (controller (idealReplies CMD_ambient 0
      ++ (idealReplies CMD_ambient 1023 ++ (idealReplies CMD_ambient 780 ++ []))))
    CMD_ambient _temperature_celsius (-400000) 399986 209960 w2 w4 w6 (by decide)
    bounded_init (by decide) a1 a2 (by decide) (by decide) a3
  exact ⟨w7, h, o, g, sy, rf, np, sm⟩

/-- Claim C30 (failing input). The controller calibrates the ambient sensor; the first
command of `_SCal`, the analog-out request of the first measurement, gets four replies
with a wrong frame check and `_Command` returns the permanent failure -1 after four frames.
`_SAvg` assigns the code to `rc` and never tests it, and `_SCal` ends in `rc = 0`: with the
other requests answered by an ideal device, `_SCal` goes on to send the seventeen
remaining requests (21 frames in all), consumes every reply and returns 0. -/
theorem calibration_ignores_failure :
    (_Command (controller (List.replicate 4 (replyOf [3, 68, 1, 230, 217])))
        TID_D2A CMD_ambient [0, 0]).map (fun r => (r.1, r.2.1, r.2.2.sent.length))
      = some ((-1 : Int), none, 4)
    ∧ (_SCal (controller (List.replicate 4 (replyOf [3, 68, 1, 230, 217])
          ++ (idealReplies CMD_ambient 0).tail ++ idealReplies CMD_ambient 1023
          ++ idealReplies CMD_ambient 780)) CMD_ambient _temperature_celsius).map
        (fun r => (r.1, r.2.sent.length, r.2.env.length)) = some ((0 : Int), 21, 0) := by
  constructor
  · decide
  · decide

/-- Claim C31. End-to-end quit. In format 1 and in format 2, when the controller executes
`_Command(io, 'G', 'q', NULL, 0, ..)` against a responder over a lossless channel (the
responder's `io->Chk` delivers the frame the controller hands to `io->Set`, and the
controller's `io->Chk` delivers the frame the responder sends), the responder decodes the
request (target `'G'`, command `'q'`), sets `exit_request`, replies with the frame
`_Load('G', 'q', no payload)` and `_Child` returns 0 after that one pass; the controller
decodes that reply, sets its own `exit_request`, and `_Command` returns 0 after one send,
with the retry counter 0. -/
theorem quit_end_to_end (fmt : Int) (c r : Sys) (eR eC : Exchange)
    (restR restC : List Exchange) (hfmt : fmt = 1 ∨ fmt = 2) (hc : c.io.msgfmt = fmt)
    (hr : r.io.msgfmt = fmt) (hrenv : r.env = eR :: restR) (hcenv : c.env = eC :: restC)
    (hrc : 0 ≤ eR.chk.rc)
    (hreq : eR.delivers (_Load c.io.msgfmt TID_GLOBAL CMD_QUIT []))
    (hrep : ∀ r1 f, _Child r = some ((0 : Int), r1) → r1.sent = r.sent ++ [f] →
      eC.delivers f) :
    ∃ r1 c1, _Child r = some ((0 : Int), r1)
      ∧ r1.io.tid = TID_GLOBAL ∧ r1.io.cmd = CMD_QUIT ∧ r1.g.exit_request = 1
      ∧ r1.sent = r.sent ++ [_Load fmt TID_GLOBAL CMD_QUIT []] ∧ r1.env = restR
      ∧ _Command c TID_GLOBAL CMD_QUIT [] = some ((0 : Int), some 0xffff, c1)
      ∧ c1.io.tid = TID_GLOBAL ∧ c1.io.cmd = CMD_QUIT ∧ c1.g.exit_request = 1
      ∧ c1.sent = c.sent ++ [_Load fmt TID_GLOBAL CMD_QUIT []] ∧ c1.env = restC
      ∧ c1.io.nretry = 0 := by
  have hnil : ∀ x ∈ ([] : List Nat), x < 256 := fun x hx => absurd hx (List.not_mem_nil x)
  rw [hc] at hreq
  have hdR := decodes_of_delivers eR fmt TID_GLOBAL CMD_QUIT [] hfmt (by decide) (by decide)
    hnil (by decide) hreq
  rw [payloadValue_nil, ← hr] at hdR
  obtain ⟨r1, hch, t1, t2, t3, _, t5, t6⟩ := childLoop_quit r.io r.g r.sent eR restR hrc hdR
  have hchild : _Child r = some ((0 : Int), r1) := by
    unfold _Child
    rw [hrenv]
    exact hch
  rw [hr] at t5
  have hdel := hrep r1 _ hchild t5
  have hdC := decodes_of_delivers eC fmt TID_GLOBAL CMD_QUIT [] hfmt (by decide) (by decide)
    hnil (by decide) hdel
  rw [payloadValue_nil, ← hc] at hdC
  obtain ⟨c1, hcmd, u1, u2, u3, _, u5, u6, u7⟩ :=
    _Command_quit c TID_GLOBAL CMD_QUIT [] eC restC hcenv hdC
  rw [hc] at u5
  exact ⟨r1, c1, hchild, t1, t2, t3, t5, t6, hcmd, u1, u2, u3, u5, u6, u7⟩

theorem quit_end_to_end_witness :
    ∃ r1 c1, _Child (responder [replyOf (frame1 TID_GLOBAL CMD_QUIT [])])
          = some ((0 : Int), r1)
      ∧ r1.io.tid = TID_GLOBAL ∧ r1.io.cmd = CMD_QUIT ∧ r1.g.exit_request = 1
      ∧ r1.sent = [] ++ [_Load 1 TID_GLOBAL CMD_QUIT []] ∧ r1.env = []
      ∧ _Command (controller [replyOf (frame1 TID_GLOBAL CMD_QUIT [])]) TID_GLOBAL CMD_QUIT []
          = some ((0 : Int), some 0xffff, c1)
      ∧ c1.io.tid = TID_GLOBAL ∧ c1.io.cmd = CMD_QUIT ∧ c1.g.exit_request = 1
      ∧ c1.sent = [] ++ [_Load 1 TID_GLOBAL CMD_QUIT []] ∧ c1.env = []
      ∧ c1.io.nretry = 0 :=
  quit_end_to_end 1 (controller [replyOf (frame1 TID_GLOBAL CMD_QUIT [])])
    (responder [replyOf (frame1 TID_GLOBAL CMD_QUIT [])])
    (replyOf (frame1 TID_GLOBAL CMD_QUIT [])) (replyOf (frame1 TID_GLOBAL CMD_QUIT [])) [] []
    (Or.inl rfl) rfl rfl rfl rfl (by decide)
    ⟨frame1 TID_GLOBAL CMD_QUIT [], by decide, fun _ => 0, rfl⟩
    (fun r1 f h hs => by
      have h2 : (_Child (responder [replyOf (frame1 TID_GLOBAL CMD_QUIT [])])).map
          (fun x => x.2.sent) = some [some (frame1 TID_GLOBAL CMD_QUIT [])] := by decide
      rw [h, Option.map_some'] at h2
      have h3 : r1.sent = [some (frame1 TID_GLOBAL CMD_QUIT [])] := Option.some.inj h2
      rw [h3] at hs
      have h4 : f = some (frame1 TID_GLOBAL CMD_QUIT []) := by
        have := List.cons.inj hs
        exact this.1.symm
      rw [h4]
      exact ⟨_, rfl, fun _ => 0, rfl⟩)

/-- Claim C32. End-to-end analog-out write. In format 1 and in format 2, for every index
`i < 32` and every 16-bit value `v`, when the controller executes
`_Command(io, 'D', i, big-endian v, 2, ..)` against a responder over a lossless channel,
the responder decodes the request, its analog entry `i` becomes `v` (the other entries are
as before), the reply it builds is the frame `_Load('D', i, big-endian v)`, and the
controller's `_Command` returns 0 with the value `v` after one send, with the retry counter
0. -/
theorem analog_out_end_to_end (fmt : Int) (c : Sys) (rio : IO_s) (rg : Globals)
    (eR eC : Exchange) (restC : List Exchange) (i v : Nat) (hfmt : fmt = 1 ∨ fmt = 2)
    (hc : c.io.msgfmt = fmt) (hr : rio.msgfmt = fmt) (hi : i < 32) (hv : v < 65536)
    (hcenv : c.env = eC :: restC)
    (hreq : eR.delivers (_Load c.io.msgfmt TID_D2A i (bigEndian v)))
    (hrep : ∀ iov reply io1 g1, eR.chk.riov = some iov →
      _Child_body rio rg eR.rnd iov = some (reply, io1, g1) → eC.delivers reply) :
    ∃ iov rio1 c1, eR.chk.riov = some iov
      ∧ _Child_body rio rg eR.rnd iov = some (_Load fmt TID_D2A i (bigEndian v), rio1, rg)
      ∧ rio1.ADvals i = v ∧ (∀ j, j ≠ i → rio1.ADvals j = rio.ADvals j)
      ∧ _Command c TID_D2A i (bigEndian v) = some ((0 : Int), some v, c1)
      ∧ c1.sent = c.sent ++ [_Load fmt TID_D2A i (bigEndian v)] ∧ c1.env = restC
      ∧ c1.io.nretry = 0 := by
  rw [hc] at hreq
  have hdR := decodes_of_delivers eR fmt TID_D2A i (bigEndian v) hfmt (by decide) (by omega)
    (bigEndian_lt v) (by simp [bigEndian]) hreq
  rw [payloadValue_bigEndian v hv] at hdR
  obtain ⟨iov, hiov, hp⟩ := hdR
  obtain ⟨rio1, hb, _, _, hA⟩ := _Child_body_D2A_write rio rg eR.rnd iov i v hi (hp rio hr)
  rw [hr] at hb
  have hdel := hrep iov _ _ _ hiov hb
  have hdC := decodes_of_delivers eC fmt TID_D2A i (bigEndian v) hfmt (by decide) (by omega)
    (bigEndian_lt v) (by simp [bigEndian]) hdel
  rw [payloadValue_bigEndian v hv, ← hc] at hdC
  obtain ⟨c1, hcmd, _, _, _, _, u5, u6, u7⟩ :=
    _Command_D2A_decoded c TID_D2A i (bigEndian v) eC restC i (some v) hcenv hi hdC
  rw [hc] at u5
  refine ⟨iov, rio1, c1, hiov, hb, ?_, ?_, hcmd, u5, u6, u7⟩
  · rw [hA, Function.update_same]
  · intro j hj
    rw [hA, Function.update_noteq hj]

theorem analog_out_end_to_end_witness :
    ∃ iov rio1 c1, (replyOf (frame1 TID_D2A 1 (bigEndian 0x0550))).chk.riov = some iov
      ∧ _Child_body { newIO with role := "avr" } initGlobals 0 iov
          = some (_Load 1 TID_D2A 1 (bigEndian 0x0550), rio1, initGlobals)
      ∧ rio1.ADvals 1 = 0x0550
      ∧ (∀ j, j ≠ 1 → rio1.ADvals j = ({ newIO with role := "avr" } : IO_s).ADvals j)
      ∧ _Command (controller [replyOf (frame1 TID_D2A 1 (bigEndian 0x0550))]) TID_D2A 1
          (bigEndian 0x0550) = some ((0 : Int), some 0x0550, c1)
      ∧ c1.sent = [] ++ [_Load 1 TID_D2A 1 (bigEndian 0x0550)] ∧ c1.env = []
      ∧ c1.io.nretry = 0 :=
  analog_out_end_to_end 1 (controller [replyOf (frame1 TID_D2A 1 (bigEndian 0x0550))])
    { newIO with role := "avr" } initGlobals (replyOf (frame1 TID_D2A 1 (bigEndian 0x0550)))
    (replyOf (frame1 TID_D2A 1 (bigEndian 0x0550))) [] 1 0x0550 (Or.inl rfl) rfl rfl
    (by decide) (by decide) rfl
    ⟨frame1 TID_D2A 1 (bigEndian 0x0550), by decide, fun _ => 0, rfl⟩
    (fun iov reply io1 g1 hiov hb => by
      have e : iovOf (fun _ => 0) (frame1 TID_D2A 1 (bigEndian 0x0550)) = iov :=
        Option.some.inj hiov
      rw [← e] at hb
      have h2 : (_Child_body { newIO with role := "avr" } initGlobals 0
          (iovOf (fun _ => 0) (frame1 TID_D2A 1 (bigEndian 0x0550)))).map (fun x => x.1)
          = some (some (frame1 TID_D2A 1 (bigEndian 0x0550))) := by decide
      have h3 : (_Child_body { newIO with role := "avr" } initGlobals 0
          (iovOf (fun _ => 0) (frame1 TID_D2A 1 (bigEndian 0x0550)))).map (fun x => x.1)
          = some reply := by
        have hrnd : (replyOf (frame1 TID_D2A 1 (bigEndian 0x0550))).rnd = 0 := rfl
        rw [hrnd] at hb
        rw [hb, Option.map_some']
      rw [h2] at h3
      rw [← Option.some.inj h3]
      exact ⟨_, rfl, fun _ => 0, rfl⟩)

/-- Claim C33 (failing input). The device's stepper position is 5 and the controller's is 0.
The controller executes a stepper read (index 0, no payload) in format 1 and in format 2;
the responder decodes the request and replies with the frame carrying 5. The controller
decodes that reply as a stepper frame with a value, so its `_Process` adds 5 to its own
stepper position and sets no response value: `_Command` returns success with the value
0xFFFF left by `_Parse`, and the controller's stepper position is 5. -/
theorem stepper_read_end_to_end :
    _Load 1 TID_STEP 0 [] = some [3, 83, 0, 47, 200]
    ∧ (_Child_body { newIO with role := "avr", Spos := 5 } initGlobals 0
          (iovOf (fun _ => 0) [3, 83, 0, 47, 200])).map (fun r => (r.1, r.2.1.Spos))
        = some (some [5, 83, 0, 0, 5, 177, 170], 5)
    ∧ (controller [replyOf [5, 83, 0, 0, 5, 177, 170]]).io.Spos = 0
    ∧ (_Command (controller [replyOf [5, 83, 0, 0, 5, 177, 170]]) TID_STEP 0 []).map
          (fun c => (c.1, c.2.1, c.2.2.io.Spos, c.2.2.sent.length, c.2.2.io.nretry))
        = some ((0 : Int), some 65535, 5, 1, (0 : Int))
    ∧ _Load 2 TID_STEP 0 [] = some [126, 3, 83, 0, 47, 200, 126]
    ∧ (_Child_body { newIO with role := "avr", msgfmt := 2, Spos := 5 } initGlobals 0
          (iovOf (fun _ => 0) [126, 3, 83, 0, 47, 200, 126])).map (fun r => (r.1, r.2.1.Spos))
        = some (some [126, 5, 83, 0, 0, 5, 177, 170, 126], 5)
    ∧ (_Command { io := { newIO with role := "nuc", msgfmt := 2 }, g := initGlobals, sent := [],
                  env := [replyOf [126, 5, 83, 0, 0, 5, 177, 170, 126]] } TID_STEP 0 []).map
          (fun c => (c.1, c.2.1, c.2.2.io.Spos, c.2.2.io.nretry))
        = some ((0 : Int), some 65535, 5, (0 : Int)) := by
  refine ⟨by decide, by decide, rfl, by decide, by decide, by decide, by decide⟩

/-- Claim C34 (counterexample). The barometer record of the initial controller (index 5) has
sample count 0, sum 0, gain 344200 and offset -16570000. `_SAvg(io, 5, 4095)` against an
ideal device: all six commands succeed on the first attempt (six frames, six replies), the
five reply values are 4095 and the count is 5 afterwards. Each scaled value is 1392929000,
so the sum of the five leaves `int32_t`: the value returned is -325057918, not
`(5 × 1392929000) / 5 = 1392929000`. -/
theorem measurement_substep_overflow :
    ((initGlobals.urg.getSensor 5).npts, (initGlobals.urg.getSensor 5).sum,
        (initGlobals.urg.getSensor 5).gain, (initGlobals.urg.getSensor 5).off)
      = (0, 0, 344200, -16570000)
    ∧ (_SAvg (controller (idealReplies 5 4095)) 5 4095).map
        (fun r => (r.1, (r.2.g.urg.getSensor 5).npts, r.2.sent.length, r.2.env.length))
      = some ((-325057918 : Int), 5, 6, 0)
    ∧ Int.tdiv (([4095, 4095, 4095, 4095, 4095] : List Nat).map
        (scaled 344200 (-16570000))).sum 5 = 1392929000 := by
  refine ⟨by decide, by decide, by decide⟩

/-- Claim C34 (amended). Measurement sub-step. On the controller, for a sensor index below 8
whose sample count and sum are 0, if the reply to the analog-out request decodes (in the
channel's format) to an analog-out frame at that index and the five replies that follow
decode to analog-in frames at that index with the values `rs` (so that all six commands
succeed on their first attempt), and every product `gain × r`, every scaled value
`gain × r + offset` and every partial sum of the scaled values is a value of `int32_t`, then
`_SAvg(io, cmd, val)` sends exactly the analog-out request with `val` followed by five
analog-in requests at that index, consumes the six replies, leaves the sample count at 5,
and returns `(the sum over the five values r of gain × r + offset) / 5` (quotient truncated
toward zero), whatever average the record held before. -/
theorem measurement_substep (fmt : Int) (w : Sys) (cmd val : Nat) (eD : Exchange)
    (es : List Exchange) (rs : List Nat) (rest : List Exchange) (vD : Option Nat)
    (hrole : w.io.role = "nuc") (hfmt : w.io.msgfmt = fmt) (hcmd : cmd < 8)
    (hn : (w.g.urg.getSensor cmd).npts = 0) (hs : (w.g.urg.getSensor cmd).sum = 0)
    (henv : w.env = eD :: (es ++ rest)) (hD : eD.decodes fmt TID_D2A cmd vD)
    (hr : List.Forall₂ (fun e r => e.decodes fmt TID_A2D cmd (some r)) es rs)
    (hlen : es.length = 5)
    (hfit : fitsInt32 (w.g.urg.getSensor cmd).gain (w.g.urg.getSensor cmd).off 0 rs = true) :
    ∃ w1, _SAvg w cmd val
        = some (Int.tdiv (rs.map (scaled (w.g.urg.getSensor cmd).gain
            (w.g.urg.getSensor cmd).off)).sum 5, w1)
      ∧ w1.sent = w.sent ++ (_Load fmt TID_D2A cmd [(val >>> 8) &&& 0xFF, val &&& 0xFF]
          :: List.replicate 5 (_Load fmt TID_A2D cmd []))
      ∧ w1.env = rest
      ∧ (w1.g.urg.getSensor cmd).npts = 5 := by
  obtain ⟨xs, w1, hxs, a1, _, _, e1, s1, g1⟩ := _SAvg_decoded fmt w cmd val eD es rs rest cmd vD
    hrole hfmt hcmd (by omega) henv hD hr hlen (by rw [hn]; decide)
  have hl : xs.length = 5 := by
    have := congrArg List.length hxs
    rw [List.length_map, ← hr.length_eq, hlen] at this
    exact this
  have hne : xs ≠ [] := by
    intro h
    rw [h] at hl
    exact absurd hl (by decide)
  obtain ⟨_, i2⟩ := sampleList_exact (w.g.urg.getSensor cmd) xs (by rw [hs, hxs]; exact hfit)
  rw [i2 hne, hs, hn, hl, hxs, zero_add] at a1
  refine ⟨w1, a1, s1, e1, ?_⟩
  rw [g1, (sampleList_fields _ xs).2, hn, hl]

theorem measurement_substep_witness :
    ∃ w1, _SAvg (controller (idealReplies 1 780)) 1 780
        = some (Int.tdiv ((List.replicate 5 780).map
            (scaled ((controller (idealReplies 1 780)).g.urg.getSensor 1).gain
              ((controller (idealReplies 1 780)).g.urg.getSensor 1).off)).sum 5, w1)
      ∧ w1.sent = [] ++ (_Load 1 TID_D2A 1 [(780 >>> 8) &&& 0xFF, 780 &&& 0xFF]
          :: List.replicate 5 (_Load 1 TID_A2D 1 []))
      ∧ w1.env = []
      ∧ (w1.g.urg.getSensor 1).npts = 5 :=
  measurement_substep 1 (controller (idealReplies 1 780)) 1 780
    (replyOf (frame1 TID_D2A 1 (bigEndian 780)))
    (List.replicate 5 (replyOf (frame1 TID_A2D 1 (bigEndian 780))))
    (List.replicate 5 780) [] (some 780) rfl rfl (by decide) rfl rfl rfl
    (by
      have h := decodes_replyOf TID_D2A 1 (bigEndian 780) (by decide) (by decide)
        (bigEndian_lt 780) (by decide)
      rw [payloadValue_bigEndian 780 (by decide)] at h
      exact h)
    (forall2_replicate _ _ _ (by
      have h := decodes_replyOf TID_A2D 1 (bigEndian 780) (by decide) (by decide)
        (bigEndian_lt 780) (by decide)
      rw [payloadValue_bigEndian 780 (by decide)] at h
      exact h) 5)
    rfl (by decide)

/-- Claim C35 (failing input). A responder whose last decoded frame was a stepper frame at
index 1 receives a frame with a wrong frame check and replies with the negative acknowledge
`03 53 81` + CRC (target `'S'`, command `0x81`). The controller decodes that reply; its
`_Process` takes `case TID_STEP`, which looks at neither the index nor the
negative-acknowledge bit, and returns 0: `_Command` returns success on the first attempt
with the controller's own stepper position as value, and counts no retry. The stepper arm
returns 0 for every channel state. -/
theorem nak_stepper_seen_as_success :
    (_Child_body { newIO with role := "avr", tid := TID_STEP, cmd := 1 } initGlobals 0
          (iovOf (fun _ => 0) [3, 83, 1, 0, 0])).map (fun r => r.1)
        = some (_Load 1 TID_STEP 0x81 [])
    ∧ _Load 1 TID_STEP 0x81 [] = some (frame1 TID_STEP 0x81 [])
    ∧ outcome (_Parse (controller []).io (iovOf (fun _ => 0) (frame1 TID_STEP 0x81 [])))
        = ((0 : Int), TID_STEP, 0x81, false, 0xffff, false, 0xffff)
    ∧ (0x81 : Nat) &&& CMD_NAK = CMD_NAK
    ∧ (_Command (controller [replyOf (frame1 TID_STEP 0x81 [])]) TID_STEP 1 []).map
          (fun c => (c.1, c.2.1, c.2.2.sent.length, c.2.2.io.nretry, c.2.2.io.cmd))
        = some ((0 : Int), some 0, 1, (0 : Int), 0x81)
    ∧ ∀ (io : IO_s) (g : Globals) (rnd : Nat), io.tid = TID_STEP →
        ∃ io1, _Process io g rnd = some ((0 : Int), io1, g) := by
  refine ⟨by decide, by decide, by decide, by decide, by decide, fun io g rnd ht => ?_⟩
  exact ⟨_, _Process_STEP io g rnd ht⟩

/-- Claim C36 (failing input). In format 1 the three-byte buffer `01 1E 0E` is accepted: its
count byte is `nb - 2 = 1` and its last two bytes are the check of that one byte. `_Parse`
returns 0 with target id `0x1E` and command `0x0E`, which are the two check bytes. The
four-byte buffer `02 44 C7 28` is accepted in the same way. No call of `_Load` produces a
buffer of fewer than five bytes. -/
theorem short_buffer_accepted :
    outcome (_Parse newIO (iovOf (fun _ => 0) [1, 30, 14]))
        = ((0 : Int), 30, 14, false, 0xffff, false, 0xffff)
    ∧ ((pppfcs 0xffff [1] >>> 8) &&& 0xFF, pppfcs 0xffff [1] &&& 0xFF) = (30, 14)
    ∧ outcome (_Parse newIO (iovOf (fun _ => 0) [2, 68, 199, 40]))
        = ((0 : Int), 68, 199, false, 0xffff, false, 0xffff)
    ∧ ∀ (tid cmd : Nat) (s b : List Nat), _Load 1 tid cmd s = some b → 5 ≤ b.length := by
  refine ⟨by decide, by decide, by decide, fun tid cmd s b h => ?_⟩
  unfold _Load at h
  rw [if_neg (by decide : ¬ (1 : Int) = 0)] at h
  dsimp only at h
  split_ifs at h
  all_goals (cases h; simp)

/-- Claim C37. For every format selector other than 0, 1 and 2, every target id and command,
and every payload that is empty or two bytes long, `_Load` with that selector produces a
frame of `n + 5` bytes whose first byte is the count `n + 3` (no start flag is written,
because `_Load` tests `io->msgfmt == 2`), and `_Parse` with the same selector takes the arm
`default: case 2:`, finds no start flag and returns -1: the frame is rejected. -/
theorem unknown_format_rejects_own_frame (io : IO_s) (mem : Nat → Nat) (fmt : Int)
    (tid cmd : Nat) (s : List Nat) (h0 : fmt ≠ 0) (h1 : fmt ≠ 1) (h2 : fmt ≠ 2)
    (hfmt : io.msgfmt = fmt) (hs : s.length = 0 ∨ s.length = 2) :
    ∃ f, _Load fmt tid cmd s = some f ∧ f.length = s.length + 5
      ∧ f.getD 0 0 = s.length + 3 ∧ (_Parse io (iovOf mem f)).1 = -1 := by
  refine ⟨_, load_noflag_eq fmt tid cmd s h0 h2 (by omega), by simp, ?_, ?_⟩
  · rcases hs with h | h <;> rw [h] <;> rfl
  · have hne : ¬ ((s.length + 3) % 256 % 256 = TWIDDLE) := by
      rcases hs with h | h <;> rw [h] <;> decide
    unfold _Parse parseSwitch
    have e0 : ∀ iov : iovec, (parseEntry io iov).msgfmt = io.msgfmt := fun _ => rfl
    dsimp only
    rw [e0, hfmt, if_neg h0, if_neg h1]
    have hr : ∀ l m : List Nat,
        (parseEntry io (iovOf mem ((((s.length + 3) % 256) :: l) ++ m))).rdb 0
          = (s.length + 3) % 256 % 256 := by
      intro l m
      have h1 : (parseEntry io (iovOf mem ((((s.length + 3) % 256) :: l) ++ m))).rdb 0
          = (iovOf mem ((((s.length + 3) % 256) :: l) ++ m)).iov_base (0 % SIZE_MOD) % 256 :=
        rfl
      rw [h1, Nat.zero_mod]
      unfold iovOf
      dsimp only
      rw [if_pos (by simp)]
      rfl
    rw [hr, if_pos (fun hc => hne hc.1)]
    dsimp only
    rw [if_neg (by decide)]

theorem unknown_format_rejects_own_frame_witness :
    ∃ f, _Load 3 TID_D2A 1 [] = some f ∧ f.length = 0 + 5
      ∧ f.getD 0 0 = 0 + 3
      ∧ (_Parse { newIO with msgfmt := 3 } (iovOf (fun _ => 0) f)).1 = -1 :=
  unknown_format_rejects_own_frame { newIO with msgfmt := 3 } (fun _ => 0) 3 TID_D2A 1 []
    (by decide) (by decide) (by decide) rfl (Or.inl rfl)

/-- Claim C38. Processing failure changes nothing. For every channel state (every decoded
frame, every role) and every value of the file-scope variables, if `_Process` returns a
non-zero code then the code is -1 and the four register arrays, the stepper position, the 13
flags, every sensor record, the process-wide ambient temperature and pressure and
`exit_request` are the same as before the call; indeed the whole channel state and all the
file-scope variables are. -/
theorem process_failure_changes_nothing (io : IO_s) (g : Globals) (rnd : Nat) (rc : Int)
    (io' : IO_s) (g' : Globals) (h : _Process io g rnd = some (rc, io', g')) (hrc : rc ≠ 0) :
    rc = -1
      ∧ io'.ADvals = io.ADvals ∧ io'.Fvals = io.Fvals ∧ io'.Tvals = io.Tvals
      ∧ io'.Pvals = io.Pvals ∧ io'.Spos = io.Spos
      ∧ g'.urg.flags = g.urg.flags ∧ (∀ ix, g'.urg.getSensor ix = g.urg.getSensor ix)
      ∧ g'.urg.temp = g.urg.temp ∧ g'.urg.pres = g.urg.pres
      ∧ g'.exit_request = g.exit_request
      ∧ io' = io ∧ g' = g := by
  obtain ⟨h1, h2, h3⟩ := _Process_failure io g rnd rc io' g' h hrc
  subst h2
  subst h3
  exact ⟨h1, rfl, rfl, rfl, rfl, rfl, rfl, fun _ => rfl, rfl, rfl, rfl, rfl, rfl⟩

theorem process_failure_changes_nothing_witness :
    (-1 : Int) = -1
      ∧ ({ newIO with role := "avr", tid := TID_D2A, cmd := 32, valid := true, val := 7 }
          : IO_s).ADvals
        = ({ newIO with role := "avr", tid := TID_D2A, cmd := 32, valid := true, val := 7 }
          : IO_s).ADvals
      ∧ ({ newIO with role := "avr", tid := TID_D2A, cmd := 32, valid := true, val := 7 }
          : IO_s).Fvals
        = ({ newIO with role := "avr", tid := TID_D2A, cmd := 32, valid := true, val := 7 }
          : IO_s).Fvals
      ∧ ({ newIO with role := "avr", tid := TID_D2A, cmd := 32, valid := true, val := 7 }
          : IO_s).Tvals
        = ({ newIO with role := "avr", tid := TID_D2A, cmd := 32, valid := true, val := 7 }
          : IO_s).Tvals
      ∧ ({ newIO with role := "avr", tid := TID_D2A, cmd := 32, valid := true, val := 7 }
          : IO_s).Pvals
        = ({ newIO with role := "avr", tid := TID_D2A, cmd := 32, valid := true, val := 7 }
          : IO_s).Pvals
      ∧ ({ newIO with role := "avr", tid := TID_D2A, cmd := 32, valid := true, val := 7 }
          : IO_s).Spos
        = ({ newIO with role := "avr", tid := TID_D2A, cmd := 32, valid := true, val := 7 }
          : IO_s).Spos
      ∧ initGlobals.urg.flags = initGlobals.urg.flags
      ∧ (∀ ix, initGlobals.urg.getSensor ix = initGlobals.urg.getSensor ix)
      ∧ initGlobals.urg.temp = initGlobals.urg.temp
      ∧ initGlobals.urg.pres = initGlobals.urg.pres
      ∧ initGlobals.exit_request = initGlobals.exit_request
      ∧ ({ newIO with role := "avr", tid := TID_D2A, cmd := 32, valid := true, val := 7 }
          : IO_s)
        = { newIO with role := "avr", tid := TID_D2A, cmd := 32, valid := true, val := 7 }
      ∧ initGlobals = initGlobals :=
  process_failure_changes_nothing
    { newIO with role := "avr", tid := TID_D2A, cmd := 32, valid := true, val := 7 }
    initGlobals 0 (-1)
    { newIO with role := "avr", tid := TID_D2A, cmd := 32, valid := true, val := 7 }
    initGlobals
    (_Process_range _ _ _ (Or.inr (Or.inl rfl)) (by decide)) (by decide)

/-- Claim C39. Calibration stays defined under jitter. On the controller in format 1 or 2,
for a sensor index below 8 whose record has raw maximum 0x3FF and each of the two configured
ranges (`_temperature_celsius`, -40.0 .. 40.0, and `_barometer_torr`, 225 .. 825), against
the simulated device over a lossless channel (the responder in the role `"avr"` answers the
requests of the three measurements, whatever `random()` returns, so that every jitter draw
`random() % 5 - 2` is in -2 .. 2; the third measurement at any setpoint `sp`, in particular
the one that `_SCal` sends): `_SCal` returns 0, the gain it computes is strictly positive,
so the setpoint division `(range.val - range.min) / gain` is defined, and the resulting
offset satisfies `range.min ≤ offset ≤ range.min + 2 * g0` with
`g0 = (range.max - range.min) / 0x3FF`. The frames sent are those of the measurements at 0,
at 0x3FF and at the setpoint. -/
theorem calibration_under_jitter (fmt : Int) (w : Sys) (dev dev1 dev2 dev3 : IO_s)
    (dg dg1 dg2 dg3 : Globals) (cmd : Nat) (range : RANGE_s) (rnds1 rnds2 rnds3 : List Nat)
    (E1 E2 E3 rest : List Exchange) (sp : Nat) (hfmt : fmt = 1 ∨ fmt = 2)
    (hrole : w.io.role = "nuc") (hwf : w.io.msgfmt = fmt) (hdr : dev.role = "avr")
    (hdf : dev.msgfmt = fmt) (hcmd : cmd < 8) (hrmax : (w.g.urg.getSensor cmd).rmax = 0x3FF)
    (hrange : range = _temperature_celsius ∨ range = _barometer_torr) (hsp : sp < 65536)
    (henv : w.env = E1 ++ (E2 ++ (E3 ++ rest)))
    (h1 : answers dev dg rnds1 (measureReqs fmt cmd 0) E1 dev1 dg1)
    (h2 : answers dev1 dg1 rnds2 (measureReqs fmt cmd 0x3FF) E2 dev2 dg2)
    (h3 : answers dev2 dg2 rnds3 (measureReqs fmt cmd sp) E3 dev3 dg3) :
    ∃ w7, _SCal w cmd range = some ((0 : Int), w7)
      ∧ 0 < (w7.g.urg.getSensor cmd).gain
      ∧ (∃ q, cdiv (toInt32 (range.val - range.min)) (w7.g.urg.getSensor cmd).gain = some q)
      ∧ range.min ≤ (w7.g.urg.getSensor cmd).off
      ∧ (w7.g.urg.getSensor cmd).off ≤ range.min + 2 * Int.tdiv (range.max - range.min) 0x3FF
      ∧ w7.env = rest
      ∧ w7.sent = w.sent ++ measureReqs fmt cmd 0 ++ measureReqs fmt cmd 0x3FF
          ++ measureReqs fmt cmd (setpoint range (w7.g.urg.getSensor cmd).gain) := by
  have hc32 : cmd < 32 := by omega
  obtain ⟨eD1, es1, rs1, x1, l1, d1, f1, b1, r1, m1⟩ := answers_measure fmt cmd 0 hfmt hc32
    (by decide) dev dg rnds1 E1 dev1 dg1 hdr hdf h1
  obtain ⟨eD2, es2, rs2, x2, l2, d2, f2, b2, r2, m2⟩ := answers_measure fmt cmd 0x3FF hfmt hc32
    (by decide) dev1 dg1 rnds2 E2 dev2 dg2 r1 m1 h2
  obtain ⟨eD3, es3, rs3, x3, l3, d3, f3, _, _, _⟩ := answers_measure fmt cmd sp hfmt hc32
    hsp dev2 dg2 rnds3 E3 dev3 dg3 r2 m2 h3
  subst x1
  subst x2
  subst x3
  have hb1 : ∀ r ∈ rs1, r ≤ 2 := by
    intro r hr
    obtain ⟨rnd, hrnd⟩ := b1 r hr
    have := (deviceRead_near 0 rnd (by decide)).1
    omega
  have hb2 : ∀ r ∈ rs2, 1021 ≤ r ∧ r ≤ 1025 := by
    intro r hr
    obtain ⟨rnd, hrnd⟩ := b2 r hr
    have := deviceRead_near 0x3FF rnd (by decide)
    omega
  have hcore : ∀ g0 : Int,
      Int.tdiv (toInt32 (range.max - range.min)) ((1023 : Nat) : Int) = g0 → 2 ≤ g0 →
      -2147483648 ≤ 5 * range.min → 5 * (range.min + 1027 * g0) ≤ 2147483647 →
      Int.tdiv (range.max - range.min) 0x3FF = g0 →
      ∃ w7, _SCal w cmd range = some ((0 : Int), w7)
        ∧ 0 < (w7.g.urg.getSensor cmd).gain
        ∧ (∃ q, cdiv (toInt32 (range.val - range.min)) (w7.g.urg.getSensor cmd).gain = some q)
        ∧ range.min ≤ (w7.g.urg.getSensor cmd).off
        ∧ (w7.g.urg.getSensor cmd).off
            ≤ range.min + 2 * Int.tdiv (range.max - range.min) 0x3FF
        ∧ w7.env = rest
        ∧ w7.sent = w.sent ++ measureReqs fmt cmd 0 ++ measureReqs fmt cmd 0x3FF
            ++ measureReqs fmt cmd (setpoint range (w7.g.urg.getSensor cmd).gain) := by
    intro g0 e1 e2 e3 e4 e5
    obtain ⟨w7, c1, c2, c3, c4, c5, c6⟩ := _SCal_jitter_core fmt w cmd range g0 eD1 eD2 eD3
      es1 es2 es3 rest rs1 rs2 rs3 (some 0) (some 0x3FF) (some sp) hrole hwf hcmd hrmax e1 e2 e3
      e4 henv d1 f1 l1 hb1 d2 f2 l2 hb2 d3 f3 l3
    refine ⟨w7, c1, c2, ⟨_, cdiv_ok _ _ (by omega) (by omega)⟩, c3, ?_, c5, c6⟩
    rw [e5]
    exact c4
  rcases hrange with hrg | hrg
  · subst hrg
    exact hcore 782 (by decide) (by decide) (by decide) (by decide) (by decide)
  · subst hrg
    exact hcore 5865 (by decide) (by decide) (by decide) (by decide) (by decide)

theorem calibration_under_jitter_witness :
    ∃ w7, _SCal (controller (simRun1.1 ++ (simRun2.1 ++ (simRun3.1 ++ [])))) CMD_ambient
          _temperature_celsius = some ((0 : Int), w7)
      ∧ 0 < (w7.g.urg.getSensor CMD_ambient).gain
      ∧ (∃ q, cdiv (toInt32 (_temperature_celsius.val - _temperature_celsius.min))
          (w7.g.urg.getSensor CMD_ambient).gain = some q)
      ∧ _temperature_celsius.min ≤ (w7.g.urg.getSensor CMD_ambient).off
      ∧ (w7.g.urg.getSensor CMD_ambient).off ≤ _temperature_celsius.min
          + 2 * Int.tdiv (_temperature_celsius.max - _temperature_celsius.min) 0x3FF
      ∧ w7.env = []
      ∧ w7.sent = [] ++ measureReqs 1 CMD_ambient 0 ++ measureReqs 1 CMD_ambient 0x3FF
          ++ measureReqs 1 CMD_ambient
            (setpoint _temperature_celsius (w7.g.urg.getSensor CMD_ambient).gain) :=
  calibration_under_jitter 1 (controller (simRun1.1 ++ (simRun2.1 ++ (simRun3.1 ++ []))))
    (responder []).io simRun1.2.1 simRun2.2.1 simRun3.2.1 initGlobals simRun1.2.2 simRun2.2.2
    simRun3.2.2 CMD_ambient _temperature_celsius (List.replicate 6 2) (List.replicate 6 2)
    (List.replicate 6 2) simRun1.1 simRun2.1 simRun3.1 [] 780 (Or.inl rfl) rfl rfl rfl rfl
    (by decide) rfl (Or.inl rfl) (by decide) rfl
    simRun1_answers simRun2_answers simRun3_answers

/-- Claim C40. Digital-IO indices 13..31 do not touch the flags. For every index `i` with
`13 ≤ i < 32` and every word `w`, processing a digital-IO write of `w` at index `i` returns
0, stores `w` in entry `i` of the digital-IO array (the other entries are as before),
returns `w` as the response value, and leaves all 13 named flags, like every other
file-scope variable, unchanged. -/
theorem digital_high_index_keeps_flags (io : IO_s) (g : Globals) (rnd i w : Nat)
    (ht : io.tid = TID_DIO) (hc : io.cmd = i) (h13 : 13 ≤ i) (h32 : i < 32)
    (hv : io.valid = true) (hw : io.val = w) :
    ∃ io1 g1, _Process io g rnd = some ((0 : Int), io1, g1)
      ∧ io1.Fvals i = w ∧ (∀ j, j ≠ i → io1.Fvals j = io.Fvals j)
      ∧ io1.retvalid = true ∧ io1.retval = w
      ∧ (∀ k, k < 13 → g1.urg.flags.get k = g.urg.flags.get k)
      ∧ g1 = g := by
  have hp := _Process_digital io g rnd ht (by omega)
  rw [if_pos hv, if_neg (by rw [hc]; unfold _NFLAGS; omega)] at hp
  refine ⟨_, g, hp, ?_, ?_, rfl, hw, fun _ _ => rfl, rfl⟩
  · dsimp only
    rw [hc, hw, Function.update_same]
  · intro j hj
    dsimp only
    rw [hc, Function.update_noteq hj]

theorem digital_high_index_keeps_flags_witness :
    ∃ io1 g1, _Process { newIO with role := "avr", tid := TID_DIO, cmd := 13, valid := true,
                                    val := 0x1FFF } initGlobals 0 = some ((0 : Int), io1, g1)
      ∧ io1.Fvals 13 = 0x1FFF ∧ (∀ j, j ≠ 13 → io1.Fvals j = newIO.Fvals j)
      ∧ io1.retvalid = true ∧ io1.retval = 0x1FFF
      ∧ (∀ k, k < 13 → g1.urg.flags.get k = initGlobals.urg.flags.get k)
      ∧ g1 = initGlobals :=
  digital_high_index_keeps_flags
    { newIO with role := "avr", tid := TID_DIO, cmd := 13, valid := true, val := 0x1FFF }
    initGlobals 0 13 0x1FFF rfl rfl (by decide) (by decide) rfl rfl

end Turg
